import Mathlib

/-!
# go-restful-api: a shallow embedding of the error chain, the HTTP adapter,
# the persistence cursor and the songs / artists services

The development follows the layout of the repository.

* `errors`  : `pkg/errors/errors.go`  (Package / Struct / Function / Chain)
* `persist` : `pkg/persist/mysql.go`  (Querier, Rows cursor)
* `api`     : `api/songs.go`, `api/artists.go`
* `gin`     : `pkg/gin/gin.go`        (Context, adapt)
* `songs`   : `internal/songs/songs.go`
* `artists` : `internal/artists/artists.go`

Conventions of the embedding.

* A Go `error` is a value of `GoError`: the nil interface, an error that is not
  a `*Chain` (known by its `Error()` text), or a pointer to a `Chain`.
* A Go `map[string]interface{}` of tags is a reference into a heap of tag
  maps: `Function` values are copied freely in the source, but every copy
  shares the one map made by `Struct.Fn`.  Tag values are kept as the text
  that `%v` prints for them.
* Go leaves the iteration order of a map unspecified.  Every `range` over a
  tag map goes through an order `ord`, an arbitrary rearrangement of the
  entries; the theorems hold for every such order.
* Stateful code is written in state passing style.
-/

namespace errors

/-! ### Tag maps and the heap they live in -/

/-- A Go `map[string]interface{}`: its entries, one per key. -/
abbrev TagMap := List (String × String)

/-- The Go assignment `m[t] = v`: overwrite the entry of `t`, or add one. -/
def TagMap.set : TagMap → String → String → TagMap
  | [], t, v => [(t, v)]
  | (t', v') :: m, t, v => if t' = t then (t, v) :: m else (t', v') :: TagMap.set m t v

/-- The Go read `m[t]`. -/
def TagMap.get : TagMap → String → Option String
  | [], _ => none
  | (t', v') :: m, t => if t' = t then some v' else TagMap.get m t

/-- The keys of a tag map, in representation order. -/
def TagMap.keys (m : TagMap) : List String := m.map Prod.fst

/-- An iteration order for `range` over a map. -/
abbrev Order := TagMap → TagMap

/-- The tag maps allocated so far, by reference, and the next free reference. -/
structure Heap where
  maps : Nat → TagMap
  next : Nat

/-- The assignment `m[t] = v` on the map stored at reference `r`. -/
def Heap.set (h : Heap) (r : Nat) (t v : String) : Heap :=
  { h with maps := Function.update h.maps r ((h.maps r).set t v) }

/-- The heap in which no map has been made yet. -/
def Heap.empty : Heap := { maps := fun _ => [], next := 0 }

/-! ### Package, Struct, Function -/

/-- The type `Package`; its `Log` printer is only used by `gin.adapt`, where the
log record is returned explicitly. -/
structure Package where
  name : String
deriving DecidableEq, Repr

/-- The type `Struct`. -/
structure Struct where
  pkg : Package
  name : String
deriving DecidableEq, Repr

/-- The type `Function`; `tags` is the reference of its tag map. -/
structure Function where
  strct : Struct
  tags : Nat
  name : String
deriving DecidableEq, Repr

mutual
/-- A Go value of interface type `error`. -/
inductive GoError where
  | nil : GoError
  | other (msg : String) : GoError
  | ptr (c : Chain) : GoError
/-- The type `Chain`. -/
inductive Chain where
  | mk (previous : GoError) (External : String) (ctx : String) (fn : Function)
      (strct : Struct) (Pkg : Package) : Chain
end

/-- Field `previous`. -/
def Chain.previous : Chain → GoError
  | .mk p _ _ _ _ _ => p

/-- Field `External`. -/
def Chain.External : Chain → String
  | .mk _ x _ _ _ _ => x

/-- Field `ctx`. -/
def Chain.ctx : Chain → String
  | .mk _ _ c _ _ _ => c

/-- Field `fn`. -/
def Chain.fn : Chain → Function
  | .mk _ _ _ f _ _ => f

/-- Field `strct`. -/
def Chain.strct : Chain → Struct
  | .mk _ _ _ _ s _ => s

/-- Field `Pkg`. -/
def Chain.Pkg : Chain → Package
  | .mk _ _ _ _ _ p => p

/-- The test `e == nil`. -/
def GoError.isNil : GoError → Bool
  | .nil => true
  | _ => false

/-- The type assertion `_, ok := e.(*Chain)`. -/
def GoError.isChain : GoError → Bool
  | .ptr _ => true
  | _ => false

/-- The method `Error()` of an error that is not a `*Chain`. -/
def GoError.msg : GoError → String
  | .other m => m
  | _ => ""

/-- The function `Pkg`. -/
def Pkg (pkg : String) : Package := { name := pkg }

/-- The method `Package.Struct`. -/
def Package.Struct (p : Package) (strct : String) : Struct := { pkg := p, name := strct }

/-- The method `Struct.Fn`: `make` allocates a fresh, empty tag map. -/
def Struct.Fn (s : Struct) (fn : String) (h : Heap) : Function × Heap :=
  ({ strct := s, tags := h.next, name := fn },
   { maps := Function.update h.maps h.next [], next := h.next + 1 })

/-- The method `Function.unsafeWrap`. -/
def Function.unsafeWrap (f : Function) (e : GoError) (ctx : String) (external : String) : Chain :=
  .mk e external ctx f f.strct f.strct.pkg

/-- The method `Function.New`; the standard `errors.New(ctx)` is an error whose text is `ctx`. -/
def Function.New (f : Function) (ctx : String) : GoError :=
  .ptr (f.unsafeWrap (.other ctx) ctx "")

/-- The method `Function.Tag`: it writes into the shared map and returns the receiver. -/
def Function.Tag (f : Function) (t v : String) (h : Heap) : Function × Heap :=
  (f, h.set f.tags t v)

/-- The method `Function.Wrap`.  Every call in the repository passes a constant `ctx`
without formatting verbs and no `args`, so `fmt.Sprintf(ctx)` is `ctx`. -/
def Function.Wrap (f : Function) (e : GoError) (ctx : String) : GoError :=
  match e with
  | .nil => .nil
  | e => .ptr (f.unsafeWrap e ctx "")

/-- The method `Function.JSON`. -/
def Function.JSON (f : Function) (e : GoError) (ctx : String) : GoError :=
  .ptr (f.unsafeWrap e ctx "invalid json")

/-- The method `Function.NotFound`. -/
def Function.NotFound (f : Function) : GoError :=
  .ptr (f.unsafeWrap (f.New "not found") "" "resource not found")

/-- The method `Function.UK`. -/
def Function.UK (f : Function) (e : GoError) : GoError :=
  let e := match e with
    | .nil => f.New "unkown error"
    | e => e
  .ptr (f.unsafeWrap e "" "unknown error")

/-- The method `Function.DB`. -/
def Function.DB (f : Function) (e : GoError) : GoError :=
  .ptr (f.unsafeWrap e "" "problem in database")

/-- The method `Function.Invalid`. -/
def Function.Invalid (f : Function) (ctx : String) : GoError :=
  .ptr (f.unsafeWrap (.other ctx) ctx "invalid data sent")

/-! ### Rendering -/

/-- One entry of the TAGS segment, `fmt.Sprintf("%s->%v", t, v)`. -/
def fmtTag (tv : String × String) : String := tv.1 ++ "->" ++ tv.2

/-- The method `Chain.formatTags`: the parameter is ignored by the source, which
ranges over `w.fn.tags`. -/
def Chain.formatTags (ord : Order) (w : Chain) (h : Heap) (_tags : Nat) : String :=
  (ord (h.maps w.fn.tags)).foldl
    (fun fmtTags tv =>
      if fmtTags = "" then fmtTags ++ fmtTag tv else fmtTags ++ (", " ++ fmtTag tv))
    ""

/-- The inner loop `for t, v := range prev.fn.tags { allTags[t] = v }`. -/
def mergeTags (ord : Order) (allTags : Nat) (from_ : Nat) (h : Heap) : Heap :=
  (ord (h.maps from_)).foldl (fun h tv => h.set allTags tv.1 tv.2) h

/-- The loop `for ok { ... }` of `Chain.Error`, entered with `prev` a chain; it returns
`stack`, `ctx`, `original` and the heap. -/
def Chain.Error.loop (ord : Order) (allTags : Nat) :
    Chain → String → String → Heap → String × String × GoError × Heap
  | .mk previous _ pctx pfn pstrct pPkg, stack, ctx, h =>
    let stack := stack ++ (" <- " ++ pPkg.name ++ "." ++ pstrct.name ++ "." ++ pfn.name)
    let ctx := ctx ++ (" <- " ++ pctx)
    let h := mergeTags ord allTags pfn.tags h
    match previous with
    | .ptr p => Chain.Error.loop ord allTags p stack ctx h
    | original => (stack, ctx, original, h)

/-- The method `Chain.Error`: the rendering and the heap it leaves. -/
def Chain.Error (ord : Order) (w : Chain) (h : Heap) : String × Heap :=
  let allTags := w.fn.tags
  let stack := w.Pkg.name ++ "." ++ w.fn.strct.name ++ "." ++ w.fn.name
  let ctx := w.ctx
  let r : String × String × GoError × Heap :=
    match w.previous with
    | .ptr prev => Chain.Error.loop ord allTags prev stack ctx h
    | original => (stack, ctx, original, h)
  let tags := w.formatTags ord r.2.2.2 allTags
  let origin := match r.2.2.1 with
    | .nil => "nil"
    | original => original.msg
  ("ERROR " ++ origin ++ " | CONTEXT " ++ r.2.1 ++ " | TAGS: " ++ tags ++ " | STACK: " ++ r.1,
   r.2.2.2)

/-! ### Chains as nests of wraps -/

/-- One call of `unsafeWrap`: the wrapping function, the context and the external text. -/
structure Wrap where
  fn : Function
  ctx : String
  external : String

/-- The chain link made by one wrap around `e`. -/
def Wrap.around (w : Wrap) (e : GoError) : Chain := w.fn.unsafeWrap e w.ctx w.external

/-- Nested wraps around a root error, the outermost wrap first. -/
def nest (r : GoError) : List Wrap → GoError
  | [] => r
  | w :: ws => .ptr (w.around (nest r ws))

/-- The stack label `package.struct.function` of a wrap. -/
def Wrap.label (w : Wrap) : String :=
  w.fn.strct.pkg.name ++ "." ++ w.fn.strct.name ++ "." ++ w.fn.name

/-- The text shown for the root error: `r.Error()`, or `nil` for the nil error. -/
def originText : GoError → String
  | .nil => "nil"
  | r => r.msg

end errors

/-- The state a request runs in: the heap of tag maps and the state of the store. -/
structure World (σ : Type) where
  heap : errors.Heap
  store : σ

/-- Run `Struct.Fn` on the heap of a world. -/
def World.Fn {σ : Type} (w : World σ) (s : errors.Struct) (fn : String) :
    errors.Function × World σ :=
  ((s.Fn fn w.heap).1, { w with heap := (s.Fn fn w.heap).2 })

/-- Run `Function.Tag` on the heap of a world. -/
def World.Tag {σ : Type} (w : World σ) (f : errors.Function) (t v : String) :
    errors.Function × World σ :=
  ((f.Tag t v w.heap).1, { w with heap := (f.Tag t v w.heap).2 })

namespace persist

open errors

/-- A value bound to a `?` of a statement, or held by a column of a result row. -/
inductive Value where
  | null : Value
  | int (i : Int) : Value
  | str (s : String) : Value
deriving DecidableEq, Repr

/-- The type `Rows`: the cursor `r` of the standard library, as the row under the
cursor, the rows still to come and the closed flag. -/
structure Rows where
  cur : Option (List Value)
  rest : List (List Value)
  closed : Bool
deriving DecidableEq, Repr

/-- A cursor in front of the first of the given rows. -/
def Rows.over (rows : List (List Value)) : Rows := { cur := none, rest := rows, closed := false }

/-- The standard library call `r.r.Next()`: advance, or report that nothing is left. -/
def Rows.sqlNext (r : Rows) : Bool × Rows :=
  if r.closed then (false, { r with cur := none })
  else match r.rest with
    | [] => (false, { r with cur := none })
    | x :: xs => (true, { r with cur := some x, rest := xs })

/-- The standard library call `r.r.Scan(dest...)`: decode the row under the cursor. -/
def Rows.sqlScan {α : Type} [Inhabited α] (decode : List Value → GoError × α) (r : Rows) :
    GoError × α :=
  if r.closed then (.other "sql: Rows are closed", default)
  else match r.cur with
    | none => (.other "sql: Scan called without calling Next", default)
    | some row => decode row

/-- The method `Rows.Close`; what it logs is not kept. -/
def Rows.Close (r : Rows) : Rows := { r with closed := true }

/-- The method `Rows.Next`. -/
def Rows.Next (r : Rows) : Bool × Rows :=
  let nxt := r.sqlNext
  if !nxt.1 then (nxt.1, nxt.2.Close) else (nxt.1, nxt.2)

/-- The method `Rows.UnsafeScan`. -/
def Rows.UnsafeScan {α : Type} [Inhabited α] (decode : List Value → GoError × α) (r : Rows) :
    (GoError × α) × Rows :=
  (r.sqlScan decode, r)

/-- The method `Rows.Scan`. -/
def Rows.Scan {α : Type} [Inhabited α] (decode : List Value → GoError × α) (r : Rows) :
    (GoError × α) × Rows :=
  let res := r.sqlScan decode
  if !res.1.isNil then (res, r.Close) else (res, r)

/-- The interface `Querier`, restricted to the two methods the services call.  The
`Result` of `Exec` is dropped by every caller and is not kept. -/
structure Querier (σ : Type) where
  Query : String → List Value → σ → (Rows × GoError) × σ
  Exec : String → List Value → σ → GoError × σ

/-- A statement sent to the store, with its bound values. -/
inductive Stmt where
  | query (q : String) (args : List Value) : Stmt
  | exec (q : String) (args : List Value) : Stmt
deriving DecidableEq, Repr

/-- A querier that answers as `q` does and also records every statement it receives,
oldest first. -/
def traced {σ : Type} (q : Querier σ) : Querier (σ × List Stmt) where
  Query := fun s args st =>
    ((q.Query s args st.1).1, ((q.Query s args st.1).2, st.2 ++ [Stmt.query s args]))
  Exec := fun s args st =>
    ((q.Exec s args st.1).1, ((q.Exec s args st.1).2, st.2 ++ [Stmt.exec s args]))

end persist

/-! ## What `database/sql` does with a column value

`Rows.Scan` of the standard library hands each column value to `convertAssign`, which converts
between integers and text through `strconv`.  The standard library is not part of the
repository; the functions below follow it for the value kinds of `Value` and the destination
types `*int` and `*string` that the repository scans into. -/

namespace strconv

/-- The digits of `ParseUint(s, 10, 64)`, read from the left with `n` the value so far;
`none` is the syntax error for a byte that is not a decimal digit. -/
def parseDigits (n : Nat) : List Char → Option Nat
  | [] => some n
  | c :: cs =>
    if 48 ≤ c.toNat ∧ c.toNat ≤ 57 then parseDigits (n * 10 + (c.toNat - 48)) cs else none

/-- The function `strconv.ParseInt(s, 10, 64)`: an optional sign, then decimal digits, at
least one, of a value from `-2^63` to `2^63 - 1`; `none` is a syntax or range error. -/
def ParseInt (s : String) : Option Int :=
  match s.data with
  | [] => none
  | c :: cs =>
    let neg : Bool := c = '-'
    let ds := if c = '+' ∨ c = '-' then cs else c :: cs
    match ds with
    | [] => none
    | d :: ds =>
      match parseDigits 0 (d :: ds) with
      | none => none
      | some un =>
        if neg = false ∧ un ≥ 2 ^ 63 then none
        else if neg = true ∧ un > 2 ^ 63 then none
        else some (if neg then -(un : Int) else (un : Int))

/-- The decimal digits of `n`, put in front of `acc`; `fuel` bounds their number. -/
def formatBits : Nat → Nat → List Char → List Char
  | 0, _, acc => acc
  | fuel + 1, n, acc =>
    if n / 10 = 0 then Char.ofNat (48 + n % 10) :: acc
    else formatBits fuel (n / 10) (Char.ofNat (48 + n % 10) :: acc)

/-- The function `strconv.FormatInt(i, 10)`. -/
def FormatInt (i : Int) : String :=
  match i with
  | .ofNat n => String.mk (formatBits (n + 1) n [])
  | .negSucc n => String.mk ('-' :: formatBits (n + 2) (n + 1) [])

end strconv

namespace persist

open errors

/-- The function `convertAssign` for a destination of type `*int`, an `int` of 64 bits: an
integer is stored (through `FormatInt` and `ParseInt`, which give it back), text is parsed with
`ParseInt(s, 10, 64)`, NULL is an error. -/
def convertInt : Value → GoError × Int
  | .null => (.other "converting NULL to int is unsupported", 0)
  | .int i => (.nil, i)
  | .str s =>
    match strconv.ParseInt s with
    | some i => (.nil, i)
    | none => (.other ("converting driver.Value type string (" ++ s ++ ") to a int"), 0)

/-- The function `convertAssign` for a destination of type `*string`: text is stored, an integer
is written with `FormatInt`, NULL is an error. -/
def convertString : Value → GoError × String
  | .null => (.other "unsupported Scan, storing driver.Value type <nil> into type *string", "")
  | .int i => (.nil, strconv.FormatInt i)
  | .str s => (.nil, s)

/-- The error `Rows.Scan` returns when the conversion of the column `index` fails. -/
def scanError (index : Nat) (name : String) (err : GoError) : GoError :=
  .other ("sql: Scan error on column index " ++ toString index ++ ", name " ++ name ++ ": "
    ++ err.msg)

/-- The error `Rows.Scan` returns for a row of `n` columns and `m` destinations, `n ≠ m`. -/
def scanCount (n m : Nat) : GoError :=
  .other ("sql: expected " ++ toString n ++ " destination arguments in Scan, not " ++ toString m)

end persist

namespace api

/-- The type `Song`. -/
structure Song where
  Id : Int
  Name : String
  Duration : String
  ArtistId : Int
deriving DecidableEq, Repr, Inhabited

/-- The type `Songs`. -/
abbrev Songs := List Song

/-- The type `Artist`. -/
structure Artist where
  Id : Int
  Name : String
deriving DecidableEq, Repr, Inhabited

/-- The type `Artists`. -/
abbrev Artists := List Artist

end api

namespace gin

open errors

/-- The type `statusAttrs`. -/
structure statusAttrs where
  Status : String
deriving DecidableEq, Repr

/-- The type `statusData`. -/
structure statusData where
  ID : String
  Type_ : String
  Attrs : statusAttrs
deriving DecidableEq, Repr

/-- The type `StatusJSON`. -/
structure StatusJSON where
  Data : statusData
deriving DecidableEq, Repr

/-- The function `MakeStatus`. -/
def MakeStatus (id status : String) : StatusJSON := ⟨⟨id, "status", ⟨status⟩⟩⟩

/-- The `interface{}` a controller returns as its payload. -/
inductive Payload where
  | nil : Payload
  | str (s : String) : Payload
  | song (s : api.Song) : Payload
  | songs (l : api.Songs) : Payload
  | artist (a : api.Artist) : Payload
  | artists (l : api.Artists) : Payload
  | status (s : StatusJSON) : Payload
deriving DecidableEq, Repr

/-- The request seen through `*gin.Context`: the path parameters and what `BindJSON`
returns for a destination of each entity type. -/
structure Request where
  Param : String → String
  BindJSONSong : GoError × api.Song
  BindJSONArtist : GoError × api.Artist

/-- The type `Context`. -/
structure Context where
  req : Request
  ID : String

/-- The promoted method `Param`. -/
def Context.Param (c : Context) (key : String) : String := c.req.Param key

/-- The type `Controller`. -/
abbrev Controller (σ : Type) := Context → World σ → (Int × Payload × GoError) × World σ

/-- The value handed to `c.JSON`: the local `error` struct of `adapt`, or a payload. -/
inductive Body where
  | error (Error : String) : Body
  | value (p : Payload) : Body
deriving DecidableEq, Repr

/-- What the handler made by `adapt` does with the response writer. -/
inductive Response where
  | json (code : Int) (body : Body) : Response
  | redirect (code : Int) (url : String) : Response
  | panic : Response
deriving DecidableEq, Repr

/-- The fields given to `e.Pkg.Log.Info`. -/
structure LogRecord where
  title : String
  error : String
  external : String
  code : Int
deriving DecidableEq, Repr

/-- The outcome of one request: the response, the log lines and the world left. -/
structure Handled (σ : Type) where
  response : Response
  log : List LogRecord
  world : World σ

/-- The function `adapt`, applied to a request. -/
def adapt {σ : Type} (ord : Order) (cr : Controller σ) (c : Request) (w : World σ) : Handled σ :=
  let cc : Context := { req := c, ID := "someID" }
  let r := cr cc w
  let code := r.1.1
  let ctx := r.1.2.1
  let err := r.1.2.2
  let w := r.2
  match err with
  | .ptr e =>
    let text := e.Error ord w.heap
    { response := .json code (.error e.External),
      log := [{ title := "Error in API", error := text.1, external := e.External, code := code }],
      world := { w with heap := text.2 } }
  | .other _ => { response := .json code (.error "unkonwn error :("), log := [], world := w }
  | .nil =>
    if code = 302 then
      match ctx with
      | .str url => { response := .redirect 302 url, log := [], world := w }
      | _ => { response := .panic, log := [], world := w }
    else
      match ctx with
      | .str str => { response := .json code (.value (.status (MakeStatus str "ok"))),
                      log := [], world := w }
      | ctx => { response := .json code (.value ctx), log := [], world := w }

end gin

namespace songs

open errors persist gin

/-- The interface `persistor`. -/
structure persistor (σ : Type) where
  get : String → World σ → (api.Songs × GoError) × World σ
  create : api.Song → World σ → (Bool × GoError) × World σ
  update : api.Song → World σ → (Bool × GoError) × World σ
  delete : String → World σ → (Bool × GoError) × World σ

/-- The type `db`; its printer is never used. -/
structure db (σ : Type) where
  Querier : persist.Querier σ
  err : errors.Struct

/-- The type `Service`; its printer is never used. -/
structure Service (σ : Type) where
  db : persistor σ
  err : errors.Struct

/-- The type `API`. -/
structure API (σ : Type) where
  s : Service σ
  err : errors.Struct

/-- The standard library call `r.r.Scan(&i.Id, &i.Name, &i.Duration, &i.ArtistId)` on a row:
the number of columns has to be four, then each column is converted in turn into its
destination, and the first conversion that fails ends the scan with what was stored so far. -/
def scanSong : List Value → GoError × api.Song
  | [id, name, duration, artistId] =>
    let i : api.Song := { Id := 0, Name := "", Duration := "", ArtistId := 0 }
    let c0 := convertInt id
    if !c0.1.isNil then (scanError 0 "id" c0.1, i)
    else
      let i := { i with Id := c0.2 }
      let c1 := convertString name
      if !c1.1.isNil then (scanError 1 "name" c1.1, i)
      else
        let i := { i with Name := c1.2 }
        let c2 := convertString duration
        if !c2.1.isNil then (scanError 2 "duration" c2.1, i)
        else
          let i := { i with Duration := c2.2 }
          let c3 := convertInt artistId
          if !c3.1.isNil then (scanError 3 "artist_id" c3.1, i)
          else (.nil, { i with ArtistId := c3.2 })
  | row => (scanCount row.length 4, { Id := 0, Name := "", Duration := "", ArtistId := 0 })

/-- The loop `for rows.Next() { ... }` of `db.get`; `fuel` bounds the number of calls of
`Next`.  It returns the result of `get` and the cursor it leaves. -/
def db.scanRows (e : Function) : Nat → Rows → api.Songs → (api.Songs × GoError) × Rows
  | 0, rows, songs => ((songs, .nil), rows)
  | fuel + 1, rows, songs =>
    let nxt := rows.Next
    if nxt.1 then
      let sc := nxt.2.Scan scanSong
      if !sc.1.1.isNil then (([], e.Wrap sc.1.1 "scanning rows"), sc.2)
      else db.scanRows e fuel sc.2 (songs ++ [sc.1.2])
    else ((songs, .nil), nxt.2)

/-- The method `db.get`.  A cursor over `n` rows answers `Next` at most `n + 1` times. -/
def db.get {σ : Type} (d : db σ) (name : String) (w : World σ) :
    (api.Songs × GoError) × World σ :=
  let e := w.Fn d.err "get"
  let e := e.2.Tag e.1 "name" name
  let query := "SELECT id, name, duration, artist_id FROM Songs "
  let q :=
    if name ≠ "" then d.Querier.Query (query ++ "WHERE name = ? LIMIT 1") [.str name] e.2.store
    else d.Querier.Query query [] e.2.store
  let w : World σ := { e.2 with store := q.2 }
  if !q.1.2.isNil then (([], e.1.Wrap q.1.2 "quering songs from table"), w)
  else ((db.scanRows e.1 (q.1.1.rest.length + 1) q.1.1 []).1, w)

/-- The method `db.create`. -/
def db.create {σ : Type} (d : db σ) (i : api.Song) (w : World σ) :
    (Bool × GoError) × World σ :=
  let e := w.Fn d.err "create"
  let query := "INSERT INTO Songs (name, duration, artist_id) VALUES (?, ?, ?)"
  let r := d.Querier.Exec query [.str i.Name, .str i.Duration, .int i.ArtistId] e.2.store
  let w : World σ := { e.2 with store := r.2 }
  if !r.1.isNil then ((false, e.1.Wrap r.1 "inserting"), w)
  else ((true, .nil), w)

/-- The method `db.update`. -/
def db.update {σ : Type} (d : db σ) (i : api.Song) (w : World σ) :
    (Bool × GoError) × World σ :=
  let e := w.Fn d.err "update"
  let query := "UPDATE Songs SET duration = ?, artist_id = ? WHERE name = ?"
  let r := d.Querier.Exec query [.str i.Duration, .int i.ArtistId, .str i.Name] e.2.store
  let w : World σ := { e.2 with store := r.2 }
  if !r.1.isNil then ((false, e.1.Wrap r.1 "updating"), w)
  else ((true, .nil), w)

/-- The method `db.delete`. -/
def db.delete {σ : Type} (d : db σ) (name : String) (w : World σ) :
    (Bool × GoError) × World σ :=
  let e := w.Fn d.err "delete"
  let query := "DELETE FROM Songs WHERE name = ?"
  let r := d.Querier.Exec query [.str name] e.2.store
  let w : World σ := { e.2 with store := r.2 }
  if !r.1.isNil then ((false, e.1.Wrap r.1 "deleting"), w)
  else ((true, .nil), w)

/-- The type `db` satisfies the interface `persistor`. -/
def db.persistor {σ : Type} (d : db σ) : persistor σ :=
  { get := d.get, create := d.create, update := d.update, delete := d.delete }

/-- The function `New`. -/
def New {σ : Type} (sql : persist.Querier σ) : Service σ × API σ :=
  let e := errors.Pkg "songs"
  let s : Service σ :=
    { db := (db.mk sql (e.Struct "db")).persistor, err := e.Struct "service" }
  (s, { s := s, err := e.Struct "api" })

/-- The method `Service.getSongs`. -/
def Service.getSongs {σ : Type} (s : Service σ) (w : World σ) :
    (api.Songs × GoError) × World σ :=
  let e := w.Fn s.err "getSongs"
  let r := s.db.get "" e.2
  if !r.1.2.isNil then (([], e.1.Wrap r.1.2 "getting songs from db"), r.2)
  else ((r.1.1, .nil), r.2)

/-- The method `Service.getSongByName`. -/
def Service.getSongByName {σ : Type} (s : Service σ) (name : String) (w : World σ) :
    (api.Song × Bool × GoError) × World σ :=
  let e := w.Fn s.err "getSongByName"
  let e := e.2.Tag e.1 "name" name
  let r := s.db.get name e.2
  if !r.1.2.isNil then
    (({ Id := 0, Name := "", Duration := "", ArtistId := 0 }, false,
      e.1.Wrap r.1.2 "getting contract from db"), r.2)
  else if r.1.1.length ≠ 1 then
    (({ Id := 0, Name := "", Duration := "", ArtistId := 0 }, false, .nil), r.2)
  else
    ((r.1.1.getD 0 { Id := 0, Name := "", Duration := "", ArtistId := 0 }, true, .nil), r.2)

/-- The method `Service.saveSong`. -/
def Service.saveSong {σ : Type} (s : Service σ) (i : api.Song) (w : World σ) :
    (Bool × GoError) × World σ :=
  let e := w.Fn s.err "saveSong"
  let g := s.getSongByName i.Name e.2
  if !g.1.2.2.isNil then ((true, e.1.Wrap g.1.2.2 "getting song"), g.2)
  else
    let r := if g.1.2.1 then s.db.update i g.2 else s.db.create i g.2
    if !r.1.2.isNil then ((true, e.1.Wrap r.1.2 "saving song"), r.2)
    else if !r.1.1 then ((true, .nil), r.2)
    else ((false, .nil), r.2)

/-- The method `Service.deleteSong`. -/
def Service.deleteSong {σ : Type} (s : Service σ) (name : String) (w : World σ) :
    (Bool × GoError) × World σ :=
  let e := w.Fn s.err "deleteSong"
  let r := s.db.delete name e.2
  if !r.1.2.isNil then ((true, e.1.Wrap r.1.2 "deleting song"), r.2)
  else if !r.1.1 then ((true, .nil), r.2)
  else ((false, .nil), r.2)

/-- The method `API.GetSongs`. -/
def API.GetSongs {σ : Type} (a : API σ) : Controller σ := fun _c w =>
  let e := w.Fn a.err "GetSongs"
  let r := a.s.getSongs e.2
  if !r.1.2.isNil then ((500, .songs r.1.1, e.1.UK r.1.2), r.2)
  else ((200, .songs r.1.1, .nil), r.2)

/-- The method `API.GetSongByName`. -/
def API.GetSongByName {σ : Type} (a : API σ) : Controller σ := fun c w =>
  let name := c.Param "name"
  let e := w.Fn a.err "GetSongByName"
  let e := e.2.Tag e.1 "name" name
  let r := a.s.getSongByName name e.2
  if !r.1.2.2.isNil then ((500, .nil, e.1.UK r.1.2.2), r.2)
  else if !r.1.2.1 then ((404, .nil, e.1.NotFound), r.2)
  else ((200, .song r.1.1, .nil), r.2)

/-- The method `API.CreateSong`. -/
def API.CreateSong {σ : Type} (a : API σ) : Controller σ := fun c w =>
  let e := w.Fn a.err "CreateSong"
  let b := c.req.BindJSONSong
  if !b.1.isNil then ((400, .nil, e.1.JSON b.1 "binding"), e.2)
  else
    let r := a.s.saveSong b.2 e.2
    if !r.1.2.isNil then ((500, .nil, e.1.UK r.1.2), r.2)
    else if r.1.1 then ((400, .nil, e.1.DB r.1.2), r.2)
    else ((201, .nil, .nil), r.2)

/-- The method `API.UpdateSong`. -/
def API.UpdateSong {σ : Type} (a : API σ) : Controller σ := fun c w =>
  let e := w.Fn a.err "UpdateSong"
  let b := c.req.BindJSONSong
  if !b.1.isNil then ((400, .nil, e.1.JSON b.1 "binding"), e.2)
  else
    let r := a.s.saveSong b.2 e.2
    if !r.1.2.isNil then ((500, .nil, e.1.UK r.1.2), r.2)
    else if r.1.1 then ((400, .nil, e.1.DB r.1.2), r.2)
    else ((201, .nil, .nil), r.2)

/-- The method `API.DeleteSong`. -/
def API.DeleteSong {σ : Type} (a : API σ) : Controller σ := fun c w =>
  let name := c.Param "name"
  let e := w.Fn a.err "DeleteSong"
  let e := e.2.Tag e.1 "name" name
  let r := a.s.deleteSong name e.2
  if !r.1.2.isNil then ((500, .nil, e.1.UK r.1.2), r.2)
  else if r.1.1 then ((400, .nil, e.1.DB r.1.2), r.2)
  else ((201, .nil, .nil), r.2)

end songs

namespace artists

open errors persist gin

/-- The interface `persistor`. -/
structure persistor (σ : Type) where
  get : String → World σ → (api.Artists × GoError) × World σ
  create : api.Artist → World σ → (Bool × GoError) × World σ
  delete : String → World σ → (Bool × GoError) × World σ

/-- The type `db`; its printer is never used. -/
structure db (σ : Type) where
  Querier : persist.Querier σ
  err : errors.Struct

/-- The type `Service`; its printer is never used. -/
structure Service (σ : Type) where
  db : persistor σ
  err : errors.Struct

/-- The type `API`. -/
structure API (σ : Type) where
  s : Service σ
  err : errors.Struct

/-- The standard library call `r.r.Scan(&s.Id, &s.Name)` on a row: the number of columns has
to be two, then each column is converted in turn into its destination, and the first
conversion that fails ends the scan with what was stored so far. -/
def scanArtist : List Value → GoError × api.Artist
  | [id, name] =>
    let s : api.Artist := { Id := 0, Name := "" }
    let c0 := convertInt id
    if !c0.1.isNil then (scanError 0 "id" c0.1, s)
    else
      let s := { s with Id := c0.2 }
      let c1 := convertString name
      if !c1.1.isNil then (scanError 1 "name" c1.1, s)
      else (.nil, { s with Name := c1.2 })
  | row => (scanCount row.length 2, { Id := 0, Name := "" })

/-- The loop `for rows.Next() { ... }` of `db.get`; `fuel` bounds the number of calls of
`Next`.  It returns the result of `get` and the cursor it leaves. -/
def db.scanRows (e : Function) : Nat → Rows → api.Artists → (api.Artists × GoError) × Rows
  | 0, rows, artists => ((artists, .nil), rows)
  | fuel + 1, rows, artists =>
    let nxt := rows.Next
    if nxt.1 then
      let sc := nxt.2.Scan scanArtist
      if !sc.1.1.isNil then (([], e.Wrap sc.1.1 "scanning rows"), sc.2)
      else db.scanRows e fuel sc.2 (artists ++ [sc.1.2])
    else ((artists, .nil), nxt.2)

/-- The method `db.get`.  A cursor over `n` rows answers `Next` at most `n + 1` times. -/
def db.get {σ : Type} (d : db σ) (name : String) (w : World σ) :
    (api.Artists × GoError) × World σ :=
  let e := w.Fn d.err "get"
  let e := e.2.Tag e.1 "name" name
  let query := "SELECT id, name FROM Artists "
  let q :=
    if name ≠ "" then d.Querier.Query (query ++ "WHERE name = ? LIMIT 1") [.str name] e.2.store
    else d.Querier.Query query [] e.2.store
  let w : World σ := { e.2 with store := q.2 }
  if !q.1.2.isNil then (([], e.1.Wrap q.1.2 "quering artists from table"), w)
  else ((db.scanRows e.1 (q.1.1.rest.length + 1) q.1.1 []).1, w)

/-- The method `db.create`. -/
def db.create {σ : Type} (d : db σ) (s : api.Artist) (w : World σ) :
    (Bool × GoError) × World σ :=
  let e := w.Fn d.err "create"
  let query := "INSERT INTO Artists (name) VALUES (?)"
  let r := d.Querier.Exec query [.str s.Name] e.2.store
  let w : World σ := { e.2 with store := r.2 }
  if !r.1.isNil then ((false, e.1.Wrap r.1 "inserting"), w)
  else ((true, .nil), w)

/-- The method `db.delete`. -/
def db.delete {σ : Type} (d : db σ) (name : String) (w : World σ) :
    (Bool × GoError) × World σ :=
  let e := w.Fn d.err "delete"
  let query := "DELETE FROM Artists WHERE name = ?"
  let r := d.Querier.Exec query [.str name] e.2.store
  let w : World σ := { e.2 with store := r.2 }
  if !r.1.isNil then ((false, e.1.Wrap r.1 "deleting"), w)
  else ((true, .nil), w)

/-- The type `db` satisfies the interface `persistor`. -/
def db.persistor {σ : Type} (d : db σ) : persistor σ :=
  { get := d.get, create := d.create, delete := d.delete }

/-- The function `New`. -/
def New {σ : Type} (sql : persist.Querier σ) : Service σ × API σ :=
  let e := errors.Pkg "artists"
  let s : Service σ :=
    { db := (db.mk sql (e.Struct "db")).persistor, err := e.Struct "service" }
  (s, { s := s, err := e.Struct "api" })

/-- The method `Service.getArtists`. -/
def Service.getArtists {σ : Type} (s : Service σ) (w : World σ) :
    (api.Artists × GoError) × World σ :=
  let e := w.Fn s.err "getArtists"
  let r := s.db.get "" e.2
  if !r.1.2.isNil then (([], e.1.Wrap r.1.2 "getting artists from db"), r.2)
  else ((r.1.1, .nil), r.2)

/-- The method `Service.getArtistByName`. -/
def Service.getArtistByName {σ : Type} (s : Service σ) (name : String) (w : World σ) :
    (api.Artist × Bool × GoError) × World σ :=
  let e := w.Fn s.err "getArtistByName"
  let e := e.2.Tag e.1 "name" name
  let r := s.db.get name e.2
  if !r.1.2.isNil then
    (({ Id := 0, Name := "" }, false, e.1.Wrap r.1.2 "getting contract from db"), r.2)
  else if r.1.1.length ≠ 1 then (({ Id := 0, Name := "" }, false, .nil), r.2)
  else ((r.1.1.getD 0 { Id := 0, Name := "" }, true, .nil), r.2)

/-- The method `Service.saveArtist`. -/
def Service.saveArtist {σ : Type} (s : Service σ) (i : api.Artist) (w : World σ) :
    (Bool × GoError) × World σ :=
  let e := w.Fn s.err "saveArtist"
  let r := s.db.create i e.2
  if !r.1.2.isNil then ((true, e.1.Wrap r.1.2 "saving artist"), r.2)
  else if !r.1.1 then ((true, .nil), r.2)
  else ((false, .nil), r.2)

/-- The method `Service.deleteArtist`. -/
def Service.deleteArtist {σ : Type} (s : Service σ) (name : String) (w : World σ) :
    (Bool × GoError) × World σ :=
  let e := w.Fn s.err "deleteArtist"
  let r := s.db.delete name e.2
  if !r.1.2.isNil then ((true, e.1.Wrap r.1.2 "deleting artist"), r.2)
  else if !r.1.1 then ((true, .nil), r.2)
  else ((false, .nil), r.2)

/-- The method `API.GetArtists`. -/
def API.GetArtists {σ : Type} (a : API σ) : Controller σ := fun _c w =>
  let e := w.Fn a.err "GetArtists"
  let r := a.s.getArtists e.2
  if !r.1.2.isNil then ((500, .artists r.1.1, e.1.UK r.1.2), r.2)
  else ((200, .artists r.1.1, .nil), r.2)

/-- The method `API.GetArtistByName`. -/
def API.GetArtistByName {σ : Type} (a : API σ) : Controller σ := fun c w =>
  let name := c.Param "name"
  let e := w.Fn a.err "GetArtistByName"
  let e := e.2.Tag e.1 "name" name
  let r := a.s.getArtistByName name e.2
  if !r.1.2.2.isNil then ((500, .nil, e.1.UK r.1.2.2), r.2)
  else if !r.1.2.1 then ((404, .nil, e.1.NotFound), r.2)
  else ((200, .artist r.1.1, .nil), r.2)

/-- The method `API.CreateArtist`. -/
def API.CreateArtist {σ : Type} (a : API σ) : Controller σ := fun c w =>
  let e := w.Fn a.err "CreateArtist"
  let b := c.req.BindJSONArtist
  if !b.1.isNil then ((400, .nil, e.1.JSON b.1 "binding"), e.2)
  else
    let r := a.s.saveArtist b.2 e.2
    if !r.1.2.isNil then ((500, .nil, e.1.UK r.1.2), r.2)
    else if r.1.1 then ((400, .nil, e.1.DB r.1.2), r.2)
    else ((201, .nil, .nil), r.2)

/-- The method `API.DeleteArtist`. -/
def API.DeleteArtist {σ : Type} (a : API σ) : Controller σ := fun c w =>
  let name := c.Param "name"
  let e := w.Fn a.err "DeleteArtist"
  let e := e.2.Tag e.1 "name" name
  let r := a.s.deleteArtist name e.2
  if !r.1.2.isNil then ((500, .nil, e.1.UK r.1.2), r.2)
  else if r.1.1 then ((400, .nil, e.1.DB r.1.2), r.2)
  else ((201, .nil, .nil), r.2)

end artists

/-! ### The relational store

The store is MySQL, outside the repository.  `store.tables` is the table model the
properties about stored rows are stated over: two tables of rows, and the standard
meaning of the eight statements the two `db` adapters issue.  Names are compared
exactly, ids are assigned by a counter, `LIMIT 1` keeps the first matching row. -/

namespace store

open errors persist

/-- The tables `Songs` and `Artists` and the counters of their `id` columns. -/
structure Tables where
  Songs : List api.Song
  Artists : List api.Artist
  nextSongId : Int
  nextArtistId : Int
deriving DecidableEq, Repr

/-- A row of `Songs` in column order `id, name, duration, artist_id`. -/
def songRow (s : api.Song) : List Value := [.int s.Id, .str s.Name, .str s.Duration, .int s.ArtistId]

/-- A row of `Artists` in column order `id, name`. -/
def artistRow (a : api.Artist) : List Value := [.int a.Id, .str a.Name]

/-- The error of a statement the model has no meaning for. -/
def unsupported : GoError := .other "unsupported statement"

/-- The answer of the table model to `Query`. -/
def Query (q : String) (args : List Value) (t : Tables) : (Rows × GoError) × Tables :=
  if q = "SELECT id, name, duration, artist_id FROM Songs " then
    match args with
    | [] => ((Rows.over (t.Songs.map songRow), .nil), t)
    | _ => ((Rows.over [], unsupported), t)
  else if q = "SELECT id, name, duration, artist_id FROM Songs WHERE name = ? LIMIT 1" then
    match args with
    | [.str n] => ((Rows.over (((t.Songs.filter (fun s => s.Name = n)).take 1).map songRow), .nil), t)
    | _ => ((Rows.over [], unsupported), t)
  else if q = "SELECT id, name FROM Artists " then
    match args with
    | [] => ((Rows.over (t.Artists.map artistRow), .nil), t)
    | _ => ((Rows.over [], unsupported), t)
  else if q = "SELECT id, name FROM Artists WHERE name = ? LIMIT 1" then
    match args with
    | [.str n] =>
      ((Rows.over (((t.Artists.filter (fun a => a.Name = n)).take 1).map artistRow), .nil), t)
    | _ => ((Rows.over [], unsupported), t)
  else ((Rows.over [], unsupported), t)

/-- The answer of the table model to `Exec`. -/
def Exec (q : String) (args : List Value) (t : Tables) : GoError × Tables :=
  if q = "INSERT INTO Songs (name, duration, artist_id) VALUES (?, ?, ?)" then
    match args with
    | [.str n, .str d, .int a] =>
      (.nil, { t with
        Songs := t.Songs ++ [{ Id := t.nextSongId, Name := n, Duration := d, ArtistId := a }],
        nextSongId := t.nextSongId + 1 })
    | _ => (unsupported, t)
  else if q = "UPDATE Songs SET duration = ?, artist_id = ? WHERE name = ?" then
    match args with
    | [.str d, .int a, .str n] =>
      (.nil, { t with
        Songs := t.Songs.map (fun s => if s.Name = n then { s with Duration := d, ArtistId := a } else s) })
    | _ => (unsupported, t)
  else if q = "DELETE FROM Songs WHERE name = ?" then
    match args with
    | [.str n] => (.nil, { t with Songs := t.Songs.filter (fun s => s.Name ≠ n) })
    | _ => (unsupported, t)
  else if q = "INSERT INTO Artists (name) VALUES (?)" then
    match args with
    | [.str n] =>
      (.nil, { t with
        Artists := t.Artists ++ [{ Id := t.nextArtistId, Name := n }],
        nextArtistId := t.nextArtistId + 1 })
    | _ => (unsupported, t)
  else if q = "DELETE FROM Artists WHERE name = ?" then
    match args with
    | [.str n] => (.nil, { t with Artists := t.Artists.filter (fun a => a.Name ≠ n) })
    | _ => (unsupported, t)
  else (unsupported, t)

/-- The table model as a `Querier`. -/
def tables : Querier Tables := { Query := Query, Exec := Exec }

end store

namespace errors

/-- The merges done by the loop of `Chain.Error` over the inner wraps, in order. -/
def mergeAll (ord : Order) (allTags : Nat) (ws : List Wrap) (h : Heap) : Heap :=
  ws.foldl (fun h w => mergeTags ord allTags w.fn.tags h) h

end errors

/-! ### Sample inputs -/

namespace sample

open errors persist gin

/-- A request with path parameter `name` and a song body. -/
def request (name : String) (body : api.Song) : Request :=
  { Param := fun _ => name, BindJSONSong := (.nil, body),
    BindJSONArtist := (.nil, { Id := body.Id, Name := body.Name }) }

/-- A request whose body does not bind. -/
def badRequest (name : String) : Request :=
  { Param := fun _ => name,
    BindJSONSong := (.other "unexpected EOF", { Id := 0, Name := "", Duration := "", ArtistId := 0 }),
    BindJSONArtist := (.other "unexpected EOF", { Id := 0, Name := "" }) }

/-- A controller failing with a one link chain over a connection error. -/
def controllerA : Controller Unit := fun _ w =>
  ((500, Payload.str "a",
    GoError.ptr (Function.unsafeWrap ⟨⟨⟨"songs"⟩, "api"⟩, 0, "GetSongs"⟩
      (.other "dial tcp: connection refused") "ctx" "unknown error")), w)

/-- A controller failing with a two link chain over a syntax error. -/
def controllerB : Controller Nat := fun _ w =>
  ((500, Payload.nil,
    GoError.ptr (Function.unsafeWrap ⟨⟨⟨"artists"⟩, "api"⟩, 3, "GetArtists"⟩
      (.ptr (Function.unsafeWrap ⟨⟨⟨"artists"⟩, "db"⟩, 4, "get"⟩
        (.other "Error 1064: SQL syntax") "quering" ""))
      "" "unknown error")), w)

/-- A world with one tag map and no store. -/
def worldA : World Unit := { heap := ⟨fun _ => [("name", "x")], 1⟩, store := () }

/-- A world with an empty heap and a number as store. -/
def worldB : World Nat := { heap := Heap.empty, store := 5 }

end sample

/-- The world after `e := s.Fn(fn)`. -/
def World.afterFn {σ : Type} (w : World σ) (s : errors.Struct) (fn : String) : World σ :=
  (w.Fn s fn).2

/-- The world after `e := s.Fn(fn).Tag("name", name)`. -/
def World.afterFnTag {σ : Type} (w : World σ) (s : errors.Struct) (fn name : String) : World σ :=
  ((w.Fn s fn).2.Tag (w.Fn s fn).1 "name" name).2

namespace gin

open errors

/-- Whether an error is a chain whose `External` is the given text. -/
def externalIs : GoError → String → Bool
  | .ptr c, x => c.External = x
  | _, _ => false

/-- What a handler has seen when it answers: whether the body failed to bind, whether
the service returned a non-nil error, whether the lookup found nothing, and whether
the service raised its invalid flag. -/
structure Seen where
  bindFailed : Bool
  serviceError : Bool
  notFound : Bool
  invalid : Bool

/-- The error taxonomy of the handlers, for a returned status `code` and error `err`. -/
def taxonomy (seen : Seen) (code : Int) (err : GoError) : Prop :=
  (err = .nil ↔ code = 200 ∨ code = 201)
  ∧ (seen.bindFailed = true → code = 400 ∧ externalIs err "invalid json" = true)
  ∧ (seen.bindFailed = false → seen.serviceError = true →
      code = 500 ∧ externalIs err "unknown error" = true)
  ∧ (seen.bindFailed = false → seen.serviceError = false → seen.notFound = true →
      code = 404 ∧ externalIs err "resource not found" = true)
  ∧ (seen.bindFailed = false → seen.serviceError = false → seen.invalid = true →
      code = 400 ∧ externalIs err "problem in database" = true)
  ∧ ((code = 200 ∧ err = .nil) ∨ (code = 201 ∧ err = .nil)
      ∨ (code = 500 ∧ externalIs err "unknown error" = true)
      ∨ (code = 404 ∧ externalIs err "resource not found" = true)
      ∨ (code = 400 ∧ externalIs err "invalid json" = true)
      ∨ (code = 400 ∧ externalIs err "problem in database" = true))

end gin

namespace songs

/-- The call `s.db.get(name)` as `GetSongByName` reaches it: in the world left by the
`Fn` and `Tag` calls of the handler and of `getSongByName`. -/
def API.lookup {σ : Type} (a : API σ) (c : gin.Context) (w : World σ) :
    (api.Songs × errors.GoError) × World σ :=
  a.s.db.get (c.Param "name")
    ((w.afterFnTag a.err "GetSongByName" (c.Param "name")).afterFnTag a.s.err "getSongByName"
      (c.Param "name"))

end songs

namespace artists

/-- The call `s.db.get(name)` as `GetArtistByName` reaches it: in the world left by the
`Fn` and `Tag` calls of the handler and of `getArtistByName`. -/
def API.lookup {σ : Type} (a : API σ) (c : gin.Context) (w : World σ) :
    (api.Artists × errors.GoError) × World σ :=
  a.s.db.get (c.Param "name")
    ((w.afterFnTag a.err "GetArtistByName" (c.Param "name")).afterFnTag a.s.err
      "getArtistByName" (c.Param "name"))

end artists

namespace sample

open errors persist gin

/-- A songs persistor whose `get` always answers with the given rows and no error. -/
def songsAnswering (rows : api.Songs) : songs.persistor Unit :=
  { get := fun _ w => ((rows, .nil), w),
    create := fun _ w => ((true, .nil), w),
    update := fun _ w => ((true, .nil), w),
    delete := fun _ w => ((true, .nil), w) }

/-- An artists persistor whose `get` always answers with the given rows and no error. -/
def artistsAnswering (rows : api.Artists) : artists.persistor Unit :=
  { get := fun _ w => ((rows, .nil), w),
    create := fun _ w => ((true, .nil), w),
    delete := fun _ w => ((true, .nil), w) }

/-- The songs API over a given persistor. -/
def songsOver {σ : Type} (p : songs.persistor σ) : songs.API σ :=
  { s := { db := p, err := (Pkg "songs").Struct "service" }, err := (Pkg "songs").Struct "api" }

/-- The artists API over a given persistor. -/
def artistsOver {σ : Type} (p : artists.persistor σ) : artists.API σ :=
  { s := { db := p, err := (Pkg "artists").Struct "service" },
    err := (Pkg "artists").Struct "api" }

/-- Two rows with the same name. -/
def twoSongs : api.Songs :=
  [{ Id := 1, Name := "Imagine", Duration := "3:03", ArtistId := 1 },
   { Id := 2, Name := "Imagine", Duration := "3:07", ArtistId := 1 }]

/-- One artist row. -/
def oneArtist : api.Artists := [{ Id := 4, Name := "Lennon" }]

/-- The context `adapt` hands to a controller for a request. -/
def context (r : Request) : Context := { req := r, ID := "someID" }

/-- The world with an empty heap and no store. -/
def world0 : World Unit := { heap := Heap.empty, store := () }

end sample

namespace songs

open persist

/-- The statement `db.get(name)` sends: the filtered SELECT with `name` bound, or the bare
SELECT when `name` is empty. -/
def selectStmt (name : String) : Stmt :=
  if name ≠ "" then
    .query ("SELECT id, name, duration, artist_id FROM Songs " ++ "WHERE name = ? LIMIT 1")
      [.str name]
  else .query "SELECT id, name, duration, artist_id FROM Songs " []

/-- The statement `db.create(i)` sends. -/
def insertStmt (i : api.Song) : Stmt :=
  .exec "INSERT INTO Songs (name, duration, artist_id) VALUES (?, ?, ?)"
    [.str i.Name, .str i.Duration, .int i.ArtistId]

/-- The statement `db.update(i)` sends. -/
def updateStmt (i : api.Song) : Stmt :=
  .exec "UPDATE Songs SET duration = ?, artist_id = ? WHERE name = ?"
    [.str i.Duration, .int i.ArtistId, .str i.Name]

/-- The statement `db.delete(name)` sends. -/
def deleteStmt (name : String) : Stmt := .exec "DELETE FROM Songs WHERE name = ?" [.str name]

end songs

namespace artists

open persist

/-- The statement `db.get(name)` sends: the filtered SELECT with `name` bound, or the bare
SELECT when `name` is empty. -/
def selectStmt (name : String) : Stmt :=
  if name ≠ "" then
    .query ("SELECT id, name FROM Artists " ++ "WHERE name = ? LIMIT 1") [.str name]
  else .query "SELECT id, name FROM Artists " []

/-- The statement `db.create(s)` sends. -/
def insertStmt (s : api.Artist) : Stmt := .exec "INSERT INTO Artists (name) VALUES (?)" [.str s.Name]

/-- The statement `db.delete(name)` sends. -/
def deleteStmt (name : String) : Stmt := .exec "DELETE FROM Artists WHERE name = ?" [.str name]

end artists

namespace store

/-- The rows the table model hands to `songs.db.get(name)`. -/
def lookupSongs (t : Tables) (name : String) : api.Songs :=
  if name ≠ "" then (t.Songs.filter (fun s => s.Name = name)).take 1 else t.Songs

/-- The rows the table model hands to `artists.db.get(name)`. -/
def lookupArtists (t : Tables) (name : String) : api.Artists :=
  if name ≠ "" then (t.Artists.filter (fun a => a.Name = name)).take 1 else t.Artists

end store

namespace sample

open errors persist gin

/-- The table model holding the one song `Imagine` and no artist. -/
def oneSong : store.Tables :=
  { Songs := [{ Id := 1, Name := "Imagine", Duration := "3:03", ArtistId := 1 }],
    Artists := [], nextSongId := 2, nextArtistId := 1 }

/-- A world over the table model with an empty record of statements. -/
def tracedWorld (t : store.Tables) : World (store.Tables × List Stmt) :=
  { heap := Heap.empty, store := (t, []) }

/-- A world over the table model. -/
def tableWorld (t : store.Tables) : World store.Tables := { heap := Heap.empty, store := t }

/-- A payload for the song `Imagine`. -/
def imagine : api.Song := { Id := 0, Name := "Imagine", Duration := "3:05", ArtistId := 1 }

end sample

namespace gin

open errors

/-- Whether a handler result is status 200 with a song whose name, duration and artist
are those of `p`, and a nil error. -/
def showsSong (p : api.Song) : Int × Payload × GoError → Bool
  | (code, .song s, .nil) =>
    decide (code = 200 ∧ s.Name = p.Name ∧ s.Duration = p.Duration ∧ s.ArtistId = p.ArtistId)
  | _ => false

end gin

namespace sample

/-- A payload with an empty name. -/
def unnamed : api.Song := { Id := 0, Name := "", Duration := "4:33", ArtistId := 5 }

end sample

namespace errors

/-- The innermost previous error of a chain that is not itself a chain. -/
def Chain.root : Chain → GoError
  | .mk previous _ _ _ _ _ =>
    match previous with
    | .ptr p => Chain.root p
    | original => original

/-- The root of an error: itself, unless it is a chain. -/
def GoError.root : GoError → GoError
  | .ptr c => c.root
  | e => e

/-- The labels `package.struct.function` of the links of a chain, outermost first. -/
def Chain.labels : Chain → List String
  | .mk previous _ _ fn strct pkg =>
    (pkg.name ++ "." ++ strct.name ++ "." ++ fn.name) ::
      (match previous with
       | .ptr p => Chain.labels p
       | _ => [])

/-- The labels of the links of an error; none unless it is a chain. -/
def GoError.labels : GoError → List String
  | .ptr c => c.labels
  | _ => []

end errors

namespace persist

/-- The error a store returns for a statement in a given state. -/
def answer {σ : Type} (q : Querier σ) (s : Stmt) (st : σ) : errors.GoError :=
  match s with
  | .query sql args => (q.Query sql args st).1.2
  | .exec sql args => (q.Exec sql args st).1

end persist

namespace gin

open errors persist

/-- A handler result in which the failure `e` of the store reached the HTTP boundary:
the status is 500, the error is a chain whose root is `e` and whose links, outermost
first, carry the labels `hops`, and the statements on record are `sent`. -/
def reaches {σ : Type} (res : (Int × Payload × GoError) × World (σ × List Stmt))
    (e : GoError) (hops : List String) (sent : List Stmt) : Prop :=
  res.1.1 = 500 ∧ res.1.2.2.isChain = true ∧ res.1.2.2.root = e
    ∧ res.1.2.2.labels = hops ∧ res.2.store.2 = sent

end gin

namespace sample

open errors persist gin

/-- A store in which every statement fails with the same connection error. -/
def failing : Querier Unit :=
  { Query := fun _ _ s => ((Rows.over [], .other "invalid connection"), s),
    Exec := fun _ _ s => (.other "invalid connection", s) }

/-- A world over the failing store with an empty record of statements. -/
def failingWorld : World (Unit × List Stmt) := { heap := Heap.empty, store := ((), []) }

end sample

namespace errors

/-- The map left by `for t, v := range l { m[t] = v }`. -/
def TagMap.overlay (m : TagMap) (l : List (String × String)) : TagMap :=
  l.foldl (fun m tv => m.set tv.1 tv.2) m

/-- The value `Chain.Error` leaves for key `k` in the tag map `a` of the outermost wrap,
given the value it holds at first: every inner wrap whose tag map is another map
than `a` and holds `k` overwrites it, in chain order. -/
def shownValue (h : Heap) (a : Nat) (ws : List Wrap) (k : String) : Option String :=
  ws.foldl
    (fun acc u =>
      if u.fn.tags = a then acc
      else match (h.maps u.fn.tags).get k with
        | some v => some v
        | none => acc)
    ((h.maps a).get k)

/-- The value of key `k` in the last wrap of the list whose tags hold `k`. -/
def lastValue (h : Heap) (ws : List Wrap) (k : String) : Option String :=
  ws.foldl
    (fun acc u =>
      match (h.maps u.fn.tags).get k with
      | some v => some v
      | none => acc)
    none

end errors

namespace sample

open errors

/-- A function `a` of a struct, with tag map 0. -/
def fnA : Function := { strct := (Pkg "pkg").Struct "st", tags := 0, name := "a" }

/-- A function `b` of the same struct, with tag map 1. -/
def fnB : Function := { strct := (Pkg "pkg").Struct "st", tags := 1, name := "b" }

/-- The heap after `a.Tag("k", "1")` and `b.Tag("k", "2")`. -/
def heapAB : Heap :=
  { maps := fun r => if r = 0 then [("k", "1")] else if r = 1 then [("k", "2")] else [],
    next := 2 }

/-- The inner wraps of `a.Wrap(b.Wrap(a.Wrap(errors.New("x"), "c3"), "c2"), "c1")`. -/
def innerBA : List Wrap :=
  [{ fn := fnB, ctx := "c2", external := "" }, { fn := fnA, ctx := "c3", external := "" }]

end sample

namespace sample

open errors gin

/-- A controller answering 302 with a payload that is not a string and no error. -/
def redirectNil : Controller Unit := fun _ w => ((302, Payload.nil, GoError.nil), w)

end sample

namespace store

/-- No two rows of the table `Songs` share a name. -/
def uniqueNames (t : Tables) : Prop := (t.Songs.map (fun s => s.Name)).Nodup

instance (t : Tables) : Decidable (uniqueNames t) := by
  unfold uniqueNames
  exact inferInstance

/-- The table after `UPDATE Songs SET duration = ?, artist_id = ? WHERE name = ?` for `i`. -/
def updated (t : Tables) (i : api.Song) : Tables :=
  { t with
    Songs := t.Songs.map (fun s =>
      if s.Name = i.Name then { s with Duration := i.Duration, ArtistId := i.ArtistId }
      else s) }

/-- The table after `INSERT INTO Songs (name, duration, artist_id) VALUES (?, ?, ?)` for `i`. -/
def inserted (t : Tables) (i : api.Song) : Tables :=
  { t with
    Songs := t.Songs ++
      [{ Id := t.nextSongId, Name := i.Name, Duration := i.Duration, ArtistId := i.ArtistId }],
    nextSongId := t.nextSongId + 1 }

end store

namespace sample

/-- The table holding a song with an empty name and a song named `x`. -/
def twoNames : store.Tables :=
  { Songs := [{ Id := 1, Name := "", Duration := "1:00", ArtistId := 1 },
              { Id := 2, Name := "x", Duration := "2:00", ArtistId := 1 }],
    Artists := [], nextSongId := 3, nextArtistId := 1 }

end sample

namespace sample

/-- The table holding the songs `a` and `b`. -/
def songsAB : store.Tables :=
  { Songs := [{ Id := 1, Name := "a", Duration := "1:00", ArtistId := 1 },
              { Id := 2, Name := "b", Duration := "2:00", ArtistId := 1 }],
    Artists := [], nextSongId := 3, nextArtistId := 1 }

end sample

namespace persist

open errors

/-- An error value as `RowExists` tells them apart.  Go compares error values by identity:
`err != sql.ErrNoRows` asks whether `err` is the value of the variable `sql.ErrNoRows`, not
whether it has the same text.  `ErrNoRows` is that value; `other msg` is any other error value
that is not nil, with its text, which may be the text of `sql.ErrNoRows`. -/
inductive ScanError where
  | nil : ScanError
  | ErrNoRows : ScanError
  | other (msg : String) : ScanError
deriving DecidableEq, Repr

/-- The method `Error()` of these values. -/
def ScanError.Error : ScanError → String
  | .nil => ""
  | .ErrNoRows => "sql: no rows in result set"
  | .other msg => msg

/-- The type `Conn`, as far as `RowExists` uses it: the call
`c.QueryRow(query, args...).Scan(&exists)` returns an error and may have written
the scanned value into `exists`. -/
structure Conn (σ : Type) where
  QueryRowScan : String → List Value → σ → (ScanError × Option Bool) × σ

/-- The method `Conn.RowExists`; `exists` starts as `false`. -/
def Conn.RowExists {σ : Type} (c : Conn σ) (where_ : String) (condition : String)
    (args : List Value) (st : σ) : Bool × σ :=
  let query := "SELECT exists (SELECT 1 FROM " ++ where_ ++ " WHERE " ++ condition ++ ")"
  let r := c.QueryRowScan query args st
  let exists_ := r.1.2.getD false
  if r.1.1 ≠ ScanError.nil ∧ r.1.1 ≠ ScanError.ErrNoRows then (true, r.2)
  else (exists_, r.2)

end persist

namespace sample

open errors persist

/-- A connection on which the existence query fails. -/
def brokenConn : Conn store.Tables :=
  { QueryRowScan := fun _ _ t => ((.other "invalid connection", none), t) }

/-- A connection on which the existence query fails with an error value of its own whose text
is the text of `sql.ErrNoRows`. -/
def sameTextConn : Conn store.Tables :=
  { QueryRowScan := fun _ _ t => ((.other "sql: no rows in result set", none), t) }

/-- A connection answering the existence query for songs by name from the table model. -/
def songConn : Conn store.Tables :=
  { QueryRowScan := fun _ args t =>
      match args with
      | [.str n] => ((.nil, some (t.Songs.any (fun s => s.Name = n))), t)
      | _ => ((.other "unsupported statement", none), t) }

/-- The table model with no row at all. -/
def noRows : store.Tables := { Songs := [], Artists := [], nextSongId := 1, nextArtistId := 1 }

end sample

namespace songs

open persist

/-- The call of `Query` made by `db.get(name)`, in the store of the given world. -/
def db.issued {σ : Type} (d : db σ) (name : String) (w : World σ) :
    (Rows × errors.GoError) × σ :=
  if name ≠ "" then
    d.Querier.Query ("SELECT id, name, duration, artist_id FROM Songs " ++ "WHERE name = ? LIMIT 1")
      [.str name] w.store
  else d.Querier.Query "SELECT id, name, duration, artist_id FROM Songs " [] w.store

end songs

namespace artists

open persist

/-- The call of `Query` made by `db.get(name)`, in the store of the given world. -/
def db.issued {σ : Type} (d : db σ) (name : String) (w : World σ) :
    (Rows × errors.GoError) × σ :=
  if name ≠ "" then
    d.Querier.Query ("SELECT id, name FROM Artists " ++ "WHERE name = ? LIMIT 1")
      [.str name] w.store
  else d.Querier.Query "SELECT id, name FROM Artists " [] w.store

end artists

/-! ## pkg/hashing

`Hash.SHA1` calls the standard library only: `sha1.New`, `io.WriteString`, `Sum` and
`hex.EncodeToString`.  The standard library is not part of the repository.  The namespaces
`binary`, `sha1` and `hex` below follow the Go source of `encoding/binary`, `crypto/sha1` (the
portable `blockGeneric`) and `encoding/hex`, statement by statement: the digest with its buffer
of pending bytes, `Write`, `checkSum`, and the block function with its buffer of sixteen words.
The namespace `fips` is a second definition, which follows the text of FIPS 180-4 for SHA-1
(message schedule of eighty words, functions `Ch`, `Parity`, `Maj`, padding, hash values
`H(i)`); the two are compared by the theorems.  Bytes and words are natural numbers; every
operation of the Go source on `uint32` or `uint64` is reduced modulo `2^32` or `2^64`. -/

namespace hashing

/-- The bytes of a Go string: strings of the model are sequences of characters, a Go string is
the sequence of bytes of their UTF-8 encoding. -/
def bytes (src : String) : List Nat := src.toUTF8.data.toList.map UInt8.toNat

namespace binary

/-- The bytes written by `BigEndian.PutUint32(b, v)`: `byte(v >> 24)`, `byte(v >> 16)`,
`byte(v >> 8)`, `byte(v)`. -/
def PutUint32 (v : Nat) : List Nat :=
  [(v >>> 24) % 256, (v >>> 16) % 256, (v >>> 8) % 256, v % 256]

/-- The bytes written by `BigEndian.PutUint64(b, v)`. -/
def PutUint64 (v : Nat) : List Nat :=
  [(v >>> 56) % 256, (v >>> 48) % 256, (v >>> 40) % 256, (v >>> 32) % 256,
   (v >>> 24) % 256, (v >>> 16) % 256, (v >>> 8) % 256, v % 256]

end binary

namespace sha1

/-- The function `bits.RotateLeft32(x, k)` on a `uint32`, for `0 ≤ k < 32`:
`x<<k | x>>(32-k)`. -/
def RotateLeft32 (x k : Nat) : Nat := ((x <<< k) % 2 ^ 32) ||| (x >>> (32 - k))

/-- The sum of two `uint32`. -/
def add32 (x y : Nat) : Nat := (x + y) % 2 ^ 32

/-- The type `digest`: the five words `h`, the bytes `x[:nx]` waiting for a full block, and
`len`. -/
structure digest where
  h0 : Nat
  h1 : Nat
  h2 : Nat
  h3 : Nat
  h4 : Nat
  x : List Nat
  len : Nat
deriving DecidableEq

/-- The local variables of the block function: `a`, `b`, `c`, `d`, `e` and the array `w` of
sixteen words. -/
structure vars where
  a : Nat
  b : Nat
  c : Nat
  d : Nat
  e : Nat
  w : Nat → Nat

/-- The loop `for i := lo; i < lo + n; i++ { body }`. -/
def forLoop {α : Type} (body : Nat → α → α) : Nat → Nat → α → α
  | _, 0, s => s
  | i, n + 1, s => forLoop body (i + 1) n (body i s)

/-- The loop that fills `w` from the block:
`w[i] = uint32(p[j])<<24 | uint32(p[j+1])<<16 | uint32(p[j+2])<<8 | uint32(p[j+3])` with
`j = i*4`. -/
def load (p : List Nat) (i : Nat) (v : vars) : vars :=
  let j := i * 4
  let x := (((p.getD j 0) <<< 24) % 2 ^ 32) ||| (((p.getD (j + 1) 0) <<< 16) % 2 ^ 32)
    ||| (((p.getD (j + 2) 0) <<< 8) % 2 ^ 32) ||| (p.getD (j + 3) 0)
  { v with w := Function.update v.w i x }

/-- The statements `t := bits.RotateLeft32(a, 5) + f + e + w[i&0xf] + K` and
`a, b, c, d, e = t, a, bits.RotateLeft32(b, 30), c, d`. -/
def turn (f K : Nat) (i : Nat) (v : vars) : vars :=
  let t := add32 (add32 (add32 (add32 (RotateLeft32 v.a 5) f) v.e) (v.w (i &&& 0xf))) K
  { v with a := t, b := v.a, c := RotateLeft32 v.b 30, d := v.c, e := v.d }

/-- The statements `tmp := w[(i-3)&0xf] ^ w[(i-8)&0xf] ^ w[(i-14)&0xf] ^ w[(i)&0xf]` and
`w[i&0xf] = bits.RotateLeft32(tmp, 1)`. -/
def extend (i : Nat) (v : vars) : vars :=
  let tmp := v.w ((i - 3) &&& 0xf) ^^^ v.w ((i - 8) &&& 0xf) ^^^ v.w ((i - 14) &&& 0xf)
    ^^^ v.w (i &&& 0xf)
  { v with w := Function.update v.w (i &&& 0xf) (RotateLeft32 tmp 1) }

/-- Round `i` of the first loop, `0 ≤ i < 16`: `f := b&c | (^b)&d`. -/
def round0 (i : Nat) (v : vars) : vars :=
  turn ((v.b &&& v.c) ||| ((v.b ^^^ 0xFFFFFFFF) &&& v.d)) 0x5A827999 i v

/-- Round `i` of the second loop, `16 ≤ i < 20`. -/
def round1 (i : Nat) (v : vars) : vars :=
  let v := extend i v
  turn ((v.b &&& v.c) ||| ((v.b ^^^ 0xFFFFFFFF) &&& v.d)) 0x5A827999 i v

/-- Round `i` of the third loop, `20 ≤ i < 40`: `f := b ^ c ^ d`. -/
def round2 (i : Nat) (v : vars) : vars :=
  let v := extend i v
  turn (v.b ^^^ v.c ^^^ v.d) 0x6ED9EBA1 i v

/-- Round `i` of the fourth loop, `40 ≤ i < 60`: `f := ((b | c) & d) | (b & c)`. -/
def round3 (i : Nat) (v : vars) : vars :=
  let v := extend i v
  turn (((v.b ||| v.c) &&& v.d) ||| (v.b &&& v.c)) 0x8F1BBCDC i v

/-- Round `i` of the fifth loop, `60 ≤ i < 80`: `f := b ^ c ^ d`. -/
def round4 (i : Nat) (v : vars) : vars :=
  let v := extend i v
  turn (v.b ^^^ v.c ^^^ v.d) 0xCA62C1D6 i v

/-- The rounds of the body of the loop of `blockGeneric`, on the block at the front of `p`:
`a, b, c, d, e := h0, h1, h2, h3, h4` and the six loops.  The first loop writes all sixteen
entries of `w`, so what `w` held before the block is not kept. -/
def rounds (d : digest) (p : List Nat) : vars :=
  let v : vars := { a := d.h0, b := d.h1, c := d.h2, d := d.h3, e := d.h4, w := fun _ => 0 }
  let v := forLoop (load p) 0 16 v
  let v := forLoop round0 0 16 v
  let v := forLoop round1 16 4 v
  let v := forLoop round2 20 20 v
  let v := forLoop round3 40 20 v
  forLoop round4 60 20 v

/-- The body of the loop `for len(p) >= chunk` of `blockGeneric`, on the block at the front of
`p`: after the rounds, `h0 += a`, `h1 += b`, `h2 += c`, `h3 += d`, `h4 += e`; the rest of the
digest is kept. -/
def blockStep (d : digest) (p : List Nat) : digest :=
  let v := rounds d p
  { d with h0 := add32 d.h0 v.a, h1 := add32 d.h1 v.b, h2 := add32 d.h2 v.c,
           h3 := add32 d.h3 v.d, h4 := add32 d.h4 v.e }

/-- The loop `for len(p) >= chunk { ...; p = p[chunk:] }` of `blockGeneric`; `fuel` bounds the
number of blocks. -/
def blockLoop : Nat → digest → List Nat → digest
  | 0, d, _ => d
  | fuel + 1, d, p => if p.length ≥ 64 then blockLoop fuel (blockStep d p) (p.drop 64) else d

/-- The function `block(dig, p)`: a slice of `n` bytes holds `n / 64` blocks. -/
def block (d : digest) (p : List Nat) : digest := blockLoop (p.length / 64) d p

/-- The function `New` with its `Reset`. -/
def New : digest :=
  { h0 := 0x67452301, h1 := 0xEFCDAB89, h2 := 0x98BADCFE, h3 := 0x10325476, h4 := 0xC3D2E1F0,
    x := [], len := 0 }

/-- The first statement of `Write` after the count, `if d.nx > 0 { ... }`: the pending bytes
are filled up from `p`, a full block is hashed, and `p = p[n:]`.  `nx` is the length of `x`. -/
def digest.fill (d : digest) (p : List Nat) : digest × List Nat :=
  if d.x.length > 0 then
    let n := min (64 - d.x.length) p.length
    let d := { d with x := d.x ++ p.take n }
    let d := if d.x.length = 64 then { block d d.x with x := [] } else d
    (d, p.drop n)
  else (d, p)

/-- The second statement, `if len(p) >= chunk { ... }`: the whole blocks of `p` are hashed, with
`n := len(p) &^ (chunk - 1)`, and `p = p[n:]`. -/
def digest.whole (d : digest) (p : List Nat) : digest × List Nat :=
  if p.length ≥ 64 then
    let n := p.length - p.length % 64
    (block d (p.take n), p.drop n)
  else (d, p)

/-- The third statement, `if len(p) > 0 { d.nx = copy(d.x[:], p) }`. -/
def digest.keep (d : digest) (p : List Nat) : digest :=
  if p.length > 0 then { d with x := p } else d

/-- The method `digest.Write`; it returns no error. -/
def digest.Write (d : digest) (p : List Nat) : digest :=
  let d := { d with len := (d.len + p.length) % 2 ^ 64 }
  let s1 := d.fill p
  let s2 := s1.1.whole s1.2
  s2.1.keep s2.2

/-- The slice `padlen` that `checkSum` writes for a digest that counts `len` bytes: the byte
`0x80`, zero bytes up to `t` bytes with `t = 56 - len%64` or `64 + 56 - len%64`, and the eight
bytes of `len << 3`. -/
def padlen (len : Nat) : List Nat :=
  let t := if len % 64 < 56 then 56 - len % 64 else 64 + 56 - len % 64
  let len := (len <<< 3) % 2 ^ 64
  (0x80 :: List.replicate (t - 1) 0) ++ binary.PutUint64 len

/-- The method `digest.checkSum`; `none` is the panic `d.nx != 0`. -/
def digest.checkSum (d : digest) : Option (List Nat) :=
  let d := d.Write (padlen d.len)
  if d.x.length ≠ 0 then none
  else some (binary.PutUint32 d.h0 ++ binary.PutUint32 d.h1 ++ binary.PutUint32 d.h2
    ++ binary.PutUint32 d.h3 ++ binary.PutUint32 d.h4)

/-- The method `digest.Sum(nil)`: the checksum of a copy of the digest. -/
def digest.Sum (d : digest) : Option (List Nat) := d.checkSum

end sha1

namespace hex

/-- The constant `hextable`. -/
def hextable : List Char := "0123456789abcdef".data

/-- The function `hex.EncodeToString`: `hextable[v>>4]` and `hextable[v&0x0f]` for each byte
`v`. -/
def EncodeToString (src : List Nat) : String :=
  String.mk (src.flatMap (fun v => [hextable.getD (v >>> 4) '0', hextable.getD (v &&& 0x0f) '0']))

/-- The value of a lowercase hexadecimal digit. -/
def digitValue (c : Char) : Option Nat :=
  if 48 ≤ c.toNat ∧ c.toNat ≤ 57 then some (c.toNat - 48)
  else if 97 ≤ c.toNat ∧ c.toNat ≤ 102 then some (c.toNat - 87)
  else none

/-- The bytes that a text of lowercase hexadecimal digits writes, two digits for each byte, the
high one first; it only serves to state properties. -/
def read : List Char → Option (List Nat)
  | [] => some []
  | [_] => none
  | hi :: lo :: cs =>
    match digitValue hi, digitValue lo, read cs with
    | some h, some l, some bs => some ((16 * h + l) :: bs)
    | _, _, _ => none

end hex

namespace fips

/-- The operation `ROTL^n(x)` on words of 32 bits: `(x << n) ∨ (x >> 32 - n)`. -/
def ROTL (n x : Nat) : Nat := ((x * 2 ^ n) % 2 ^ 32) ||| (x / 2 ^ (32 - n))

/-- The function `Ch(x, y, z) = (x ∧ y) ⊕ (¬x ∧ z)`. -/
def Ch (x y z : Nat) : Nat := (x &&& y) ^^^ ((2 ^ 32 - 1 - x) &&& z)

/-- The function `Parity(x, y, z) = x ⊕ y ⊕ z`. -/
def Parity (x y z : Nat) : Nat := x ^^^ y ^^^ z

/-- The function `Maj(x, y, z) = (x ∧ y) ⊕ (x ∧ z) ⊕ (y ∧ z)`. -/
def Maj (x y z : Nat) : Nat := (x &&& y) ^^^ (x &&& z) ^^^ (y &&& z)

/-- The functions `f_t`. -/
def f (t x y z : Nat) : Nat :=
  if t ≤ 19 then Ch x y z
  else if t ≤ 39 then Parity x y z
  else if t ≤ 59 then Maj x y z
  else Parity x y z

/-- The constants `K_t`. -/
def K (t : Nat) : Nat :=
  if t ≤ 19 then 0x5a827999
  else if t ≤ 39 then 0x6ed9eba1
  else if t ≤ 59 then 0x8f1bbcdc
  else 0xca62c1d6

/-- The number `k` of zero bits of the padding of a message of `l` bits: the smallest number
with `l + 1 + k ≡ 448 mod 512`. -/
def zeroBits (l : Nat) : Nat := (448 + 512 - (l + 1) % 512) % 512

/-- The padded message of a message of whole bytes, `l = 8 n` bits for `n` bytes: the message,
the bit `1` and `k` zero bits, and the length `l` in bits as a block of 64 bits.  The bit `1`
and seven of the zero bits are the byte `0x80`, the other zero bits are `(k - 7) / 8` bytes. -/
def pad (M : List Nat) : List Nat :=
  M ++ [0x80] ++ List.replicate ((zeroBits (8 * M.length) - 7) / 8) 0
    ++ (List.range 8).map (fun i => (8 * M.length) / 2 ^ (8 * (7 - i)) % 256)

/-- The word `M_t` of a block of 64 bytes: the bytes `4t .. 4t+3`, the first one the most
significant. -/
def word (M : List Nat) (t : Nat) : Nat :=
  M.getD (4 * t) 0 * 2 ^ 24 + M.getD (4 * t + 1) 0 * 2 ^ 16 + M.getD (4 * t + 2) 0 * 2 ^ 8
    + M.getD (4 * t + 3) 0

/-- The message schedule `W_t` of a block. -/
def W (M : List Nat) (t : Nat) : Nat :=
  if t < 16 then word M t
  else ROTL 1 (W M (t - 3) ^^^ W M (t - 8) ^^^ W M (t - 14) ^^^ W M (t - 16))
termination_by t
decreasing_by all_goals omega

/-- The five working variables, also the five words of a hash value. -/
structure Vars where
  a : Nat
  b : Nat
  c : Nat
  d : Nat
  e : Nat
deriving DecidableEq

/-- Step `t` of the computation: `T = ROTL^5(a) + f_t(b, c, d) + e + K_t + W_t`, then
`e = d`, `d = c`, `c = ROTL^30(b)`, `b = a`, `a = T`; addition is modulo `2^32`. -/
def step (M : List Nat) (s : Vars) (t : Nat) : Vars :=
  { a := (ROTL 5 s.a + f t s.b s.c s.d + s.e + K t + W M t) % 2 ^ 32,
    b := s.a, c := ROTL 30 s.b, d := s.c, e := s.d }

/-- The hash value `H(i)` from `H(i-1)` and the block `M(i)`. -/
def compress (H : Vars) (M : List Nat) : Vars :=
  let s := (List.range 80).foldl (step M) H
  { a := (s.a + H.a) % 2 ^ 32, b := (s.b + H.b) % 2 ^ 32, c := (s.c + H.c) % 2 ^ 32,
    d := (s.d + H.d) % 2 ^ 32, e := (s.e + H.e) % 2 ^ 32 }

/-- The initial hash value `H(0)`. -/
def H0 : Vars :=
  { a := 0x67452301, b := 0xefcdab89, c := 0x98badcfe, d := 0x10325476, e := 0xc3d2e1f0 }

/-- The block `M(i)` of the padded message, `i` counted from 1. -/
def blockAt (padded : List Nat) (i : Nat) : List Nat := (padded.drop (64 * (i - 1))).take 64

/-- The hash values `H(0), H(1), ...` of a padded message. -/
def H (padded : List Nat) : Nat → Vars
  | 0 => H0
  | i + 1 => compress (H padded i) (blockAt padded (i + 1))

/-- The 32 bits of a word as four bytes, the most significant first. -/
def wordBytes (x : Nat) : List Nat := [x / 2 ^ 24 % 256, x / 2 ^ 16 % 256, x / 2 ^ 8 % 256, x % 256]

/-- The message digest of a message of whole bytes: the words of `H(N)` one after the other,
`N` the number of blocks of the padded message. -/
def SHA1 (M : List Nat) : List Nat :=
  let s := H (pad M) ((pad M).length / 64)
  wordBytes s.a ++ wordBytes s.b ++ wordBytes s.c ++ wordBytes s.d ++ wordBytes s.e

end fips

/-- The type `Hash`. -/
structure Hash where
deriving DecidableEq, Repr

/-- The function `Make`. -/
def Make : Hash := {}

/-- The method `Hash.SHA1`: `io.WriteString` hands the bytes of `src` to `Write`, which returns
no error; `none` is a panic inside `Sum`. -/
def Hash.SHA1 (_ : Hash) (src : String) : Option (String × errors.GoError) :=
  let sha := sha1.New
  let sha := sha.Write (bytes src)
  let error := errors.GoError.nil
  match sha.Sum with
  | none => none
  | some sum => some (hex.EncodeToString sum, error)

/-- The input of the repository's test of `SHA1`. -/
def testInput : String := "/src/api/middlewares/recovery.go:ioutil.ReadFile(file):vuln"

end hashing


/-! ### How the two definitions are compared -/

namespace hashing

/-- The five words of a digest as a hash value. -/
def sha1.digest.words (d : sha1.digest) : fips.Vars :=
  { a := d.h0, b := d.h1, c := d.h2, d := d.h3, e := d.h4 }

/-- The twenty bytes of a hash value. -/
def fips.Vars.octets (s : fips.Vars) : List Nat :=
  fips.wordBytes s.a ++ fips.wordBytes s.b ++ fips.wordBytes s.c ++ fips.wordBytes s.d
    ++ fips.wordBytes s.e

/-- Each of the five words is a word of 32 bits. -/
def fips.Vars.bounded (s : fips.Vars) : Prop :=
  s.a < 2 ^ 32 ∧ s.b < 2 ^ 32 ∧ s.c < 2 ^ 32 ∧ s.d < 2 ^ 32 ∧ s.e < 2 ^ 32

/-- The hash value after `n` more blocks, taken from the front of `p`. -/
def fips.absorb : fips.Vars → List Nat → Nat → fips.Vars
  | h, _, 0 => h
  | h, p, n + 1 => fips.absorb (fips.compress h (p.take 64)) (p.drop 64) n

/-- Before round `t`, the array `w` of the Go block function holds the last sixteen words of the
message schedule of the block `M`, the word `W_u` at index `u mod 16`. -/
def sha1.scheduled (M : List Nat) (t : Nat) (w : Nat → Nat) : Prop :=
  ∀ u, u < max t 16 → t ≤ u + 16 → w (u % 16) = fips.W M u

/-- Before round `t`, the variables of the Go block function are the working variables of
FIPS 180-4 before step `t`. -/
def sha1.agrees (M : List Nat) (t : Nat) (v : sha1.vars) (s : fips.Vars) : Prop :=
  v.a = s.a ∧ v.b = s.b ∧ v.c = s.c ∧ v.d = s.d ∧ v.e = s.e ∧ s.bounded
    ∧ sha1.scheduled M t v.w

/-- The digest has taken in the bytes `s`: all whole blocks of a front part `A` are hashed, the
rest waits in `x`, and `len` counts `s`. -/
def sha1.digest.absorbed (d : sha1.digest) (s : List Nat) : Prop :=
  ∃ A : List Nat, s = A ++ d.x ∧ A.length % 64 = 0 ∧ d.x.length < 64
    ∧ d.words = fips.absorb fips.H0 A (A.length / 64) ∧ d.len = s.length % 2 ^ 64

end hashing

/-! ## pkg/gin/gintest

The fake engine is followed through the calls it makes: which routes it registers on the real
engine and with which arguments it calls `http.NewRequest`.  Payload, destination, controller
and the checks on the response do not decide either and are not kept. -/

namespace gintest

/-- A call made by the fake engine: `handle verb routerPath` is `f.real.VERB(routerPath, cr)`
with `VERB` one of `GET`, `POST`, `PUT`, `PATCH`, `Any`, and `newRequest method url` is
`http.NewRequest(method, url, body)`. -/
inductive Call where
  | handle (verb routerPath : String) : Call
  | newRequest (method url : String) : Call
deriving DecidableEq, Repr

/-- The type `Fake`, as the calls made so far, oldest first. -/
structure Fake where
  calls : List Call
deriving DecidableEq, Repr

/-- The method `Fake.GET`. -/
def Fake.GET (f : Fake) (routerPath path : String) : Fake :=
  { calls := f.calls ++ [.handle "GET" routerPath] ++ [.newRequest "GET" path] }

/-- The method `Fake.payloadRequest(path, method, ...)`: it calls
`http.NewRequest(method, path, r)`. -/
def Fake.payloadRequest (f : Fake) (path method : String) : Fake :=
  { calls := f.calls ++ [.newRequest method path] }

/-- The method `Fake.POST`. -/
def Fake.POST (f : Fake) (routerPath path : String) : Fake :=
  Fake.payloadRequest { calls := f.calls ++ [.handle "POST" routerPath] } path "POST"

/-- The method `Fake.PUT`. -/
def Fake.PUT (f : Fake) (routerPath path : String) : Fake :=
  Fake.payloadRequest { calls := f.calls ++ [.handle "PUT" routerPath] } path "PUT"

/-- The method `Fake.PATCH`. -/
def Fake.PATCH (f : Fake) (routerPath path : String) : Fake :=
  Fake.payloadRequest { calls := f.calls ++ [.handle "PATCH" routerPath] } path "PATCH"

/-- The method `Fake.Any(routerPath, path, method, ...)`. -/
def Fake.Any (f : Fake) (routerPath path method : String) : Fake :=
  Fake.payloadRequest { calls := f.calls ++ [.handle "Any" routerPath] } path method

/-- The type `Test`. -/
structure Test where
  g : Fake
  called : Int
deriving DecidableEq, Repr

/-- The function `NewTest`. -/
def NewTest : Test := { g := { calls := [] }, called := 0 }

/-- The type `When`, without payload and destination. -/
structure When where
  Fmt : String
  Path : String
  Query : String
deriving DecidableEq, Repr

/-- The method `Test.request`: the arguments of each call stand in the order the source
writes them. -/
def Test.request (tt : Test) (method : String) (d : When) : Test :=
  let basePath := "/" ++ toString tt.called
  let ginPath := basePath ++ d.Fmt
  let url := basePath ++ d.Path ++ d.Query
  let g :=
    if method = "GET" then tt.g.GET ginPath url
    else if method = "POST" then tt.g.POST ginPath url
    else if method = "PUT" then tt.g.PUT ginPath url
    else if method = "PATCH" then tt.g.PATCH ginPath url
    else tt.g.Any (basePath ++ d.Fmt) method url
  { g := g, called := tt.called + 1 }

/-- The method `Test.POST`. -/
def Test.POST (tt : Test) (d : When) : Test := tt.request "POST" d

/-- The method `Test.Any`. -/
def Test.Any (tt : Test) (method : String) (d : When) : Test := tt.request method d

end gintest

namespace sample

/-- A situation with one path parameter. -/
def whenName : gintest.When := { Fmt := "/:name", Path := "/x", Query := "" }

end sample

/-! ## OriginalError

The functions of the standard package `strings` work on the bytes of a string; on the characters
of well formed UTF-8 text a search for a substring finds the same places, and the model below
works on characters. -/

namespace strings

/-- The function `strings.TrimPrefix`. -/
def TrimPrefix (s p : String) : String :=
  if p.data.isPrefixOf s.data then String.mk (s.data.drop p.data.length) else s

/-- The function `strings.TrimSuffix`. -/
def TrimSuffix (s p : String) : String :=
  if p.data.isSuffixOf s.data then String.mk (s.data.take (s.data.length - p.data.length)) else s

/-- The text up to and including the first place where `sep` starts, the whole text when there
is none. -/
def splitAfterFirst (sep : List Char) : List Char → List Char
  | [] => []
  | c :: cs => if sep.isPrefixOf (c :: cs) then sep else c :: splitAfterFirst sep cs

/-- The expression `strings.SplitAfter(s, sep)[0]` for a separator that is not empty. -/
def SplitAfterFirst (s sep : String) : String := String.mk (splitAfterFirst sep.data s.data)

/-- Whether `sub` starts somewhere in the text. -/
def containsChars (sub : List Char) : List Char → Bool
  | [] => sub.isPrefixOf []
  | c :: cs => sub.isPrefixOf (c :: cs) || containsChars sub cs

/-- The function `strings.Contains`; it only serves to state properties. -/
def Contains (s sub : String) : Bool := containsChars sub.data s.data

/-- The function `strings.HasSuffix`; it only serves to state properties. -/
def HasSuffix (s p : String) : Bool := p.data.isSuffixOf s.data

/-- The text before the first place where `sub` starts, the whole text when there is none. -/
def beforeChars (sub : List Char) : List Char → List Char
  | [] => []
  | c :: cs => if sub.isPrefixOf (c :: cs) then [] else c :: beforeChars sub cs

/-- The part of `s` before the first occurrence of `sub`; it only serves to state properties. -/
def Before (s sub : String) : String := String.mk (beforeChars sub.data s.data)

end strings

namespace errors

/-- The function `OriginalError`.  The call `err.Error()` on the nil error is a nil dereference,
which is `none`; for a chain the call is `Chain.Error`, which also leaves a heap. -/
def OriginalError (ord : Order) (err : GoError) (h : Heap) : Option (String × Heap) :=
  match err with
  | .nil => none
  | .other m =>
    let original := strings.TrimPrefix m "ERROR "
    let original := strings.SplitAfterFirst original " | CONTEXT "
    some (strings.TrimSuffix original " | CONTEXT ", h)
  | .ptr c =>
    let r := c.Error ord h
    let original := strings.TrimPrefix r.1 "ERROR "
    let original := strings.SplitAfterFirst original " | CONTEXT "
    some (strings.TrimSuffix original " | CONTEXT ", r.2)

end errors

namespace sample

open errors

/-- The chain `a.Wrap(errors.New("x | CONTEXT"), "c1")`. -/
def endsLikeSeparator : GoError :=
  .ptr (Wrap.around { fn := fnA, ctx := "c1", external := "" } (nest (.other "x | CONTEXT") []))

end sample

namespace sample

open errors

/-- The songs adapter over the table model. -/
def tableSongs : songs.db store.Tables :=
  { Querier := store.tables, err := (Pkg "songs").Struct "db" }

/-- The artists adapter over the table model. -/
def tableArtists : artists.db store.Tables :=
  { Querier := store.tables, err := (Pkg "artists").Struct "db" }

end sample

/-! ### Rows that hold an entity

What it means that a row delivered by the cursor holds a song or an artist is said here without
the decoder: a column holds an integer as the integer itself (the binary protocol of MySQL) or
as its decimal text (the text protocol), and holds a text as the text itself or, for a column
delivered as an integer, as the decimal text of the integer. -/

namespace store

open persist

/-- Whether a column value holds the integer `i`. -/
def holdsInt (v : Value) (i : Int) : Prop :=
  match v with
  | .int j => j = i
  | .str t => t = strconv.FormatInt i ∧ -2 ^ 63 ≤ i ∧ i < 2 ^ 63
  | .null => False

/-- Whether a column value holds the text `s`. -/
def holdsString (v : Value) (s : String) : Prop :=
  match v with
  | .str t => t = s
  | .int j => s = strconv.FormatInt j
  | .null => False

/-- Whether a row in column order `id, name, duration, artist_id` holds the song. -/
def rowHoldsSong (r : List Value) (s : api.Song) : Prop :=
  match r with
  | [a, b, c, d] =>
    holdsInt a s.Id ∧ holdsString b s.Name ∧ holdsString c s.Duration ∧ holdsInt d s.ArtistId
  | _ => False

/-- Whether a row in column order `id, name` holds the artist. -/
def rowHoldsArtist (r : List Value) (a : api.Artist) : Prop :=
  match r with
  | [x, y] => holdsInt x a.Id ∧ holdsString y a.Name
  | _ => False

/-- A row of `Songs` with every column as text. -/
def songText (s : api.Song) : List Value :=
  [.str (strconv.FormatInt s.Id), .str s.Name, .str s.Duration,
   .str (strconv.FormatInt s.ArtistId)]

/-- A row of `Artists` with every column as text. -/
def artistText (a : api.Artist) : List Value := [.str (strconv.FormatInt a.Id), .str a.Name]

end store

namespace sample

open errors persist

/-- A store that answers every query with the rows of its tables, every column as text. -/
def textStore : Querier store.Tables :=
  { Query := fun q _ t =>
      if q = "SELECT id, name FROM Artists " then
        ((Rows.over (t.Artists.map store.artistText), .nil), t)
      else ((Rows.over (t.Songs.map store.songText), .nil), t),
    Exec := fun _ _ t => (.nil, t) }

/-- Two songs and two artists, one of them with a negative id. -/
def library : store.Tables :=
  { Songs := [{ Id := 12, Name := "Imagine", Duration := "3:03", ArtistId := 7 },
              { Id := 305, Name := "Help", Duration := "2:18", ArtistId := -4 }],
    Artists := [{ Id := 7, Name := "Lennon" }, { Id := -4, Name := "Beatles" }],
    nextSongId := 306, nextArtistId := 8 }

end sample

/-! # Theorems -/

namespace errors

theorem intercalate_cons (s a : String) (as : List String) :
    s.intercalate (a :: as) = String.intercalate.go a s as := rfl

theorem intercalate_go_cons (acc s a : String) (as : List String) :
    String.intercalate.go acc s (a :: as) = String.intercalate.go (acc ++ s ++ a) s as := rfl

theorem intercalate_go_nil (acc s : String) : String.intercalate.go acc s [] = acc := rfl

theorem loop_nest (ord : Order) (a : Nat) (r : GoError) (hr : r.isChain = false) :
    ∀ (vs : List Wrap) (v : Wrap) (stack ctx : String) (h : Heap),
      Chain.Error.loop ord a (v.around (nest r vs)) stack ctx h =
        (String.intercalate.go stack " <- " ((v :: vs).map Wrap.label),
         String.intercalate.go ctx " <- " ((v :: vs).map Wrap.ctx), r,
         mergeAll ord a (v :: vs) h) := by
  intro vs
  induction vs with
  | nil =>
    intro v stack ctx h
    cases r with
    | ptr c => simp [GoError.isChain] at hr
    | nil =>
      simp [Wrap.around, Function.unsafeWrap, nest, Chain.Error.loop, mergeAll,
        intercalate_go_cons, intercalate_go_nil, Wrap.label, String.append_assoc]
    | other m =>
      simp [Wrap.around, Function.unsafeWrap, nest, Chain.Error.loop, mergeAll,
        intercalate_go_cons, intercalate_go_nil, Wrap.label, String.append_assoc]
  | cons u us ih =>
    intro v stack ctx h
    have := ih u (stack ++ (" <- " ++ v.label)) (ctx ++ (" <- " ++ v.ctx))
      (mergeTags ord a v.fn.tags h)
    simp only [nest, Wrap.around, Function.unsafeWrap, Chain.Error.loop] at this ⊢
    simp only [Wrap.label, String.append_assoc] at this ⊢
    rw [this]
    simp [mergeAll, intercalate_go_cons, Wrap.label, String.append_assoc]

theorem Error_nest (ord : Order) (h : Heap) (r : GoError) (hr : r.isChain = false)
    (w : Wrap) (ws : List Wrap) :
    Chain.Error ord (w.around (nest r ws)) h =
      ("ERROR " ++ originText r ++ " | CONTEXT " ++ " <- ".intercalate ((w :: ws).map Wrap.ctx)
        ++ " | TAGS: "
        ++ Chain.formatTags ord (w.around (nest r ws)) (mergeAll ord w.fn.tags ws h) w.fn.tags
        ++ " | STACK: " ++ " <- ".intercalate ((w :: ws).map Wrap.label),
       mergeAll ord w.fn.tags ws h) := by
  cases ws with
  | nil =>
    cases r with
    | ptr c => simp [GoError.isChain] at hr
    | nil => rfl
    | other m => rfl
  | cons v vs =>
    have hl := loop_nest ord w.fn.tags r hr vs v w.label w.ctx h
    cases r with
    | ptr c => simp [GoError.isChain] at hr
    | nil =>
      simp only [Chain.Error, nest, Wrap.around, Function.unsafeWrap, Chain.previous, Chain.fn,
        Chain.Pkg, Chain.ctx, Wrap.label] at hl ⊢
      rw [hl]
      rfl
    | other m =>
      simp only [Chain.Error, nest, Wrap.around, Function.unsafeWrap, Chain.previous, Chain.fn,
        Chain.Pkg, Chain.ctx, Wrap.label] at hl ⊢
      rw [hl]
      rfl

/-- C1: for a chain built by nested wraps `w :: ws` (outermost first) around a root
error `r` that is not a `*Chain`, `Chain.Error` returns
`ERROR <r.Error(), or nil> | CONTEXT <contexts joined by " <- "> | TAGS: <tags> |
STACK: <labels package.struct.function joined by " <- ">`, contexts and labels in
call order, whatever the heap of tag maps and the iteration order of maps are. -/
theorem C1_chain_error_format (ord : Order) (h : Heap) (r : GoError)
    (hr : r.isChain = false) (w : Wrap) (ws : List Wrap) :
    (Chain.Error ord (w.around (nest r ws)) h).1 =
      "ERROR " ++ originText r
        ++ " | CONTEXT " ++ " <- ".intercalate ((w :: ws).map Wrap.ctx)
        ++ " | TAGS: "
        ++ Chain.formatTags ord (w.around (nest r ws))
            (Chain.Error ord (w.around (nest r ws)) h).2 w.fn.tags
        ++ " | STACK: " ++ " <- ".intercalate ((w :: ws).map Wrap.label) := by
  rw [Error_nest ord h r hr w ws]

theorem C1_chain_error_format_witness :
    (Chain.Error id
        (Wrap.around ⟨⟨⟨⟨"songs"⟩, "api"⟩, 0, "GetSongs"⟩, "", "unknown error"⟩
          (nest (.other "boom")
            [⟨⟨⟨⟨"songs"⟩, "service"⟩, 1, "getSongs"⟩, "getting songs from db", ""⟩,
             ⟨⟨⟨⟨"songs"⟩, "db"⟩, 2, "get"⟩, "quering songs from table", ""⟩]))
        ⟨fun r => if r = 2 then [("name", "")] else [], 3⟩).1 =
      "ERROR boom | CONTEXT  <- getting songs from db <- quering songs from table"
        ++ " | TAGS: name-> | STACK: songs.api.GetSongs <- songs.service.getSongs <- songs.db.get" :=
  (C1_chain_error_format id ⟨fun r => if r = 2 then [("name", "")] else [], 3⟩ (.other "boom") rfl
    ⟨⟨⟨⟨"songs"⟩, "api"⟩, 0, "GetSongs"⟩, "", "unknown error"⟩
    [⟨⟨⟨⟨"songs"⟩, "service"⟩, 1, "getSongs"⟩, "getting songs from db", ""⟩,
     ⟨⟨⟨⟨"songs"⟩, "db"⟩, 2, "get"⟩, "quering songs from table", ""⟩]).trans (by decide)

end errors

namespace gin

open errors

/-- C2: when the controller returns `(code, payload, err)` with `err` a `*Chain`, the
response made by `adapt` is `code` with body `{"error": External}`; hence two runs
whose controllers return the same code and chains with the same `External` give
the same response, whatever the payloads, root errors, contexts, tags, stack
labels, previous links, heaps and map orders are. -/
theorem C2_adapt_shows_only_external {σ τ : Type} (ord ord' : Order)
    (cr : Controller σ) (cr' : Controller τ) (c c' : Request) (w : World σ) (w' : World τ)
    (e e' : Chain)
    (he : (cr { req := c, ID := "someID" } w).1.2.2 = .ptr e)
    (he' : (cr' { req := c', ID := "someID" } w').1.2.2 = .ptr e')
    (hcode : (cr { req := c, ID := "someID" } w).1.1 = (cr' { req := c', ID := "someID" } w').1.1)
    (hext : e.External = e'.External) :
    (adapt ord cr c w).response
        = .json (cr { req := c, ID := "someID" } w).1.1 (.error e.External)
      ∧ (adapt ord cr c w).response = (adapt ord' cr' c' w').response := by
  have h1 : (adapt ord cr c w).response
      = .json (cr { req := c, ID := "someID" } w).1.1 (.error e.External) := by
    simp only [adapt, he]
  have h2 : (adapt ord' cr' c' w').response
      = .json (cr' { req := c', ID := "someID" } w').1.1 (.error e'.External) := by
    simp only [adapt, he']
  exact ⟨h1, by rw [h1, h2, hcode, hext]⟩

theorem C2_adapt_shows_only_external_witness :
    (adapt id sample.controllerA (sample.request "" default) sample.worldA).response
        = .json 500 (.error "unknown error")
      ∧ (adapt id sample.controllerA (sample.request "" default) sample.worldA).response
        = (adapt List.reverse sample.controllerB (sample.badRequest "n") sample.worldB).response :=
  C2_adapt_shows_only_external id List.reverse sample.controllerA sample.controllerB
    (sample.request "" default) (sample.badRequest "n") sample.worldA sample.worldB
    (Function.unsafeWrap ⟨⟨⟨"songs"⟩, "api"⟩, 0, "GetSongs"⟩
      (.other "dial tcp: connection refused") "ctx" "unknown error")
    (Function.unsafeWrap ⟨⟨⟨"artists"⟩, "api"⟩, 3, "GetArtists"⟩
      (.ptr (Function.unsafeWrap ⟨⟨⟨"artists"⟩, "db"⟩, 4, "get"⟩
        (.other "Error 1064: SQL syntax") "quering" ""))
      "" "unknown error")
    rfl rfl rfl rfl

end gin

namespace errors

theorem isNil_iff (e : GoError) : e.isNil = true ↔ e = .nil := by
  cases e <;> simp [GoError.isNil]

theorem isNil_false_iff (e : GoError) : e.isNil = false ↔ e ≠ .nil := by
  cases e <;> simp [GoError.isNil]

end errors

namespace gin

open errors

theorem externalIs_UK (f : Function) (e : GoError) :
    externalIs (f.UK e) "unknown error" = true := by
  simp [Function.UK, Function.unsafeWrap, externalIs, Chain.External]

theorem externalIs_NotFound (f : Function) :
    externalIs f.NotFound "resource not found" = true := by
  simp [Function.NotFound, Function.unsafeWrap, externalIs, Chain.External]

theorem externalIs_JSON (f : Function) (e : GoError) (ctx : String) :
    externalIs (f.JSON e ctx) "invalid json" = true := by
  simp [Function.JSON, Function.unsafeWrap, externalIs, Chain.External]

theorem externalIs_DB (f : Function) (e : GoError) :
    externalIs (f.DB e) "problem in database" = true := by
  simp [Function.DB, Function.unsafeWrap, externalIs, Chain.External]

theorem UK_ne_nil (f : Function) (e : GoError) : f.UK e ≠ .nil := by
  simp [Function.UK]

theorem NotFound_ne_nil (f : Function) : f.NotFound ≠ .nil := by
  simp [Function.NotFound]

theorem JSON_ne_nil (f : Function) (e : GoError) (ctx : String) : f.JSON e ctx ≠ .nil := by
  simp [Function.JSON]

theorem DB_ne_nil (f : Function) (e : GoError) : f.DB e ≠ .nil := by
  simp [Function.DB]

theorem externalIs_nil (x : String) : externalIs .nil x = false := rfl

theorem taxonomy_GetSongs {σ : Type} (a : songs.API σ) (c : Context) (w : World σ) :
    taxonomy
      { bindFailed := false,
        serviceError := !(a.s.getSongs (w.afterFn a.err "GetSongs")).1.2.isNil,
        notFound := false, invalid := false }
      (a.GetSongs c w).1.1 (a.GetSongs c w).1.2.2 := by
  simp only [songs.API.GetSongs, World.afterFn, taxonomy]
  cases h : (a.s.getSongs (w.Fn a.err "GetSongs").2).1.2.isNil <;>
    simp [externalIs_UK, UK_ne_nil, externalIs_nil]

theorem taxonomy_GetSongByName {σ : Type} (a : songs.API σ) (c : Context) (w : World σ) :
    taxonomy
      { bindFailed := false,
        serviceError :=
          !(a.s.getSongByName (c.Param "name")
              (w.afterFnTag a.err "GetSongByName" (c.Param "name"))).1.2.2.isNil,
        notFound :=
          !(a.s.getSongByName (c.Param "name")
              (w.afterFnTag a.err "GetSongByName" (c.Param "name"))).1.2.1,
        invalid := false }
      (a.GetSongByName c w).1.1 (a.GetSongByName c w).1.2.2 := by
  simp only [songs.API.GetSongByName, World.afterFnTag, taxonomy]
  cases h : (a.s.getSongByName (c.Param "name")
      ((w.Fn a.err "GetSongByName").2.Tag (w.Fn a.err "GetSongByName").1 "name"
        (c.Param "name")).2).1.2.2.isNil <;>
  cases h' : (a.s.getSongByName (c.Param "name")
      ((w.Fn a.err "GetSongByName").2.Tag (w.Fn a.err "GetSongByName").1 "name"
        (c.Param "name")).2).1.2.1 <;>
    simp [externalIs_UK, UK_ne_nil, externalIs_nil, externalIs_NotFound, NotFound_ne_nil]

theorem taxonomy_CreateSong {σ : Type} (a : songs.API σ) (c : Context) (w : World σ) :
    taxonomy
      { bindFailed := !c.req.BindJSONSong.1.isNil,
        serviceError :=
          !(a.s.saveSong c.req.BindJSONSong.2 (w.afterFn a.err "CreateSong")).1.2.isNil,
        notFound := false,
        invalid := (a.s.saveSong c.req.BindJSONSong.2 (w.afterFn a.err "CreateSong")).1.1 }
      (a.CreateSong c w).1.1 (a.CreateSong c w).1.2.2 := by
  simp only [songs.API.CreateSong, World.afterFn, taxonomy]
  cases hb : c.req.BindJSONSong.1.isNil <;>
  cases h : (a.s.saveSong c.req.BindJSONSong.2 (w.Fn a.err "CreateSong").2).1.2.isNil <;>
  cases h' : (a.s.saveSong c.req.BindJSONSong.2 (w.Fn a.err "CreateSong").2).1.1 <;>
    simp [externalIs_UK, UK_ne_nil, externalIs_nil, externalIs_JSON, JSON_ne_nil,
      externalIs_DB, DB_ne_nil]

theorem taxonomy_UpdateSong {σ : Type} (a : songs.API σ) (c : Context) (w : World σ) :
    taxonomy
      { bindFailed := !c.req.BindJSONSong.1.isNil,
        serviceError :=
          !(a.s.saveSong c.req.BindJSONSong.2 (w.afterFn a.err "UpdateSong")).1.2.isNil,
        notFound := false,
        invalid := (a.s.saveSong c.req.BindJSONSong.2 (w.afterFn a.err "UpdateSong")).1.1 }
      (a.UpdateSong c w).1.1 (a.UpdateSong c w).1.2.2 := by
  simp only [songs.API.UpdateSong, World.afterFn, taxonomy]
  cases hb : c.req.BindJSONSong.1.isNil <;>
  cases h : (a.s.saveSong c.req.BindJSONSong.2 (w.Fn a.err "UpdateSong").2).1.2.isNil <;>
  cases h' : (a.s.saveSong c.req.BindJSONSong.2 (w.Fn a.err "UpdateSong").2).1.1 <;>
    simp [externalIs_UK, UK_ne_nil, externalIs_nil, externalIs_JSON, JSON_ne_nil,
      externalIs_DB, DB_ne_nil]

theorem taxonomy_DeleteSong {σ : Type} (a : songs.API σ) (c : Context) (w : World σ) :
    taxonomy
      { bindFailed := false,
        serviceError :=
          !(a.s.deleteSong (c.Param "name")
              (w.afterFnTag a.err "DeleteSong" (c.Param "name"))).1.2.isNil,
        notFound := false,
        invalid :=
          (a.s.deleteSong (c.Param "name")
              (w.afterFnTag a.err "DeleteSong" (c.Param "name"))).1.1 }
      (a.DeleteSong c w).1.1 (a.DeleteSong c w).1.2.2 := by
  simp only [songs.API.DeleteSong, World.afterFnTag, taxonomy]
  cases h : (a.s.deleteSong (c.Param "name")
      ((w.Fn a.err "DeleteSong").2.Tag (w.Fn a.err "DeleteSong").1 "name"
        (c.Param "name")).2).1.2.isNil <;>
  cases h' : (a.s.deleteSong (c.Param "name")
      ((w.Fn a.err "DeleteSong").2.Tag (w.Fn a.err "DeleteSong").1 "name"
        (c.Param "name")).2).1.1 <;>
    simp [externalIs_UK, UK_ne_nil, externalIs_nil, externalIs_DB, DB_ne_nil]

theorem taxonomy_GetArtists {σ : Type} (a : artists.API σ) (c : Context) (w : World σ) :
    taxonomy
      { bindFailed := false,
        serviceError := !(a.s.getArtists (w.afterFn a.err "GetArtists")).1.2.isNil,
        notFound := false, invalid := false }
      (a.GetArtists c w).1.1 (a.GetArtists c w).1.2.2 := by
  simp only [artists.API.GetArtists, World.afterFn, taxonomy]
  cases h : (a.s.getArtists (w.Fn a.err "GetArtists").2).1.2.isNil <;>
    simp [externalIs_UK, UK_ne_nil, externalIs_nil]

theorem taxonomy_GetArtistByName {σ : Type} (a : artists.API σ) (c : Context) (w : World σ) :
    taxonomy
      { bindFailed := false,
        serviceError :=
          !(a.s.getArtistByName (c.Param "name")
              (w.afterFnTag a.err "GetArtistByName" (c.Param "name"))).1.2.2.isNil,
        notFound :=
          !(a.s.getArtistByName (c.Param "name")
              (w.afterFnTag a.err "GetArtistByName" (c.Param "name"))).1.2.1,
        invalid := false }
      (a.GetArtistByName c w).1.1 (a.GetArtistByName c w).1.2.2 := by
  simp only [artists.API.GetArtistByName, World.afterFnTag, taxonomy]
  cases h : (a.s.getArtistByName (c.Param "name")
      ((w.Fn a.err "GetArtistByName").2.Tag (w.Fn a.err "GetArtistByName").1 "name"
        (c.Param "name")).2).1.2.2.isNil <;>
  cases h' : (a.s.getArtistByName (c.Param "name")
      ((w.Fn a.err "GetArtistByName").2.Tag (w.Fn a.err "GetArtistByName").1 "name"
        (c.Param "name")).2).1.2.1 <;>
    simp [externalIs_UK, UK_ne_nil, externalIs_nil, externalIs_NotFound, NotFound_ne_nil]

theorem taxonomy_CreateArtist {σ : Type} (a : artists.API σ) (c : Context) (w : World σ) :
    taxonomy
      { bindFailed := !c.req.BindJSONArtist.1.isNil,
        serviceError :=
          !(a.s.saveArtist c.req.BindJSONArtist.2 (w.afterFn a.err "CreateArtist")).1.2.isNil,
        notFound := false,
        invalid := (a.s.saveArtist c.req.BindJSONArtist.2 (w.afterFn a.err "CreateArtist")).1.1 }
      (a.CreateArtist c w).1.1 (a.CreateArtist c w).1.2.2 := by
  simp only [artists.API.CreateArtist, World.afterFn, taxonomy]
  cases hb : c.req.BindJSONArtist.1.isNil <;>
  cases h : (a.s.saveArtist c.req.BindJSONArtist.2 (w.Fn a.err "CreateArtist").2).1.2.isNil <;>
  cases h' : (a.s.saveArtist c.req.BindJSONArtist.2 (w.Fn a.err "CreateArtist").2).1.1 <;>
    simp [externalIs_UK, UK_ne_nil, externalIs_nil, externalIs_JSON, JSON_ne_nil,
      externalIs_DB, DB_ne_nil]

theorem taxonomy_DeleteArtist {σ : Type} (a : artists.API σ) (c : Context) (w : World σ) :
    taxonomy
      { bindFailed := false,
        serviceError :=
          !(a.s.deleteArtist (c.Param "name")
              (w.afterFnTag a.err "DeleteArtist" (c.Param "name"))).1.2.isNil,
        notFound := false,
        invalid :=
          (a.s.deleteArtist (c.Param "name")
              (w.afterFnTag a.err "DeleteArtist" (c.Param "name"))).1.1 }
      (a.DeleteArtist c w).1.1 (a.DeleteArtist c w).1.2.2 := by
  simp only [artists.API.DeleteArtist, World.afterFnTag, taxonomy]
  cases h : (a.s.deleteArtist (c.Param "name")
      ((w.Fn a.err "DeleteArtist").2.Tag (w.Fn a.err "DeleteArtist").1 "name"
        (c.Param "name")).2).1.2.isNil <;>
  cases h' : (a.s.deleteArtist (c.Param "name")
      ((w.Fn a.err "DeleteArtist").2.Tag (w.Fn a.err "DeleteArtist").1 "name"
        (c.Param "name")).2).1.1 <;>
    simp [externalIs_UK, UK_ne_nil, externalIs_nil, externalIs_DB, DB_ne_nil]

end gin

namespace gin

open errors

/-- C3: every handler of the songs and artists APIs, over every persistor, request
and world, follows the error taxonomy: the error is nil exactly for status 200 or
201; a failed bind gives 400 "invalid json"; otherwise a non-nil service error
gives 500 "unknown error"; otherwise a lookup that found nothing gives 404
"resource not found" and a raised invalid flag gives 400 "problem in database";
no other pair of status and external text is returned. -/
theorem C3_handlers_follow_taxonomy {σ τ : Type} (a : songs.API σ) (b : artists.API τ)
    (c : Context) (w : World σ) (v : World τ) :
    taxonomy
        { bindFailed := false,
          serviceError := !(a.s.getSongs (w.afterFn a.err "GetSongs")).1.2.isNil,
          notFound := false, invalid := false }
        (a.GetSongs c w).1.1 (a.GetSongs c w).1.2.2
    ∧ taxonomy
        { bindFailed := false,
          serviceError :=
            !(a.s.getSongByName (c.Param "name")
                (w.afterFnTag a.err "GetSongByName" (c.Param "name"))).1.2.2.isNil,
          notFound :=
            !(a.s.getSongByName (c.Param "name")
                (w.afterFnTag a.err "GetSongByName" (c.Param "name"))).1.2.1,
          invalid := false }
        (a.GetSongByName c w).1.1 (a.GetSongByName c w).1.2.2
    ∧ taxonomy
        { bindFailed := !c.req.BindJSONSong.1.isNil,
          serviceError :=
            !(a.s.saveSong c.req.BindJSONSong.2 (w.afterFn a.err "CreateSong")).1.2.isNil,
          notFound := false,
          invalid := (a.s.saveSong c.req.BindJSONSong.2 (w.afterFn a.err "CreateSong")).1.1 }
        (a.CreateSong c w).1.1 (a.CreateSong c w).1.2.2
    ∧ taxonomy
        { bindFailed := !c.req.BindJSONSong.1.isNil,
          serviceError :=
            !(a.s.saveSong c.req.BindJSONSong.2 (w.afterFn a.err "UpdateSong")).1.2.isNil,
          notFound := false,
          invalid := (a.s.saveSong c.req.BindJSONSong.2 (w.afterFn a.err "UpdateSong")).1.1 }
        (a.UpdateSong c w).1.1 (a.UpdateSong c w).1.2.2
    ∧ taxonomy
        { bindFailed := false,
          serviceError :=
            !(a.s.deleteSong (c.Param "name")
                (w.afterFnTag a.err "DeleteSong" (c.Param "name"))).1.2.isNil,
          notFound := false,
          invalid :=
            (a.s.deleteSong (c.Param "name")
                (w.afterFnTag a.err "DeleteSong" (c.Param "name"))).1.1 }
        (a.DeleteSong c w).1.1 (a.DeleteSong c w).1.2.2
    ∧ taxonomy
        { bindFailed := false,
          serviceError := !(b.s.getArtists (v.afterFn b.err "GetArtists")).1.2.isNil,
          notFound := false, invalid := false }
        (b.GetArtists c v).1.1 (b.GetArtists c v).1.2.2
    ∧ taxonomy
        { bindFailed := false,
          serviceError :=
            !(b.s.getArtistByName (c.Param "name")
                (v.afterFnTag b.err "GetArtistByName" (c.Param "name"))).1.2.2.isNil,
          notFound :=
            !(b.s.getArtistByName (c.Param "name")
                (v.afterFnTag b.err "GetArtistByName" (c.Param "name"))).1.2.1,
          invalid := false }
        (b.GetArtistByName c v).1.1 (b.GetArtistByName c v).1.2.2
    ∧ taxonomy
        { bindFailed := !c.req.BindJSONArtist.1.isNil,
          serviceError :=
            !(b.s.saveArtist c.req.BindJSONArtist.2 (v.afterFn b.err "CreateArtist")).1.2.isNil,
          notFound := false,
          invalid :=
            (b.s.saveArtist c.req.BindJSONArtist.2 (v.afterFn b.err "CreateArtist")).1.1 }
        (b.CreateArtist c v).1.1 (b.CreateArtist c v).1.2.2
    ∧ taxonomy
        { bindFailed := false,
          serviceError :=
            !(b.s.deleteArtist (c.Param "name")
                (v.afterFnTag b.err "DeleteArtist" (c.Param "name"))).1.2.isNil,
          notFound := false,
          invalid :=
            (b.s.deleteArtist (c.Param "name")
                (v.afterFnTag b.err "DeleteArtist" (c.Param "name"))).1.1 }
        (b.DeleteArtist c v).1.1 (b.DeleteArtist c v).1.2.2 :=
  ⟨taxonomy_GetSongs a c w, taxonomy_GetSongByName a c w, taxonomy_CreateSong a c w,
   taxonomy_UpdateSong a c w, taxonomy_DeleteSong a c w, taxonomy_GetArtists b c v,
   taxonomy_GetArtistByName b c v, taxonomy_CreateArtist b c v, taxonomy_DeleteArtist b c v⟩

end gin

theorem World.Tag_fst {σ : Type} (w : World σ) (f : errors.Function) (t v : String) :
    (w.Tag f t v).1 = f := rfl

theorem World.Tag_store {σ : Type} (w : World σ) (f : errors.Function) (t v : String) :
    (w.Tag f t v).2.store = w.store := rfl

theorem World.Fn_store {σ : Type} (w : World σ) (s : errors.Struct) (fn : String) :
    (w.Fn s fn).2.store = w.store := rfl

theorem World.Fn_fst {σ : Type} (w : World σ) (s : errors.Struct) (fn : String) :
    (w.Fn s fn).1 = { strct := s, tags := w.heap.next, name := fn } := rfl

namespace songs

open errors gin

theorem GetSongByName_of_rows {σ : Type} (a : API σ) (c : Context) (w : World σ)
    (hget : (a.lookup c w).1.2 = .nil) :
    ((a.lookup c w).1.1.length ≠ 1 →
        (a.GetSongByName c w).1 = (404, .nil, (w.Fn a.err "GetSongByName").1.NotFound))
      ∧ (∀ row, (a.lookup c w).1.1 = [row] → (a.GetSongByName c w).1 = (200, .song row, .nil))
      ∧ (a.GetSongByName c w).1.1 ≠ 500 := by
  have h1 : (a.lookup c w).1.1.length ≠ 1 →
      (a.GetSongByName c w).1 = (404, .nil, (w.Fn a.err "GetSongByName").1.NotFound) := by
    simp only [API.lookup, World.afterFnTag] at hget ⊢
    intro hlen
    simp [API.GetSongByName, Service.getSongByName, hget, hlen, GoError.isNil, World.Tag_fst]
  have h2 : ∀ row, (a.lookup c w).1.1 = [row] → (a.GetSongByName c w).1 = (200, .song row, .nil) := by
    simp only [API.lookup, World.afterFnTag] at hget ⊢
    intro row hrow
    simp [API.GetSongByName, Service.getSongByName, hget, hrow, GoError.isNil]
  refine ⟨h1, h2, ?_⟩
  by_cases hlen : (a.lookup c w).1.1.length = 1
  · obtain ⟨row, hrow⟩ := List.length_eq_one.mp hlen
    rw [h2 row hrow]
    simp
  · rw [h1 hlen]
    simp

end songs

namespace artists

open errors gin

theorem GetArtistByName_of_rows {σ : Type} (a : API σ) (c : Context) (w : World σ)
    (hget : (a.lookup c w).1.2 = .nil) :
    ((a.lookup c w).1.1.length ≠ 1 →
        (a.GetArtistByName c w).1 = (404, .nil, (w.Fn a.err "GetArtistByName").1.NotFound))
      ∧ (∀ row, (a.lookup c w).1.1 = [row] →
          (a.GetArtistByName c w).1 = (200, .artist row, .nil))
      ∧ (a.GetArtistByName c w).1.1 ≠ 500 := by
  have h1 : (a.lookup c w).1.1.length ≠ 1 →
      (a.GetArtistByName c w).1 = (404, .nil, (w.Fn a.err "GetArtistByName").1.NotFound) := by
    simp only [API.lookup, World.afterFnTag] at hget ⊢
    intro hlen
    simp [API.GetArtistByName, Service.getArtistByName, hget, hlen, GoError.isNil, World.Tag_fst]
  have h2 : ∀ row, (a.lookup c w).1.1 = [row] → (a.GetArtistByName c w).1 = (200, .artist row, .nil) := by
    simp only [API.lookup, World.afterFnTag] at hget ⊢
    intro row hrow
    simp [API.GetArtistByName, Service.getArtistByName, hget, hrow, GoError.isNil]
  refine ⟨h1, h2, ?_⟩
  by_cases hlen : (a.lookup c w).1.1.length = 1
  · obtain ⟨row, hrow⟩ := List.length_eq_one.mp hlen
    rw [h2 row hrow]
    simp
  · rw [h1 hlen]
    simp

end artists

/-- C4: when `db.get` answers the lookup of `GetSongByName` or `GetArtistByName` with rows
and no error, the handler returns 404, a nil payload and the NotFound error of its
own function if the number of rows is not one (zero or more than one), and 200
with that row and a nil error if there is exactly one row; the status is never
500. -/
theorem C4_get_by_name_rows {σ τ : Type} (a : songs.API σ) (b : artists.API τ)
    (c : gin.Context) (w : World σ) (v : World τ)
    (hsongs : (a.lookup c w).1.2 = .nil) (hartists : (b.lookup c v).1.2 = .nil) :
    (((a.lookup c w).1.1.length ≠ 1 →
        (a.GetSongByName c w).1 = (404, .nil, (w.Fn a.err "GetSongByName").1.NotFound))
      ∧ (∀ row, (a.lookup c w).1.1 = [row] →
          (a.GetSongByName c w).1 = (200, .song row, .nil))
      ∧ (a.GetSongByName c w).1.1 ≠ 500)
    ∧ (((b.lookup c v).1.1.length ≠ 1 →
        (b.GetArtistByName c v).1 = (404, .nil, (v.Fn b.err "GetArtistByName").1.NotFound))
      ∧ (∀ row, (b.lookup c v).1.1 = [row] →
          (b.GetArtistByName c v).1 = (200, .artist row, .nil))
      ∧ (b.GetArtistByName c v).1.1 ≠ 500) :=
  ⟨songs.GetSongByName_of_rows a c w hsongs, artists.GetArtistByName_of_rows b c v hartists⟩

theorem C4_get_by_name_rows_witness :
    ((sample.songsOver (sample.songsAnswering sample.twoSongs)).GetSongByName
        (sample.context (sample.request "Imagine" default)) sample.world0).1.1 = 404
    ∧ ((sample.artistsOver (sample.artistsAnswering sample.oneArtist)).GetArtistByName
        (sample.context (sample.request "Lennon" default)) sample.world0).1
      = (200, .artist { Id := 4, Name := "Lennon" }, .nil) :=
  ⟨congrArg Prod.fst
    ((C4_get_by_name_rows (sample.songsOver (sample.songsAnswering sample.twoSongs))
      (sample.artistsOver (sample.artistsAnswering sample.oneArtist))
      (sample.context (sample.request "Imagine" default)) sample.world0 sample.world0
      rfl rfl).1.1 (by decide)),
   (C4_get_by_name_rows (sample.songsOver (sample.songsAnswering sample.twoSongs))
      (sample.artistsOver (sample.artistsAnswering sample.oneArtist))
      (sample.context (sample.request "Lennon" default)) sample.world0 sample.world0
      rfl rfl).2.2.1 _ rfl⟩

namespace songs

open errors persist gin

/-! ### What each method of the `db` adapter sends -/

theorem db_get_log {σ : Type} (q : Querier σ) (err : Struct) (name : String)
    (w : World (σ × List Stmt)) :
    ((db.mk (traced q) err).get name w).2.store.2 = w.store.2 ++ [selectStmt name] := by
  simp only [db.get, selectStmt]
  by_cases hn : name = "" <;> simp [hn, traced, World.Tag_store, World.Fn_store] <;>
    split <;> simp [World.Tag_store, World.Fn_store]

theorem db_create_log {σ : Type} (q : Querier σ) (err : Struct) (i : api.Song)
    (w : World (σ × List Stmt)) :
    ((db.mk (traced q) err).create i w).2.store.2 = w.store.2 ++ [insertStmt i] := by
  simp only [db.create, insertStmt]
  split <;> simp [traced, World.Fn_store]

theorem db_update_log {σ : Type} (q : Querier σ) (err : Struct) (i : api.Song)
    (w : World (σ × List Stmt)) :
    ((db.mk (traced q) err).update i w).2.store.2 = w.store.2 ++ [updateStmt i] := by
  simp only [db.update, updateStmt]
  split <;> simp [traced, World.Fn_store]

theorem db_delete_log {σ : Type} (q : Querier σ) (err : Struct) (name : String)
    (w : World (σ × List Stmt)) :
    ((db.mk (traced q) err).delete name w).2.store.2 = w.store.2 ++ [deleteStmt name] := by
  simp only [db.delete, deleteStmt]
  split <;> simp [traced, World.Fn_store]

end songs

namespace songs

open errors persist gin

theorem getSongByName_snd {σ : Type} (s : Service σ) (name : String) (w : World σ) :
    (s.getSongByName name w).2
      = (s.db.get name (w.afterFnTag s.err "getSongByName" name)).2 := by
  simp only [Service.getSongByName, World.afterFnTag]
  split
  · rfl
  · split <;> rfl

theorem getSongByName_log {σ : Type} (q : Querier σ) (name : String)
    (w : World (σ × List Stmt)) :
    ((New (traced q)).1.getSongByName name w).2.store.2 = w.store.2 ++ [selectStmt name] := by
  rw [getSongByName_snd]
  simp only [New, db.persistor, World.afterFnTag]
  rw [db_get_log]
  rfl

theorem saveSong_snd {σ : Type} (s : Service σ) (i : api.Song) (w : World σ) :
    (s.saveSong i w).2
      = if !(s.getSongByName i.Name (w.afterFn s.err "saveSong")).1.2.2.isNil then
          (s.getSongByName i.Name (w.afterFn s.err "saveSong")).2
        else if (s.getSongByName i.Name (w.afterFn s.err "saveSong")).1.2.1 then
          (s.db.update i (s.getSongByName i.Name (w.afterFn s.err "saveSong")).2).2
        else (s.db.create i (s.getSongByName i.Name (w.afterFn s.err "saveSong")).2).2 := by
  simp only [Service.saveSong, World.afterFn]
  generalize s.getSongByName i.Name (w.Fn s.err "saveSong").2 = g
  cases h1 : g.1.2.2.isNil
  · simp
  · cases h2 : g.1.2.1
    · simp only [Bool.not_true, Bool.false_eq_true, if_false]
      split
      · rfl
      · split <;> rfl
    · simp only [Bool.not_true, Bool.false_eq_true, if_false, if_true]
      split
      · rfl
      · split <;> rfl

theorem saveSong_log {σ : Type} (q : Querier σ) (i : api.Song) (w : World (σ × List Stmt)) :
    ((New (traced q)).1.saveSong i w).2.store.2
      = w.store.2 ++ selectStmt i.Name ::
          (if !((New (traced q)).1.getSongByName i.Name
                  (w.afterFn (New (traced q)).1.err "saveSong")).1.2.2.isNil then []
           else if ((New (traced q)).1.getSongByName i.Name
                  (w.afterFn (New (traced q)).1.err "saveSong")).1.2.1 then [updateStmt i]
           else [insertStmt i]) := by
  rw [saveSong_snd]
  have hg := getSongByName_log q i.Name (w.afterFn (New (traced q)).1.err "saveSong")
  have hc := db_create_log q ((Pkg "songs").Struct "db") i
    ((New (traced q)).1.getSongByName i.Name (w.afterFn (New (traced q)).1.err "saveSong")).2
  have hu := db_update_log q ((Pkg "songs").Struct "db") i
    ((New (traced q)).1.getSongByName i.Name (w.afterFn (New (traced q)).1.err "saveSong")).2
  have hw : (w.afterFn (New (traced q)).1.err "saveSong").store = w.store := rfl
  rw [hw] at hg
  split
  · simp [hg]
  · split
    · show ((db.mk (traced q) ((Pkg "songs").Struct "db")).update i _).2.store.2 = _
      simp [hu, hg]
    · show ((db.mk (traced q) ((Pkg "songs").Struct "db")).create i _).2.store.2 = _
      simp [hc, hg]

end songs
namespace songs

open errors persist gin

/-! ### The adapter over the table model -/

theorem scanRows_songRows (e : Function) :
    ∀ (l : api.Songs) (acc : api.Songs) (fuel : Nat) (cur : Option (List Value)),
      l.length < fuel →
      db.scanRows e fuel { cur := cur, rest := l.map store.songRow, closed := false } acc
        = ((acc ++ l, .nil), { cur := none, rest := [], closed := true }) := by
  intro l
  induction l with
  | nil =>
    intro acc fuel cur hf
    cases fuel with
    | zero => simp at hf
    | succ n => simp [db.scanRows, Rows.Next, Rows.sqlNext, Rows.Close]
  | cons x xs ih =>
    intro acc fuel cur hf
    cases fuel with
    | zero => simp at hf
    | succ n =>
      have hn : xs.length < n := by simpa using hf
      have := ih (acc ++ [x]) n (some (store.songRow x)) hn
      simp [db.scanRows, Rows.Next, Rows.sqlNext, Rows.Scan, Rows.sqlScan, store.songRow,
        scanSong, GoError.isNil] at this ⊢
      exact this

theorem tables_get (err : Struct) (name : String) (w : World store.Tables) :
    ((db.mk store.tables err).get name w).1
        = (if name ≠ "" then (w.store.Songs.filter (fun s => s.Name = name)).take 1
           else w.store.Songs, .nil)
      ∧ ((db.mk store.tables err).get name w).2.store = w.store := by
  by_cases hn : name = ""
  · subst hn
    simp [db.get, store.tables, store.Query, World.Tag_store, World.Fn_store, GoError.isNil,
      Rows.over, scanRows_songRows]
  · have hq : "SELECT id, name, duration, artist_id FROM Songs " ++ "WHERE name = ? LIMIT 1"
        = "SELECT id, name, duration, artist_id FROM Songs WHERE name = ? LIMIT 1" := by decide
    simp [db.get, store.tables, store.Query, World.Tag_store, World.Fn_store, GoError.isNil,
      Rows.over, scanRows_songRows, hn, hq, -List.map_take]

end songs
namespace songs

open errors persist gin

theorem tables_update (err : Struct) (i : api.Song) (w : World store.Tables) :
    ((db.mk store.tables err).update i w).2.store
      = { w.store with
          Songs := w.store.Songs.map (fun s =>
            if s.Name = i.Name then { s with Duration := i.Duration, ArtistId := i.ArtistId }
            else s) } := by
  simp [db.update, store.tables, store.Exec, World.Fn_store, GoError.isNil]

theorem tables_create (err : Struct) (i : api.Song) (w : World store.Tables) :
    ((db.mk store.tables err).create i w).2.store
      = { w.store with
          Songs := w.store.Songs ++
            [{ Id := w.store.nextSongId, Name := i.Name, Duration := i.Duration,
               ArtistId := i.ArtistId }],
          nextSongId := w.store.nextSongId + 1 } := by
  simp [db.create, store.tables, store.Exec, World.Fn_store, GoError.isNil]

theorem tables_delete (err : Struct) (name : String) (w : World store.Tables) :
    ((db.mk store.tables err).delete name w).1 = (true, .nil)
      ∧ ((db.mk store.tables err).delete name w).2.store
        = { w.store with Songs := w.store.Songs.filter (fun s => s.Name ≠ name) } := by
  simp [db.delete, store.tables, store.Exec, World.Fn_store, GoError.isNil]

theorem getSongByName_fst {σ : Type} (s : Service σ) (name : String) (w : World σ) :
    (s.getSongByName name w).1
      = if !(s.db.get name (w.afterFnTag s.err "getSongByName" name)).1.2.isNil then
          ({ Id := 0, Name := "", Duration := "", ArtistId := 0 }, false,
            (w.Fn s.err "getSongByName").1.Wrap
              (s.db.get name (w.afterFnTag s.err "getSongByName" name)).1.2
              "getting contract from db")
        else if (s.db.get name (w.afterFnTag s.err "getSongByName" name)).1.1.length ≠ 1 then
          ({ Id := 0, Name := "", Duration := "", ArtistId := 0 }, false, .nil)
        else
          ((s.db.get name (w.afterFnTag s.err "getSongByName" name)).1.1.getD 0
            { Id := 0, Name := "", Duration := "", ArtistId := 0 }, true, .nil) := by
  simp only [Service.getSongByName, World.afterFnTag, World.Tag_fst]
  split
  · rfl
  · split <;> rfl

theorem tables_getSongByName (name : String) (w : World store.Tables) :
    ((New store.tables).1.getSongByName name w).1.2.2 = .nil
      ∧ ((New store.tables).1.getSongByName name w).1.2.1
          = decide ((store.lookupSongs w.store name).length = 1)
      ∧ ((New store.tables).1.getSongByName name w).1.1
          = (if (store.lookupSongs w.store name).length = 1 then
              (store.lookupSongs w.store name).getD 0
                { Id := 0, Name := "", Duration := "", ArtistId := 0 }
             else { Id := 0, Name := "", Duration := "", ArtistId := 0 })
      ∧ ((New store.tables).1.getSongByName name w).2.store = w.store := by
  have hg := tables_get ((Pkg "songs").Struct "db") name
    (w.afterFnTag ((Pkg "songs").Struct "service") "getSongByName" name)
  have hs : (w.afterFnTag ((Pkg "songs").Struct "service") "getSongByName" name).store
      = w.store := rfl
  rw [hs] at hg
  obtain ⟨h1, h2⟩ := hg
  have e1 : ((New store.tables).1.db.get name
      (w.afterFnTag (New store.tables).1.err "getSongByName" name)).1.2 = .nil := by
    exact congrArg Prod.snd h1
  have e2 : ((New store.tables).1.db.get name
      (w.afterFnTag (New store.tables).1.err "getSongByName" name)).1.1
        = store.lookupSongs w.store name := by
    exact congrArg Prod.fst h1
  refine ⟨?_, ?_, ?_, ?_⟩
  · rw [getSongByName_fst, e1, e2]
    by_cases hl : (store.lookupSongs w.store name).length = 1 <;> simp [GoError.isNil, hl]
  · rw [getSongByName_fst, e1, e2]
    by_cases hl : (store.lookupSongs w.store name).length = 1 <;> simp [GoError.isNil, hl]
  · rw [getSongByName_fst, e1, e2]
    by_cases hl : (store.lookupSongs w.store name).length = 1 <;> simp [GoError.isNil, hl]
  · rw [getSongByName_snd]
    exact h2

theorem tables_saveSong_store (i : api.Song) (w : World store.Tables) :
    ((New store.tables).1.saveSong i w).2.store
      = if ((New store.tables).1.getSongByName i.Name
            (w.afterFn (New store.tables).1.err "saveSong")).1.2.1 then
          { w.store with
            Songs := w.store.Songs.map (fun s =>
              if s.Name = i.Name then { s with Duration := i.Duration, ArtistId := i.ArtistId }
              else s) }
        else
          { w.store with
            Songs := w.store.Songs ++
              [{ Id := w.store.nextSongId, Name := i.Name, Duration := i.Duration,
                 ArtistId := i.ArtistId }],
            nextSongId := w.store.nextSongId + 1 } := by
  rw [saveSong_snd]
  obtain ⟨h1, -, -, h4⟩ := tables_getSongByName i.Name
    (w.afterFn (New store.tables).1.err "saveSong")
  have hs : (w.afterFn (New store.tables).1.err "saveSong").store = w.store := rfl
  rw [hs] at h4
  rw [h1]
  simp only [GoError.isNil, Bool.not_true, Bool.false_eq_true, if_false]
  split
  · show ((db.mk store.tables ((Pkg "songs").Struct "db")).update i _).2.store = _
    rw [tables_update, h4]
  · show ((db.mk store.tables ((Pkg "songs").Struct "db")).create i _).2.store = _
    rw [tables_create, h4]

theorem saveSong_ignores_Id {σ : Type} (q : Querier σ) (i : api.Song) (id : Int)
    (w : World σ) :
    (New q).1.saveSong { i with Id := id } w = (New q).1.saveSong i w := rfl

end songs
namespace songs

open errors persist gin

/-- C5: `saveSong` looks the name up first and then sends exactly one statement: over
every store the statements it adds to the record are the SELECT for `i.Name`,
followed by nothing if the lookup failed, by the one UPDATE binding
`(Duration, ArtistId, Name)` if the lookup found a row, and by the one INSERT
binding `(Name, Duration, ArtistId)` otherwise.  On the table model the update
rewrites only the duration and artist of the rows named `i.Name`, so the ids and
names of the stored rows are kept, and the insert adds one row with those three
fields.  The result does not depend on `i.Id`. -/
theorem C5_saveSong_upsert {σ : Type} (q : Querier σ) (i : api.Song) (id : Int)
    (w : World (σ × List Stmt)) (u : World σ) (t : World store.Tables) :
    ((New (traced q)).1.saveSong i w).2.store.2
        = w.store.2 ++ selectStmt i.Name ::
            (if !((New (traced q)).1.getSongByName i.Name
                    (w.afterFn (New (traced q)).1.err "saveSong")).1.2.2.isNil then []
             else if ((New (traced q)).1.getSongByName i.Name
                    (w.afterFn (New (traced q)).1.err "saveSong")).1.2.1 then [updateStmt i]
             else [insertStmt i])
    ∧ ((New store.tables).1.saveSong i t).2.store
        = (if ((New store.tables).1.getSongByName i.Name
              (t.afterFn (New store.tables).1.err "saveSong")).1.2.1 then
            { t.store with
              Songs := t.store.Songs.map (fun s =>
                if s.Name = i.Name then { s with Duration := i.Duration, ArtistId := i.ArtistId }
                else s) }
          else
            { t.store with
              Songs := t.store.Songs ++
                [{ Id := t.store.nextSongId, Name := i.Name, Duration := i.Duration,
                   ArtistId := i.ArtistId }],
              nextSongId := t.store.nextSongId + 1 })
    ∧ ((New store.tables).1.saveSong i t).2.store.Songs.map (fun s => (s.Id, s.Name))
        = t.store.Songs.map (fun s => (s.Id, s.Name)) ++
            (if ((New store.tables).1.getSongByName i.Name
                (t.afterFn (New store.tables).1.err "saveSong")).1.2.1 then []
             else [(t.store.nextSongId, i.Name)])
    ∧ (New q).1.saveSong { i with Id := id } u = (New q).1.saveSong i u := by
  refine ⟨saveSong_log q i w, tables_saveSong_store i t, ?_, saveSong_ignores_Id q i id u⟩
  rw [tables_saveSong_store]
  split
  · simp only [List.map_map, List.append_nil]
    apply List.map_congr_left
    intro s _
    simp only [Function.comp]
    split <;> simp_all
  · simp

end songs

namespace artists

open errors persist gin

theorem db_create_log_artists {σ : Type} (q : Querier σ) (err : Struct) (i : api.Artist)
    (w : World (σ × List Stmt)) :
    ((db.mk (traced q) err).create i w).2.store.2 = w.store.2 ++ [insertStmt i] := by
  simp only [db.create, insertStmt]
  split <;> simp [traced, World.Fn_store]

theorem saveArtist_snd {σ : Type} (s : Service σ) (i : api.Artist) (w : World σ) :
    (s.saveArtist i w).2 = (s.db.create i (w.afterFn s.err "saveArtist")).2 := by
  simp only [Service.saveArtist, World.afterFn]
  split
  · rfl
  · split <;> rfl

theorem CreateArtist_snd {σ : Type} (a : API σ) (c : Context) (w : World σ)
    (hb : c.req.BindJSONArtist.1 = .nil) :
    (a.CreateArtist c w).2
      = (a.s.saveArtist c.req.BindJSONArtist.2 (w.afterFn a.err "CreateArtist")).2 := by
  simp only [API.CreateArtist, World.afterFn, hb, GoError.isNil]
  simp only [Bool.not_true, Bool.false_eq_true, if_false]
  split
  · rfl
  · split <;> rfl

theorem CreateArtist_log {σ : Type} (q : Querier σ) (c : Context) (w : World (σ × List Stmt))
    (hb : c.req.BindJSONArtist.1 = .nil) :
    ((New (traced q)).2.CreateArtist c w).2.store.2
      = w.store.2 ++ [insertStmt c.req.BindJSONArtist.2] := by
  rw [CreateArtist_snd _ _ _ hb, saveArtist_snd]
  show ((db.mk (traced q) ((Pkg "artists").Struct "db")).create _ _).2.store.2 = _
  rw [db_create_log_artists]
  rfl

end artists

namespace songs

open errors persist gin

theorem CreateSong_snd {σ : Type} (a : API σ) (c : Context) (w : World σ)
    (hb : c.req.BindJSONSong.1 = .nil) :
    (a.CreateSong c w).2
      = (a.s.saveSong c.req.BindJSONSong.2 (w.afterFn a.err "CreateSong")).2 := by
  simp only [API.CreateSong, World.afterFn, hb, GoError.isNil]
  simp only [Bool.not_true, Bool.false_eq_true, if_false]
  split
  · rfl
  · split <;> rfl

theorem CreateSong_log {σ : Type} (q : Querier σ) (c : Context) (w : World (σ × List Stmt))
    (hb : c.req.BindJSONSong.1 = .nil) :
    ((New (traced q)).2.CreateSong c w).2.store.2
      = w.store.2 ++ selectStmt c.req.BindJSONSong.2.Name ::
          (if !((New (traced q)).1.getSongByName c.req.BindJSONSong.2.Name
                  ((w.afterFn (New (traced q)).2.err "CreateSong").afterFn
                    (New (traced q)).1.err "saveSong")).1.2.2.isNil then []
           else if ((New (traced q)).1.getSongByName c.req.BindJSONSong.2.Name
                  ((w.afterFn (New (traced q)).2.err "CreateSong").afterFn
                    (New (traced q)).1.err "saveSong")).1.2.1 then
             [updateStmt c.req.BindJSONSong.2]
           else [insertStmt c.req.BindJSONSong.2]) := by
  rw [CreateSong_snd _ _ _ hb]
  exact saveSong_log q c.req.BindJSONSong.2 (w.afterFn (New (traced q)).2.err "CreateSong")

end songs

/-- C6, as stated, fails for songs: with the song `Imagine` stored, `CreateSong` with a
bound payload named `Imagine` answers 201 after sending a SELECT and an UPDATE,
and no INSERT. -/
theorem C6_create_song_may_update :
    ((songs.New (persist.traced store.tables)).2.CreateSong
        (sample.context (sample.request "Imagine" sample.imagine))
        (sample.tracedWorld sample.oneSong)).1.1 = 201
    ∧ ((songs.New (persist.traced store.tables)).2.CreateSong
        (sample.context (sample.request "Imagine" sample.imagine))
        (sample.tracedWorld sample.oneSong)).2.store.2
      = [.query "SELECT id, name, duration, artist_id FROM Songs WHERE name = ? LIMIT 1"
           [.str "Imagine"],
         .exec "UPDATE Songs SET duration = ?, artist_id = ? WHERE name = ?"
           [.str "3:05", .int 1, .str "Imagine"]] := by
  decide

/-- C6, amended: for every successfully bound payload and every store, `CreateArtist`
sends exactly one statement, the INSERT of the artist, and `CreateSong` sends the
SELECT for the name of the payload followed by nothing if that lookup failed, by
one UPDATE and no INSERT if it found a row, and by exactly one INSERT otherwise. -/
theorem C6_create_statements {σ τ : Type} (q : persist.Querier σ) (p : persist.Querier τ)
    (c : gin.Context) (w : World (σ × List persist.Stmt)) (v : World (τ × List persist.Stmt))
    (hs : c.req.BindJSONSong.1 = .nil) (ha : c.req.BindJSONArtist.1 = .nil) :
    ((artists.New (persist.traced p)).2.CreateArtist c v).2.store.2
        = v.store.2 ++ [artists.insertStmt c.req.BindJSONArtist.2]
    ∧ ((songs.New (persist.traced q)).2.CreateSong c w).2.store.2
        = w.store.2 ++ songs.selectStmt c.req.BindJSONSong.2.Name ::
            (if !((songs.New (persist.traced q)).1.getSongByName c.req.BindJSONSong.2.Name
                    ((w.afterFn (songs.New (persist.traced q)).2.err "CreateSong").afterFn
                      (songs.New (persist.traced q)).1.err "saveSong")).1.2.2.isNil then []
             else if ((songs.New (persist.traced q)).1.getSongByName c.req.BindJSONSong.2.Name
                    ((w.afterFn (songs.New (persist.traced q)).2.err "CreateSong").afterFn
                      (songs.New (persist.traced q)).1.err "saveSong")).1.2.1 then
               [songs.updateStmt c.req.BindJSONSong.2]
             else [songs.insertStmt c.req.BindJSONSong.2]) :=
  ⟨artists.CreateArtist_log p c v ha, songs.CreateSong_log q c w hs⟩

theorem C6_create_statements_witness :
    ((artists.New (persist.traced store.tables)).2.CreateArtist
        (sample.context (sample.request "Lennon" sample.imagine))
        (sample.tracedWorld sample.oneSong)).2.store.2
      = [.exec "INSERT INTO Artists (name) VALUES (?)" [.str "Imagine"]]
    ∧ ((songs.New (persist.traced store.tables)).2.CreateSong
        (sample.context (sample.request "Imagine" sample.imagine))
        (sample.tracedWorld sample.oneSong)).2.store.2
      = [.query "SELECT id, name, duration, artist_id FROM Songs WHERE name = ? LIMIT 1"
           [.str "Imagine"],
         .exec "UPDATE Songs SET duration = ?, artist_id = ? WHERE name = ?"
           [.str "3:05", .int 1, .str "Imagine"]] :=
  ⟨(C6_create_statements store.tables store.tables
      (sample.context (sample.request "Lennon" sample.imagine))
      (sample.tracedWorld sample.oneSong) (sample.tracedWorld sample.oneSong) rfl rfl).1.trans
      (by decide),
   (C6_create_statements store.tables store.tables
      (sample.context (sample.request "Imagine" sample.imagine))
      (sample.tracedWorld sample.oneSong) (sample.tracedWorld sample.oneSong) rfl rfl).2.trans
      (by decide)⟩

namespace songs

open errors persist gin

theorem db_delete_ok {σ : Type} (q : Querier σ) (err : Struct) (name : String) (w : World σ)
    (h : (q.Exec "DELETE FROM Songs WHERE name = ?" [.str name] w.store).1 = .nil) :
    ((db.mk q err).delete name w).1 = (true, .nil) := by
  simp [db.delete, World.Fn_store, h, GoError.isNil]

theorem deleteSong_ok {σ : Type} (q : Querier σ) (name : String) (w : World σ)
    (h : (q.Exec "DELETE FROM Songs WHERE name = ?" [.str name] w.store).1 = .nil) :
    ((New q).1.deleteSong name w).1 = (false, .nil) := by
  have hd := db_delete_ok q ((Pkg "songs").Struct "db") name
    (w.afterFn ((Pkg "songs").Struct "service") "deleteSong") h
  simp only [Service.deleteSong, New, db.persistor, World.afterFn] at hd ⊢
  rw [hd]
  simp [GoError.isNil]

theorem DeleteSong_ok {σ : Type} (q : Querier σ) (c : Context) (w : World σ)
    (h : (q.Exec "DELETE FROM Songs WHERE name = ?" [.str (c.Param "name")] w.store).1 = .nil) :
    ((New q).2.DeleteSong c w).1 = (201, .nil, .nil) := by
  have hd := deleteSong_ok q (c.Param "name")
    (w.afterFnTag ((Pkg "songs").Struct "api") "DeleteSong" (c.Param "name")) h
  simp only [API.DeleteSong, New, World.afterFnTag] at hd ⊢
  rw [hd]
  simp [GoError.isNil]

theorem deleteSong_snd {σ : Type} (s : Service σ) (name : String) (w : World σ) :
    (s.deleteSong name w).2 = (s.db.delete name (w.afterFn s.err "deleteSong")).2 := by
  simp only [Service.deleteSong, World.afterFn]
  split
  · rfl
  · split <;> rfl

theorem DeleteSong_snd {σ : Type} (a : API σ) (c : Context) (w : World σ) :
    (a.DeleteSong c w).2
      = (a.s.deleteSong (c.Param "name")
          (w.afterFnTag a.err "DeleteSong" (c.Param "name"))).2 := by
  simp only [API.DeleteSong, World.afterFnTag]
  split
  · rfl
  · split <;> rfl

theorem tables_DeleteSong (c : Context) (t : World store.Tables) :
    ((New store.tables).2.DeleteSong c t).1 = (201, .nil, .nil)
      ∧ ((New store.tables).2.DeleteSong c t).2.store
        = { t.store with Songs := t.store.Songs.filter (fun s => s.Name ≠ c.Param "name") } := by
  refine ⟨DeleteSong_ok store.tables c t ?_, ?_⟩
  · simp [store.tables, store.Exec]
  · rw [DeleteSong_snd, deleteSong_snd]
    exact (tables_delete ((Pkg "songs").Struct "db") (c.Param "name") _).2

end songs

namespace artists

open errors persist gin

theorem db_delete_ok_artists {σ : Type} (q : Querier σ) (err : Struct) (name : String) (w : World σ)
    (h : (q.Exec "DELETE FROM Artists WHERE name = ?" [.str name] w.store).1 = .nil) :
    ((db.mk q err).delete name w).1 = (true, .nil) := by
  simp [db.delete, World.Fn_store, h, GoError.isNil]

theorem deleteArtist_ok {σ : Type} (q : Querier σ) (name : String) (w : World σ)
    (h : (q.Exec "DELETE FROM Artists WHERE name = ?" [.str name] w.store).1 = .nil) :
    ((New q).1.deleteArtist name w).1 = (false, .nil) := by
  have hd := db_delete_ok_artists q ((Pkg "artists").Struct "db") name
    (w.afterFn ((Pkg "artists").Struct "service") "deleteArtist") h
  simp only [Service.deleteArtist, New, db.persistor, World.afterFn] at hd ⊢
  rw [hd]
  simp [GoError.isNil]

theorem DeleteArtist_ok {σ : Type} (q : Querier σ) (c : Context) (w : World σ)
    (h : (q.Exec "DELETE FROM Artists WHERE name = ?" [.str (c.Param "name")] w.store).1
      = .nil) :
    ((New q).2.DeleteArtist c w).1 = (201, .nil, .nil) := by
  have hd := deleteArtist_ok q (c.Param "name")
    (w.afterFnTag ((Pkg "artists").Struct "api") "DeleteArtist" (c.Param "name")) h
  simp only [API.DeleteArtist, New, World.afterFnTag] at hd ⊢
  rw [hd]
  simp [GoError.isNil]

theorem tables_DeleteArtist (c : Context) (t : World store.Tables) :
    ((New store.tables).2.DeleteArtist c t).1 = (201, .nil, .nil) :=
  DeleteArtist_ok store.tables c t (by simp [store.tables, store.Exec])

end artists

/-- C7: whenever the DELETE statement for the name executes without error, `deleteSong`
and `deleteArtist` return `(false, nil)` and `DeleteSong` and `DeleteArtist` return
201 with a nil payload and a nil error, whatever the store did with the statement;
on the table model this is so for every table and name, also when no row has the
name, and again when the same name is deleted a second time. -/
theorem C7_delete_succeeds {σ : Type} (q : persist.Querier σ) (c : gin.Context) (w : World σ)
    (t : World store.Tables)
    (hs : (q.Exec "DELETE FROM Songs WHERE name = ?" [.str (c.Param "name")] w.store).1 = .nil)
    (ha : (q.Exec "DELETE FROM Artists WHERE name = ?" [.str (c.Param "name")] w.store).1
      = .nil) :
    ((songs.New q).1.deleteSong (c.Param "name") w).1 = (false, .nil)
    ∧ ((artists.New q).1.deleteArtist (c.Param "name") w).1 = (false, .nil)
    ∧ ((songs.New q).2.DeleteSong c w).1 = (201, .nil, .nil)
    ∧ ((artists.New q).2.DeleteArtist c w).1 = (201, .nil, .nil)
    ∧ ((songs.New store.tables).2.DeleteSong c t).1 = (201, .nil, .nil)
    ∧ ((songs.New store.tables).2.DeleteSong c
        ((songs.New store.tables).2.DeleteSong c t).2).1 = (201, .nil, .nil)
    ∧ ((artists.New store.tables).2.DeleteArtist c t).1 = (201, .nil, .nil)
    ∧ ((artists.New store.tables).2.DeleteArtist c
        ((artists.New store.tables).2.DeleteArtist c t).2).1 = (201, .nil, .nil) :=
  ⟨songs.deleteSong_ok q _ w hs, artists.deleteArtist_ok q _ w ha,
   songs.DeleteSong_ok q c w hs, artists.DeleteArtist_ok q c w ha,
   (songs.tables_DeleteSong c t).1, (songs.tables_DeleteSong c _).1,
   artists.tables_DeleteArtist c t, artists.tables_DeleteArtist c _⟩

theorem C7_delete_succeeds_witness :
    ((songs.New store.tables).2.DeleteSong
        (sample.context (sample.request "Yesterday" sample.imagine))
        (sample.tableWorld sample.oneSong)).1 = (201, .nil, .nil)
    ∧ ((songs.New store.tables).2.DeleteSong
        (sample.context (sample.request "Imagine" sample.imagine))
        ((songs.New store.tables).2.DeleteSong
          (sample.context (sample.request "Imagine" sample.imagine))
          (sample.tableWorld sample.oneSong)).2).1 = (201, .nil, .nil) :=
  ⟨(C7_delete_succeeds store.tables
      (sample.context (sample.request "Yesterday" sample.imagine))
      (sample.tableWorld sample.oneSong) (sample.tableWorld sample.oneSong)
      rfl rfl).2.2.1,
   (C7_delete_succeeds store.tables
      (sample.context (sample.request "Imagine" sample.imagine))
      (sample.tableWorld sample.oneSong) (sample.tableWorld sample.oneSong)
      rfl rfl).2.2.2.2.2.1⟩

namespace songs

open errors persist gin

theorem New_snd_s {σ : Type} (q : Querier σ) : (New q).2.s = (New q).1 := rfl

theorem GetSongByName_fst {σ : Type} (a : API σ) (c : Context) (w : World σ) :
    (a.GetSongByName c w).1
      = if !(a.s.getSongByName (c.Param "name")
              (w.afterFnTag a.err "GetSongByName" (c.Param "name"))).1.2.2.isNil then
          (500, .nil, (w.Fn a.err "GetSongByName").1.UK
            (a.s.getSongByName (c.Param "name")
              (w.afterFnTag a.err "GetSongByName" (c.Param "name"))).1.2.2)
        else if !(a.s.getSongByName (c.Param "name")
              (w.afterFnTag a.err "GetSongByName" (c.Param "name"))).1.2.1 then
          (404, .nil, (w.Fn a.err "GetSongByName").1.NotFound)
        else
          (200, .song (a.s.getSongByName (c.Param "name")
              (w.afterFnTag a.err "GetSongByName" (c.Param "name"))).1.1, .nil) := by
  simp only [API.GetSongByName, World.afterFnTag, World.Tag_fst]
  split
  · rfl
  · split <;> rfl

theorem tables_GetSongByName (c : Context) (v : World store.Tables) :
    ((New store.tables).2.GetSongByName c v).1
      = if (store.lookupSongs v.store (c.Param "name")).length = 1 then
          (200, .song ((store.lookupSongs v.store (c.Param "name")).getD 0
            { Id := 0, Name := "", Duration := "", ArtistId := 0 }), .nil)
        else (404, .nil, (v.Fn (New store.tables).2.err "GetSongByName").1.NotFound) := by
  obtain ⟨h1, h2, h3, -⟩ := tables_getSongByName (c.Param "name")
    (v.afterFnTag (New store.tables).2.err "GetSongByName" (c.Param "name"))
  have hs : (v.afterFnTag (New store.tables).2.err "GetSongByName" (c.Param "name")).store
      = v.store := rfl
  rw [hs] at h2 h3
  rw [GetSongByName_fst]
  simp only [New_snd_s]
  rw [h1, h2, h3]
  by_cases hl : (store.lookupSongs v.store (c.Param "name")).length = 1
  · simp [hl, GoError.isNil]
  · simp [hl, GoError.isNil]

theorem tables_CreateSong (c : Context) (t : World store.Tables)
    (hb : c.req.BindJSONSong.1 = .nil) :
    ((New store.tables).2.CreateSong c t).2.store
      = if (store.lookupSongs t.store c.req.BindJSONSong.2.Name).length = 1 then
          { t.store with
            Songs := t.store.Songs.map (fun s =>
              if s.Name = c.req.BindJSONSong.2.Name then
                { s with Duration := c.req.BindJSONSong.2.Duration,
                         ArtistId := c.req.BindJSONSong.2.ArtistId }
              else s) }
        else
          { t.store with
            Songs := t.store.Songs ++
              [{ Id := t.store.nextSongId, Name := c.req.BindJSONSong.2.Name,
                 Duration := c.req.BindJSONSong.2.Duration,
                 ArtistId := c.req.BindJSONSong.2.ArtistId }],
            nextSongId := t.store.nextSongId + 1 } := by
  rw [CreateSong_snd _ _ _ hb]
  simp only [New_snd_s]
  rw [tables_saveSong_store]
  obtain ⟨-, h2, -, -⟩ := tables_getSongByName c.req.BindJSONSong.2.Name
    (((t.afterFn (New store.tables).2.err "CreateSong")).afterFn (New store.tables).1.err
      "saveSong")
  rw [h2]
  have hs : ((t.afterFn (New store.tables).2.err "CreateSong").afterFn
      (New store.tables).1.err "saveSong").store = t.store := rfl
  have hs' : (t.afterFn (New store.tables).2.err "CreateSong").store = t.store := rfl
  rw [hs, hs']
  by_cases hl : (store.lookupSongs t.store c.req.BindJSONSong.2.Name).length = 1 <;> simp [hl]

end songs
namespace store

theorem filter_update (n d : String) (a : Int) (l : api.Songs) :
    (l.map (fun s => if s.Name = n then { s with Duration := d, ArtistId := a } else s)).filter
        (fun s => s.Name = n)
      = (l.filter (fun s => s.Name = n)).map
          (fun s => ({ s with Duration := d, ArtistId := a } : api.Song)) := by
  induction l with
  | nil => rfl
  | cons x xs ih =>
    by_cases hx : x.Name = n
    · simp [hx, ih]
    · simp [hx, ih]

theorem lookup_after_update (t : Tables) (p : api.Song) (hne : p.Name ≠ "")
    (hl : (lookupSongs t p.Name).length = 1) :
    ∃ s, lookupSongs
          { t with
            Songs := t.Songs.map (fun s =>
              if s.Name = p.Name then { s with Duration := p.Duration, ArtistId := p.ArtistId }
              else s) } p.Name = [s]
      ∧ s.Name = p.Name ∧ s.Duration = p.Duration ∧ s.ArtistId = p.ArtistId := by
  simp only [lookupSongs, hne, ne_eq, not_false_eq_true, if_true] at hl ⊢
  rw [filter_update]
  cases hf : t.Songs.filter (fun s => s.Name = p.Name) with
  | nil => simp [hf] at hl
  | cons x xs =>
    have hx : x ∈ t.Songs.filter (fun s => s.Name = p.Name) := by simp [hf]
    have hxn : x.Name = p.Name := by simpa using (List.mem_filter.mp hx).2
    exact ⟨{ x with Duration := p.Duration, ArtistId := p.ArtistId }, by simp, hxn, rfl, rfl⟩

theorem lookup_after_insert (t : Tables) (p : api.Song) (hne : p.Name ≠ "")
    (hl : (lookupSongs t p.Name).length ≠ 1) :
    lookupSongs
        { t with
          Songs := t.Songs ++
            [{ Id := t.nextSongId, Name := p.Name, Duration := p.Duration,
               ArtistId := p.ArtistId }],
          nextSongId := t.nextSongId + 1 } p.Name
      = [{ Id := t.nextSongId, Name := p.Name, Duration := p.Duration,
           ArtistId := p.ArtistId }] := by
  simp only [lookupSongs, hne, ne_eq, not_false_eq_true, if_true] at hl ⊢
  cases hf : t.Songs.filter (fun s => s.Name = p.Name) with
  | nil => simp [List.filter_append, hf]
  | cons x xs => simp [hf] at hl

end store

/-- C8, as stated, fails for the empty name: on the table holding only `Imagine`,
`CreateSong` with the bound payload `sample.unnamed` returns 201, and the
following `GetSongByName` with that (empty) name does not return 200 with the
fields of the payload: it returns the stored song `Imagine`. -/
theorem C8_empty_name_round_trip_fails :
    ((songs.New store.tables).2.CreateSong
        (sample.context (sample.request "" sample.unnamed))
        (sample.tableWorld sample.oneSong)).1.1 = 201
    ∧ gin.showsSong sample.unnamed
        ((songs.New store.tables).2.GetSongByName
          (sample.context (sample.request "" sample.unnamed))
          ((songs.New store.tables).2.CreateSong
            (sample.context (sample.request "" sample.unnamed))
            (sample.tableWorld sample.oneSong)).2).1 = false
    ∧ ((songs.New store.tables).2.GetSongByName
          (sample.context (sample.request "" sample.unnamed))
          ((songs.New store.tables).2.CreateSong
            (sample.context (sample.request "" sample.unnamed))
            (sample.tableWorld sample.oneSong)).2).1.2.1
        = .song { Id := 1, Name := "Imagine", Duration := "3:03", ArtistId := 1 } := by
  decide

theorem songs.CreateSong_bound {σ : Type} (a : songs.API σ) (c : gin.Context) (w : World σ)
    (h201 : (a.CreateSong c w).1.1 = 201) : c.req.BindJSONSong.1 = .nil := by
  cases hb : c.req.BindJSONSong.1.isNil
  · simp [songs.API.CreateSong, hb] at h201
  · exact (errors.isNil_iff _).mp hb

/-- C8, amended: over the table model, for every Song payload with a non-empty name, if
`CreateSong` with that payload as body returns 201 then the `GetSongByName` that
follows with the name of the payload returns 200, a nil error and a song whose
name, duration and artist are those of the payload. -/
theorem C8_post_then_get (c c' : gin.Context) (t : World store.Tables)
    (hn : c'.Param "name" = c.req.BindJSONSong.2.Name)
    (hne : c.req.BindJSONSong.2.Name ≠ "")
    (h201 : ((songs.New store.tables).2.CreateSong c t).1.1 = 201) :
    gin.showsSong c.req.BindJSONSong.2
      ((songs.New store.tables).2.GetSongByName c'
        ((songs.New store.tables).2.CreateSong c t).2).1 = true := by
  have hb := songs.CreateSong_bound _ c t h201
  rw [songs.tables_GetSongByName, songs.tables_CreateSong c t hb, hn]
  by_cases hl : (store.lookupSongs t.store c.req.BindJSONSong.2.Name).length = 1
  · obtain ⟨s, hs, h1, h2, h3⟩ := store.lookup_after_update t.store c.req.BindJSONSong.2 hne hl
    simp only [hl, if_true]
    rw [hs]
    simp [gin.showsSong, h1, h2, h3]
  · have hs := store.lookup_after_insert t.store c.req.BindJSONSong.2 hne hl
    simp only [hl, if_false]
    rw [hs]
    simp [gin.showsSong]

theorem C8_post_then_get_witness :
    gin.showsSong sample.imagine
      ((songs.New store.tables).2.GetSongByName
        (sample.context (sample.request "Imagine" sample.imagine))
        ((songs.New store.tables).2.CreateSong
          (sample.context (sample.request "Imagine" sample.imagine))
          (sample.tableWorld sample.oneSong)).2).1 = true :=
  C8_post_then_get (sample.context (sample.request "Imagine" sample.imagine))
    (sample.context (sample.request "Imagine" sample.imagine))
    (sample.tableWorld sample.oneSong) rfl (by decide) (by decide)

namespace errors

theorem root_wrap (f : Function) (x : GoError) (ctx ext : String) :
    (GoError.ptr (f.unsafeWrap x ctx ext)).root = x.root := by
  cases x <;> rfl

theorem labels_wrap (f : Function) (x : GoError) (ctx ext : String) :
    (GoError.ptr (f.unsafeWrap x ctx ext)).labels
      = (f.strct.pkg.name ++ "." ++ f.strct.name ++ "." ++ f.name) :: x.labels := by
  cases x <;> rfl

theorem root_of_not_chain (e : GoError) (h : e.isChain = false) : e.root = e := by
  cases e with
  | ptr c => simp [GoError.isChain] at h
  | nil => rfl
  | other m => rfl

theorem labels_of_not_chain (e : GoError) (h : e.isChain = false) : e.labels = [] := by
  cases e with
  | ptr c => simp [GoError.isChain] at h
  | nil => rfl
  | other m => rfl

theorem Wrap_of_not_nil (f : Function) (e : GoError) (ctx : String) (h : e.isNil = false) :
    f.Wrap e ctx = .ptr (f.unsafeWrap e ctx "") := by
  cases e with
  | nil => simp [GoError.isNil] at h
  | ptr c => rfl
  | other m => rfl

theorem UK_of_not_nil (f : Function) (e : GoError) (h : e.isNil = false) :
    f.UK e = .ptr (f.unsafeWrap e "" "unknown error") := by
  cases e with
  | nil => simp [GoError.isNil] at h
  | ptr c => rfl
  | other m => rfl

theorem isNil_ptr (c : Chain) : (GoError.ptr c).isNil = false := rfl

theorem isChain_ptr (c : Chain) : (GoError.ptr c).isChain = true := rfl

end errors

namespace songs

open errors persist gin

theorem db_get_fst_of_fail {σ : Type} (q : Querier σ) (err : Struct) (name : String)
    (w : World σ) (e : GoError) (hnil : e.isNil = false)
    (hq : answer q (selectStmt name) w.store = e) :
    ((db.mk q err).get name w).1
      = ([], .ptr ((w.Fn err "get").1.unsafeWrap e "quering songs from table" "")) := by
  by_cases hn : name = ""
  · simp only [answer, selectStmt, hn, ne_eq, not_true_eq_false, if_false] at hq
    simp [db.get, hn, World.Tag_store, World.Fn_store, World.Tag_fst, hq, hnil,
      Wrap_of_not_nil]
  · simp [answer, selectStmt, hn] at hq
    simp [db.get, hn, World.Tag_store, World.Fn_store, World.Tag_fst, hq, hnil,
      Wrap_of_not_nil]

theorem db_create_fst_of_fail {σ : Type} (q : Querier σ) (err : Struct) (i : api.Song)
    (w : World σ) (e : GoError) (hnil : e.isNil = false)
    (hq : answer q (insertStmt i) w.store = e) :
    ((db.mk q err).create i w).1
      = (false, .ptr ((w.Fn err "create").1.unsafeWrap e "inserting" "")) := by
  simp only [answer, insertStmt] at hq
  simp [db.create, World.Fn_store, hq, hnil, Wrap_of_not_nil]

theorem db_update_fst_of_fail {σ : Type} (q : Querier σ) (err : Struct) (i : api.Song)
    (w : World σ) (e : GoError) (hnil : e.isNil = false)
    (hq : answer q (updateStmt i) w.store = e) :
    ((db.mk q err).update i w).1
      = (false, .ptr ((w.Fn err "update").1.unsafeWrap e "updating" "")) := by
  simp only [answer, updateStmt] at hq
  simp [db.update, World.Fn_store, hq, hnil, Wrap_of_not_nil]

theorem db_delete_fst_of_fail {σ : Type} (q : Querier σ) (err : Struct) (name : String)
    (w : World σ) (e : GoError) (hnil : e.isNil = false)
    (hq : answer q (deleteStmt name) w.store = e) :
    ((db.mk q err).delete name w).1
      = (false, .ptr ((w.Fn err "delete").1.unsafeWrap e "deleting" "")) := by
  simp only [answer, deleteStmt] at hq
  simp [db.delete, World.Fn_store, hq, hnil, Wrap_of_not_nil]

theorem answer_traced {σ : Type} (q : Querier σ) (s : Stmt) (st : σ × List Stmt) :
    answer (traced q) s st = answer q s st.1 := by
  cases s <;> rfl

end songs
namespace songs

open errors persist gin

theorem getSongs_snd {σ : Type} (s : Service σ) (w : World σ) :
    (s.getSongs w).2 = (s.db.get "" (w.afterFn s.err "getSongs")).2 := by
  simp only [Service.getSongs, World.afterFn]
  split <;> rfl

theorem GetSongs_snd {σ : Type} (a : API σ) (c : Context) (w : World σ) :
    (a.GetSongs c w).2 = (a.s.getSongs (w.afterFn a.err "GetSongs")).2 := by
  simp only [API.GetSongs, World.afterFn]
  split <;> rfl

theorem GetSongs_log {σ : Type} (q : Querier σ) (c : Context) (w : World (σ × List Stmt)) :
    ((New (traced q)).2.GetSongs c w).2.store.2 = w.store.2 ++ [selectStmt ""] := by
  rw [GetSongs_snd, getSongs_snd]
  show ((db.mk (traced q) ((Pkg "songs").Struct "db")).get "" _).2.store.2 = _
  rw [db_get_log]
  rfl

theorem GetSongs_fst_of_fail {σ : Type} (q : Querier σ) (c : Context) (w : World σ)
    (e : GoError) (hnil : e.isNil = false) (hq : answer q (selectStmt "") w.store = e) :
    ((New q).2.GetSongs c w).1
      = (500, .songs [],
          errors.nest e
            [{ fn := { strct := (Pkg "songs").Struct "api", tags := w.heap.next,
                       name := "GetSongs" },
               ctx := "", external := "unknown error" },
             { fn := { strct := (Pkg "songs").Struct "service", tags := w.heap.next + 1,
                       name := "getSongs" },
               ctx := "getting songs from db", external := "" },
             { fn := { strct := (Pkg "songs").Struct "db", tags := w.heap.next + 2,
                       name := "get" },
               ctx := "quering songs from table", external := "" }]) := by
  have hd := db_get_fst_of_fail q ((Pkg "songs").Struct "db") ""
    ((w.afterFn ((Pkg "songs").Struct "api") "GetSongs").afterFn
      ((Pkg "songs").Struct "service") "getSongs") e hnil hq
  simp only [API.GetSongs, Service.getSongs, New, db.persistor, World.afterFn] at hd ⊢
  rw [hd]
  simp [isNil_ptr, Wrap_of_not_nil, UK_of_not_nil, nest, Wrap.around, World.Fn_fst, World.Fn,
    Struct.Fn]

end songs
namespace songs

open errors persist gin

theorem New_snd_err {σ : Type} (q : Querier σ) : (New q).2.err = (Pkg "songs").Struct "api" := rfl

theorem New_fst_err {σ : Type} (q : Querier σ) :
    (New q).1.err = (Pkg "songs").Struct "service" := rfl

theorem reaches_GetSongs {σ : Type} (q : Querier σ) (c : Context) (w : World (σ × List Stmt))
    (e : GoError) (hnil : e.isNil = false) (hch : e.isChain = false)
    (hq : answer q (selectStmt "") w.store.1 = e) :
    reaches ((New (traced q)).2.GetSongs c w) e
      ["songs.api.GetSongs", "songs.service.getSongs", "songs.db.get"]
      (w.store.2 ++ [selectStmt ""]) := by
  have hq' : answer (traced q) (selectStmt "") w.store = e := by rw [answer_traced]; exact hq
  have h := GetSongs_fst_of_fail (traced q) c w e hnil hq'
  refine ⟨?_, ?_, ?_, ?_, GetSongs_log q c w⟩
  · rw [h]
  · rw [h]; rfl
  · rw [h]
    simp only [nest, Wrap.around, root_wrap, root_of_not_chain e hch]
  · rw [h]
    simp only [nest, Wrap.around, labels_wrap, labels_of_not_chain e hch]
    decide

theorem GetSongByName_snd {σ : Type} (a : API σ) (c : Context) (w : World σ) :
    (a.GetSongByName c w).2
      = (a.s.getSongByName (c.Param "name")
          (w.afterFnTag a.err "GetSongByName" (c.Param "name"))).2 := by
  simp only [API.GetSongByName, World.afterFnTag]
  split
  · rfl
  · split <;> rfl

theorem GetSongByName_log {σ : Type} (q : Querier σ) (c : Context)
    (w : World (σ × List Stmt)) :
    ((New (traced q)).2.GetSongByName c w).2.store.2
      = w.store.2 ++ [selectStmt (c.Param "name")] := by
  rw [GetSongByName_snd]
  simp only [New_snd_s]
  rw [getSongByName_log]
  rfl

theorem getSongByName_fst_of_fail {σ : Type} (q : Querier σ) (name : String) (w : World σ)
    (e : GoError) (hnil : e.isNil = false) (hq : answer q (selectStmt name) w.store = e) :
    ((New q).1.getSongByName name w).1
      = ({ Id := 0, Name := "", Duration := "", ArtistId := 0 }, false,
          .ptr ((w.Fn ((Pkg "songs").Struct "service") "getSongByName").1.unsafeWrap
            (.ptr (((w.afterFnTag ((Pkg "songs").Struct "service") "getSongByName" name).Fn
                ((Pkg "songs").Struct "db") "get").1.unsafeWrap e
              "quering songs from table" ""))
            "getting contract from db" "")) := by
  have hd := db_get_fst_of_fail q ((Pkg "songs").Struct "db") name
    (w.afterFnTag ((Pkg "songs").Struct "service") "getSongByName" name) e hnil hq
  rw [getSongByName_fst]
  simp only [New, db.persistor] at hd ⊢
  rw [hd]
  simp [isNil_ptr, Wrap_of_not_nil]

theorem reaches_GetSongByName {σ : Type} (q : Querier σ) (c : Context)
    (w : World (σ × List Stmt)) (e : GoError) (hnil : e.isNil = false)
    (hch : e.isChain = false)
    (hq : answer q (selectStmt (c.Param "name")) w.store.1 = e) :
    reaches ((New (traced q)).2.GetSongByName c w) e
      ["songs.api.GetSongByName", "songs.service.getSongByName", "songs.db.get"]
      (w.store.2 ++ [selectStmt (c.Param "name")]) := by
  have hq' : answer (traced q) (selectStmt (c.Param "name")) w.store = e := by
    rw [answer_traced]; exact hq
  have hg := getSongByName_fst_of_fail (traced q) (c.Param "name")
    (w.afterFnTag ((Pkg "songs").Struct "api") "GetSongByName" (c.Param "name")) e hnil hq'
  have h : ((New (traced q)).2.GetSongByName c w).1
      = (500, .nil, (w.Fn ((Pkg "songs").Struct "api") "GetSongByName").1.UK
          ((New (traced q)).1.getSongByName (c.Param "name")
            (w.afterFnTag ((Pkg "songs").Struct "api") "GetSongByName"
              (c.Param "name"))).1.2.2) := by
    rw [GetSongByName_fst]
    simp only [New_snd_s, New_snd_err]
    rw [hg]
    simp [isNil_ptr]
  rw [hg] at h
  refine ⟨?_, ?_, ?_, ?_, GetSongByName_log q c w⟩
  · rw [h]
  · rw [h]; rfl
  · rw [h]
    simp only [UK_of_not_nil _ _ (isNil_ptr _), root_wrap, root_of_not_chain e hch]
  · rw [h]
    simp [UK_of_not_nil _ _ (isNil_ptr _), labels_wrap, labels_of_not_chain e hch,
      World.Fn_fst, Pkg, Package.Struct]

end songs
namespace songs

open errors persist gin

theorem saveSong_fst {σ : Type} (s : Service σ) (i : api.Song) (w : World σ) :
    (s.saveSong i w).1
      = if !(s.getSongByName i.Name (w.afterFn s.err "saveSong")).1.2.2.isNil then
          (true, (w.Fn s.err "saveSong").1.Wrap
            (s.getSongByName i.Name (w.afterFn s.err "saveSong")).1.2.2 "getting song")
        else if !(if (s.getSongByName i.Name (w.afterFn s.err "saveSong")).1.2.1 then
              s.db.update i (s.getSongByName i.Name (w.afterFn s.err "saveSong")).2
            else s.db.create i (s.getSongByName i.Name (w.afterFn s.err "saveSong")).2).1.2.isNil
          then
          (true, (w.Fn s.err "saveSong").1.Wrap
            (if (s.getSongByName i.Name (w.afterFn s.err "saveSong")).1.2.1 then
              s.db.update i (s.getSongByName i.Name (w.afterFn s.err "saveSong")).2
            else s.db.create i (s.getSongByName i.Name (w.afterFn s.err "saveSong")).2).1.2
            "saving song")
        else if !(if (s.getSongByName i.Name (w.afterFn s.err "saveSong")).1.2.1 then
              s.db.update i (s.getSongByName i.Name (w.afterFn s.err "saveSong")).2
            else s.db.create i (s.getSongByName i.Name (w.afterFn s.err "saveSong")).2).1.1
          then (true, .nil)
        else (false, .nil) := by
  simp only [Service.saveSong, World.afterFn]
  split_ifs <;> rfl

theorem saveSong_lookup_fail {σ : Type} (q : Querier σ) (i : api.Song) (w : World σ)
    (e : GoError) (hnil : e.isNil = false) (hch : e.isChain = false)
    (hq : answer q (selectStmt i.Name) w.store = e) :
    ((New q).1.saveSong i w).1.2.isNil = false
      ∧ ((New q).1.saveSong i w).1.2.isChain = true
      ∧ ((New q).1.saveSong i w).1.2.root = e
      ∧ ((New q).1.saveSong i w).1.2.labels
          = ["songs.service.saveSong", "songs.service.getSongByName", "songs.db.get"] := by
  have hg := getSongByName_fst_of_fail q i.Name
    (w.afterFn ((Pkg "songs").Struct "service") "saveSong") e hnil hq
  have h : ((New q).1.saveSong i w).1.2
      = (w.Fn ((Pkg "songs").Struct "service") "saveSong").1.Wrap
          ((New q).1.getSongByName i.Name
            (w.afterFn ((Pkg "songs").Struct "service") "saveSong")).1.2.2 "getting song" := by
    rw [saveSong_fst]
    simp only [New_fst_err]
    rw [hg]
    simp [isNil_ptr]
  rw [hg] at h
  rw [h]
  refine ⟨?_, ?_, ?_, ?_⟩
  · simp [Wrap_of_not_nil _ _ _ (isNil_ptr _), isNil_ptr]
  · simp [Wrap_of_not_nil _ _ _ (isNil_ptr _), isChain_ptr]
  · simp only [Wrap_of_not_nil _ _ _ (isNil_ptr _), root_wrap, root_of_not_chain e hch]
  · simp [Wrap_of_not_nil _ _ _ (isNil_ptr _), labels_wrap, labels_of_not_chain e hch,
      World.Fn_fst, Pkg, Package.Struct]

theorem saveSong_exec_fail {σ : Type} (q : Querier σ) (i : api.Song) (w : World σ)
    (e : GoError) (hnil : e.isNil = false) (hch : e.isChain = false)
    (hg : ((New q).1.getSongByName i.Name
      (w.afterFn ((Pkg "songs").Struct "service") "saveSong")).1.2.2 = .nil)
    (hq : answer q
        (if ((New q).1.getSongByName i.Name
            (w.afterFn ((Pkg "songs").Struct "service") "saveSong")).1.2.1 then updateStmt i
          else insertStmt i)
        ((New q).1.getSongByName i.Name
          (w.afterFn ((Pkg "songs").Struct "service") "saveSong")).2.store = e) :
    ((New q).1.saveSong i w).1.2.isNil = false
      ∧ ((New q).1.saveSong i w).1.2.isChain = true
      ∧ ((New q).1.saveSong i w).1.2.root = e
      ∧ ((New q).1.saveSong i w).1.2.labels
          = ["songs.service.saveSong",
             if ((New q).1.getSongByName i.Name
                (w.afterFn ((Pkg "songs").Struct "service") "saveSong")).1.2.1 then
               "songs.db.update"
             else "songs.db.create"] := by
  cases hf : ((New q).1.getSongByName i.Name
      (w.afterFn ((Pkg "songs").Struct "service") "saveSong")).1.2.1
  · rw [hf] at hq
    simp only [Bool.false_eq_true, if_false] at hq ⊢
    have hd := db_create_fst_of_fail q ((Pkg "songs").Struct "db") i _ e hnil hq
    have h : ((New q).1.saveSong i w).1.2
        = (w.Fn ((Pkg "songs").Struct "service") "saveSong").1.Wrap
            (.ptr ((((New q).1.getSongByName i.Name
                (w.afterFn ((Pkg "songs").Struct "service") "saveSong")).2.Fn
                  ((Pkg "songs").Struct "db") "create").1.unsafeWrap e "inserting" ""))
            "saving song" := by
      rw [saveSong_fst]
      simp only [New_fst_err]
      rw [hg, hf]
      simp only [GoError.isNil, Bool.not_true, Bool.false_eq_true, if_false]
      have hd' : ((New q).1.db.create i ((New q).1.getSongByName i.Name
          (w.afterFn ((Pkg "songs").Struct "service") "saveSong")).2).1 = _ := hd
      rw [hd']
      simp [isNil_ptr]
    rw [h]
    refine ⟨?_, ?_, ?_, ?_⟩
    · simp [Wrap_of_not_nil _ _ _ (isNil_ptr _), isNil_ptr]
    · simp [Wrap_of_not_nil _ _ _ (isNil_ptr _), isChain_ptr]
    · simp only [Wrap_of_not_nil _ _ _ (isNil_ptr _), root_wrap, root_of_not_chain e hch]
    · simp [Wrap_of_not_nil _ _ _ (isNil_ptr _), labels_wrap, labels_of_not_chain e hch,
        World.Fn_fst, Pkg, Package.Struct]
  · rw [hf] at hq
    simp only [if_true] at hq ⊢
    have hd := db_update_fst_of_fail q ((Pkg "songs").Struct "db") i _ e hnil hq
    have h : ((New q).1.saveSong i w).1.2
        = (w.Fn ((Pkg "songs").Struct "service") "saveSong").1.Wrap
            (.ptr ((((New q).1.getSongByName i.Name
                (w.afterFn ((Pkg "songs").Struct "service") "saveSong")).2.Fn
                  ((Pkg "songs").Struct "db") "update").1.unsafeWrap e "updating" ""))
            "saving song" := by
      rw [saveSong_fst]
      simp only [New_fst_err]
      rw [hg, hf]
      simp only [GoError.isNil, Bool.not_true, Bool.false_eq_true, if_false, if_true]
      have hd' : ((New q).1.db.update i ((New q).1.getSongByName i.Name
          (w.afterFn ((Pkg "songs").Struct "service") "saveSong")).2).1 = _ := hd
      rw [hd']
      simp [isNil_ptr]
    rw [h]
    refine ⟨?_, ?_, ?_, ?_⟩
    · simp [Wrap_of_not_nil _ _ _ (isNil_ptr _), isNil_ptr]
    · simp [Wrap_of_not_nil _ _ _ (isNil_ptr _), isChain_ptr]
    · simp only [Wrap_of_not_nil _ _ _ (isNil_ptr _), root_wrap, root_of_not_chain e hch]
    · simp [Wrap_of_not_nil _ _ _ (isNil_ptr _), labels_wrap, labels_of_not_chain e hch,
        World.Fn_fst, Pkg, Package.Struct]

end songs
namespace songs

open errors persist gin

theorem UpdateSong_snd {σ : Type} (a : API σ) (c : Context) (w : World σ)
    (hb : c.req.BindJSONSong.1 = .nil) :
    (a.UpdateSong c w).2
      = (a.s.saveSong c.req.BindJSONSong.2 (w.afterFn a.err "UpdateSong")).2 := by
  simp only [API.UpdateSong, World.afterFn, hb, GoError.isNil]
  simp only [Bool.not_true, Bool.false_eq_true, if_false]
  split_ifs <;> rfl

theorem CreateSong_fst {σ : Type} (a : API σ) (c : Context) (w : World σ)
    (hb : c.req.BindJSONSong.1 = .nil) :
    (a.CreateSong c w).1
      = if !(a.s.saveSong c.req.BindJSONSong.2 (w.afterFn a.err "CreateSong")).1.2.isNil then
          (500, .nil, (w.Fn a.err "CreateSong").1.UK
            (a.s.saveSong c.req.BindJSONSong.2 (w.afterFn a.err "CreateSong")).1.2)
        else if (a.s.saveSong c.req.BindJSONSong.2 (w.afterFn a.err "CreateSong")).1.1 then
          (400, .nil, (w.Fn a.err "CreateSong").1.DB
            (a.s.saveSong c.req.BindJSONSong.2 (w.afterFn a.err "CreateSong")).1.2)
        else (201, .nil, .nil) := by
  simp only [API.CreateSong, World.afterFn, hb, GoError.isNil]
  simp only [Bool.not_true, Bool.false_eq_true, if_false]
  split_ifs <;> rfl

theorem CreateSong_saveSong_log {σ : Type} (q : Querier σ) (c : Context)
    (w : World (σ × List Stmt)) (hb : c.req.BindJSONSong.1 = .nil) :
    ((New (traced q)).2.CreateSong c w).2.store.2
      = w.store.2 ++ selectStmt c.req.BindJSONSong.2.Name ::
          (if !((New (traced q)).1.getSongByName c.req.BindJSONSong.2.Name
                  ((w.afterFn ((Pkg "songs").Struct "api") "CreateSong").afterFn
                    ((Pkg "songs").Struct "service") "saveSong")).1.2.2.isNil then []
           else if ((New (traced q)).1.getSongByName c.req.BindJSONSong.2.Name
                  ((w.afterFn ((Pkg "songs").Struct "api") "CreateSong").afterFn
                    ((Pkg "songs").Struct "service") "saveSong")).1.2.1 then
             [updateStmt c.req.BindJSONSong.2]
           else [insertStmt c.req.BindJSONSong.2]) := by
  rw [CreateSong_snd _ _ _ hb]
  exact saveSong_log q c.req.BindJSONSong.2 (w.afterFn (New (traced q)).2.err "CreateSong")

theorem reaches_CreateSong_lookup {σ : Type} (q : Querier σ) (c : Context)
    (w : World (σ × List Stmt)) (e : GoError) (hnil : e.isNil = false)
    (hch : e.isChain = false) (hb : c.req.BindJSONSong.1 = .nil)
    (hq : answer q (selectStmt c.req.BindJSONSong.2.Name) w.store.1 = e) :
    reaches ((New (traced q)).2.CreateSong c w) e
      ["songs.api.CreateSong", "songs.service.saveSong", "songs.service.getSongByName",
       "songs.db.get"]
      (w.store.2 ++ [selectStmt c.req.BindJSONSong.2.Name]) := by
  have hq' : answer (traced q) (selectStmt c.req.BindJSONSong.2.Name)
      (w.afterFn ((Pkg "songs").Struct "api") "CreateSong").store = e := by
    rw [answer_traced]; exact hq
  obtain ⟨s1, s2, s3, s4⟩ := saveSong_lookup_fail (traced q) c.req.BindJSONSong.2
    (w.afterFn ((Pkg "songs").Struct "api") "CreateSong") e hnil hch hq'
  have hg := getSongByName_fst_of_fail (traced q) c.req.BindJSONSong.2.Name
    ((w.afterFn ((Pkg "songs").Struct "api") "CreateSong").afterFn
      ((Pkg "songs").Struct "service") "saveSong") e hnil hq'
  have h : ((New (traced q)).2.CreateSong c w).1
      = (500, .nil, (w.Fn ((Pkg "songs").Struct "api") "CreateSong").1.UK
          ((New (traced q)).1.saveSong c.req.BindJSONSong.2
            (w.afterFn ((Pkg "songs").Struct "api") "CreateSong")).1.2) := by
    rw [CreateSong_fst _ _ _ hb]
    simp only [New_snd_s, New_snd_err]
    simp [s1]
  refine ⟨?_, ?_, ?_, ?_, ?_⟩
  · rw [h]
  · rw [h, UK_of_not_nil _ _ s1]; rfl
  · rw [h, UK_of_not_nil _ _ s1]
    simp only [root_wrap, s3]
  · rw [h, UK_of_not_nil _ _ s1, labels_wrap, s4]
    rfl
  · rw [CreateSong_saveSong_log q c w hb, hg]
    simp [isNil_ptr]

theorem reaches_CreateSong_exec {σ : Type} (q : Querier σ) (c : Context)
    (w : World (σ × List Stmt)) (e : GoError) (hnil : e.isNil = false)
    (hch : e.isChain = false) (hb : c.req.BindJSONSong.1 = .nil)
    (hg : ((New (traced q)).1.getSongByName c.req.BindJSONSong.2.Name
      ((w.afterFn ((Pkg "songs").Struct "api") "CreateSong").afterFn
        ((Pkg "songs").Struct "service") "saveSong")).1.2.2 = .nil)
    (hq : answer q
        (if ((New (traced q)).1.getSongByName c.req.BindJSONSong.2.Name
            ((w.afterFn ((Pkg "songs").Struct "api") "CreateSong").afterFn
              ((Pkg "songs").Struct "service") "saveSong")).1.2.1 then
            updateStmt c.req.BindJSONSong.2
          else insertStmt c.req.BindJSONSong.2)
        ((New (traced q)).1.getSongByName c.req.BindJSONSong.2.Name
          ((w.afterFn ((Pkg "songs").Struct "api") "CreateSong").afterFn
            ((Pkg "songs").Struct "service") "saveSong")).2.store.1 = e) :
    reaches ((New (traced q)).2.CreateSong c w) e
      ["songs.api.CreateSong", "songs.service.saveSong",
       if ((New (traced q)).1.getSongByName c.req.BindJSONSong.2.Name
            ((w.afterFn ((Pkg "songs").Struct "api") "CreateSong").afterFn
              ((Pkg "songs").Struct "service") "saveSong")).1.2.1 then "songs.db.update"
       else "songs.db.create"]
      (w.store.2 ++ [selectStmt c.req.BindJSONSong.2.Name,
        if ((New (traced q)).1.getSongByName c.req.BindJSONSong.2.Name
            ((w.afterFn ((Pkg "songs").Struct "api") "CreateSong").afterFn
              ((Pkg "songs").Struct "service") "saveSong")).1.2.1 then
          updateStmt c.req.BindJSONSong.2
        else insertStmt c.req.BindJSONSong.2]) := by
  have hq' : answer (traced q)
      (if ((New (traced q)).1.getSongByName c.req.BindJSONSong.2.Name
            ((w.afterFn ((Pkg "songs").Struct "api") "CreateSong").afterFn
              ((Pkg "songs").Struct "service") "saveSong")).1.2.1 then
            updateStmt c.req.BindJSONSong.2
          else insertStmt c.req.BindJSONSong.2)
      ((New (traced q)).1.getSongByName c.req.BindJSONSong.2.Name
          ((w.afterFn ((Pkg "songs").Struct "api") "CreateSong").afterFn
            ((Pkg "songs").Struct "service") "saveSong")).2.store = e := by
    rw [answer_traced]; exact hq
  obtain ⟨s1, s2, s3, s4⟩ := saveSong_exec_fail (traced q) c.req.BindJSONSong.2
    (w.afterFn ((Pkg "songs").Struct "api") "CreateSong") e hnil hch hg hq'
  have h : ((New (traced q)).2.CreateSong c w).1
      = (500, .nil, (w.Fn ((Pkg "songs").Struct "api") "CreateSong").1.UK
          ((New (traced q)).1.saveSong c.req.BindJSONSong.2
            (w.afterFn ((Pkg "songs").Struct "api") "CreateSong")).1.2) := by
    rw [CreateSong_fst _ _ _ hb]
    simp only [New_snd_s, New_snd_err]
    simp [s1]
  refine ⟨?_, ?_, ?_, ?_, ?_⟩
  · rw [h]
  · rw [h, UK_of_not_nil _ _ s1]; rfl
  · rw [h, UK_of_not_nil _ _ s1]
    simp only [root_wrap, s3]
  · rw [h, UK_of_not_nil _ _ s1, labels_wrap, s4]
    rfl
  · rw [CreateSong_saveSong_log q c w hb, hg]
    simp [GoError.isNil]
    split <;> rfl

theorem UpdateSong_fst {σ : Type} (a : API σ) (c : Context) (w : World σ)
    (hb : c.req.BindJSONSong.1 = .nil) :
    (a.UpdateSong c w).1
      = if !(a.s.saveSong c.req.BindJSONSong.2 (w.afterFn a.err "UpdateSong")).1.2.isNil then
          (500, .nil, (w.Fn a.err "UpdateSong").1.UK
            (a.s.saveSong c.req.BindJSONSong.2 (w.afterFn a.err "UpdateSong")).1.2)
        else if (a.s.saveSong c.req.BindJSONSong.2 (w.afterFn a.err "UpdateSong")).1.1 then
          (400, .nil, (w.Fn a.err "UpdateSong").1.DB
            (a.s.saveSong c.req.BindJSONSong.2 (w.afterFn a.err "UpdateSong")).1.2)
        else (201, .nil, .nil) := by
  simp only [API.UpdateSong, World.afterFn, hb, GoError.isNil]
  simp only [Bool.not_true, Bool.false_eq_true, if_false]
  split_ifs <;> rfl

theorem UpdateSong_saveSong_log {σ : Type} (q : Querier σ) (c : Context)
    (w : World (σ × List Stmt)) (hb : c.req.BindJSONSong.1 = .nil) :
    ((New (traced q)).2.UpdateSong c w).2.store.2
      = w.store.2 ++ selectStmt c.req.BindJSONSong.2.Name ::
          (if !((New (traced q)).1.getSongByName c.req.BindJSONSong.2.Name
                  ((w.afterFn ((Pkg "songs").Struct "api") "UpdateSong").afterFn
                    ((Pkg "songs").Struct "service") "saveSong")).1.2.2.isNil then []
           else if ((New (traced q)).1.getSongByName c.req.BindJSONSong.2.Name
                  ((w.afterFn ((Pkg "songs").Struct "api") "UpdateSong").afterFn
                    ((Pkg "songs").Struct "service") "saveSong")).1.2.1 then
             [updateStmt c.req.BindJSONSong.2]
           else [insertStmt c.req.BindJSONSong.2]) := by
  rw [UpdateSong_snd _ _ _ hb]
  exact saveSong_log q c.req.BindJSONSong.2 (w.afterFn (New (traced q)).2.err "UpdateSong")

theorem reaches_UpdateSong_lookup {σ : Type} (q : Querier σ) (c : Context)
    (w : World (σ × List Stmt)) (e : GoError) (hnil : e.isNil = false)
    (hch : e.isChain = false) (hb : c.req.BindJSONSong.1 = .nil)
    (hq : answer q (selectStmt c.req.BindJSONSong.2.Name) w.store.1 = e) :
    reaches ((New (traced q)).2.UpdateSong c w) e
      ["songs.api.UpdateSong", "songs.service.saveSong", "songs.service.getSongByName",
       "songs.db.get"]
      (w.store.2 ++ [selectStmt c.req.BindJSONSong.2.Name]) := by
  have hq' : answer (traced q) (selectStmt c.req.BindJSONSong.2.Name)
      (w.afterFn ((Pkg "songs").Struct "api") "UpdateSong").store = e := by
    rw [answer_traced]; exact hq
  obtain ⟨s1, s2, s3, s4⟩ := saveSong_lookup_fail (traced q) c.req.BindJSONSong.2
    (w.afterFn ((Pkg "songs").Struct "api") "UpdateSong") e hnil hch hq'
  have hg := getSongByName_fst_of_fail (traced q) c.req.BindJSONSong.2.Name
    ((w.afterFn ((Pkg "songs").Struct "api") "UpdateSong").afterFn
      ((Pkg "songs").Struct "service") "saveSong") e hnil hq'
  have h : ((New (traced q)).2.UpdateSong c w).1
      = (500, .nil, (w.Fn ((Pkg "songs").Struct "api") "UpdateSong").1.UK
          ((New (traced q)).1.saveSong c.req.BindJSONSong.2
            (w.afterFn ((Pkg "songs").Struct "api") "UpdateSong")).1.2) := by
    rw [UpdateSong_fst _ _ _ hb]
    simp only [New_snd_s, New_snd_err]
    simp [s1]
  refine ⟨?_, ?_, ?_, ?_, ?_⟩
  · rw [h]
  · rw [h, UK_of_not_nil _ _ s1]; rfl
  · rw [h, UK_of_not_nil _ _ s1]
    simp only [root_wrap, s3]
  · rw [h, UK_of_not_nil _ _ s1, labels_wrap, s4]
    rfl
  · rw [UpdateSong_saveSong_log q c w hb, hg]
    simp [isNil_ptr]

theorem reaches_UpdateSong_exec {σ : Type} (q : Querier σ) (c : Context)
    (w : World (σ × List Stmt)) (e : GoError) (hnil : e.isNil = false)
    (hch : e.isChain = false) (hb : c.req.BindJSONSong.1 = .nil)
    (hg : ((New (traced q)).1.getSongByName c.req.BindJSONSong.2.Name
      ((w.afterFn ((Pkg "songs").Struct "api") "UpdateSong").afterFn
        ((Pkg "songs").Struct "service") "saveSong")).1.2.2 = .nil)
    (hq : answer q
        (if ((New (traced q)).1.getSongByName c.req.BindJSONSong.2.Name
            ((w.afterFn ((Pkg "songs").Struct "api") "UpdateSong").afterFn
              ((Pkg "songs").Struct "service") "saveSong")).1.2.1 then
            updateStmt c.req.BindJSONSong.2
          else insertStmt c.req.BindJSONSong.2)
        ((New (traced q)).1.getSongByName c.req.BindJSONSong.2.Name
          ((w.afterFn ((Pkg "songs").Struct "api") "UpdateSong").afterFn
            ((Pkg "songs").Struct "service") "saveSong")).2.store.1 = e) :
    reaches ((New (traced q)).2.UpdateSong c w) e
      ["songs.api.UpdateSong", "songs.service.saveSong",
       if ((New (traced q)).1.getSongByName c.req.BindJSONSong.2.Name
            ((w.afterFn ((Pkg "songs").Struct "api") "UpdateSong").afterFn
              ((Pkg "songs").Struct "service") "saveSong")).1.2.1 then "songs.db.update"
       else "songs.db.create"]
      (w.store.2 ++ [selectStmt c.req.BindJSONSong.2.Name,
        if ((New (traced q)).1.getSongByName c.req.BindJSONSong.2.Name
            ((w.afterFn ((Pkg "songs").Struct "api") "UpdateSong").afterFn
              ((Pkg "songs").Struct "service") "saveSong")).1.2.1 then
          updateStmt c.req.BindJSONSong.2
        else insertStmt c.req.BindJSONSong.2]) := by
  have hq' : answer (traced q)
      (if ((New (traced q)).1.getSongByName c.req.BindJSONSong.2.Name
            ((w.afterFn ((Pkg "songs").Struct "api") "UpdateSong").afterFn
              ((Pkg "songs").Struct "service") "saveSong")).1.2.1 then
            updateStmt c.req.BindJSONSong.2
          else insertStmt c.req.BindJSONSong.2)
      ((New (traced q)).1.getSongByName c.req.BindJSONSong.2.Name
          ((w.afterFn ((Pkg "songs").Struct "api") "UpdateSong").afterFn
            ((Pkg "songs").Struct "service") "saveSong")).2.store = e := by
    rw [answer_traced]; exact hq
  obtain ⟨s1, s2, s3, s4⟩ := saveSong_exec_fail (traced q) c.req.BindJSONSong.2
    (w.afterFn ((Pkg "songs").Struct "api") "UpdateSong") e hnil hch hg hq'
  have h : ((New (traced q)).2.UpdateSong c w).1
      = (500, .nil, (w.Fn ((Pkg "songs").Struct "api") "UpdateSong").1.UK
          ((New (traced q)).1.saveSong c.req.BindJSONSong.2
            (w.afterFn ((Pkg "songs").Struct "api") "UpdateSong")).1.2) := by
    rw [UpdateSong_fst _ _ _ hb]
    simp only [New_snd_s, New_snd_err]
    simp [s1]
  refine ⟨?_, ?_, ?_, ?_, ?_⟩
  · rw [h]
  · rw [h, UK_of_not_nil _ _ s1]; rfl
  · rw [h, UK_of_not_nil _ _ s1]
    simp only [root_wrap, s3]
  · rw [h, UK_of_not_nil _ _ s1, labels_wrap, s4]
    rfl
  · rw [UpdateSong_saveSong_log q c w hb, hg]
    simp [GoError.isNil]
    split <;> rfl

theorem deleteSong_fst {σ : Type} (s : Service σ) (name : String) (w : World σ) :
    (s.deleteSong name w).1
      = if !(s.db.delete name (w.afterFn s.err "deleteSong")).1.2.isNil then
          (true, (w.Fn s.err "deleteSong").1.Wrap
            (s.db.delete name (w.afterFn s.err "deleteSong")).1.2 "deleting song")
        else if !(s.db.delete name (w.afterFn s.err "deleteSong")).1.1 then (true, .nil)
        else (false, .nil) := by
  simp only [Service.deleteSong, World.afterFn]
  split_ifs <;> rfl

theorem DeleteSong_fst {σ : Type} (a : API σ) (c : Context) (w : World σ) :
    (a.DeleteSong c w).1
      = if !(a.s.deleteSong (c.Param "name")
              (w.afterFnTag a.err "DeleteSong" (c.Param "name"))).1.2.isNil then
          (500, .nil, (w.Fn a.err "DeleteSong").1.UK
            (a.s.deleteSong (c.Param "name")
              (w.afterFnTag a.err "DeleteSong" (c.Param "name"))).1.2)
        else if (a.s.deleteSong (c.Param "name")
              (w.afterFnTag a.err "DeleteSong" (c.Param "name"))).1.1 then
          (400, .nil, (w.Fn a.err "DeleteSong").1.DB
            (a.s.deleteSong (c.Param "name")
              (w.afterFnTag a.err "DeleteSong" (c.Param "name"))).1.2)
        else (201, .nil, .nil) := by
  simp only [API.DeleteSong, World.afterFnTag, World.Tag_fst]
  split_ifs <;> rfl

theorem DeleteSong_log {σ : Type} (q : Querier σ) (c : Context) (w : World (σ × List Stmt)) :
    ((New (traced q)).2.DeleteSong c w).2.store.2
      = w.store.2 ++ [deleteStmt (c.Param "name")] := by
  rw [DeleteSong_snd, deleteSong_snd]
  show ((db.mk (traced q) ((Pkg "songs").Struct "db")).delete _ _).2.store.2 = _
  rw [db_delete_log]
  rfl

theorem reaches_DeleteSong {σ : Type} (q : Querier σ) (c : Context)
    (w : World (σ × List Stmt)) (e : GoError) (hnil : e.isNil = false)
    (hch : e.isChain = false)
    (hq : answer q (deleteStmt (c.Param "name")) w.store.1 = e) :
    reaches ((New (traced q)).2.DeleteSong c w) e
      ["songs.api.DeleteSong", "songs.service.deleteSong", "songs.db.delete"]
      (w.store.2 ++ [deleteStmt (c.Param "name")]) := by
  have hq' : answer (traced q) (deleteStmt (c.Param "name"))
      ((w.afterFnTag ((Pkg "songs").Struct "api") "DeleteSong" (c.Param "name")).afterFn
        ((Pkg "songs").Struct "service") "deleteSong").store = e := by
    rw [answer_traced]; exact hq
  have hd := db_delete_fst_of_fail (traced q) ((Pkg "songs").Struct "db") (c.Param "name")
    _ e hnil hq'
  have hd' : ((New (traced q)).1.db.delete (c.Param "name")
      ((w.afterFnTag ((Pkg "songs").Struct "api") "DeleteSong" (c.Param "name")).afterFn
        ((Pkg "songs").Struct "service") "deleteSong")).1 = _ := hd
  have h : ((New (traced q)).2.DeleteSong c w).1
      = (500, .nil, (w.Fn ((Pkg "songs").Struct "api") "DeleteSong").1.UK
          (.ptr (((w.afterFnTag ((Pkg "songs").Struct "api") "DeleteSong"
              (c.Param "name")).Fn ((Pkg "songs").Struct "service")
                "deleteSong").1.unsafeWrap
            (.ptr ((((w.afterFnTag ((Pkg "songs").Struct "api") "DeleteSong"
                (c.Param "name")).afterFn ((Pkg "songs").Struct "service")
                  "deleteSong").Fn ((Pkg "songs").Struct "db") "delete").1.unsafeWrap e
              "deleting" ""))
            "deleting song" ""))) := by
    rw [DeleteSong_fst]
    simp only [New_snd_s, New_snd_err]
    rw [deleteSong_fst]
    simp only [New_fst_err]
    simp [hd', isNil_ptr, Wrap_of_not_nil]
  refine ⟨?_, ?_, ?_, ?_, DeleteSong_log q c w⟩
  · rw [h]
  · rw [h, UK_of_not_nil _ _ (isNil_ptr _)]; rfl
  · rw [h, UK_of_not_nil _ _ (isNil_ptr _)]
    simp only [root_wrap, root_of_not_chain e hch]
  · rw [h, UK_of_not_nil _ _ (isNil_ptr _)]
    simp only [labels_wrap, labels_of_not_chain e hch]
    rfl

end songs
namespace artists

open errors persist gin

theorem New_snd_s_artists {σ : Type} (q : Querier σ) : (New q).2.s = (New q).1 := rfl

theorem New_snd_err_artists {σ : Type} (q : Querier σ) :
    (New q).2.err = (Pkg "artists").Struct "api" := rfl

theorem New_fst_err_artists {σ : Type} (q : Querier σ) :
    (New q).1.err = (Pkg "artists").Struct "service" := rfl

theorem answer_traced_artists {σ : Type} (q : Querier σ) (s : Stmt) (st : σ × List Stmt) :
    answer (traced q) s st = answer q s st.1 := by
  cases s <;> rfl

theorem db_get_log_artists {σ : Type} (q : Querier σ) (err : Struct) (name : String)
    (w : World (σ × List Stmt)) :
    ((db.mk (traced q) err).get name w).2.store.2 = w.store.2 ++ [selectStmt name] := by
  simp only [db.get, selectStmt]
  by_cases hn : name = "" <;> simp [hn, traced, World.Tag_store, World.Fn_store] <;>
    split <;> simp [World.Tag_store, World.Fn_store]

theorem db_delete_log_artists {σ : Type} (q : Querier σ) (err : Struct) (name : String)
    (w : World (σ × List Stmt)) :
    ((db.mk (traced q) err).delete name w).2.store.2 = w.store.2 ++ [deleteStmt name] := by
  simp only [db.delete, deleteStmt]
  split <;> simp [traced, World.Fn_store]

theorem db_get_fst_of_fail_artists {σ : Type} (q : Querier σ) (err : Struct) (name : String)
    (w : World σ) (e : GoError) (hnil : e.isNil = false)
    (hq : answer q (selectStmt name) w.store = e) :
    ((db.mk q err).get name w).1
      = ([], .ptr ((w.Fn err "get").1.unsafeWrap e "quering artists from table" "")) := by
  by_cases hn : name = ""
  · simp only [answer, selectStmt, hn, ne_eq, not_true_eq_false, if_false] at hq
    simp [db.get, hn, World.Tag_store, World.Fn_store, World.Tag_fst, hq, hnil,
      Wrap_of_not_nil]
  · simp [answer, selectStmt, hn] at hq
    simp [db.get, hn, World.Tag_store, World.Fn_store, World.Tag_fst, hq, hnil,
      Wrap_of_not_nil]

theorem db_create_fst_of_fail_artists {σ : Type} (q : Querier σ) (err : Struct) (i : api.Artist)
    (w : World σ) (e : GoError) (hnil : e.isNil = false)
    (hq : answer q (insertStmt i) w.store = e) :
    ((db.mk q err).create i w).1
      = (false, .ptr ((w.Fn err "create").1.unsafeWrap e "inserting" "")) := by
  simp only [answer, insertStmt] at hq
  simp [db.create, World.Fn_store, hq, hnil, Wrap_of_not_nil]

theorem db_delete_fst_of_fail_artists {σ : Type} (q : Querier σ) (err : Struct) (name : String)
    (w : World σ) (e : GoError) (hnil : e.isNil = false)
    (hq : answer q (deleteStmt name) w.store = e) :
    ((db.mk q err).delete name w).1
      = (false, .ptr ((w.Fn err "delete").1.unsafeWrap e "deleting" "")) := by
  simp only [answer, deleteStmt] at hq
  simp [db.delete, World.Fn_store, hq, hnil, Wrap_of_not_nil]

/-! ### GetArtists -/

theorem getArtists_snd {σ : Type} (s : Service σ) (w : World σ) :
    (s.getArtists w).2 = (s.db.get "" (w.afterFn s.err "getArtists")).2 := by
  simp only [Service.getArtists, World.afterFn]
  split_ifs <;> rfl

theorem getArtists_fst {σ : Type} (s : Service σ) (w : World σ) :
    (s.getArtists w).1
      = if !(s.db.get "" (w.afterFn s.err "getArtists")).1.2.isNil then
          ([], (w.Fn s.err "getArtists").1.Wrap (s.db.get "" (w.afterFn s.err "getArtists")).1.2
            "getting artists from db")
        else ((s.db.get "" (w.afterFn s.err "getArtists")).1.1, .nil) := by
  simp only [Service.getArtists, World.afterFn]
  split_ifs <;> rfl

theorem GetArtists_snd {σ : Type} (a : API σ) (c : Context) (w : World σ) :
    (a.GetArtists c w).2 = (a.s.getArtists (w.afterFn a.err "GetArtists")).2 := by
  simp only [API.GetArtists, World.afterFn]
  split_ifs <;> rfl

theorem GetArtists_fst {σ : Type} (a : API σ) (c : Context) (w : World σ) :
    (a.GetArtists c w).1
      = if !(a.s.getArtists (w.afterFn a.err "GetArtists")).1.2.isNil then
          (500, .artists (a.s.getArtists (w.afterFn a.err "GetArtists")).1.1,
            (w.Fn a.err "GetArtists").1.UK (a.s.getArtists (w.afterFn a.err "GetArtists")).1.2)
        else (200, .artists (a.s.getArtists (w.afterFn a.err "GetArtists")).1.1, .nil) := by
  simp only [API.GetArtists, World.afterFn]
  split_ifs <;> rfl

theorem GetArtists_log {σ : Type} (q : Querier σ) (c : Context) (w : World (σ × List Stmt)) :
    ((New (traced q)).2.GetArtists c w).2.store.2 = w.store.2 ++ [selectStmt ""] := by
  rw [GetArtists_snd, getArtists_snd]
  show ((db.mk (traced q) ((Pkg "artists").Struct "db")).get "" _).2.store.2 = _
  rw [db_get_log_artists]
  rfl

theorem reaches_GetArtists {σ : Type} (q : Querier σ) (c : Context)
    (w : World (σ × List Stmt)) (e : GoError) (hnil : e.isNil = false)
    (hch : e.isChain = false) (hq : answer q (selectStmt "") w.store.1 = e) :
    reaches ((New (traced q)).2.GetArtists c w) e
      ["artists.api.GetArtists", "artists.service.getArtists", "artists.db.get"]
      (w.store.2 ++ [selectStmt ""]) := by
  have hq' : answer (traced q) (selectStmt "")
      ((w.afterFn ((Pkg "artists").Struct "api") "GetArtists").afterFn
        ((Pkg "artists").Struct "service") "getArtists").store = e := by
    rw [answer_traced_artists]; exact hq
  have hd := db_get_fst_of_fail_artists (traced q) ((Pkg "artists").Struct "db") "" _ e hnil hq'
  have hd' : ((New (traced q)).1.db.get ""
      ((w.afterFn ((Pkg "artists").Struct "api") "GetArtists").afterFn
        ((Pkg "artists").Struct "service") "getArtists")).1 = _ := hd
  have h : ((New (traced q)).2.GetArtists c w).1
      = (500, .artists [], (w.Fn ((Pkg "artists").Struct "api") "GetArtists").1.UK
          (.ptr (((w.afterFn ((Pkg "artists").Struct "api") "GetArtists").Fn
              ((Pkg "artists").Struct "service") "getArtists").1.unsafeWrap
            (.ptr ((((w.afterFn ((Pkg "artists").Struct "api") "GetArtists").afterFn
                ((Pkg "artists").Struct "service") "getArtists").Fn
                  ((Pkg "artists").Struct "db") "get").1.unsafeWrap e
              "quering artists from table" ""))
            "getting artists from db" ""))) := by
    rw [GetArtists_fst]
    simp only [New_snd_s_artists, New_snd_err_artists]
    rw [getArtists_fst]
    simp only [New_fst_err_artists]
    simp [hd', isNil_ptr, Wrap_of_not_nil]
  refine ⟨?_, ?_, ?_, ?_, GetArtists_log q c w⟩
  · rw [h]
  · rw [h, UK_of_not_nil _ _ (isNil_ptr _)]; rfl
  · rw [h, UK_of_not_nil _ _ (isNil_ptr _)]
    simp only [root_wrap, root_of_not_chain e hch]
  · rw [h, UK_of_not_nil _ _ (isNil_ptr _)]
    simp only [labels_wrap, labels_of_not_chain e hch]
    rfl

/-! ### GetArtistByName -/

theorem getArtistByName_snd {σ : Type} (s : Service σ) (name : String) (w : World σ) :
    (s.getArtistByName name w).2
      = (s.db.get name (w.afterFnTag s.err "getArtistByName" name)).2 := by
  simp only [Service.getArtistByName, World.afterFnTag]
  split_ifs <;> rfl

theorem getArtistByName_fst {σ : Type} (s : Service σ) (name : String) (w : World σ) :
    (s.getArtistByName name w).1
      = if !(s.db.get name (w.afterFnTag s.err "getArtistByName" name)).1.2.isNil then
          ({ Id := 0, Name := "" }, false,
            (w.Fn s.err "getArtistByName").1.Wrap
              (s.db.get name (w.afterFnTag s.err "getArtistByName" name)).1.2
              "getting contract from db")
        else if (s.db.get name (w.afterFnTag s.err "getArtistByName" name)).1.1.length ≠ 1 then
          ({ Id := 0, Name := "" }, false, .nil)
        else
          ((s.db.get name (w.afterFnTag s.err "getArtistByName" name)).1.1.getD 0
            { Id := 0, Name := "" }, true, .nil) := by
  simp only [Service.getArtistByName, World.afterFnTag, World.Tag_fst]
  split_ifs <;> rfl

theorem GetArtistByName_snd {σ : Type} (a : API σ) (c : Context) (w : World σ) :
    (a.GetArtistByName c w).2
      = (a.s.getArtistByName (c.Param "name")
          (w.afterFnTag a.err "GetArtistByName" (c.Param "name"))).2 := by
  simp only [API.GetArtistByName, World.afterFnTag]
  split_ifs <;> rfl

theorem GetArtistByName_fst {σ : Type} (a : API σ) (c : Context) (w : World σ) :
    (a.GetArtistByName c w).1
      = if !(a.s.getArtistByName (c.Param "name")
              (w.afterFnTag a.err "GetArtistByName" (c.Param "name"))).1.2.2.isNil then
          (500, .nil, (w.Fn a.err "GetArtistByName").1.UK
            (a.s.getArtistByName (c.Param "name")
              (w.afterFnTag a.err "GetArtistByName" (c.Param "name"))).1.2.2)
        else if !(a.s.getArtistByName (c.Param "name")
              (w.afterFnTag a.err "GetArtistByName" (c.Param "name"))).1.2.1 then
          (404, .nil, (w.Fn a.err "GetArtistByName").1.NotFound)
        else
          (200, .artist (a.s.getArtistByName (c.Param "name")
              (w.afterFnTag a.err "GetArtistByName" (c.Param "name"))).1.1, .nil) := by
  simp only [API.GetArtistByName, World.afterFnTag, World.Tag_fst]
  split_ifs <;> rfl

theorem GetArtistByName_log {σ : Type} (q : Querier σ) (c : Context)
    (w : World (σ × List Stmt)) :
    ((New (traced q)).2.GetArtistByName c w).2.store.2
      = w.store.2 ++ [selectStmt (c.Param "name")] := by
  rw [GetArtistByName_snd, getArtistByName_snd]
  show ((db.mk (traced q) ((Pkg "artists").Struct "db")).get _ _).2.store.2 = _
  rw [db_get_log_artists]
  rfl

theorem reaches_GetArtistByName {σ : Type} (q : Querier σ) (c : Context)
    (w : World (σ × List Stmt)) (e : GoError) (hnil : e.isNil = false)
    (hch : e.isChain = false)
    (hq : answer q (selectStmt (c.Param "name")) w.store.1 = e) :
    reaches ((New (traced q)).2.GetArtistByName c w) e
      ["artists.api.GetArtistByName", "artists.service.getArtistByName", "artists.db.get"]
      (w.store.2 ++ [selectStmt (c.Param "name")]) := by
  have hq' : answer (traced q) (selectStmt (c.Param "name"))
      ((w.afterFnTag ((Pkg "artists").Struct "api") "GetArtistByName"
        (c.Param "name")).afterFnTag ((Pkg "artists").Struct "service") "getArtistByName"
          (c.Param "name")).store = e := by
    rw [answer_traced_artists]; exact hq
  have hd := db_get_fst_of_fail_artists (traced q) ((Pkg "artists").Struct "db") (c.Param "name") _ e
    hnil hq'
  have hd' : ((New (traced q)).1.db.get (c.Param "name")
      ((w.afterFnTag ((Pkg "artists").Struct "api") "GetArtistByName"
        (c.Param "name")).afterFnTag ((Pkg "artists").Struct "service") "getArtistByName"
          (c.Param "name"))).1 = _ := hd
  have h : ((New (traced q)).2.GetArtistByName c w).1
      = (500, .nil, (w.Fn ((Pkg "artists").Struct "api") "GetArtistByName").1.UK
          (.ptr (((w.afterFnTag ((Pkg "artists").Struct "api") "GetArtistByName"
              (c.Param "name")).Fn ((Pkg "artists").Struct "service")
                "getArtistByName").1.unsafeWrap
            (.ptr ((((w.afterFnTag ((Pkg "artists").Struct "api") "GetArtistByName"
                (c.Param "name")).afterFnTag ((Pkg "artists").Struct "service")
                  "getArtistByName" (c.Param "name")).Fn
                    ((Pkg "artists").Struct "db") "get").1.unsafeWrap e
              "quering artists from table" ""))
            "getting contract from db" ""))) := by
    rw [GetArtistByName_fst]
    simp only [New_snd_s_artists, New_snd_err_artists]
    rw [getArtistByName_fst]
    simp only [New_fst_err_artists]
    simp [hd', isNil_ptr, Wrap_of_not_nil]
  refine ⟨?_, ?_, ?_, ?_, GetArtistByName_log q c w⟩
  · rw [h]
  · rw [h, UK_of_not_nil _ _ (isNil_ptr _)]; rfl
  · rw [h, UK_of_not_nil _ _ (isNil_ptr _)]
    simp only [root_wrap, root_of_not_chain e hch]
  · rw [h, UK_of_not_nil _ _ (isNil_ptr _)]
    simp only [labels_wrap, labels_of_not_chain e hch]
    rfl

end artists
namespace artists

open errors persist gin

/-! ### CreateArtist and DeleteArtist -/

theorem saveArtist_fst {σ : Type} (s : Service σ) (i : api.Artist) (w : World σ) :
    (s.saveArtist i w).1
      = if !(s.db.create i (w.afterFn s.err "saveArtist")).1.2.isNil then
          (true, (w.Fn s.err "saveArtist").1.Wrap
            (s.db.create i (w.afterFn s.err "saveArtist")).1.2 "saving artist")
        else if !(s.db.create i (w.afterFn s.err "saveArtist")).1.1 then (true, .nil)
        else (false, .nil) := by
  simp only [Service.saveArtist, World.afterFn]
  split_ifs <;> rfl

theorem CreateArtist_fst {σ : Type} (a : API σ) (c : Context) (w : World σ)
    (hb : c.req.BindJSONArtist.1 = .nil) :
    (a.CreateArtist c w).1
      = if !(a.s.saveArtist c.req.BindJSONArtist.2 (w.afterFn a.err "CreateArtist")).1.2.isNil
          then
          (500, .nil, (w.Fn a.err "CreateArtist").1.UK
            (a.s.saveArtist c.req.BindJSONArtist.2 (w.afterFn a.err "CreateArtist")).1.2)
        else if (a.s.saveArtist c.req.BindJSONArtist.2 (w.afterFn a.err "CreateArtist")).1.1
          then
          (400, .nil, (w.Fn a.err "CreateArtist").1.DB
            (a.s.saveArtist c.req.BindJSONArtist.2 (w.afterFn a.err "CreateArtist")).1.2)
        else (201, .nil, .nil) := by
  simp only [API.CreateArtist, World.afterFn, hb, GoError.isNil]
  simp only [Bool.not_true, Bool.false_eq_true, if_false]
  split_ifs <;> rfl

theorem reaches_CreateArtist {σ : Type} (q : Querier σ) (c : Context)
    (w : World (σ × List Stmt)) (e : GoError) (hnil : e.isNil = false)
    (hch : e.isChain = false) (hb : c.req.BindJSONArtist.1 = .nil)
    (hq : answer q (insertStmt c.req.BindJSONArtist.2) w.store.1 = e) :
    reaches ((New (traced q)).2.CreateArtist c w) e
      ["artists.api.CreateArtist", "artists.service.saveArtist", "artists.db.create"]
      (w.store.2 ++ [insertStmt c.req.BindJSONArtist.2]) := by
  have hq' : answer (traced q) (insertStmt c.req.BindJSONArtist.2)
      ((w.afterFn ((Pkg "artists").Struct "api") "CreateArtist").afterFn
        ((Pkg "artists").Struct "service") "saveArtist").store = e := by
    rw [answer_traced_artists]; exact hq
  have hd := db_create_fst_of_fail_artists (traced q) ((Pkg "artists").Struct "db")
    c.req.BindJSONArtist.2 _ e hnil hq'
  have hd' : ((New (traced q)).1.db.create c.req.BindJSONArtist.2
      ((w.afterFn ((Pkg "artists").Struct "api") "CreateArtist").afterFn
        ((Pkg "artists").Struct "service") "saveArtist")).1 = _ := hd
  have h : ((New (traced q)).2.CreateArtist c w).1
      = (500, .nil, (w.Fn ((Pkg "artists").Struct "api") "CreateArtist").1.UK
          (.ptr (((w.afterFn ((Pkg "artists").Struct "api") "CreateArtist").Fn
              ((Pkg "artists").Struct "service") "saveArtist").1.unsafeWrap
            (.ptr ((((w.afterFn ((Pkg "artists").Struct "api") "CreateArtist").afterFn
                ((Pkg "artists").Struct "service") "saveArtist").Fn
                  ((Pkg "artists").Struct "db") "create").1.unsafeWrap e "inserting" ""))
            "saving artist" ""))) := by
    rw [CreateArtist_fst _ _ _ hb]
    simp only [New_snd_s_artists, New_snd_err_artists]
    rw [saveArtist_fst]
    simp only [New_fst_err_artists]
    simp [hd', isNil_ptr, Wrap_of_not_nil]
  refine ⟨?_, ?_, ?_, ?_, CreateArtist_log q c w hb⟩
  · rw [h]
  · rw [h, UK_of_not_nil _ _ (isNil_ptr _)]; rfl
  · rw [h, UK_of_not_nil _ _ (isNil_ptr _)]
    simp only [root_wrap, root_of_not_chain e hch]
  · rw [h, UK_of_not_nil _ _ (isNil_ptr _)]
    simp only [labels_wrap, labels_of_not_chain e hch]
    rfl

theorem deleteArtist_snd {σ : Type} (s : Service σ) (name : String) (w : World σ) :
    (s.deleteArtist name w).2 = (s.db.delete name (w.afterFn s.err "deleteArtist")).2 := by
  simp only [Service.deleteArtist, World.afterFn]
  split_ifs <;> rfl

theorem deleteArtist_fst {σ : Type} (s : Service σ) (name : String) (w : World σ) :
    (s.deleteArtist name w).1
      = if !(s.db.delete name (w.afterFn s.err "deleteArtist")).1.2.isNil then
          (true, (w.Fn s.err "deleteArtist").1.Wrap
            (s.db.delete name (w.afterFn s.err "deleteArtist")).1.2 "deleting artist")
        else if !(s.db.delete name (w.afterFn s.err "deleteArtist")).1.1 then (true, .nil)
        else (false, .nil) := by
  simp only [Service.deleteArtist, World.afterFn]
  split_ifs <;> rfl

theorem DeleteArtist_snd {σ : Type} (a : API σ) (c : Context) (w : World σ) :
    (a.DeleteArtist c w).2
      = (a.s.deleteArtist (c.Param "name")
          (w.afterFnTag a.err "DeleteArtist" (c.Param "name"))).2 := by
  simp only [API.DeleteArtist, World.afterFnTag]
  split_ifs <;> rfl

theorem DeleteArtist_fst {σ : Type} (a : API σ) (c : Context) (w : World σ) :
    (a.DeleteArtist c w).1
      = if !(a.s.deleteArtist (c.Param "name")
              (w.afterFnTag a.err "DeleteArtist" (c.Param "name"))).1.2.isNil then
          (500, .nil, (w.Fn a.err "DeleteArtist").1.UK
            (a.s.deleteArtist (c.Param "name")
              (w.afterFnTag a.err "DeleteArtist" (c.Param "name"))).1.2)
        else if (a.s.deleteArtist (c.Param "name")
              (w.afterFnTag a.err "DeleteArtist" (c.Param "name"))).1.1 then
          (400, .nil, (w.Fn a.err "DeleteArtist").1.DB
            (a.s.deleteArtist (c.Param "name")
              (w.afterFnTag a.err "DeleteArtist" (c.Param "name"))).1.2)
        else (201, .nil, .nil) := by
  simp only [API.DeleteArtist, World.afterFnTag, World.Tag_fst]
  split_ifs <;> rfl

theorem DeleteArtist_log {σ : Type} (q : Querier σ) (c : Context)
    (w : World (σ × List Stmt)) :
    ((New (traced q)).2.DeleteArtist c w).2.store.2
      = w.store.2 ++ [deleteStmt (c.Param "name")] := by
  rw [DeleteArtist_snd, deleteArtist_snd]
  show ((db.mk (traced q) ((Pkg "artists").Struct "db")).delete _ _).2.store.2 = _
  rw [db_delete_log_artists]
  rfl

theorem reaches_DeleteArtist {σ : Type} (q : Querier σ) (c : Context)
    (w : World (σ × List Stmt)) (e : GoError) (hnil : e.isNil = false)
    (hch : e.isChain = false)
    (hq : answer q (deleteStmt (c.Param "name")) w.store.1 = e) :
    reaches ((New (traced q)).2.DeleteArtist c w) e
      ["artists.api.DeleteArtist", "artists.service.deleteArtist", "artists.db.delete"]
      (w.store.2 ++ [deleteStmt (c.Param "name")]) := by
  have hq' : answer (traced q) (deleteStmt (c.Param "name"))
      ((w.afterFnTag ((Pkg "artists").Struct "api") "DeleteArtist" (c.Param "name")).afterFn
        ((Pkg "artists").Struct "service") "deleteArtist").store = e := by
    rw [answer_traced_artists]; exact hq
  have hd := db_delete_fst_of_fail_artists (traced q) ((Pkg "artists").Struct "db") (c.Param "name")
    _ e hnil hq'
  have hd' : ((New (traced q)).1.db.delete (c.Param "name")
      ((w.afterFnTag ((Pkg "artists").Struct "api") "DeleteArtist" (c.Param "name")).afterFn
        ((Pkg "artists").Struct "service") "deleteArtist")).1 = _ := hd
  have h : ((New (traced q)).2.DeleteArtist c w).1
      = (500, .nil, (w.Fn ((Pkg "artists").Struct "api") "DeleteArtist").1.UK
          (.ptr (((w.afterFnTag ((Pkg "artists").Struct "api") "DeleteArtist"
              (c.Param "name")).Fn ((Pkg "artists").Struct "service")
                "deleteArtist").1.unsafeWrap
            (.ptr ((((w.afterFnTag ((Pkg "artists").Struct "api") "DeleteArtist"
                (c.Param "name")).afterFn ((Pkg "artists").Struct "service")
                  "deleteArtist").Fn ((Pkg "artists").Struct "db") "delete").1.unsafeWrap e
              "deleting" ""))
            "deleting artist" ""))) := by
    rw [DeleteArtist_fst]
    simp only [New_snd_s_artists, New_snd_err_artists]
    rw [deleteArtist_fst]
    simp only [New_fst_err_artists]
    simp [hd', isNil_ptr, Wrap_of_not_nil]
  refine ⟨?_, ?_, ?_, ?_, DeleteArtist_log q c w⟩
  · rw [h]
  · rw [h, UK_of_not_nil _ _ (isNil_ptr _)]; rfl
  · rw [h, UK_of_not_nil _ _ (isNil_ptr _)]
    simp only [root_wrap, root_of_not_chain e hch]
  · rw [h, UK_of_not_nil _ _ (isNil_ptr _)]
    simp only [labels_wrap, labels_of_not_chain e hch]
    rfl

end artists
theorem errors.originText_of_not_nil (e : errors.GoError) (h : e.isNil = false) :
    errors.originText e = e.msg := by
  cases e with
  | nil => simp [errors.GoError.isNil] at h
  | ptr c => rfl
  | other m => rfl

theorem songs.GetSongs_rendering (e : errors.GoError) (hnil : e.isNil = false)
    (hch : e.isChain = false) (n : Nat) (ord : errors.Order) (h : errors.Heap) :
    ∀ ch, errors.nest e
        [{ fn := { strct := (errors.Pkg "songs").Struct "api", tags := n, name := "GetSongs" },
           ctx := "", external := "unknown error" },
         { fn := { strct := (errors.Pkg "songs").Struct "service", tags := n + 1,
                   name := "getSongs" },
           ctx := "getting songs from db", external := "" },
         { fn := { strct := (errors.Pkg "songs").Struct "db", tags := n + 2, name := "get" },
           ctx := "quering songs from table", external := "" }] = .ptr ch →
      (ch.Error ord h).1
        = "ERROR " ++ e.msg
          ++ " | CONTEXT  <- getting songs from db <- quering songs from table"
          ++ " | TAGS: " ++ ch.formatTags ord (ch.Error ord h).2 n
          ++ " | STACK: songs.api.GetSongs <- songs.service.getSongs <- songs.db.get" := by
  intro ch hc
  have hc' : ch = errors.Wrap.around
      { fn := { strct := (errors.Pkg "songs").Struct "api", tags := n, name := "GetSongs" },
        ctx := "", external := "unknown error" }
      (errors.nest e
        [{ fn := { strct := (errors.Pkg "songs").Struct "service", tags := n + 1,
                   name := "getSongs" },
           ctx := "getting songs from db", external := "" },
         { fn := { strct := (errors.Pkg "songs").Struct "db", tags := n + 2, name := "get" },
           ctx := "quering songs from table", external := "" }]) := by
    simp only [errors.nest] at hc ⊢
    injection hc with hc
    exact hc.symm
  subst hc'
  rw [errors.Error_nest ord h e hch, errors.originText_of_not_nil e hnil]
  simp only [String.append_assoc]
  rfl

/-- C9: let the store fail a statement with an error `e` that is neither nil nor a chain.
Then in every handler of the two APIs the request ends there: the status is 500,
the returned error is a chain whose root is `e` itself and which has exactly one
link for the handler, one for each service function and one for the adapter
method on the way, and the failing statement is the last one on record.  For
`GetSongs` the chain renders with origin `e.Error()`, the contexts of the three
links and STACK `songs.api.GetSongs <- songs.service.getSongs <- songs.db.get`. -/
theorem C9_store_errors_reach_boundary {σ : Type} (q : persist.Querier σ) (c : gin.Context)
    (w : World (σ × List persist.Stmt)) (e : errors.GoError)
    (hnil : e.isNil = false) (hch : e.isChain = false) :
    (persist.answer q (songs.selectStmt "") w.store.1 = e →
        gin.reaches ((songs.New (persist.traced q)).2.GetSongs c w) e
          ["songs.api.GetSongs", "songs.service.getSongs", "songs.db.get"]
          (w.store.2 ++ [songs.selectStmt ""])
        ∧ ∀ ch, ((songs.New (persist.traced q)).2.GetSongs c w).1.2.2 = .ptr ch →
            ∀ (ord : errors.Order) (h : errors.Heap),
              (ch.Error ord h).1
                = "ERROR " ++ e.msg
                  ++ " | CONTEXT  <- getting songs from db <- quering songs from table"
                  ++ " | TAGS: " ++ ch.formatTags ord (ch.Error ord h).2 w.heap.next
                  ++ " | STACK: songs.api.GetSongs <- songs.service.getSongs <- songs.db.get")
    ∧ (persist.answer q (songs.selectStmt (c.Param "name")) w.store.1 = e →
        gin.reaches ((songs.New (persist.traced q)).2.GetSongByName c w) e
          ["songs.api.GetSongByName", "songs.service.getSongByName", "songs.db.get"]
          (w.store.2 ++ [songs.selectStmt (c.Param "name")]))
    ∧ (c.req.BindJSONSong.1 = .nil →
        persist.answer q (songs.selectStmt c.req.BindJSONSong.2.Name) w.store.1 = e →
        gin.reaches ((songs.New (persist.traced q)).2.CreateSong c w) e
          ["songs.api.CreateSong", "songs.service.saveSong", "songs.service.getSongByName",
           "songs.db.get"]
          (w.store.2 ++ [songs.selectStmt c.req.BindJSONSong.2.Name])
        ∧ gin.reaches ((songs.New (persist.traced q)).2.UpdateSong c w) e
          ["songs.api.UpdateSong", "songs.service.saveSong", "songs.service.getSongByName",
           "songs.db.get"]
          (w.store.2 ++ [songs.selectStmt c.req.BindJSONSong.2.Name]))
    ∧ (c.req.BindJSONSong.1 = .nil →
        ((songs.New (persist.traced q)).1.getSongByName c.req.BindJSONSong.2.Name
          ((w.afterFn ((errors.Pkg "songs").Struct "api") "CreateSong").afterFn
            ((errors.Pkg "songs").Struct "service") "saveSong")).1.2.2 = .nil →
        persist.answer q
          (if ((songs.New (persist.traced q)).1.getSongByName c.req.BindJSONSong.2.Name
              ((w.afterFn ((errors.Pkg "songs").Struct "api") "CreateSong").afterFn
                ((errors.Pkg "songs").Struct "service") "saveSong")).1.2.1 then
              songs.updateStmt c.req.BindJSONSong.2
            else songs.insertStmt c.req.BindJSONSong.2)
          ((songs.New (persist.traced q)).1.getSongByName c.req.BindJSONSong.2.Name
            ((w.afterFn ((errors.Pkg "songs").Struct "api") "CreateSong").afterFn
              ((errors.Pkg "songs").Struct "service") "saveSong")).2.store.1 = e →
        gin.reaches ((songs.New (persist.traced q)).2.CreateSong c w) e
          ["songs.api.CreateSong", "songs.service.saveSong",
           if ((songs.New (persist.traced q)).1.getSongByName c.req.BindJSONSong.2.Name
                ((w.afterFn ((errors.Pkg "songs").Struct "api") "CreateSong").afterFn
                  ((errors.Pkg "songs").Struct "service") "saveSong")).1.2.1 then
             "songs.db.update"
           else "songs.db.create"]
          (w.store.2 ++ [songs.selectStmt c.req.BindJSONSong.2.Name,
            if ((songs.New (persist.traced q)).1.getSongByName c.req.BindJSONSong.2.Name
                ((w.afterFn ((errors.Pkg "songs").Struct "api") "CreateSong").afterFn
                  ((errors.Pkg "songs").Struct "service") "saveSong")).1.2.1 then
              songs.updateStmt c.req.BindJSONSong.2
            else songs.insertStmt c.req.BindJSONSong.2]))
    ∧ (c.req.BindJSONSong.1 = .nil →
        ((songs.New (persist.traced q)).1.getSongByName c.req.BindJSONSong.2.Name
          ((w.afterFn ((errors.Pkg "songs").Struct "api") "UpdateSong").afterFn
            ((errors.Pkg "songs").Struct "service") "saveSong")).1.2.2 = .nil →
        persist.answer q
          (if ((songs.New (persist.traced q)).1.getSongByName c.req.BindJSONSong.2.Name
              ((w.afterFn ((errors.Pkg "songs").Struct "api") "UpdateSong").afterFn
                ((errors.Pkg "songs").Struct "service") "saveSong")).1.2.1 then
              songs.updateStmt c.req.BindJSONSong.2
            else songs.insertStmt c.req.BindJSONSong.2)
          ((songs.New (persist.traced q)).1.getSongByName c.req.BindJSONSong.2.Name
            ((w.afterFn ((errors.Pkg "songs").Struct "api") "UpdateSong").afterFn
              ((errors.Pkg "songs").Struct "service") "saveSong")).2.store.1 = e →
        gin.reaches ((songs.New (persist.traced q)).2.UpdateSong c w) e
          ["songs.api.UpdateSong", "songs.service.saveSong",
           if ((songs.New (persist.traced q)).1.getSongByName c.req.BindJSONSong.2.Name
                ((w.afterFn ((errors.Pkg "songs").Struct "api") "UpdateSong").afterFn
                  ((errors.Pkg "songs").Struct "service") "saveSong")).1.2.1 then
             "songs.db.update"
           else "songs.db.create"]
          (w.store.2 ++ [songs.selectStmt c.req.BindJSONSong.2.Name,
            if ((songs.New (persist.traced q)).1.getSongByName c.req.BindJSONSong.2.Name
                ((w.afterFn ((errors.Pkg "songs").Struct "api") "UpdateSong").afterFn
                  ((errors.Pkg "songs").Struct "service") "saveSong")).1.2.1 then
              songs.updateStmt c.req.BindJSONSong.2
            else songs.insertStmt c.req.BindJSONSong.2]))
    ∧ (persist.answer q (songs.deleteStmt (c.Param "name")) w.store.1 = e →
        gin.reaches ((songs.New (persist.traced q)).2.DeleteSong c w) e
          ["songs.api.DeleteSong", "songs.service.deleteSong", "songs.db.delete"]
          (w.store.2 ++ [songs.deleteStmt (c.Param "name")]))
    ∧ (persist.answer q (artists.selectStmt "") w.store.1 = e →
        gin.reaches ((artists.New (persist.traced q)).2.GetArtists c w) e
          ["artists.api.GetArtists", "artists.service.getArtists", "artists.db.get"]
          (w.store.2 ++ [artists.selectStmt ""]))
    ∧ (persist.answer q (artists.selectStmt (c.Param "name")) w.store.1 = e →
        gin.reaches ((artists.New (persist.traced q)).2.GetArtistByName c w) e
          ["artists.api.GetArtistByName", "artists.service.getArtistByName", "artists.db.get"]
          (w.store.2 ++ [artists.selectStmt (c.Param "name")]))
    ∧ (c.req.BindJSONArtist.1 = .nil →
        persist.answer q (artists.insertStmt c.req.BindJSONArtist.2) w.store.1 = e →
        gin.reaches ((artists.New (persist.traced q)).2.CreateArtist c w) e
          ["artists.api.CreateArtist", "artists.service.saveArtist", "artists.db.create"]
          (w.store.2 ++ [artists.insertStmt c.req.BindJSONArtist.2]))
    ∧ (persist.answer q (artists.deleteStmt (c.Param "name")) w.store.1 = e →
        gin.reaches ((artists.New (persist.traced q)).2.DeleteArtist c w) e
          ["artists.api.DeleteArtist", "artists.service.deleteArtist", "artists.db.delete"]
          (w.store.2 ++ [artists.deleteStmt (c.Param "name")])) := by
  refine ⟨fun hq => ⟨songs.reaches_GetSongs q c w e hnil hch hq, ?_⟩,
    songs.reaches_GetSongByName q c w e hnil hch,
    fun hb hq => ⟨songs.reaches_CreateSong_lookup q c w e hnil hch hb hq,
      songs.reaches_UpdateSong_lookup q c w e hnil hch hb hq⟩,
    songs.reaches_CreateSong_exec q c w e hnil hch,
    songs.reaches_UpdateSong_exec q c w e hnil hch,
    songs.reaches_DeleteSong q c w e hnil hch,
    artists.reaches_GetArtists q c w e hnil hch,
    artists.reaches_GetArtistByName q c w e hnil hch,
    artists.reaches_CreateArtist q c w e hnil hch,
    artists.reaches_DeleteArtist q c w e hnil hch⟩
  intro ch hc ord h
  have hq' : persist.answer (persist.traced q) (songs.selectStmt "") w.store = e := by
    rw [songs.answer_traced]; exact hq
  have hf := songs.GetSongs_fst_of_fail (persist.traced q) c w e hnil hq'
  rw [hf] at hc
  exact songs.GetSongs_rendering e hnil hch w.heap.next ord h ch hc

theorem C9_store_errors_reach_boundary_witness :
    gin.reaches ((songs.New (persist.traced sample.failing)).2.GetSongs
        (sample.context (sample.request "" sample.imagine)) sample.failingWorld)
      (.other "invalid connection")
      ["songs.api.GetSongs", "songs.service.getSongs", "songs.db.get"]
      [songs.selectStmt ""]
    ∧ gin.reaches ((songs.New (persist.traced sample.failing)).2.UpdateSong
        (sample.context (sample.request "Imagine" sample.imagine)) sample.failingWorld)
      (.other "invalid connection")
      ["songs.api.UpdateSong", "songs.service.saveSong", "songs.service.getSongByName",
       "songs.db.get"]
      [songs.selectStmt "Imagine"] :=
  ⟨((C9_store_errors_reach_boundary sample.failing
      (sample.context (sample.request "" sample.imagine)) sample.failingWorld
      (.other "invalid connection") rfl rfl).1 rfl).1,
   ((C9_store_errors_reach_boundary sample.failing
      (sample.context (sample.request "Imagine" sample.imagine)) sample.failingWorld
      (.other "invalid connection") rfl rfl).2.2.1 rfl rfl).2⟩

namespace errors

/-! ### Tag maps -/

theorem TagMap.get_set (m : TagMap) (t v k : String) :
    (m.set t v).get k = if k = t then some v else m.get k := by
  induction m with
  | nil =>
    by_cases h : k = t
    · simp [TagMap.set, TagMap.get, h]
    · have h' : ¬ t = k := fun e => h e.symm
      simp [TagMap.set, TagMap.get, h, h']
  | cons x xs ih =>
    obtain ⟨t', v'⟩ := x
    by_cases h1 : t' = t
    · subst h1
      by_cases h2 : k = t'
      · simp [TagMap.set, TagMap.get, h2]
      · have h2' : ¬ t' = k := fun e => h2 e.symm
        simp [TagMap.set, TagMap.get, h2, h2']
    · by_cases h2 : t' = k
      · have h3 : ¬ k = t := by rw [← h2]; exact h1
        simp [TagMap.set, TagMap.get, h1, h2, h3]
      · simp [TagMap.set, TagMap.get, h1, h2, ih]

theorem TagMap.mem_keys_iff (m : TagMap) (k : String) :
    k ∈ m.keys ↔ (m.get k).isSome = true := by
  induction m with
  | nil => simp [TagMap.keys, TagMap.get]
  | cons x xs ih =>
    obtain ⟨t', v'⟩ := x
    by_cases h : t' = k
    · simp [TagMap.keys, TagMap.get, h]
    · have h' : ¬ k = t' := fun e => h e.symm
      simp only [TagMap.keys] at ih
      simp [TagMap.keys, TagMap.get, h, h', ih]

theorem TagMap.keys_set (m : TagMap) (t v : String) :
    (m.set t v).keys = if t ∈ m.keys then m.keys else m.keys ++ [t] := by
  induction m with
  | nil => simp [TagMap.set, TagMap.keys]
  | cons x xs ih =>
    obtain ⟨t', v'⟩ := x
    simp only [TagMap.keys] at ih
    by_cases h1 : t' = t
    · simp [TagMap.set, TagMap.keys, h1]
    · have h1' : ¬ t = t' := fun e => h1 e.symm
      by_cases h2 : t ∈ xs.map Prod.fst
      · simp only [TagMap.set, TagMap.keys, h1, if_false, List.map_cons, ih, h2, if_true,
          List.mem_cons, h1', false_or]
      · simp only [TagMap.set, TagMap.keys, h1, if_false, List.map_cons, ih, h2,
          List.mem_cons, h1', false_or, List.cons_append]

theorem TagMap.nodup_set (m : TagMap) (t v : String) (h : m.keys.Nodup) :
    (m.set t v).keys.Nodup := by
  rw [TagMap.keys_set]
  by_cases ht : t ∈ m.keys
  · simp [ht, h]
  · simp only [ht, if_false]
    exact List.Nodup.append h (List.nodup_singleton t) (by simpa using ht)

theorem TagMap.nodup_overlay (l : List (String × String)) :
    ∀ m : TagMap, m.keys.Nodup → (m.overlay l).keys.Nodup := by
  induction l with
  | nil => intro m h; exact h
  | cons x xs ih =>
    intro m h
    exact ih _ (TagMap.nodup_set m x.1 x.2 h)

/-- Looking a key up in a list with distinct keys finds the entry that is in the list. -/
theorem TagMap.get_of_mem (l : TagMap) (hl : l.keys.Nodup) (k v : String)
    (h : (k, v) ∈ l) : l.get k = some v := by
  induction l with
  | nil => simp at h
  | cons x xs ih =>
    obtain ⟨t', v'⟩ := x
    simp only [TagMap.keys, List.map_cons, List.nodup_cons] at hl
    rcases List.mem_cons.mp h with h1 | h1
    · injection h1 with h1 h2
      subst h1; subst h2
      simp [TagMap.get]
    · have hk : k ∈ xs.map Prod.fst := List.mem_map.mpr ⟨(k, v), h1, rfl⟩
      have hne : ¬ t' = k := fun e => hl.1 (e ▸ hk)
      simp [TagMap.get, hne, ih hl.2 h1]

theorem TagMap.mem_of_get (l : TagMap) (k v : String) (h : l.get k = some v) : (k, v) ∈ l := by
  induction l with
  | nil => simp [TagMap.get] at h
  | cons x xs ih =>
    obtain ⟨t', v'⟩ := x
    by_cases h1 : t' = k
    · simp [TagMap.get, h1] at h
      simp [h1, h]
    · simp [TagMap.get, h1] at h
      exact List.mem_cons_of_mem _ (ih h)

theorem TagMap.get_perm (l l' : TagMap) (hl : l.keys.Nodup) (hp : l'.Perm l) (k : String) :
    l'.get k = l.get k := by
  have hl' : l'.keys.Nodup := (List.Perm.nodup_iff (hp.map Prod.fst)).mpr hl
  cases h : l.get k with
  | some v => exact TagMap.get_of_mem l' hl' k v (hp.mem_iff.mpr (TagMap.mem_of_get l k v h))
  | none =>
    cases h' : l'.get k with
    | none => rfl
    | some v =>
      have := TagMap.get_of_mem l hl k v (hp.mem_iff.mp (TagMap.mem_of_get l' k v h'))
      rw [h] at this
      cases this

theorem TagMap.get_overlay (l : List (String × String)) (hl : TagMap.keys l |>.Nodup) :
    ∀ (m : TagMap) (k : String),
      (m.overlay l).get k = match TagMap.get l k with
        | some v => some v
        | none => m.get k := by
  induction l with
  | nil => intro m k; rfl
  | cons x xs ih =>
    intro m k
    obtain ⟨t', v'⟩ := x
    simp only [TagMap.keys, List.map_cons, List.nodup_cons] at hl
    have := ih hl.2 (m.set t' v') k
    simp only [TagMap.overlay, List.foldl_cons] at this ⊢
    rw [this, TagMap.get_set]
    by_cases h1 : t' = k
    · subst h1
      have hnone : TagMap.get xs t' = none := by
        cases hx : TagMap.get xs t' with
        | none => rfl
        | some v =>
          exact absurd (List.mem_map.mpr ⟨(t', v), TagMap.mem_of_get xs t' v hx, rfl⟩) hl.1
      simp [TagMap.get, hnone]
    · have h1' : ¬ k = t' := fun e => h1 e.symm
      simp [TagMap.get, h1, h1']

end errors
namespace errors

/-! ### The merge loop of `Chain.Error` on the heap -/

theorem foldl_set_maps (a : Nat) (l : List (String × String)) :
    ∀ (h : Heap) (r : Nat),
      (l.foldl (fun h tv => h.set a tv.1 tv.2) h).maps r
        = if r = a then (h.maps a).overlay l else h.maps r := by
  induction l with
  | nil => intro h r; by_cases hr : r = a <;> simp [TagMap.overlay, hr]
  | cons x xs ih =>
    intro h r
    simp only [List.foldl_cons]
    rw [ih]
    by_cases hr : r = a
    · simp [hr, Heap.set, TagMap.overlay]
    · simp [hr, Heap.set, Function.update]

theorem mergeTags_maps (ord : Order) (a f : Nat) (h : Heap) (r : Nat) :
    (mergeTags ord a f h).maps r
      = if r = a then (h.maps a).overlay (ord (h.maps f)) else h.maps r :=
  foldl_set_maps a (ord (h.maps f)) h r

theorem mergeTags_get (ord : Order) (hord : ∀ m, (ord m).Perm m) (a f : Nat) (h : Heap)
    (hwf : ∀ r, (h.maps r).keys.Nodup) (k : String) :
    ((mergeTags ord a f h).maps a).get k
      = if f = a then (h.maps a).get k
        else match (h.maps f).get k with
          | some v => some v
          | none => (h.maps a).get k := by
  rw [mergeTags_maps]
  simp only [if_true]
  have hn : (TagMap.keys (ord (h.maps f))).Nodup :=
    (List.Perm.nodup_iff ((hord (h.maps f)).map Prod.fst)).mpr (hwf f)
  rw [TagMap.get_overlay _ hn, TagMap.get_perm _ _ (hwf f) (hord (h.maps f))]
  by_cases hf : f = a
  · subst hf
    simp only [if_true]
    cases (h.maps f).get k <;> rfl
  · simp [hf]

theorem mergeTags_wf (ord : Order) (a f : Nat) (h : Heap)
    (hwf : ∀ r, (h.maps r).keys.Nodup) : ∀ r, ((mergeTags ord a f h).maps r).keys.Nodup := by
  intro r
  rw [mergeTags_maps]
  by_cases hr : r = a
  · simp only [hr, if_true]
    exact TagMap.nodup_overlay _ _ (hwf a)
  · simp only [hr, if_false]
    exact hwf r

theorem mergeAll_spec (ord : Order) (hord : ∀ m, (ord m).Perm m) (a : Nat) :
    ∀ (ws : List Wrap) (h : Heap), (∀ r, (h.maps r).keys.Nodup) →
      (∀ r, r ≠ a → (mergeAll ord a ws h).maps r = h.maps r)
      ∧ (∀ r, ((mergeAll ord a ws h).maps r).keys.Nodup)
      ∧ (∀ k, ((mergeAll ord a ws h).maps a).get k = shownValue h a ws k) := by
  intro ws
  induction ws with
  | nil =>
    intro h hwf
    exact ⟨fun _ _ => rfl, hwf, fun _ => rfl⟩
  | cons u us ih =>
    intro h hwf
    have hwf1 := mergeTags_wf ord a u.fn.tags h hwf
    obtain ⟨i1, i2, i3⟩ := ih (mergeTags ord a u.fn.tags h) hwf1
    have hother : ∀ r, r ≠ a → (mergeTags ord a u.fn.tags h).maps r = h.maps r := by
      intro r hr
      rw [mergeTags_maps]
      simp [hr]
    refine ⟨?_, ?_, ?_⟩
    · intro r hr
      show (mergeAll ord a us (mergeTags ord a u.fn.tags h)).maps r = _
      rw [i1 r hr, hother r hr]
    · exact i2
    · intro k
      show ((mergeAll ord a us (mergeTags ord a u.fn.tags h)).maps a).get k = _
      rw [i3 k]
      simp only [shownValue, List.foldl_cons]
      rw [mergeTags_get ord hord a u.fn.tags h hwf k]
      apply List.foldl_ext
      intro acc v _
      by_cases hv : v.fn.tags = a
      · simp [hv]
      · simp only [hv, if_false]
        rw [hother _ hv]

end errors
namespace errors

/-! ### The TAGS segment -/

theorem String.append_ne_empty_of_left (a b : String) (h : a ≠ "") : a ++ b ≠ "" := by
  intro hab
  apply h
  have hl : (a ++ b).length = 0 := by rw [hab]; rfl
  rw [String.length_append] at hl
  have ha : a.length = 0 := by omega
  exact String.ext (List.length_eq_zero.mp ha)

theorem String.append_ne_empty_of_right (a b : String) (h : b ≠ "") : a ++ b ≠ "" := by
  intro hab
  apply h
  have hl : (a ++ b).length = 0 := by rw [hab]; rfl
  rw [String.length_append] at hl
  have hb : b.length = 0 := by omega
  exact String.ext (List.length_eq_zero.mp hb)

theorem fmtTag_ne_empty (tv : String × String) : fmtTag tv ≠ "" :=
  String.append_ne_empty_of_left _ _
    (String.append_ne_empty_of_right _ _ (by decide))

theorem formatTags_go (l : List (String × String)) :
    ∀ acc : String, acc ≠ "" →
      l.foldl
          (fun fmtTags tv =>
            if fmtTags = "" then fmtTags ++ fmtTag tv else fmtTags ++ (", " ++ fmtTag tv))
          acc
        = String.intercalate.go acc ", " (l.map fmtTag) := by
  induction l with
  | nil => intro acc _; rfl
  | cons x xs ih =>
    intro acc hacc
    simp only [List.foldl_cons, hacc, if_false, List.map_cons, intercalate_go_cons]
    rw [ih _ (String.append_ne_empty_of_left _ _ hacc), String.append_assoc]

theorem formatTags_eq (ord : Order) (w : Chain) (h : Heap) (tags : Nat) :
    w.formatTags ord h tags = ", ".intercalate ((ord (h.maps w.fn.tags)).map fmtTag) := by
  simp only [Chain.formatTags]
  cases ord (h.maps w.fn.tags) with
  | nil => rfl
  | cons x xs =>
    simp only [List.foldl_cons, if_true, List.map_cons, intercalate_cons]
    rw [String.empty_append]
    exact formatTags_go xs _ (fmtTag_ne_empty x)

theorem shownValue_isSome (h : Heap) (a : Nat) (k : String) :
    ∀ (ws : List Wrap) (init : Option String),
      (ws.foldl
          (fun acc u =>
            if u.fn.tags = a then acc
            else match (h.maps u.fn.tags).get k with
              | some v => some v
              | none => acc)
          init).isSome = true
        ↔ init.isSome = true
          ∨ ∃ u ∈ ws, u.fn.tags ≠ a ∧ ((h.maps u.fn.tags).get k).isSome = true := by
  intro ws
  induction ws with
  | nil => intro init; simp
  | cons u us ih =>
    intro init
    simp only [List.foldl_cons]
    rw [ih]
    by_cases hu : u.fn.tags = a
    · simp [hu]
    · cases hg : (h.maps u.fn.tags).get k with
      | none => simp [hu, hg]
      | some v => simp [hu, hg]

theorem shownValue_eq_lastValue (h : Heap) (a : Nat) (w : Wrap) (ws : List Wrap)
    (ha : w.fn.tags = a) (hws : ∀ u ∈ ws, u.fn.tags ≠ a) (k : String) :
    shownValue h a ws k = lastValue h (w :: ws) k := by
  simp only [shownValue, lastValue, List.foldl_cons, ha]
  have h0 : (match (h.maps a).get k with
      | some v => some v
      | none => none) = (h.maps a).get k := by
    cases (h.maps a).get k <;> rfl
  rw [h0]
  apply List.foldl_ext
  intro acc u hu
  simp [hws u hu]

end errors
namespace errors

/-- C10, as stated, fails when an inner wrap shares the tag map of the outermost one: in
`a.Wrap(b.Wrap(a.Wrap(errors.New("x"), "c3"), "c2"), "c1")` with `a` tagged
`k -> 1` and `b` tagged `k -> 2`, the wrap nearest the root is made by `a` and holds
`k -> 1`, yet the TAGS segment shows `k->2`. -/
theorem C10_shared_map_shows_other_value :
    lastValue sample.heapAB ({ fn := sample.fnA, ctx := "c1", external := "" } :: sample.innerBA)
        "k" = some "1"
    ∧ Chain.formatTags id
        (Wrap.around { fn := sample.fnA, ctx := "c1", external := "" }
          (nest (.other "x") sample.innerBA))
        (Chain.Error id
          (Wrap.around { fn := sample.fnA, ctx := "c1", external := "" }
            (nest (.other "x") sample.innerBA)) sample.heapAB).2 0 = "k->2"
    ∧ (Chain.Error id
        (Wrap.around { fn := sample.fnA, ctx := "c1", external := "" }
          (nest (.other "x") sample.innerBA)) sample.heapAB).1
      = "ERROR x | CONTEXT c1 <- c2 <- c3 | TAGS: k->2 | STACK: pkg.st.a <- pkg.st.b <- pkg.st.a" := by
  decide

/-- C10, amended: for every chain of wraps `w :: ws` around a root that is not a chain,
every heap of tag maps and every iteration order, the TAGS segment rendered by
`Chain.Error` is the entries `key->value` of one list joined by ", "; the list has
exactly one entry for each distinct key occurring in the tags of any wrap of the
chain; the value of a key is the one of the last wrap in the chain whose tag map
holds the key and is not the tag map of the outermost wrap, and the value in the
outermost wrap's map when there is no such wrap.  When no inner wrap shares the
tag map of the outermost wrap this is the value of the last wrap holding the key. -/
theorem C10_tags_flattened (ord : Order) (hord : ∀ m, (ord m).Perm m) (h : Heap)
    (hwf : ∀ r, (h.maps r).keys.Nodup) (r : GoError) (hr : r.isChain = false)
    (w : Wrap) (ws : List Wrap) :
    Chain.formatTags ord (w.around (nest r ws)) (Chain.Error ord (w.around (nest r ws)) h).2
        w.fn.tags
      = ", ".intercalate
          ((ord ((Chain.Error ord (w.around (nest r ws)) h).2.maps w.fn.tags)).map fmtTag)
    ∧ (TagMap.keys
        (ord ((Chain.Error ord (w.around (nest r ws)) h).2.maps w.fn.tags))).Nodup
    ∧ (∀ k, k ∈ TagMap.keys
          (ord ((Chain.Error ord (w.around (nest r ws)) h).2.maps w.fn.tags))
        ↔ ∃ u ∈ w :: ws, k ∈ (h.maps u.fn.tags).keys)
    ∧ (∀ k v, (k, v) ∈ ord ((Chain.Error ord (w.around (nest r ws)) h).2.maps w.fn.tags)
        ↔ shownValue h w.fn.tags ws k = some v)
    ∧ ((∀ u ∈ ws, u.fn.tags ≠ w.fn.tags) →
        ∀ k v, (k, v) ∈ ord ((Chain.Error ord (w.around (nest r ws)) h).2.maps w.fn.tags)
          ↔ lastValue h (w :: ws) k = some v) := by
  rw [Error_nest ord h r hr w ws]
  obtain ⟨-, m2, m3⟩ := mergeAll_spec ord hord w.fn.tags ws h hwf
  have hp := hord ((mergeAll ord w.fn.tags ws h).maps w.fn.tags)
  have hn : (TagMap.keys (ord ((mergeAll ord w.fn.tags ws h).maps w.fn.tags))).Nodup :=
    (List.Perm.nodup_iff (hp.map Prod.fst)).mpr (m2 w.fn.tags)
  have hmem : ∀ k v, (k, v) ∈ ord ((mergeAll ord w.fn.tags ws h).maps w.fn.tags)
      ↔ shownValue h w.fn.tags ws k = some v := by
    intro k v
    rw [← m3 k, hp.mem_iff]
    exact ⟨TagMap.get_of_mem _ (m2 w.fn.tags) k v, TagMap.mem_of_get _ k v⟩
  refine ⟨?_, hn, ?_, hmem, ?_⟩
  · rw [formatTags_eq]
    rfl
  · intro k
    have h1 : k ∈ TagMap.keys (ord ((mergeAll ord w.fn.tags ws h).maps w.fn.tags))
        ↔ k ∈ ((mergeAll ord w.fn.tags ws h).maps w.fn.tags).keys :=
      (hp.map Prod.fst).mem_iff
    rw [h1, TagMap.mem_keys_iff, m3 k]
    simp only [shownValue]
    rw [shownValue_isSome]
    constructor
    · rintro (h0 | ⟨u, hu, -, hk⟩)
      · exact ⟨w, List.mem_cons_self _ _, (TagMap.mem_keys_iff _ _).mpr h0⟩
      · exact ⟨u, List.mem_cons_of_mem _ hu, (TagMap.mem_keys_iff _ _).mpr hk⟩
    · rintro ⟨u, hu, hk⟩
      rcases List.mem_cons.mp hu with rfl | hu'
      · exact Or.inl ((TagMap.mem_keys_iff _ _).mp hk)
      · by_cases hs : u.fn.tags = w.fn.tags
        · left
          rw [← hs]
          exact (TagMap.mem_keys_iff _ _).mp hk
        · exact Or.inr ⟨u, hu', hs, (TagMap.mem_keys_iff _ _).mp hk⟩
  · intro hws k v
    rw [hmem k v, shownValue_eq_lastValue h w.fn.tags w ws rfl hws k]

theorem C10_tags_flattened_witness :
    Chain.formatTags id
        (Wrap.around { fn := sample.fnA, ctx := "c1", external := "" }
          (nest (.other "x") sample.innerBA))
        (Chain.Error id
          (Wrap.around { fn := sample.fnA, ctx := "c1", external := "" }
            (nest (.other "x") sample.innerBA)) sample.heapAB).2 0
      = ", ".intercalate
          ((id ((Chain.Error id
            (Wrap.around { fn := sample.fnA, ctx := "c1", external := "" }
              (nest (.other "x") sample.innerBA)) sample.heapAB).2.maps 0)).map fmtTag)
    ∧ shownValue sample.heapAB 0 sample.innerBA "k" = some "2" :=
  ⟨(C10_tags_flattened id (fun m => List.Perm.refl m) sample.heapAB
      (fun r => by
        simp only [sample.heapAB]
        split
        · decide
        · split <;> decide)
      (.other "x") rfl { fn := sample.fnA, ctx := "c1", external := "" } sample.innerBA).1,
   by decide⟩

end errors

namespace persist

theorem Rows.Next_rest (r : Rows) (h : r.Next.1 = true) :
    r.Next.2.rest.length + 1 = r.rest.length := by
  simp only [Rows.Next, Rows.sqlNext] at h ⊢
  cases hc : r.closed
  · cases hr : r.rest with
    | nil => simp [hc, hr] at h
    | cons x xs => simp [hc, hr]
  · simp [hc] at h

theorem Rows.Scan_rest {α : Type} [Inhabited α] (decode : List Value → errors.GoError × α)
    (r : Rows) : (r.Scan decode).2.rest = r.rest := by
  simp only [Rows.Scan]
  split <;> rfl

end persist

namespace songs

open errors persist

/-- The loop of `db.get` ends before its fuel does: more fuel than rows is never used. -/
theorem scanRows_fuel (e : Function) :
    ∀ (fuel : Nat) (rows : Rows) (acc : api.Songs), rows.rest.length < fuel →
      db.scanRows e (fuel + 1) rows acc = db.scanRows e fuel rows acc := by
  intro fuel
  induction fuel with
  | zero => intro rows acc h; simp at h
  | succ n ih =>
    intro rows acc h
    rw [db.scanRows, db.scanRows]
    cases hn : rows.Next.1
    · simp
    · simp only [if_true]
      cases hs : (rows.Next.2.Scan scanSong).1.1.isNil
      · simp
      · simp only [Bool.not_true, Bool.false_eq_true, if_false]
        apply ih
        rw [Rows.Scan_rest]
        have := Rows.Next_rest rows hn
        omega

end songs

namespace artists

open errors persist

/-- The loop of `db.get` ends before its fuel does: more fuel than rows is never used. -/
theorem scanRows_fuel_artists (e : Function) :
    ∀ (fuel : Nat) (rows : Rows) (acc : api.Artists), rows.rest.length < fuel →
      db.scanRows e (fuel + 1) rows acc = db.scanRows e fuel rows acc := by
  intro fuel
  induction fuel with
  | zero => intro rows acc h; simp at h
  | succ n ih =>
    intro rows acc h
    rw [db.scanRows, db.scanRows]
    cases hn : rows.Next.1
    · simp
    · simp only [if_true]
      cases hs : (rows.Next.2.Scan scanArtist).1.1.isNil
      · simp
      · simp only [Bool.not_true, Bool.false_eq_true, if_false]
        apply ih
        rw [Rows.Scan_rest]
        have := Rows.Next_rest rows hn
        omega

end artists

namespace gin

open errors

/-- What `adapt` answers when the controller returns no error: a redirect for 302 with
a string payload, the status envelope for any other code with a string payload, the
payload itself otherwise; 302 with a payload that is not a string fails the type
assertion `ctx.(string)`. -/
theorem adapt_of_no_error {σ : Type} (ord : Order) (cr : Controller σ) (c : Request)
    (w : World σ) (he : (cr { req := c, ID := "someID" } w).1.2.2 = .nil) :
    (∀ url, (cr { req := c, ID := "someID" } w).1.1 = 302 →
        (cr { req := c, ID := "someID" } w).1.2.1 = .str url →
        (adapt ord cr c w).response = .redirect 302 url)
    ∧ (∀ s, (cr { req := c, ID := "someID" } w).1.1 ≠ 302 →
        (cr { req := c, ID := "someID" } w).1.2.1 = .str s →
        (adapt ord cr c w).response
          = .json (cr { req := c, ID := "someID" } w).1.1 (.value (.status (MakeStatus s "ok"))))
    ∧ ((cr { req := c, ID := "someID" } w).1.1 ≠ 302 →
        (∀ s, (cr { req := c, ID := "someID" } w).1.2.1 ≠ .str s) →
        (adapt ord cr c w).response
          = .json (cr { req := c, ID := "someID" } w).1.1
              (.value (cr { req := c, ID := "someID" } w).1.2.1))
    ∧ ((cr { req := c, ID := "someID" } w).1.1 = 302 →
        (∀ s, (cr { req := c, ID := "someID" } w).1.2.1 ≠ .str s) →
        (adapt ord cr c w).response = .panic) := by
  refine ⟨?_, ?_, ?_, ?_⟩
  · intro url hc hp
    simp [adapt, he, hc, hp]
  · intro s hc hp
    simp [adapt, he, hc, hp, MakeStatus]
  · intro hc hp
    cases hx : (cr { req := c, ID := "someID" } w).1.2.1 <;>
      simp_all [adapt]
  · intro hc hp
    cases hx : (cr { req := c, ID := "someID" } w).1.2.1 <;>
      simp_all [adapt]

/-- C11 at the input `(302, nil, nil)`: the handler made by `adapt` writes no response,
it stops at the type assertion `ctx.(string)`. -/
theorem C11_redirect_without_url_panics :
    (adapt id sample.redirectNil (sample.request "" sample.imagine) sample.worldA).response
      = .panic := by
  decide

end gin

namespace songs

open errors persist gin

theorem tables_saveSong_lookup (i : api.Song) (w : World store.Tables) :
    ((New store.tables).1.saveSong i w).2.store
      = if (store.lookupSongs w.store i.Name).length = 1 then store.updated w.store i
        else store.inserted w.store i := by
  rw [tables_saveSong_store]
  obtain ⟨-, h2, -, -⟩ := tables_getSongByName i.Name
    (w.afterFn (New store.tables).1.err "saveSong")
  rw [h2]
  have hs : (w.afterFn (New store.tables).1.err "saveSong").store = w.store := rfl
  rw [hs]
  by_cases hl : (store.lookupSongs w.store i.Name).length = 1 <;>
    simp [hl, store.updated, store.inserted]

end songs

namespace store

theorem names_updated (t : Tables) (i : api.Song) :
    (updated t i).Songs.map (fun s => s.Name) = t.Songs.map (fun s => s.Name) := by
  simp only [updated, List.map_map]
  apply List.map_congr_left
  intro s _
  simp only [Function.comp]
  split <;> simp_all

theorem filter_nil_of_lookup (t : Tables) (n : String) (hne : n ≠ "")
    (hl : (lookupSongs t n).length ≠ 1) : t.Songs.filter (fun s => s.Name = n) = [] := by
  simp only [lookupSongs, hne, ne_eq, not_false_eq_true, if_true] at hl
  cases hf : t.Songs.filter (fun s => s.Name = n) with
  | nil => rfl
  | cons x xs => simp [hf] at hl

theorem uniqueNames_updated (t : Tables) (i : api.Song) (h : uniqueNames t) :
    uniqueNames (updated t i) := by
  simp only [uniqueNames] at h ⊢
  rw [names_updated]
  exact h

theorem uniqueNames_inserted (t : Tables) (i : api.Song) (hne : i.Name ≠ "")
    (hl : (lookupSongs t i.Name).length ≠ 1) (h : uniqueNames t) :
    uniqueNames (inserted t i) := by
  have hf := filter_nil_of_lookup t i.Name hne hl
  simp only [uniqueNames, inserted, List.map_append, List.map_cons, List.map_nil] at h ⊢
  apply List.Nodup.append h (List.nodup_singleton _)
  intro n h1 h2
  simp only [List.mem_singleton] at h2
  subst h2
  obtain ⟨s, hs, hsn⟩ := List.mem_map.mp h1
  have : s ∈ t.Songs.filter (fun s => s.Name = i.Name) := by
    simp [List.mem_filter, hs, hsn]
  rw [hf] at this
  simp at this

theorem filter_length_le_one (l : api.Songs) (h : (l.map (fun s => s.Name)).Nodup)
    (n : String) : (l.filter (fun s => s.Name = n)).length ≤ 1 := by
  induction l with
  | nil => simp
  | cons x xs ih =>
    simp only [List.map_cons, List.nodup_cons] at h
    by_cases hx : x.Name = n
    · have hnil : xs.filter (fun s => s.Name = n) = [] := by
        rw [List.filter_eq_nil_iff]
        intro s hs hsn
        apply h.1
        rw [hx]
        exact List.mem_map.mpr ⟨s, hs, by simpa using hsn⟩
      simp [hx, hnil]
    · simp [hx, ih h.2]

end store

/-- C12, as stated, fails for the empty name: in the table holding a song named "" and a
song named `x` no two rows share a name, and after `saveSong` of a song with the
empty name two rows are named "". -/
theorem C12_empty_name_duplicates :
    store.uniqueNames sample.twoNames
    ∧ ¬ store.uniqueNames
        ((songs.New store.tables).1.saveSong sample.unnamed
          (sample.tableWorld sample.twoNames)).2.store
    ∧ (((songs.New store.tables).1.saveSong sample.unnamed
          (sample.tableWorld sample.twoNames)).2.store.Songs.filter
            (fun s => s.Name = "")).length = 2 := by
  decide

/-- C12, amended: over the table model, if no two rows of `Songs` share a name, then
after `saveSong(i)` for every song `i` whose name is not the empty string no two
rows share a name, so every name selects at most one row. -/
theorem C12_saveSong_keeps_names_unique (i : api.Song) (w : World store.Tables)
    (hne : i.Name ≠ "") (h : store.uniqueNames w.store) :
    store.uniqueNames ((songs.New store.tables).1.saveSong i w).2.store
    ∧ ∀ n, (((songs.New store.tables).1.saveSong i w).2.store.Songs.filter
        (fun s => s.Name = n)).length ≤ 1 := by
  have hu : store.uniqueNames ((songs.New store.tables).1.saveSong i w).2.store := by
    rw [songs.tables_saveSong_lookup]
    by_cases hl : (store.lookupSongs w.store i.Name).length = 1
    · simp only [hl, if_true]
      exact store.uniqueNames_updated _ _ h
    · simp only [hl, if_false]
      exact store.uniqueNames_inserted _ _ hne hl h
  exact ⟨hu, fun n => store.filter_length_le_one _ hu n⟩

theorem C12_saveSong_keeps_names_unique_witness :
    store.uniqueNames
      ((songs.New store.tables).1.saveSong sample.imagine
        (sample.tableWorld sample.twoNames)).2.store :=
  (C12_saveSong_keeps_names_unique sample.imagine (sample.tableWorld sample.twoNames)
    (by decide) (by decide)).1

namespace store

theorem updated_updated (t : Tables) (i : api.Song) : updated (updated t i) i = updated t i := by
  simp only [updated, List.map_map]
  congr 1
  apply List.map_congr_left
  intro s _
  simp only [Function.comp]
  by_cases hs : s.Name = i.Name <;> simp [hs]

theorem updated_inserted (t : Tables) (i : api.Song)
    (hf : t.Songs.filter (fun s => s.Name = i.Name) = []) :
    updated (inserted t i) i = inserted t i := by
  have hno : ∀ s ∈ t.Songs, ¬ s.Name = i.Name := by
    intro s hs hsn
    have : s ∈ t.Songs.filter (fun s => s.Name = i.Name) := by
      simp [List.mem_filter, hs, hsn]
    rw [hf] at this
    simp at this
  have hmap : t.Songs.map (fun s =>
      if s.Name = i.Name then { s with Duration := i.Duration, ArtistId := i.ArtistId }
      else s) = t.Songs := by
    conv_rhs => rw [← List.map_id t.Songs]
    apply List.map_congr_left
    intro s hs
    simp [hno s hs]
  simp only [updated, inserted, List.map_append, hmap]
  simp

theorem lookup_updated_length (t : Tables) (i : api.Song) (hne : i.Name ≠ "")
    (hl : (lookupSongs t i.Name).length = 1) :
    (lookupSongs (updated t i) i.Name).length = 1 := by
  obtain ⟨s, hs, -⟩ := lookup_after_update t i hne hl
  simp only [updated]
  rw [hs]
  rfl

theorem lookup_inserted_length (t : Tables) (i : api.Song) (hne : i.Name ≠ "")
    (hl : (lookupSongs t i.Name).length ≠ 1) :
    (lookupSongs (inserted t i) i.Name).length = 1 := by
  have hs := lookup_after_insert t i hne hl
  simp only [inserted]
  rw [hs]
  rfl

end store

/-- C13, as stated, fails for the empty name: on the table holding the songs `a` and `b`,
`saveSong` of a song with the empty name adds a row each time it is applied, three
rows after one application and four after two. -/
theorem C13_empty_name_not_idempotent :
    ((songs.New store.tables).1.saveSong sample.unnamed
        (sample.tableWorld sample.songsAB)).2.store.Songs.length = 3
    ∧ ((songs.New store.tables).1.saveSong sample.unnamed
        ((songs.New store.tables).1.saveSong sample.unnamed
          (sample.tableWorld sample.songsAB)).2).2.store.Songs.length = 4 := by
  decide

/-- C13, amended: over the table model, for every song `i` whose name is not the empty
string and every table, applying `saveSong(i)` twice leaves the same table as
applying it once; in particular the same rows `(name, duration, artistId)` with the
same multiplicity. -/
theorem C13_saveSong_idempotent (i : api.Song) (w : World store.Tables) (hne : i.Name ≠ "") :
    ((songs.New store.tables).1.saveSong i
        ((songs.New store.tables).1.saveSong i w).2).2.store
      = ((songs.New store.tables).1.saveSong i w).2.store
    ∧ ((songs.New store.tables).1.saveSong i
        ((songs.New store.tables).1.saveSong i w).2).2.store.Songs.map
          (fun s => (s.Name, s.Duration, s.ArtistId))
      = ((songs.New store.tables).1.saveSong i w).2.store.Songs.map
          (fun s => (s.Name, s.Duration, s.ArtistId)) := by
  have h : ((songs.New store.tables).1.saveSong i
        ((songs.New store.tables).1.saveSong i w).2).2.store
      = ((songs.New store.tables).1.saveSong i w).2.store := by
    rw [songs.tables_saveSong_lookup i ((songs.New store.tables).1.saveSong i w).2,
      songs.tables_saveSong_lookup i w]
    by_cases hl : (store.lookupSongs w.store i.Name).length = 1
    · simp only [hl, if_true]
      rw [if_pos (store.lookup_updated_length _ _ hne hl), store.updated_updated]
    · simp only [hl, if_false]
      rw [if_pos (store.lookup_inserted_length _ _ hne hl),
        store.updated_inserted _ _ (store.filter_nil_of_lookup _ _ hne hl)]
  exact ⟨h, by rw [h]⟩

theorem C13_saveSong_idempotent_witness :
    ((songs.New store.tables).1.saveSong sample.imagine
        ((songs.New store.tables).1.saveSong sample.imagine
          (sample.tableWorld sample.songsAB)).2).2.store
      = ((songs.New store.tables).1.saveSong sample.imagine
          (sample.tableWorld sample.songsAB)).2.store :=
  (C13_saveSong_idempotent sample.imagine (sample.tableWorld sample.songsAB) (by decide)).1

namespace persist

open errors

/-- C14 at the input `RowExists("Songs", "name = ?", "Imagine")` on a table without rows, over
a connection whose query fails with `invalid connection`: the answer is `true` though no row
exists, where the doc comment of `RowExists` says it tells whether the row exists and a working
connection answers `false`.  For every connection: the answer is the scanned value when the
scan returns no error, `false` when it returns the value `sql.ErrNoRows` without writing, and
`true` for every other error value, also one that only has the text of `sql.ErrNoRows`. -/
theorem C14_row_exists_on_error {σ : Type} (c : Conn σ) (where_ condition : String)
    (args : List Value) (st : σ) :
    (sample.brokenConn.RowExists "Songs" "name = ?" [.str "Imagine"] sample.noRows).1 = true
    ∧ sample.noRows.Songs = []
    ∧ (sample.songConn.RowExists "Songs" "name = ?" [.str "Imagine"] sample.noRows).1 = false
    ∧ (sample.sameTextConn.RowExists "Songs" "name = ?" [.str "Imagine"] sample.noRows).1 = true
    ∧ (∀ present : Bool,
      (c.QueryRowScan ("SELECT exists (SELECT 1 FROM " ++ where_ ++ " WHERE " ++ condition ++ ")")
        args st).1 = (.nil, some present) →
      (c.RowExists where_ condition args st).1 = present)
    ∧ ((c.QueryRowScan ("SELECT exists (SELECT 1 FROM " ++ where_ ++ " WHERE " ++ condition ++ ")")
        args st).1 = (.ErrNoRows, none) →
      (c.RowExists where_ condition args st).1 = false)
    ∧ (∀ msg : String,
      (c.QueryRowScan ("SELECT exists (SELECT 1 FROM " ++ where_ ++ " WHERE " ++ condition ++ ")")
        args st).1.1 = .other msg →
      (c.RowExists where_ condition args st).1 = true) := by
  refine ⟨by decide, by decide, by decide, by decide, ?_, ?_, ?_⟩
  · intro present h
    simp [Conn.RowExists, h]
  · intro h
    simp [Conn.RowExists, h]
  · intro msg h
    simp [Conn.RowExists, h]

end persist
namespace persist

open errors

theorem Rows.Next_closed (r : Rows) (h : r.Next.1 = false) : r.Next.2.closed = true := by
  simp only [Rows.Next] at h ⊢
  cases hn : r.sqlNext.1
  · simp [hn, Rows.Close]
  · simp [hn] at h

theorem Rows.Scan_closed {α : Type} [Inhabited α] (decode : List Value → GoError × α)
    (r : Rows) (h : (r.Scan decode).1.1.isNil = false) : (r.Scan decode).2.closed = true := by
  simp only [Rows.Scan] at h ⊢
  cases hs : (r.sqlScan decode).1.isNil
  · simp [hs, Rows.Close]
  · simp [hs] at h

theorem Rows.UnsafeScan_same {α : Type} [Inhabited α] (decode : List Value → GoError × α)
    (r : Rows) : (r.UnsafeScan decode).2 = r := rfl

end persist

namespace songs

open errors persist

theorem scanRows_closed (e : Function) :
    ∀ (fuel : Nat) (rows : Rows) (acc : api.Songs), rows.rest.length < fuel →
      (db.scanRows e fuel rows acc).2.closed = true := by
  intro fuel
  induction fuel with
  | zero => intro rows acc h; simp at h
  | succ n ih =>
    intro rows acc h
    rw [db.scanRows]
    cases hn : rows.Next.1
    · simp only [Bool.false_eq_true, if_false]
      exact Rows.Next_closed rows hn
    · simp only [if_true]
      cases hs : (rows.Next.2.Scan scanSong).1.1.isNil
      · simp only [Bool.not_false, if_true]
        exact Rows.Scan_closed scanSong _ hs
      · simp only [Bool.not_true, Bool.false_eq_true, if_false]
        apply ih
        rw [Rows.Scan_rest]
        have := Rows.Next_rest rows hn
        omega

theorem db_get_fst_of_query {σ : Type} (d : db σ) (name : String) (w : World σ)
    (hq : (d.issued name w).1.2 = .nil) :
    (d.get name w).1
      = (db.scanRows (w.Fn d.err "get").1 ((d.issued name w).1.1.rest.length + 1)
          (d.issued name w).1.1 []).1 := by
  by_cases hn : name = ""
  · simp only [db.issued, hn, ne_eq, not_true_eq_false, if_false] at hq ⊢
    simp [db.get, World.Tag_store, World.Fn_store, World.Tag_fst, hq, GoError.isNil]
  · simp [db.issued, hn] at hq
    simp [db.issued, db.get, hn, World.Tag_store, World.Fn_store, World.Tag_fst, hq,
      GoError.isNil]

end songs

namespace artists

open errors persist

theorem scanRows_closed_artists (e : Function) :
    ∀ (fuel : Nat) (rows : Rows) (acc : api.Artists), rows.rest.length < fuel →
      (db.scanRows e fuel rows acc).2.closed = true := by
  intro fuel
  induction fuel with
  | zero => intro rows acc h; simp at h
  | succ n ih =>
    intro rows acc h
    rw [db.scanRows]
    cases hn : rows.Next.1
    · simp only [Bool.false_eq_true, if_false]
      exact Rows.Next_closed rows hn
    · simp only [if_true]
      cases hs : (rows.Next.2.Scan scanArtist).1.1.isNil
      · simp only [Bool.not_false, if_true]
        exact Rows.Scan_closed scanArtist _ hs
      · simp only [Bool.not_true, Bool.false_eq_true, if_false]
        apply ih
        rw [Rows.Scan_rest]
        have := Rows.Next_rest rows hn
        omega

theorem db_get_fst_of_query_artists {σ : Type} (d : db σ) (name : String) (w : World σ)
    (hq : (d.issued name w).1.2 = .nil) :
    (d.get name w).1
      = (db.scanRows (w.Fn d.err "get").1 ((d.issued name w).1.1.rest.length + 1)
          (d.issued name w).1.1 []).1 := by
  by_cases hn : name = ""
  · simp only [db.issued, hn, ne_eq, not_true_eq_false, if_false] at hq ⊢
    simp [db.get, World.Tag_store, World.Fn_store, World.Tag_fst, hq, GoError.isNil]
  · simp [db.issued, hn] at hq
    simp [db.issued, db.get, hn, World.Tag_store, World.Fn_store, World.Tag_fst, hq,
      GoError.isNil]

end artists

/-- C15: with the cursor as explicit state, `Rows.Next` leaves the cursor closed whenever
it returns false, `Rows.Scan` leaves it closed whenever it returns an error, and
`UnsafeScan` leaves the cursor as it was; and whenever the `Query` of songs `db.get`
or artists `db.get` succeeds, whatever cursor it returned, the result of `get` is the
result of the scan loop on that cursor and the loop leaves the cursor closed, be
it after the last row or at a scan error. -/
theorem C15_cursor_closed {σ : Type} {α : Type} [Inhabited α]
    (decode : List persist.Value → errors.GoError × α) (r : persist.Rows)
    (ds : songs.db σ) (da : artists.db σ) (name : String) (w : World σ) :
    (r.Next.1 = false → r.Next.2.closed = true)
    ∧ ((r.Scan decode).1.1.isNil = false → (r.Scan decode).2.closed = true)
    ∧ (r.UnsafeScan decode).2 = r
    ∧ ((ds.issued name w).1.2 = .nil →
        (ds.get name w).1
          = (songs.db.scanRows (w.Fn ds.err "get").1 ((ds.issued name w).1.1.rest.length + 1)
              (ds.issued name w).1.1 []).1
        ∧ (songs.db.scanRows (w.Fn ds.err "get").1 ((ds.issued name w).1.1.rest.length + 1)
              (ds.issued name w).1.1 []).2.closed = true)
    ∧ ((da.issued name w).1.2 = .nil →
        (da.get name w).1
          = (artists.db.scanRows (w.Fn da.err "get").1
              ((da.issued name w).1.1.rest.length + 1) (da.issued name w).1.1 []).1
        ∧ (artists.db.scanRows (w.Fn da.err "get").1
              ((da.issued name w).1.1.rest.length + 1) (da.issued name w).1.1 []).2.closed
            = true) :=
  ⟨persist.Rows.Next_closed r, persist.Rows.Scan_closed decode r,
   persist.Rows.UnsafeScan_same decode r,
   fun hq => ⟨songs.db_get_fst_of_query ds name w hq,
     songs.scanRows_closed _ _ _ _ (Nat.lt_succ_self _)⟩,
   fun hq => ⟨artists.db_get_fst_of_query_artists da name w hq,
     artists.scanRows_closed_artists _ _ _ _ (Nat.lt_succ_self _)⟩⟩

namespace hashing

/-! ### Words -/

theorem sha1.RotateLeft32_eq (x k : Nat) : sha1.RotateLeft32 x k = fips.ROTL k x := by
  simp [sha1.RotateLeft32, fips.ROTL, Nat.shiftLeft_eq, Nat.shiftRight_eq_div_pow]

theorem fips.ROTL_lt (n x : Nat) (hx : x < 2 ^ 32) : fips.ROTL n x < 2 ^ 32 := by
  unfold fips.ROTL
  apply Nat.or_lt_two_pow
  · exact Nat.mod_lt _ (by decide)
  · exact lt_of_le_of_lt (Nat.div_le_self _ _) hx

theorem sha1.and15 (i : Nat) : i &&& 0xf = i % 16 := Nat.and_pow_two_sub_one_eq_mod i 4

/-- The choice function as Go writes it and as FIPS 180-4 writes it. -/
theorem sha1.choice_eq (b c d : Nat) (hb : b < 2 ^ 32) :
    (b &&& c) ||| ((b ^^^ 0xFFFFFFFF) &&& d) = fips.Ch b c d := by
  unfold fips.Ch
  apply Nat.eq_of_testBit_eq
  intro i
  have h1 : (0xFFFFFFFF : Nat) = 2 ^ 32 - 1 := by decide
  have h2 : 2 ^ 32 - 1 - b = 2 ^ 32 - (b + 1) := by omega
  rw [h1, h2]
  simp only [Nat.testBit_or, Nat.testBit_and, Nat.testBit_xor, Nat.testBit_two_pow_sub_one,
    Nat.testBit_two_pow_sub_succ hb]
  by_cases hi : i < 32
  · simp only [hi, decide_True]
    cases b.testBit i <;> cases c.testBit i <;> cases d.testBit i <;> rfl
  · have : b.testBit i = false :=
      Nat.testBit_lt_two_pow (lt_of_lt_of_le hb (Nat.pow_le_pow_right (by decide) (by omega)))
    simp [hi, this]

/-- The majority function as Go writes it and as FIPS 180-4 writes it. -/
theorem sha1.majority_eq (b c d : Nat) :
    ((b ||| c) &&& d) ||| (b &&& c) = fips.Maj b c d := by
  unfold fips.Maj
  apply Nat.eq_of_testBit_eq
  intro i
  simp only [Nat.testBit_or, Nat.testBit_and, Nat.testBit_xor]
  cases b.testBit i <;> cases c.testBit i <;> cases d.testBit i <;> rfl

theorem sha1.add32_chain (r f e w K : Nat) :
    sha1.add32 (sha1.add32 (sha1.add32 (sha1.add32 r f) e) w) K
      = (r + f + e + K + w) % 2 ^ 32 := by
  simp only [sha1.add32]
  omega

/-- The four bytes of a word put together with shifts and with sums. -/
theorem sha1.load_word (p0 p1 p2 p3 : Nat) (h0 : p0 < 256) (h1 : p1 < 256) (h2 : p2 < 256)
    (h3 : p3 < 256) :
    ((p0 <<< 24) % 2 ^ 32) ||| ((p1 <<< 16) % 2 ^ 32) ||| ((p2 <<< 8) % 2 ^ 32) ||| p3
      = p0 * 2 ^ 24 + p1 * 2 ^ 16 + p2 * 2 ^ 8 + p3 := by
  simp only [Nat.shiftLeft_eq]
  have e0 : p0 * 2 ^ 24 % 2 ^ 32 = 2 ^ 24 * p0 := by omega
  have e1 : p1 * 2 ^ 16 % 2 ^ 32 = p1 * 2 ^ 16 := by omega
  have e2 : p2 * 2 ^ 8 % 2 ^ 32 = p2 * 2 ^ 8 := by omega
  rw [e0, e1, e2]
  have a1 : 2 ^ 24 * p0 ||| p1 * 2 ^ 16 = 2 ^ 16 * (p0 * 2 ^ 8 + p1) := by
    rw [← Nat.mul_add_lt_is_or (by omega : p1 * 2 ^ 16 < 2 ^ 24) p0]
    omega
  rw [a1]
  have a2 : 2 ^ 16 * (p0 * 2 ^ 8 + p1) ||| p2 * 2 ^ 8 = 2 ^ 8 * (p0 * 2 ^ 16 + p1 * 2 ^ 8 + p2) := by
    rw [← Nat.mul_add_lt_is_or (by omega : p2 * 2 ^ 8 < 2 ^ 16) (p0 * 2 ^ 8 + p1)]
    omega
  rw [a2, ← Nat.mul_add_lt_is_or (by omega : p3 < 2 ^ 8) _]
  omega

end hashing

namespace hashing

/-! ### One block -/

theorem fips.W_lt (M : List Nat) (t : Nat) (h : t < 16) : fips.W M t = fips.word M t := by
  rw [fips.W]
  simp [h]

theorem fips.W_ge (M : List Nat) (t : Nat) (h : 16 ≤ t) :
    fips.W M t
      = fips.ROTL 1 (fips.W M (t - 3) ^^^ fips.W M (t - 8) ^^^ fips.W M (t - 14)
          ^^^ fips.W M (t - 16)) := by
  rw [fips.W]
  simp [not_lt.2 h]

theorem sha1.turn_agrees (M : List Nat) (t : Nat) (v : sha1.vars) (s : fips.Vars)
    (fv Kv : Nat) (ha : v.a = s.a) (hb : v.b = s.b) (hc : v.c = s.c) (hd : v.d = s.d)
    (he : v.e = s.e) (hs : s.bounded) (hw : v.w (t % 16) = fips.W M t)
    (hf : fv = fips.f t s.b s.c s.d) (hK : Kv = fips.K t)
    (hinv : sha1.scheduled M (t + 1) v.w) :
    sha1.agrees M (t + 1) (sha1.turn fv Kv t v) (fips.step M s t) := by
  obtain ⟨b1, b2, b3, b4, b5⟩ := hs
  refine ⟨?_, ?_, ?_, ?_, ?_, ⟨?_, ?_, ?_, ?_, ?_⟩, ?_⟩
  · simp only [sha1.turn, fips.step, sha1.add32_chain, sha1.RotateLeft32_eq, sha1.and15, ha, he,
      hw, hf, hK]
  · exact ha
  · simp only [sha1.turn, fips.step, sha1.RotateLeft32_eq, hb]
  · exact hc
  · exact hd
  · exact Nat.mod_lt _ (by decide)
  · exact b1
  · exact fips.ROTL_lt _ _ b2
  · exact b3
  · exact b4
  · exact hinv

theorem sha1.scheduled_first (M : List Nat) (t : Nat) (w : Nat → Nat) (ht : t < 16)
    (h : sha1.scheduled M t w) : sha1.scheduled M (t + 1) w ∧ w (t % 16) = fips.W M t := by
  refine ⟨?_, ?_⟩
  · intro u hu hl
    apply h u
    · have : max (t + 1) 16 = 16 := by omega
      have : max t 16 = 16 := by omega
      omega
    · omega
  · apply h t
    · have : max t 16 = 16 := by omega
      omega
    · omega

theorem sha1.scheduled_extend (M : List Nat) (t : Nat) (v : sha1.vars) (ht : 16 ≤ t)
    (h : sha1.scheduled M t v.w) :
    sha1.scheduled M (t + 1) (sha1.extend t v).w
      ∧ (sha1.extend t v).w (t % 16) = fips.W M t := by
  have hm : max t 16 = t := by omega
  have w3 : v.w ((t - 3) % 16) = fips.W M (t - 3) := h _ (by omega) (by omega)
  have w8 : v.w ((t - 8) % 16) = fips.W M (t - 8) := h _ (by omega) (by omega)
  have w14 : v.w ((t - 14) % 16) = fips.W M (t - 14) := h _ (by omega) (by omega)
  have w16 : v.w (t % 16) = fips.W M (t - 16) := by
    have := h (t - 16) (by omega) (by omega)
    have e : (t - 16) % 16 = t % 16 := by omega
    rw [e] at this
    exact this
  have hnew : (sha1.extend t v).w (t % 16) = fips.W M t := by
    simp only [sha1.extend, sha1.and15, Function.update_same, sha1.RotateLeft32_eq, w3, w8, w14,
      w16]
    rw [fips.W_ge M t ht]
  refine ⟨?_, hnew⟩
  intro u hu hl
  by_cases hut : u = t
  · rw [hut]; exact hnew
  · have hne : u % 16 ≠ t % 16 := by
      have : max (t + 1) 16 = t + 1 := by omega
      omega
    have : (sha1.extend t v).w (u % 16) = v.w (u % 16) := by
      simp only [sha1.extend, sha1.and15]
      exact Function.update_noteq hne _ _
    rw [this]
    apply h u
    · have : max (t + 1) 16 = t + 1 := by omega
      omega
    · omega

theorem sha1.extend_fields (t : Nat) (v : sha1.vars) :
    (sha1.extend t v).a = v.a ∧ (sha1.extend t v).b = v.b ∧ (sha1.extend t v).c = v.c
      ∧ (sha1.extend t v).d = v.d ∧ (sha1.extend t v).e = v.e :=
  ⟨rfl, rfl, rfl, rfl, rfl⟩

theorem sha1.round0_agrees (M : List Nat) (t : Nat) (v : sha1.vars) (s : fips.Vars)
    (ht : t < 16) (h : sha1.agrees M t v s) :
    sha1.agrees M (t + 1) (sha1.round0 t v) (fips.step M s t) := by
  obtain ⟨ha, hb, hc, hd, he, hs, hw⟩ := h
  obtain ⟨i1, i2⟩ := sha1.scheduled_first M t v.w ht hw
  apply sha1.turn_agrees M t v s _ _ ha hb hc hd he hs i2 _ _ i1
  · rw [hb, hc, hd, sha1.choice_eq _ _ _ hs.2.1]
    simp [fips.f, show t ≤ 19 by omega]
  · simp [fips.K, show t ≤ 19 by omega]

theorem sha1.round1_agrees (M : List Nat) (t : Nat) (v : sha1.vars) (s : fips.Vars)
    (h16 : 16 ≤ t) (h19 : t ≤ 19) (h : sha1.agrees M t v s) :
    sha1.agrees M (t + 1) (sha1.round1 t v) (fips.step M s t) := by
  obtain ⟨ha, hb, hc, hd, he, hs, hw⟩ := h
  obtain ⟨i1, i2⟩ := sha1.scheduled_extend M t v h16 hw
  apply sha1.turn_agrees M t (sha1.extend t v) s _ _ ha hb hc hd he hs i2 _ _ i1
  · show (v.b &&& v.c) ||| ((v.b ^^^ 0xFFFFFFFF) &&& v.d) = _
    rw [hb, hc, hd, sha1.choice_eq _ _ _ hs.2.1]
    simp [fips.f, h19]
  · simp [fips.K, h19]

theorem sha1.round2_agrees (M : List Nat) (t : Nat) (v : sha1.vars) (s : fips.Vars)
    (h20 : 20 ≤ t) (h39 : t ≤ 39) (h : sha1.agrees M t v s) :
    sha1.agrees M (t + 1) (sha1.round2 t v) (fips.step M s t) := by
  obtain ⟨ha, hb, hc, hd, he, hs, hw⟩ := h
  obtain ⟨i1, i2⟩ := sha1.scheduled_extend M t v (by omega) hw
  apply sha1.turn_agrees M t (sha1.extend t v) s _ _ ha hb hc hd he hs i2 _ _ i1
  · show v.b ^^^ v.c ^^^ v.d = _
    rw [hb, hc, hd]
    simp [fips.f, fips.Parity, show ¬ t ≤ 19 by omega, h39]
  · simp [fips.K, show ¬ t ≤ 19 by omega, h39]

theorem sha1.round3_agrees (M : List Nat) (t : Nat) (v : sha1.vars) (s : fips.Vars)
    (h40 : 40 ≤ t) (h59 : t ≤ 59) (h : sha1.agrees M t v s) :
    sha1.agrees M (t + 1) (sha1.round3 t v) (fips.step M s t) := by
  obtain ⟨ha, hb, hc, hd, he, hs, hw⟩ := h
  obtain ⟨i1, i2⟩ := sha1.scheduled_extend M t v (by omega) hw
  apply sha1.turn_agrees M t (sha1.extend t v) s _ _ ha hb hc hd he hs i2 _ _ i1
  · show ((v.b ||| v.c) &&& v.d) ||| (v.b &&& v.c) = _
    rw [hb, hc, hd, sha1.majority_eq]
    simp [fips.f, show ¬ t ≤ 19 by omega, show ¬ t ≤ 39 by omega, h59]
  · simp [fips.K, show ¬ t ≤ 19 by omega, show ¬ t ≤ 39 by omega, h59]

theorem sha1.round4_agrees (M : List Nat) (t : Nat) (v : sha1.vars) (s : fips.Vars)
    (h60 : 60 ≤ t) (h : sha1.agrees M t v s) :
    sha1.agrees M (t + 1) (sha1.round4 t v) (fips.step M s t) := by
  obtain ⟨ha, hb, hc, hd, he, hs, hw⟩ := h
  obtain ⟨i1, i2⟩ := sha1.scheduled_extend M t v (by omega) hw
  apply sha1.turn_agrees M t (sha1.extend t v) s _ _ ha hb hc hd he hs i2 _ _ i1
  · show v.b ^^^ v.c ^^^ v.d = _
    rw [hb, hc, hd]
    simp [fips.f, fips.Parity, show ¬ t ≤ 19 by omega, show ¬ t ≤ 39 by omega,
      show ¬ t ≤ 59 by omega]
  · simp [fips.K, show ¬ t ≤ 19 by omega, show ¬ t ≤ 39 by omega, show ¬ t ≤ 59 by omega]

/-- A loop of rounds of the Go block function follows the steps of FIPS 180-4. -/
theorem sha1.forLoop_agrees (M : List Nat) (round : Nat → sha1.vars → sha1.vars) :
    ∀ (n lo : Nat) (v : sha1.vars) (s : fips.Vars),
      (∀ t v s, lo ≤ t → t < lo + n → sha1.agrees M t v s →
        sha1.agrees M (t + 1) (round t v) (fips.step M s t)) →
      sha1.agrees M lo v s →
      sha1.agrees M (lo + n) (sha1.forLoop round lo n v)
        ((List.range' lo n).foldl (fips.step M) s) := by
  intro n
  induction n with
  | zero => intro lo v s _ h; exact h
  | succ n ih =>
    intro lo v s hr h
    have h1 := hr lo v s (le_refl _) (by omega) h
    have := ih (lo + 1) (round lo v) (fips.step M s lo)
      (fun t v s h1 h2 h3 => hr t v s (by omega) (by omega) h3) h1
    simp only [sha1.forLoop, List.range'_succ, List.foldl_cons]
    have e : lo + 1 + n = lo + (n + 1) := by omega
    rw [e] at this
    exact this

end hashing

namespace hashing

theorem getD_lt_of_bytes (p : List Nat) (hp : ∀ b ∈ p, b < 256) (k : Nat) : p.getD k 0 < 256 := by
  by_cases hk : k < p.length
  · rw [List.getD_eq_getElem _ _ hk]
    exact hp _ (List.getElem_mem _)
  · rw [List.getD_eq_default _ _ (by omega)]
    decide

theorem getD_take (p : List Nat) (n k : Nat) (h : k < n) : (p.take n).getD k 0 = p.getD k 0 := by
  simp [List.getD_eq_getElem?_getD, List.getElem?_take, h]

/-- The loop that fills `w` leaves the words of the block in it. -/
theorem sha1.load_loop (p : List Nat) (hp : ∀ b ∈ p, b < 256) :
    ∀ (n i : Nat) (v : sha1.vars), i + n ≤ 16 →
      (sha1.forLoop (sha1.load p) i n v).a = v.a
      ∧ (sha1.forLoop (sha1.load p) i n v).b = v.b
      ∧ (sha1.forLoop (sha1.load p) i n v).c = v.c
      ∧ (sha1.forLoop (sha1.load p) i n v).d = v.d
      ∧ (sha1.forLoop (sha1.load p) i n v).e = v.e
      ∧ ∀ j, (sha1.forLoop (sha1.load p) i n v).w j
          = if i ≤ j ∧ j < i + n then fips.word (p.take 64) j else v.w j := by
  intro n
  induction n with
  | zero =>
    intro i v _
    refine ⟨rfl, rfl, rfl, rfl, rfl, ?_⟩
    intro j
    have : ¬ (i ≤ j ∧ j < i) := by omega
    simp [sha1.forLoop, this]
  | succ n ih =>
    intro i v hi
    obtain ⟨h1, h2, h3, h4, h5, h6⟩ := ih (i + 1) (sha1.load p i v) (by omega)
    simp only [sha1.forLoop]
    refine ⟨h1, h2, h3, h4, h5, ?_⟩
    intro j
    rw [h6 j]
    by_cases hj : j = i
    · subst hj
      have c1 : ¬ (j + 1 ≤ j ∧ j < j + 1 + n) := by omega
      have c2 : j ≤ j ∧ j < j + (n + 1) := by omega
      simp only [c1, c2, if_false, if_true, and_self]
      simp only [sha1.load, Function.update_same]
      rw [sha1.load_word _ _ _ _ (getD_lt_of_bytes p hp _) (getD_lt_of_bytes p hp _)
        (getD_lt_of_bytes p hp _) (getD_lt_of_bytes p hp _)]
      simp only [fips.word]
      rw [getD_take p 64 (4 * j) (by omega), getD_take p 64 (4 * j + 1) (by omega),
        getD_take p 64 (4 * j + 2) (by omega), getD_take p 64 (4 * j + 3) (by omega)]
      have e : j * 4 = 4 * j := by omega
      rw [e]
    · have hw : (sha1.load p i v).w j = v.w j := by
        simp only [sha1.load]
        exact Function.update_noteq hj _ _
      rw [hw]
      by_cases c : i + 1 ≤ j ∧ j < i + 1 + n
      · have c' : i ≤ j ∧ j < i + (n + 1) := by omega
        simp [c, c']
      · have c' : ¬ (i ≤ j ∧ j < i + (n + 1)) := by omega
        simp [c, c']

set_option maxRecDepth 10000 in
theorem fips.range80 :
    List.range 80
      = List.range' 0 16 ++ (List.range' 16 4 ++ (List.range' 20 20
          ++ (List.range' 40 20 ++ List.range' 60 20))) := by
  decide

theorem sha1.blockStep_x (d : sha1.digest) (p : List Nat) : (sha1.blockStep d p).x = d.x := by
  unfold sha1.blockStep
  rfl

theorem sha1.blockStep_len (d : sha1.digest) (p : List Nat) :
    (sha1.blockStep d p).len = d.len := by
  unfold sha1.blockStep
  rfl

theorem sha1.blockStep_eq (d : sha1.digest) (p : List Nat) :
    (sha1.blockStep d p).words
      = { a := sha1.add32 d.h0 (sha1.rounds d p).a, b := sha1.add32 d.h1 (sha1.rounds d p).b,
          c := sha1.add32 d.h2 (sha1.rounds d p).c, d := sha1.add32 d.h3 (sha1.rounds d p).d,
          e := sha1.add32 d.h4 (sha1.rounds d p).e } := rfl

/-- The rounds of the Go block function end in the working variables of FIPS 180-4 after the
eighty steps. -/
theorem sha1.rounds_agrees (d : sha1.digest) (p : List Nat) (hd : d.words.bounded)
    (hp : ∀ b ∈ p, b < 256) :
    sha1.agrees (p.take 64) 80 (sha1.rounds d p)
      ((List.range 80).foldl (fips.step (p.take 64)) d.words) := by
  obtain ⟨l1, l2, l3, l4, l5, l6⟩ := sha1.load_loop p hp 16 0
    { a := d.h0, b := d.h1, c := d.h2, d := d.h3, e := d.h4, w := fun _ => 0 } (by omega)
  have a0 : sha1.agrees (p.take 64) 0
      (sha1.forLoop (sha1.load p) 0 16
        { a := d.h0, b := d.h1, c := d.h2, d := d.h3, e := d.h4, w := fun _ => 0 })
      d.words := by
    refine ⟨l1, l2, l3, l4, l5, hd, ?_⟩
    intro u hu _
    have hu' : u < 16 := by
      have : max 0 16 = 16 := by decide
      omega
    rw [l6, Nat.mod_eq_of_lt hu', fips.W_lt _ _ hu']
    have : 0 ≤ u ∧ u < 0 + 16 := by omega
    simp [this]
  have a1 := sha1.forLoop_agrees (p.take 64) sha1.round0 16 0 _ _
    (fun t v s _ h2 h3 => sha1.round0_agrees _ t v s (by omega) h3) a0
  have a2 := sha1.forLoop_agrees (p.take 64) sha1.round1 4 16 _ _
    (fun t v s h1 h2 h3 => sha1.round1_agrees _ t v s (by omega) (by omega) h3) a1
  have a3 := sha1.forLoop_agrees (p.take 64) sha1.round2 20 20 _ _
    (fun t v s h1 h2 h3 => sha1.round2_agrees _ t v s (by omega) (by omega) h3) a2
  have a4 := sha1.forLoop_agrees (p.take 64) sha1.round3 20 40 _ _
    (fun t v s h1 h2 h3 => sha1.round3_agrees _ t v s (by omega) (by omega) h3) a3
  have a5 := sha1.forLoop_agrees (p.take 64) sha1.round4 20 60 _ _
    (fun t v s h1 h2 h3 => sha1.round4_agrees _ t v s (by omega) h3) a4
  rw [fips.range80]
  simp only [List.foldl_append]
  exact a5

/-- The body of the loop of `blockGeneric` computes the next hash value of FIPS 180-4 from the
block at the front of `p`. -/
theorem sha1.blockStep_words (d : sha1.digest) (p : List Nat) (hd : d.words.bounded)
    (hp : ∀ b ∈ p, b < 256) :
    (sha1.blockStep d p).words = fips.compress d.words (p.take 64) := by
  obtain ⟨e1, e2, e3, e4, e5, -, -⟩ := sha1.rounds_agrees d p hd hp
  rw [sha1.blockStep_eq, e1, e2, e3, e4, e5]
  simp only [fips.compress, sha1.add32, sha1.digest.words, Nat.add_comm]

theorem fips.compress_bounded (H : fips.Vars) (M : List Nat) : (fips.compress H M).bounded :=
  ⟨Nat.mod_lt _ (by decide), Nat.mod_lt _ (by decide), Nat.mod_lt _ (by decide),
    Nat.mod_lt _ (by decide), Nat.mod_lt _ (by decide)⟩

end hashing

namespace hashing

/-! ### Many blocks -/

theorem fips.absorb_bounded :
    ∀ (n : Nat) (h : fips.Vars) (p : List Nat), h.bounded → (fips.absorb h p n).bounded := by
  intro n
  induction n with
  | zero => intro h p hh; rw [fips.absorb]; exact hh
  | succ n ih => intro h p _; rw [fips.absorb]; exact ih _ _ (fips.compress_bounded _ _)

theorem fips.H0_bounded : fips.H0.bounded := by
  refine ⟨?_, ?_, ?_, ?_, ?_⟩ <;> decide

theorem fips.absorb_zero (h : fips.Vars) (p : List Nat) : fips.absorb h p 0 = h := by
  rw [fips.absorb]

theorem fips.absorb_step (h : fips.Vars) (p : List Nat) (n : Nat) :
    fips.absorb h p (n + 1) = fips.absorb (fips.compress h (p.take 64)) (p.drop 64) n := by
  rw [fips.absorb]

theorem fips.absorb_succ :
    ∀ (n : Nat) (h : fips.Vars) (p : List Nat),
      fips.absorb h p (n + 1) = fips.compress (fips.absorb h p n) (fips.blockAt p (n + 1)) := by
  intro n
  induction n with
  | zero =>
    intro h p
    rw [fips.absorb_step, fips.absorb_zero, fips.absorb_zero]
    simp [fips.blockAt]
  | succ n ih =>
    intro h p
    have e1 : fips.absorb h p (n + 1 + 1)
        = fips.absorb (fips.compress h (p.take 64)) (p.drop 64) (n + 1) := fips.absorb_step _ _ _
    have e2 : fips.absorb h p (n + 1)
        = fips.absorb (fips.compress h (p.take 64)) (p.drop 64) n := fips.absorb_step _ _ _
    rw [e1, ih, e2]
    congr 1
    simp only [fips.blockAt, List.drop_drop, Nat.add_sub_cancel]
    congr 2
    omega

/-- The hash values `H(i)` of FIPS 180-4 are what the blocks give when they are taken from the
front one after the other. -/
theorem fips.H_eq_absorb (p : List Nat) : ∀ n : Nat, fips.H p n = fips.absorb fips.H0 p n := by
  intro n
  induction n with
  | zero => rw [fips.absorb_zero, fips.H]
  | succ n ih => rw [fips.absorb_succ, ← ih, fips.H]

theorem fips.absorb_append :
    ∀ (n : Nat) (h : fips.Vars) (p q : List Nat) (k : Nat), p.length = 64 * n →
      fips.absorb h (p ++ q) (n + k) = fips.absorb (fips.absorb h p n) q k := by
  intro n
  induction n with
  | zero =>
    intro h p q k hp
    have : p = [] := List.length_eq_zero.1 (by omega)
    subst this
    rw [fips.absorb_zero]
    simp
  | succ n ih =>
    intro h p q k hp
    have e : n + 1 + k = (n + k) + 1 := by omega
    have e1 : fips.absorb h (p ++ q) (n + k + 1)
        = fips.absorb (fips.compress h ((p ++ q).take 64)) ((p ++ q).drop 64) (n + k) :=
      fips.absorb_step _ _ _
    have e2 : fips.absorb h p (n + 1)
        = fips.absorb (fips.compress h (p.take 64)) (p.drop 64) n := fips.absorb_step _ _ _
    have t1 : (p ++ q).take 64 = p.take 64 := List.take_append_of_le_length (by omega)
    have t2 : (p ++ q).drop 64 = p.drop 64 ++ q := List.drop_append_of_le_length (by omega)
    rw [e, e1, e2, t1, t2]
    exact ih _ _ _ _ (by simp [hp]; omega)

/-- The loop of `blockGeneric` over `n` blocks. -/
theorem sha1.blockLoop_words :
    ∀ (n : Nat) (d : sha1.digest) (p : List Nat), d.words.bounded → (∀ b ∈ p, b < 256) →
      64 * n ≤ p.length →
      (sha1.blockLoop n d p).words = fips.absorb d.words p n
        ∧ (sha1.blockLoop n d p).x = d.x ∧ (sha1.blockLoop n d p).len = d.len := by
  intro n
  induction n with
  | zero => intro d p _ _ _; rw [sha1.blockLoop, fips.absorb_zero]; exact ⟨rfl, rfl, rfl⟩
  | succ n ih =>
    intro d p hd hp hl
    have hg : p.length ≥ 64 := by omega
    have hw := sha1.blockStep_words d p hd hp
    have hb : (sha1.blockStep d p).words.bounded := by
      rw [hw]; exact fips.compress_bounded _ _
    obtain ⟨i1, i2, i3⟩ := ih (sha1.blockStep d p) (p.drop 64) hb
      (fun b hb => hp b (List.mem_of_mem_drop hb)) (by simp; omega)
    have e : sha1.blockLoop (n + 1) d p = sha1.blockLoop n (sha1.blockStep d p) (p.drop 64) := by
      rw [sha1.blockLoop]
      simp [hg]
    rw [e, i1, i2, i3, hw, sha1.blockStep_x, sha1.blockStep_len]
    exact ⟨rfl, rfl, rfl⟩

/-- The function `block` over a slice of whole blocks. -/
theorem sha1.block_words (d : sha1.digest) (p : List Nat) (hd : d.words.bounded)
    (hp : ∀ b ∈ p, b < 256) :
    (sha1.block d p).words = fips.absorb d.words p (p.length / 64)
      ∧ (sha1.block d p).x = d.x ∧ (sha1.block d p).len = d.len :=
  sha1.blockLoop_words (p.length / 64) d p hd hp (Nat.mul_div_le _ _)

end hashing

namespace hashing

/-! ### `Write` -/

theorem sha1.digest.keep_x (d : sha1.digest) (p : List Nat) (h : d.x = []) :
    (d.keep p).x = p := by
  unfold sha1.digest.keep
  split_ifs with hp
  · rfl
  · rw [h]; exact (List.length_eq_zero.1 (by omega)).symm

theorem sha1.digest.keep_words (d : sha1.digest) (p : List Nat) :
    (d.keep p).words = d.words := by
  unfold sha1.digest.keep
  split_ifs <;> rfl

theorem sha1.digest.keep_len (d : sha1.digest) (p : List Nat) : (d.keep p).len = d.len := by
  unfold sha1.digest.keep
  split_ifs <;> rfl

theorem sha1.digest.keep_nil (d : sha1.digest) : d.keep [] = d := by
  unfold sha1.digest.keep
  simp

theorem sha1.digest.whole_nil (d : sha1.digest) : d.whole [] = (d, []) := by
  unfold sha1.digest.whole
  simp

theorem sha1.digest.whole_spec (d : sha1.digest) (A p : List Nat) (hA : A.length % 64 = 0)
    (hw : d.words = fips.absorb fips.H0 A (A.length / 64)) (hp : ∀ b ∈ p, b < 256) :
    ∃ A', A ++ p = A' ++ (d.whole p).2 ∧ A'.length % 64 = 0 ∧ (d.whole p).2.length < 64
      ∧ (d.whole p).1.words = fips.absorb fips.H0 A' (A'.length / 64)
      ∧ (d.whole p).1.x = d.x ∧ (d.whole p).1.len = d.len := by
  have hb : d.words.bounded := by rw [hw]; exact fips.absorb_bounded _ _ _ fips.H0_bounded
  unfold sha1.digest.whole
  by_cases hg : p.length ≥ 64
  · rw [if_pos hg]
    dsimp only
    obtain ⟨b1, b2, b3⟩ := sha1.block_words d (p.take (p.length - p.length % 64)) hb
      (fun b hb => hp b (List.mem_of_mem_take hb))
    refine ⟨A ++ p.take (p.length - p.length % 64), ?_, ?_, ?_, ?_, b2, b3⟩
    · rw [List.append_assoc, List.take_append_drop]
    · simp only [List.length_append, List.length_take]; omega
    · simp only [List.length_drop]; omega
    · rw [b1, hw]
      have hl : A.length = 64 * (A.length / 64) := by omega
      rw [← fips.absorb_append _ _ _ _ _ hl]
      congr 1
      simp only [List.length_append, List.length_take]; omega
  · rw [if_neg hg]
    exact ⟨A, rfl, hA, by show p.length < 64; omega, hw, rfl, rfl⟩

theorem sha1.digest.fill_spec (d : sha1.digest) (A p : List Nat) (hA : A.length % 64 = 0)
    (hx : d.x.length < 64) (hw : d.words = fips.absorb fips.H0 A (A.length / 64))
    (hxb : ∀ b ∈ d.x, b < 256) (hp : ∀ b ∈ p, b < 256) :
    ∃ A', A ++ d.x ++ p = A' ++ (d.fill p).1.x ++ (d.fill p).2 ∧ A'.length % 64 = 0
      ∧ (d.fill p).1.words = fips.absorb fips.H0 A' (A'.length / 64)
      ∧ (d.fill p).1.len = d.len
      ∧ (∀ b ∈ (d.fill p).2, b < 256)
      ∧ ((d.fill p).1.x = [] ∨ ((d.fill p).2 = [] ∧ (d.fill p).1.x.length < 64)) := by
  have hb : d.words.bounded := by rw [hw]; exact fips.absorb_bounded _ _ _ fips.H0_bounded
  unfold sha1.digest.fill
  by_cases h0 : d.x.length > 0
  · rw [if_pos h0]
    dsimp only
    by_cases h64 : (d.x ++ p.take (min (64 - d.x.length) p.length)).length = 64
    · rw [if_pos h64]
      have hby : ∀ b ∈ d.x ++ p.take (min (64 - d.x.length) p.length), b < 256 := by
        intro b hb
        rcases List.mem_append.1 hb with h | h
        · exact hxb b h
        · exact hp b (List.mem_of_mem_take h)
      obtain ⟨b1, -, b3⟩ := sha1.block_words
        { d with x := d.x ++ p.take (min (64 - d.x.length) p.length) }
        (d.x ++ p.take (min (64 - d.x.length) p.length)) hb hby
      refine ⟨A ++ (d.x ++ p.take (min (64 - d.x.length) p.length)), ?_, ?_, ?_, b3, ?_,
        Or.inl rfl⟩
      · simp only [List.append_assoc, List.append_nil, List.nil_append, List.take_append_drop]
      · rw [List.length_append, h64]; omega
      · have e : ∀ z : sha1.digest, ({ z with x := [] } : sha1.digest).words = z.words :=
          fun _ => rfl
        rw [e, b1, h64]
        have hl : A.length = 64 * (A.length / 64) := by omega
        have hd : ({ d with x := d.x ++ p.take (min (64 - d.x.length) p.length) } :
            sha1.digest).words = d.words := rfl
        rw [hd, hw, ← fips.absorb_append _ _ _ _ _ hl]
        congr 1
        rw [List.length_append, h64]; omega
      · intro b hb; exact hp b (List.mem_of_mem_drop hb)
    · rw [if_neg h64]
      have hn : min (64 - d.x.length) p.length = p.length := by
        simp only [List.length_append, List.length_take] at h64
        omega
      have hlt : d.x.length + p.length < 64 := by
        simp only [List.length_append, List.length_take] at h64
        omega
      rw [hn, List.take_length, List.drop_length]
      refine ⟨A, ?_, hA, hw, rfl, ?_, Or.inr ⟨rfl, ?_⟩⟩
      · simp only [List.append_assoc, List.append_nil]
      · intro b hb; cases hb
      · show (d.x ++ p).length < 64
        rw [List.length_append]; exact hlt
  · rw [if_neg h0]
    exact ⟨A, rfl, hA, hw, rfl, hp, Or.inl (List.length_eq_zero.1 (by show d.x.length = 0; omega))⟩

theorem sha1.digest.Write_eq (d : sha1.digest) (p : List Nat) :
    d.Write p
      = ((({ d with len := (d.len + p.length) % 2 ^ 64 } : sha1.digest).fill p).1.whole
          (({ d with len := (d.len + p.length) % 2 ^ 64 } : sha1.digest).fill p).2).1.keep
        ((({ d with len := (d.len + p.length) % 2 ^ 64 } : sha1.digest).fill p).1.whole
          (({ d with len := (d.len + p.length) % 2 ^ 64 } : sha1.digest).fill p).2).2 := by
  unfold sha1.digest.Write
  rfl

/-- After `Write(p)` the digest has taken in the bytes of `p` as well. -/
theorem sha1.digest.Write_absorbed (d : sha1.digest) (s p : List Nat) (h : d.absorbed s)
    (hs : ∀ b ∈ s, b < 256) (hp : ∀ b ∈ p, b < 256) : (d.Write p).absorbed (s ++ p) := by
  obtain ⟨A, hsA, hA, hx, hw, hl⟩ := h
  have hxb : ∀ b ∈ d.x, b < 256 :=
    fun b hb => hs b (by rw [hsA]; exact List.mem_append_right _ hb)
  obtain ⟨A1, f1, f2, f3, f4, f5, f6⟩ := sha1.digest.fill_spec
    ({ d with len := (d.len + p.length) % 2 ^ 64 } : sha1.digest) A p hA hx hw hxb hp
  rw [sha1.digest.Write_eq]
  generalize ({ d with len := (d.len + p.length) % 2 ^ 64 } : sha1.digest).fill p = r at *
  have f4' : r.1.len = (d.len + p.length) % 2 ^ 64 := f4
  have f1' : A ++ d.x ++ p = A1 ++ r.1.x ++ r.2 := f1
  have hlen : (d.len + p.length) % 2 ^ 64 = (s ++ p).length % 2 ^ 64 := by
    rw [hl, List.length_append]; omega
  rcases f6 with f6 | ⟨f6, f7⟩
  · obtain ⟨A2, g1, g2, g3, g4, g5, g6⟩ := sha1.digest.whole_spec r.1 A1 r.2 f2 f3 f5
    refine ⟨A2, ?_, g2, ?_, ?_, ?_⟩
    · rw [sha1.digest.keep_x _ _ (g5.trans f6), ← g1, hsA, f1', f6, List.append_nil]
    · rw [sha1.digest.keep_x _ _ (g5.trans f6)]; exact g3
    · rw [sha1.digest.keep_words]; exact g4
    · rw [sha1.digest.keep_len, g6, f4', hlen]
  · rw [f6, sha1.digest.whole_nil, sha1.digest.keep_nil]
    refine ⟨A1, ?_, f2, f7, f3, ?_⟩
    · rw [hsA, f1', f6, List.append_nil]
    · rw [f4', hlen]

theorem sha1.New_absorbed : sha1.New.absorbed [] := by
  refine ⟨[], rfl, rfl, by decide, ?_, rfl⟩
  show sha1.New.words = fips.absorb fips.H0 [] 0
  rw [fips.absorb_zero]
  rfl

end hashing

namespace hashing

/-! ### `checkSum` and the padding -/

theorem binary.PutUint32_eq (v : Nat) : binary.PutUint32 v = fips.wordBytes v := by
  simp only [binary.PutUint32, fips.wordBytes, Nat.shiftRight_eq_div_pow]

theorem binary.PutUint64_bytes (v : Nat) : ∀ b ∈ binary.PutUint64 v, b < 256 := by
  intro b hb
  simp only [binary.PutUint64, List.mem_cons, List.mem_singleton, List.not_mem_nil,
    or_false] at hb
  rcases hb with h | h | h | h | h | h | h | h <;> subst h <;> exact Nat.mod_lt _ (by norm_num)

theorem fips.wordBytes_bytes (v : Nat) : ∀ b ∈ fips.wordBytes v, b < 256 := by
  intro b hb
  simp only [fips.wordBytes, List.mem_cons, List.mem_singleton, List.not_mem_nil,
    or_false] at hb
  rcases hb with h | h | h | h <;> subst h <;> exact Nat.mod_lt _ (by norm_num)

theorem fips.octets_length (s : fips.Vars) : s.octets.length = 20 := by
  simp [fips.Vars.octets, fips.wordBytes]

theorem fips.octets_bytes (s : fips.Vars) : ∀ b ∈ s.octets, b < 256 := by
  intro b hb
  simp only [fips.Vars.octets, List.mem_append] at hb
  rcases hb with (((h | h) | h) | h) | h <;> exact fips.wordBytes_bytes _ b h

theorem sha1.padlen_length (len : Nat) : (len + (sha1.padlen len).length) % 64 = 0 := by
  simp only [sha1.padlen, binary.PutUint64, List.length_append, List.length_cons,
    List.length_replicate, List.length_nil]
  split_ifs <;> omega

theorem sha1.padlen_bytes (len : Nat) : ∀ b ∈ sha1.padlen len, b < 256 := by
  intro b hb
  simp only [sha1.padlen, List.mem_append, List.mem_cons, List.mem_replicate] at hb
  rcases hb with (h | h) | h
  · omega
  · omega
  · exact binary.PutUint64_bytes _ b h

/-- The method `checkSum` of a digest that has taken in `s` does not panic: it gives the bytes
of the hash value of `s` followed by the padding of `checkSum`. -/
theorem sha1.digest.checkSum_absorbed (d : sha1.digest) (s : List Nat) (h : d.absorbed s)
    (hs : ∀ b ∈ s, b < 256) :
    d.checkSum = some (fips.absorb fips.H0 (s ++ sha1.padlen d.len)
      ((s ++ sha1.padlen d.len).length / 64)).octets := by
  have hW := sha1.digest.Write_absorbed d s (sha1.padlen d.len) h hs (sha1.padlen_bytes _)
  obtain ⟨-, -, -, -, -, hl⟩ := h
  unfold sha1.digest.checkSum
  dsimp only
  generalize d.Write (sha1.padlen d.len) = d2 at *
  obtain ⟨A, e, hA, hx, hw, -⟩ := hW
  have hlen := congrArg List.length e
  have hp := sha1.padlen_length d.len
  rw [List.length_append, List.length_append] at hlen
  have hx0 : d2.x.length = 0 := by omega
  have hnil : d2.x = [] := List.length_eq_zero.1 hx0
  rw [hnil, List.append_nil] at e
  rw [if_neg (not_not.2 hx0), e, ← hw]
  simp only [fips.Vars.octets, sha1.digest.words, binary.PutUint32_eq]

theorem fips.range8 : List.range 8 = [0, 1, 2, 3, 4, 5, 6, 7] := by decide

/-- For a message of fewer than `2^61` bytes, that is fewer than `2^64` bits, the padding of
`checkSum` is the padding of FIPS 180-4. -/
theorem sha1.padlen_eq_pad (s : List Nat) (h : s.length < 2 ^ 61) :
    s ++ sha1.padlen (s.length % 2 ^ 64) = fips.pad s := by
  have h' : s.length < 2305843009213693952 := h
  have hm : s.length % 2 ^ 64 = s.length := Nat.mod_eq_of_lt (by omega)
  have h2 : (s.length <<< 3) % 2 ^ 64 = 8 * s.length := by
    rw [Nat.shiftLeft_eq]; omega
  have h1 : (if s.length % 64 < 56 then 56 - s.length % 64 else 64 + 56 - s.length % 64) - 1
      = (fips.zeroBits (8 * s.length) - 7) / 8 := by
    unfold fips.zeroBits
    split_ifs <;> omega
  rw [hm]
  unfold sha1.padlen fips.pad
  dsimp only
  rw [h1, h2, fips.range8]
  simp only [binary.PutUint64, Nat.shiftRight_eq_div_pow, List.map_cons, List.map_nil,
    List.append_assoc, List.singleton_append, List.cons_append, List.nil_append]
  norm_num

theorem fips.SHA1_eq (M : List Nat) :
    fips.SHA1 M = (fips.absorb fips.H0 (fips.pad M) ((fips.pad M).length / 64)).octets := by
  unfold fips.SHA1
  dsimp only
  rw [fips.H_eq_absorb]
  rfl

/-- The calls `Write(p)` and `Sum(nil)` on a new digest never panic. -/
theorem sha1.Sum_total (p : List Nat) (hp : ∀ b ∈ p, b < 256) :
    (sha1.New.Write p).Sum = some (fips.absorb fips.H0 (p ++ sha1.padlen (p.length % 2 ^ 64))
      ((p ++ sha1.padlen (p.length % 2 ^ 64)).length / 64)).octets := by
  have h := sha1.digest.Write_absorbed sha1.New [] p sha1.New_absorbed (by intro b hb; cases hb) hp
  rw [List.nil_append] at h
  have hl : (sha1.New.Write p).len = p.length % 2 ^ 64 := by
    obtain ⟨-, -, -, -, -, hl⟩ := h
    exact hl
  unfold sha1.digest.Sum
  rw [sha1.digest.checkSum_absorbed _ p h hp, hl]

/-- The Go implementation computes the message digest of FIPS 180-4. -/
theorem sha1.Sum_eq_SHA1 (p : List Nat) (hp : ∀ b ∈ p, b < 256) (hl : p.length < 2 ^ 61) :
    (sha1.New.Write p).Sum = some (fips.SHA1 p) := by
  rw [sha1.Sum_total p hp, sha1.padlen_eq_pad p hl, fips.SHA1_eq]

theorem bytes_lt (src : String) : ∀ b ∈ bytes src, b < 256 := by
  intro b hb
  simp only [bytes, List.mem_map] at hb
  obtain ⟨u, -, rfl⟩ := hb
  exact UInt8.toNat_lt u

theorem Hash.SHA1_of_Sum (src : String) (sum : List Nat)
    (h : (sha1.New.Write (bytes src)).Sum = some sum) :
    Make.SHA1 src = some (hex.EncodeToString sum, errors.GoError.nil) := by
  unfold Hash.SHA1
  dsimp only
  rw [h]

/-! ### `hex` -/

theorem hex.getD_mem (i : Nat) : hex.hextable.getD i '0' ∈ hex.hextable := by
  by_cases h : i < 16
  · interval_cases i <;> decide
  · rw [List.getD_eq_default _ _ (by simpa [hex.hextable] using h)]
    decide

theorem hex.digitValue_getD : ∀ i, i < 16 → hex.digitValue (hex.hextable.getD i '0') = some i := by
  decide

theorem hex.EncodeToString_length (bs : List Nat) :
    (hex.EncodeToString bs).length = 2 * bs.length := by
  unfold hex.EncodeToString
  rw [String.length_mk]
  induction bs with
  | nil => rfl
  | cons b bs ih => simp only [List.flatMap_cons, List.length_append, List.length_cons, ih,
      List.length_nil]; omega

theorem hex.EncodeToString_chars (bs : List Nat) :
    ∀ c ∈ (hex.EncodeToString bs).data, c ∈ hex.hextable := by
  intro c hc
  simp only [hex.EncodeToString, List.mem_flatMap, List.mem_cons, List.mem_singleton,
    List.not_mem_nil, or_false] at hc
  obtain ⟨v, -, h | h⟩ := hc <;> subst h <;> exact hex.getD_mem _

/-- The text written by `EncodeToString` is read back as the bytes it was given. -/
theorem hex.read_EncodeToString (bs : List Nat) (h : ∀ b ∈ bs, b < 256) :
    hex.read (hex.EncodeToString bs).data = some bs := by
  unfold hex.EncodeToString
  dsimp only
  induction bs with
  | nil => rfl
  | cons b bs ih =>
    have hb : b < 256 := h b (List.mem_cons_self _ _)
    have e1 : b >>> 4 = b / 16 := by rw [Nat.shiftRight_eq_div_pow]
    have e2 : b &&& 0x0f = b % 16 := Nat.and_pow_two_sub_one_eq_mod b 4
    have d1 := hex.digitValue_getD (b / 16) (by omega)
    have d2 := hex.digitValue_getD (b % 16) (by omega)
    have ih' := ih (fun c hc => h c (List.mem_cons_of_mem _ hc))
    rw [List.flatMap_cons]
    show hex.read (hex.hextable.getD (b >>> 4) '0' :: hex.hextable.getD (b &&& 0x0f) '0'
      :: bs.flatMap _) = some (b :: bs)
    rw [hex.read, ih', e1, e2, d1, d2]
    show some ((16 * (b / 16) + b % 16) :: bs) = some (b :: bs)
    congr 2
    omega

end hashing

namespace hashing

theorem fips.zeroBits_spec (l : Nat) : (l + 1 + fips.zeroBits l) % 512 = 448 := by
  unfold fips.zeroBits
  omega

theorem fips.zeroBits_le (l k : Nat) (h : (l + 1 + k) % 512 = 448) : fips.zeroBits l ≤ k := by
  unfold fips.zeroBits
  omega

theorem fips.pad_length (M : List Nat) : (fips.pad M).length % 64 = 0 := by
  unfold fips.pad fips.zeroBits
  simp only [List.length_append, List.length_cons, List.length_nil, List.length_replicate,
    List.length_map, List.length_range]
  omega

theorem fips.SHA1_length (M : List Nat) : (fips.SHA1 M).length = 20 := by
  rw [fips.SHA1_eq, fips.octets_length]

theorem fips.SHA1_bytes (M : List Nat) : ∀ b ∈ fips.SHA1 M, b < 256 := by
  rw [fips.SHA1_eq]
  exact fips.octets_bytes _

/-- The method `Hash.SHA1` returns for every string. -/
theorem Hash.SHA1_total (src : String) :
    ∃ sum : List Nat, Make.SHA1 src = some (hex.EncodeToString sum, errors.GoError.nil)
      ∧ sum.length = 20 ∧ (∀ b ∈ sum, b < 256)
      ∧ ((bytes src).length < 2 ^ 61 → sum = fips.SHA1 (bytes src)) := by
  refine ⟨_, Hash.SHA1_of_Sum src _ (sha1.Sum_total (bytes src) (bytes_lt src)),
    fips.octets_length _, fips.octets_bytes _, ?_⟩
  intro hl
  rw [sha1.padlen_eq_pad _ hl, fips.SHA1_eq]

theorem Hash.SHA1_vector (src hash : String)
    (h : (Make.SHA1 src).map Prod.fst = some hash) :
    Make.SHA1 src = some (hash, errors.GoError.nil) := by
  obtain ⟨sum, e, -⟩ := Hash.SHA1_total src
  rw [e] at h
  rw [e, ← Option.some.inj h]

theorem Hash.SHA1_eq_fips (src : String) (hl : (bytes src).length < 2 ^ 61) :
    Make.SHA1 src = some (hex.EncodeToString (fips.SHA1 (bytes src)), errors.GoError.nil) :=
  Hash.SHA1_of_Sum src _ (sha1.Sum_eq_SHA1 (bytes src) (bytes_lt src) hl)

theorem fips.SHA1_example (src hash : String) (hl : (bytes src).length < 2 ^ 61)
    (h : (Make.SHA1 src).map Prod.fst = some hash) :
    hex.EncodeToString (fips.SHA1 (bytes src)) = hash := by
  rw [Hash.SHA1_eq_fips src hl] at h
  exact Option.some.inj h

end hashing

set_option maxRecDepth 100000 in
/-- C16: for every input string `src`, `Hash.SHA1(src)` returns, with a nil error and a text of
40 characters out of `0123456789abcdef`; the text reads back as twenty bytes, and for a string
of fewer than `2^61` bytes (a message of fewer than `2^64` bits, as FIPS 180-4 asks) these are
the message digest that FIPS 180-4 defines for the bytes of `src`: the digest of Go's
`crypto/sha1` with its buffer of pending bytes, its padding in `checkSum` and its block function
with a buffer of sixteen words computes the same as padding, message schedule of eighty words
and hash values `H(i)` of the standard, for every sequence of bytes.  The number of zero bits of
the padding is the smallest solution of `l + 1 + k ≡ 448 mod 512`.  For the input of the
repository's test the result is `9dfd930747c3136bda953c9c7a523c93ee35ba44`; the two examples
of the standard, inputs outside ASCII and inputs of more than one block give the known
digests, on both definitions. -/
theorem C16_sha1_hex (src : String) :
    (∃ hash : String, hashing.Make.SHA1 src = some (hash, errors.GoError.nil)
        ∧ hash.length = 40 ∧ (∀ c ∈ hash.data, c ∈ "0123456789abcdef".data)
        ∧ ∃ sum : List Nat, hashing.hex.read hash.data = some sum ∧ sum.length = 20
            ∧ ((hashing.bytes src).length < 2 ^ 61 → sum = hashing.fips.SHA1 (hashing.bytes src)))
    ∧ ((hashing.bytes src).length < 2 ^ 61 →
        hashing.Make.SHA1 src
            = some (hashing.hex.EncodeToString (hashing.fips.SHA1 (hashing.bytes src)),
                errors.GoError.nil)
          ∧ hashing.hex.read
              (hashing.hex.EncodeToString (hashing.fips.SHA1 (hashing.bytes src))).data
            = some (hashing.fips.SHA1 (hashing.bytes src)))
    ∧ (∀ p : List Nat, (∀ b ∈ p, b < 256) → p.length < 2 ^ 61 →
        (hashing.sha1.New.Write p).Sum = some (hashing.fips.SHA1 p))
    ∧ (∀ l : Nat, (l + 1 + hashing.fips.zeroBits l) % 512 = 448
        ∧ ∀ k : Nat, (l + 1 + k) % 512 = 448 → hashing.fips.zeroBits l ≤ k)
    ∧ (∀ M : List Nat, (hashing.fips.pad M).length % 64 = 0)
    ∧ hashing.Make.SHA1 hashing.testInput
        = some ("9dfd930747c3136bda953c9c7a523c93ee35ba44", errors.GoError.nil)
    ∧ hashing.Make.SHA1 "" = some ("da39a3ee5e6b4b0d3255bfef95601890afd80709", errors.GoError.nil)
    ∧ hashing.Make.SHA1 "abc"
        = some ("a9993e364706816aba3e25717850c26c9cd0d89d", errors.GoError.nil)
    ∧ hashing.Make.SHA1 "abcdbcdecdefdefgefghfghighijhijkijkljklmklmnlmnomnopnopq"
        = some ("84983e441c3bd26ebaae4aa1f95129e5e54670f1", errors.GoError.nil)
    ∧ hashing.Make.SHA1 "é" = some ("bf15be717ac1b080b4f1c456692825891ff5073d", errors.GoError.nil)
    ∧ hashing.Make.SHA1 "€😀" = some ("136f4741a0b5d65a6ea8c19d7582efb7753902b2", errors.GoError.nil)
    ∧ hashing.Make.SHA1 "héllo wörld"
        = some ("24e9f5c07847ff8a2a9fa77456655792f5bc7f9f", errors.GoError.nil)
    ∧ hashing.Make.SHA1 (String.mk (List.replicate 64 'a'))
        = some ("0098ba824b5c16427bd7a1122a5a442a25ec644d", errors.GoError.nil)
    ∧ hashing.Make.SHA1 (String.mk (List.replicate 119 'a'))
        = some ("ee971065aaa017e0632a8ca6c77bb3bf8b1dfc56", errors.GoError.nil)
    ∧ hashing.hex.EncodeToString (hashing.fips.SHA1 (hashing.bytes "abc"))
        = "a9993e364706816aba3e25717850c26c9cd0d89d"
    ∧ hashing.hex.EncodeToString (hashing.fips.SHA1
          (hashing.bytes "abcdbcdecdefdefgefghfghighijhijkijkljklmklmnlmnomnopnopq"))
        = "84983e441c3bd26ebaae4aa1f95129e5e54670f1"
    ∧ hashing.hex.EncodeToString (hashing.fips.SHA1 (hashing.bytes "é"))
        = "bf15be717ac1b080b4f1c456692825891ff5073d"
    ∧ hashing.bytes "é" = [0xc3, 0xa9]
    ∧ hashing.bytes "€😀" = [0xe2, 0x82, 0xac, 0xf0, 0x9f, 0x98, 0x80] := by
  refine ⟨?_, ?_, ?_, ?_, hashing.fips.pad_length, ?_, ?_, ?_, ?_, ?_, ?_, ?_, ?_, ?_, ?_, ?_, ?_,
    by decide, by decide⟩
  · obtain ⟨sum, e, h20, hb, hf⟩ := hashing.Hash.SHA1_total src
    refine ⟨_, e, ?_, hashing.hex.EncodeToString_chars sum, sum,
      hashing.hex.read_EncodeToString sum hb, h20, hf⟩
    rw [hashing.hex.EncodeToString_length, h20]
  · intro hl
    exact ⟨hashing.Hash.SHA1_eq_fips src hl,
      hashing.hex.read_EncodeToString _ (hashing.fips.SHA1_bytes _)⟩
  · exact hashing.sha1.Sum_eq_SHA1
  · exact fun l => ⟨hashing.fips.zeroBits_spec l, hashing.fips.zeroBits_le l⟩
  · exact hashing.Hash.SHA1_vector _ _ (by decide)
  · exact hashing.Hash.SHA1_vector _ _ (by decide)
  · exact hashing.Hash.SHA1_vector _ _ (by decide)
  · exact hashing.Hash.SHA1_vector _ _ (by decide)
  · exact hashing.Hash.SHA1_vector _ _ (by decide)
  · exact hashing.Hash.SHA1_vector _ _ (by decide)
  · exact hashing.Hash.SHA1_vector _ _ (by decide)
  · exact hashing.Hash.SHA1_vector _ _ (by decide)
  · exact hashing.Hash.SHA1_vector _ _ (by decide)
  · exact hashing.fips.SHA1_example _ _ (by decide) (by decide)
  · exact hashing.fips.SHA1_example _ _ (by decide) (by decide)
  · exact hashing.fips.SHA1_example _ _ (by decide) (by decide)

/-- C16 at the string `é`, two bytes in UTF-8: the result is the digest of FIPS 180-4 of these
two bytes. -/
theorem C16_sha1_hex_witness :
    (hashing.bytes "é").length < 2 ^ 61
    ∧ hashing.Make.SHA1 "é"
        = some (hashing.hex.EncodeToString (hashing.fips.SHA1 (hashing.bytes "é")),
            errors.GoError.nil)
    ∧ hashing.hex.read
          (hashing.hex.EncodeToString (hashing.fips.SHA1 (hashing.bytes "é"))).data
        = some (hashing.fips.SHA1 (hashing.bytes "é")) :=
  ⟨by decide, (C16_sha1_hex "é").2.1 (by decide)⟩

namespace songs

open errors persist gin

/-- The loop of `db.get` over rows that all decode: every row, in cursor order. -/
theorem scanRows_decoded (e : Function) :
    ∀ (rows : List (List Value)) (acc : api.Songs) (fuel : Nat) (cur : Option (List Value)),
      rows.length < fuel → (∀ r ∈ rows, (scanSong r).1 = .nil) →
      db.scanRows e fuel { cur := cur, rest := rows, closed := false } acc
        = ((acc ++ rows.map (fun r => (scanSong r).2), .nil),
            { cur := none, rest := [], closed := true }) := by
  intro rows
  induction rows with
  | nil =>
    intro acc fuel cur hf _
    cases fuel with
    | zero => simp at hf
    | succ n => simp [db.scanRows, Rows.Next, Rows.sqlNext, Rows.Close]
  | cons x xs ih =>
    intro acc fuel cur hf hd
    cases fuel with
    | zero => simp at hf
    | succ n =>
      have hn : xs.length < n := by simpa using hf
      have hx : (scanSong x).1 = .nil := hd x (List.mem_cons_self _ _)
      have := ih (acc ++ [(scanSong x).2]) n (some x) hn
        (fun r hr => hd r (List.mem_cons_of_mem _ hr))
      simp [db.scanRows, Rows.Next, Rows.sqlNext, Rows.Scan, Rows.sqlScan, hx,
        GoError.isNil] at this ⊢
      exact this

/-- The result of `db.get("")` when the store answers the bare SELECT with a cursor whose rows
all decode. -/
theorem db_get_all {σ : Type} (d : db σ) (w : World σ) (rows : List (List Value))
    (hq : (d.Querier.Query "SELECT id, name, duration, artist_id FROM Songs " [] w.store).1
      = (Rows.over rows, .nil))
    (hd : ∀ r ∈ rows, (scanSong r).1 = .nil) :
    (d.get "" w).1 = (rows.map (fun r => (scanSong r).2), .nil) := by
  have h1 : (d.Querier.Query "SELECT id, name, duration, artist_id FROM Songs " [] w.store).1.1
      = Rows.over rows := congrArg Prod.fst hq
  have h2 : (d.Querier.Query "SELECT id, name, duration, artist_id FROM Songs " [] w.store).1.2
      = .nil := congrArg Prod.snd hq
  simp [db.get, World.Tag_store, World.Fn_store, World.Tag_fst, h1, h2, GoError.isNil,
    Rows.over, scanRows_decoded _ rows [] (rows.length + 1) none (Nat.lt_succ_self _) hd]

end songs

namespace artists

open errors persist gin

/-- The loop of `db.get` over rows that all decode: every row, in cursor order. -/
theorem scanRows_decoded_artists (e : Function) :
    ∀ (rows : List (List Value)) (acc : api.Artists) (fuel : Nat) (cur : Option (List Value)),
      rows.length < fuel → (∀ r ∈ rows, (scanArtist r).1 = .nil) →
      db.scanRows e fuel { cur := cur, rest := rows, closed := false } acc
        = ((acc ++ rows.map (fun r => (scanArtist r).2), .nil),
            { cur := none, rest := [], closed := true }) := by
  intro rows
  induction rows with
  | nil =>
    intro acc fuel cur hf _
    cases fuel with
    | zero => simp at hf
    | succ n => simp [db.scanRows, Rows.Next, Rows.sqlNext, Rows.Close]
  | cons x xs ih =>
    intro acc fuel cur hf hd
    cases fuel with
    | zero => simp at hf
    | succ n =>
      have hn : xs.length < n := by simpa using hf
      have hx : (scanArtist x).1 = .nil := hd x (List.mem_cons_self _ _)
      have := ih (acc ++ [(scanArtist x).2]) n (some x) hn
        (fun r hr => hd r (List.mem_cons_of_mem _ hr))
      simp [db.scanRows, Rows.Next, Rows.sqlNext, Rows.Scan, Rows.sqlScan, hx,
        GoError.isNil] at this ⊢
      exact this

/-- The result of `db.get("")` when the store answers the bare SELECT with a cursor whose rows
all decode. -/
theorem db_get_all_artists {σ : Type} (d : db σ) (w : World σ) (rows : List (List Value))
    (hq : (d.Querier.Query "SELECT id, name FROM Artists " [] w.store).1
      = (Rows.over rows, .nil))
    (hd : ∀ r ∈ rows, (scanArtist r).1 = .nil) :
    (d.get "" w).1 = (rows.map (fun r => (scanArtist r).2), .nil) := by
  have h1 : (d.Querier.Query "SELECT id, name FROM Artists " [] w.store).1.1
      = Rows.over rows := congrArg Prod.fst hq
  have h2 : (d.Querier.Query "SELECT id, name FROM Artists " [] w.store).1.2
      = .nil := congrArg Prod.snd hq
  simp [db.get, World.Tag_store, World.Fn_store, World.Tag_fst, h1, h2, GoError.isNil,
    Rows.over, scanRows_decoded_artists _ rows [] (rows.length + 1) none (Nat.lt_succ_self _) hd]

theorem scanArtist_artistRow (a : api.Artist) : scanArtist (store.artistRow a) = (.nil, a) := rfl

theorem scanRows_artistRows (e : Function) :
    ∀ (l : api.Artists) (acc : api.Artists) (fuel : Nat) (cur : Option (List Value)),
      l.length < fuel →
      db.scanRows e fuel { cur := cur, rest := l.map store.artistRow, closed := false } acc
        = ((acc ++ l, .nil), { cur := none, rest := [], closed := true }) := by
  intro l acc fuel cur hf
  have hdec : ∀ r ∈ l.map store.artistRow, (scanArtist r).1 = .nil := by
    intro r hr
    obtain ⟨a, -, rfl⟩ := List.mem_map.1 hr
    rfl
  have hmap : ∀ l : api.Artists,
      (l.map store.artistRow).map (fun r => (scanArtist r).2) = l := by
    intro l; induction l with
    | nil => rfl
    | cons x xs ih =>
      simp only [List.map_cons, scanArtist_artistRow, List.cons.injEq, true_and]
      exact ih
  rw [scanRows_decoded_artists e _ acc fuel cur (by simpa using hf) hdec, hmap]

/-- The artists adapter over the table model. -/
theorem tables_get_artists (err : Struct) (name : String) (w : World store.Tables) :
    ((db.mk store.tables err).get name w).1 = (store.lookupArtists w.store name, .nil)
      ∧ ((db.mk store.tables err).get name w).2.store = w.store := by
  by_cases hn : name = ""
  · subst hn
    simp [db.get, store.tables, store.Query, World.Tag_store, World.Fn_store, GoError.isNil,
      Rows.over, scanRows_artistRows, store.lookupArtists]
  · have hq : "SELECT id, name FROM Artists " ++ "WHERE name = ? LIMIT 1"
        = "SELECT id, name FROM Artists WHERE name = ? LIMIT 1" := by decide
    simp [db.get, store.tables, store.Query, World.Tag_store, World.Fn_store, GoError.isNil,
      Rows.over, scanRows_artistRows, store.lookupArtists, hn, hq, -List.map_take]

theorem tables_getArtistByName (name : String) (w : World store.Tables) :
    ((New store.tables).1.getArtistByName name w).1.2.2 = .nil
      ∧ ((New store.tables).1.getArtistByName name w).1.2.1
          = decide ((store.lookupArtists w.store name).length = 1) := by
  have hg := tables_get_artists ((Pkg "artists").Struct "db") name
    (w.afterFnTag ((Pkg "artists").Struct "service") "getArtistByName" name)
  have hs : (w.afterFnTag ((Pkg "artists").Struct "service") "getArtistByName" name).store
      = w.store := rfl
  rw [hs] at hg
  obtain ⟨h1, -⟩ := hg
  have e1 : ((New store.tables).1.db.get name
      (w.afterFnTag (New store.tables).1.err "getArtistByName" name)).1.2 = .nil := by
    exact congrArg Prod.snd h1
  have e2 : ((New store.tables).1.db.get name
      (w.afterFnTag (New store.tables).1.err "getArtistByName" name)).1.1
        = store.lookupArtists w.store name := by
    exact congrArg Prod.fst h1
  refine ⟨?_, ?_⟩
  · rw [getArtistByName_fst, e1, e2]
    by_cases hl : (store.lookupArtists w.store name).length = 1 <;> simp [GoError.isNil, hl]
  · rw [getArtistByName_fst, e1, e2]
    by_cases hl : (store.lookupArtists w.store name).length = 1 <;> simp [GoError.isNil, hl]

end artists

/-- C18 at the input `Any("DELETE", When{Fmt: "/:name", Path: "/x"})` on a new `Test`: the
route is registered at `/0/:name`, but `http.NewRequest` is called with the method `/0/x` and
the target `DELETE`, the two swapped (`Test.request` hands `method, url` to the parameters
`path, method` of `Fake.Any`), while `POST` on the same situation asks for method `POST` and
target `/0/x`; and for every method other than the four with a case of their own the request
is asked for with the target as its method and the method as its target. -/
theorem C18_any_swaps_method_and_target (tt : gintest.Test) (M : String) (d : gintest.When) :
    (gintest.NewTest.Any "DELETE" sample.whenName).g.calls
        = [.handle "Any" "/0/:name", .newRequest "/0/x" "DELETE"]
    ∧ (gintest.NewTest.Any "DELETE" sample.whenName).g.calls
        ≠ [.handle "Any" "/0/:name", .newRequest "DELETE" "/0/x"]
    ∧ (gintest.NewTest.POST sample.whenName).g.calls
        = [.handle "POST" "/0/:name", .newRequest "POST" "/0/x"]
    ∧ (M ≠ "GET" → M ≠ "POST" → M ≠ "PUT" → M ≠ "PATCH" →
        (tt.Any M d).g.calls
          = tt.g.calls ++ [.handle "Any" ("/" ++ toString tt.called ++ d.Fmt),
              .newRequest ("/" ++ toString tt.called ++ d.Path ++ d.Query) M]) := by
  refine ⟨by decide, by decide, by decide, ?_⟩
  intro h1 h2 h3 h4
  simp [gintest.Test.Any, gintest.Test.request, gintest.Fake.Any, gintest.Fake.payloadRequest,
    h1, h2, h3, h4]

namespace strings

theorem isPrefixOf_append_of_le (sub x y : List Char) (hl : sub.length ≤ x.length) :
    sub.isPrefixOf (x ++ y) = sub.isPrefixOf x := by
  rw [Bool.eq_iff_iff, List.isPrefixOf_iff_prefix, List.isPrefixOf_iff_prefix]
  exact ⟨fun h => List.prefix_of_prefix_length_le h (List.prefix_append x y) hl,
    fun h => h.trans (List.prefix_append x y)⟩

theorem containsChars_length (sub : List Char) :
    ∀ s : List Char, containsChars sub s = true → sub.length ≤ s.length := by
  intro s
  induction s with
  | nil =>
    intro h
    cases sub with
    | nil => simp
    | cons a as => simp [containsChars, List.isPrefixOf] at h
  | cons c cs ih =>
    intro h
    simp only [containsChars, Bool.or_eq_true] at h
    rcases h with h | h
    · exact (List.isPrefixOf_iff_prefix.1 h).length_le
    · have := ih h
      simp only [List.length_cons]
      omega

theorem containsChars_append_self (sub : List Char) :
    ∀ m : List Char, containsChars sub (m ++ sub) = true := by
  intro m
  induction m with
  | nil =>
    cases sub with
    | nil => rfl
    | cons a as =>
      simp only [List.nil_append, containsChars, Bool.or_eq_true]
      exact Or.inl (List.isPrefixOf_iff_prefix.2 (List.prefix_refl _))
  | cons c cs ih =>
    simp only [List.cons_append, containsChars, Bool.or_eq_true]
    exact Or.inr ih

/-- With the separator somewhere in `x`, what follows `x` changes neither the split nor the part
before the separator. -/
theorem splitAfterFirst_append (sub : List Char) :
    ∀ x y : List Char, containsChars sub x = true →
      splitAfterFirst sub (x ++ y) = beforeChars sub x ++ sub
      ∧ beforeChars sub (x ++ y) = beforeChars sub x := by
  intro x
  induction x with
  | nil =>
    intro y h
    cases sub with
    | nil => cases y <;> simp [splitAfterFirst, beforeChars]
    | cons a as => simp [containsChars, List.isPrefixOf] at h
  | cons c cs ih =>
    intro y h
    by_cases hp : sub.isPrefixOf (c :: cs) = true
    · have hp' : sub.isPrefixOf (c :: (cs ++ y)) = true :=
        List.isPrefixOf_iff_prefix.2
          ((List.isPrefixOf_iff_prefix.1 hp).trans (List.prefix_append (c :: cs) y))
      simp [splitAfterFirst, beforeChars, hp, hp']
    · have hp0 : sub.isPrefixOf (c :: cs) = false := Bool.eq_false_iff.2 hp
      rw [containsChars, hp0, Bool.false_or] at h
      have hl : sub.length ≤ (c :: cs).length := by
        have := containsChars_length sub cs h
        simp only [List.length_cons]
        omega
      have hp' : sub.isPrefixOf (c :: (cs ++ y)) = false := by
        have := isPrefixOf_append_of_le sub (c :: cs) y hl
        simp only [List.cons_append] at this
        rw [this]
        exact hp0
      obtain ⟨h1, h2⟩ := ih y h
      simp [splitAfterFirst, beforeChars, hp0, hp', h1, h2]

theorem TrimSuffix_append (b sep : List Char) :
    TrimSuffix (String.mk (b ++ sep)) (String.mk sep) = String.mk b := by
  have hs : sep.isSuffixOf (b ++ sep) = true :=
    List.isSuffixOf_iff_suffix.2 (List.suffix_append b sep)
  simp [TrimSuffix, hs]

theorem TrimPrefix_append (p s : String) : TrimPrefix (p ++ s) p = s := by
  have hp : p.data.isPrefixOf (p ++ s).data = true := by
    rw [String.data_append]
    exact List.isPrefixOf_iff_prefix.2 (List.prefix_append _ _)
  simp [TrimPrefix, hp]

/-- The three steps of `OriginalError` on a rendering `ERROR m | CONTEXT t`. -/
theorem steps_eq (m t : String) :
    TrimSuffix (SplitAfterFirst (TrimPrefix ("ERROR " ++ (m ++ (" | CONTEXT " ++ t))) "ERROR ")
        " | CONTEXT ") " | CONTEXT "
      = Before (m ++ " | CONTEXT ") " | CONTEXT " := by
  rw [TrimPrefix_append]
  have h := splitAfterFirst_append " | CONTEXT ".data (m.data ++ " | CONTEXT ".data) t.data
    (containsChars_append_self _ _)
  have e : SplitAfterFirst (m ++ (" | CONTEXT " ++ t)) " | CONTEXT "
      = String.mk (beforeChars " | CONTEXT ".data (m.data ++ " | CONTEXT ".data)
          ++ " | CONTEXT ".data) := by
    simp only [SplitAfterFirst, String.data_append]
    rw [← List.append_assoc, h.1]
  rw [e]
  exact TrimSuffix_append _ _

/-- The separator overlaps itself in one way only: its last character is its first. -/
theorem separator_overlap (k : Nat) (h1 : 1 ≤ k) (h10 : k ≤ 10)
    (h : " | CONTEXT ".data.isPrefixOf (" | CONTEXT ".data.take k ++ " | CONTEXT ".data) = true) :
    k = 10 := by
  interval_cases k <;> first | rfl | (exfalso; revert h; decide)

/-- A text that neither holds the separator nor ends with its first ten characters: the first
separator of the text followed by the separator is the one that follows. -/
theorem beforeChars_of_not_contains :
    ∀ m : List Char, containsChars " | CONTEXT ".data m = false →
      (" | CONTEXT".data).isSuffixOf m = false →
      beforeChars " | CONTEXT ".data (m ++ " | CONTEXT ".data) = m := by
  intro m
  induction m with
  | nil => intro _ _; decide
  | cons c cs ih =>
    intro hc hs
    simp only [containsChars, Bool.or_eq_false_iff] at hc
    have hs' : (" | CONTEXT".data).isSuffixOf cs = false := by
      cases hx : (" | CONTEXT".data).isSuffixOf cs with
      | false => rfl
      | true =>
        have h1 := List.isSuffixOf_iff_suffix.1 hx
        have h2 : " | CONTEXT".data <:+ c :: cs := h1.trans (List.suffix_cons c cs)
        rw [List.isSuffixOf_iff_suffix.2 h2] at hs
        exact absurd hs (by decide)
    have hp : " | CONTEXT ".data.isPrefixOf (c :: (cs ++ " | CONTEXT ".data)) = false := by
      cases hx : " | CONTEXT ".data.isPrefixOf (c :: (cs ++ " | CONTEXT ".data)) with
      | false => rfl
      | true =>
        exfalso
        have hpre : " | CONTEXT ".data <+: (c :: cs) ++ " | CONTEXT ".data :=
          List.isPrefixOf_iff_prefix.1 hx
        by_cases hl : " | CONTEXT ".data.length ≤ (c :: cs).length
        · have := List.prefix_of_prefix_length_le hpre (List.prefix_append (c :: cs) _) hl
          rw [List.isPrefixOf_iff_prefix.2 this] at hc
          exact absurd hc.1 (by decide)
        · have hl' : (c :: cs).length ≤ 10 := by
            have : " | CONTEXT ".data.length = 11 := by decide
            omega
          have hm : (c :: cs) <+: " | CONTEXT ".data :=
            List.prefix_of_prefix_length_le (List.prefix_append (c :: cs) _) hpre (by omega)
          have hm' : c :: cs = " | CONTEXT ".data.take (c :: cs).length :=
            List.prefix_iff_eq_take.1 hm
          have hov : " | CONTEXT ".data.isPrefixOf
              (" | CONTEXT ".data.take (c :: cs).length ++ " | CONTEXT ".data) = true := by
            rw [← hm']
            exact hx
          have hk := separator_overlap (c :: cs).length (by simp) hl' hov
          rw [hk] at hm'
          have : (" | CONTEXT".data).isSuffixOf (c :: cs) = true := by
            rw [hm']
            decide
          rw [this] at hs
          exact absurd hs (by decide)
    have := ih hc.2 hs'
    simp [beforeChars, hp, this]

/-- A text that does not hold the separator and ends with all of it but the last character:
the first separator of the text followed by the separator starts in that ending. -/
theorem beforeChars_of_ending (sep e : List Char) (hle : sep.length ≤ e.length + 1) :
    ∀ p : List Char, containsChars sep (p ++ e) = false →
      beforeChars sep ((p ++ e) ++ sep) = p ++ beforeChars sep (e ++ sep) := by
  intro p
  induction p with
  | nil => intro _; rfl
  | cons c cs ih =>
    intro hc
    rw [List.cons_append, containsChars, Bool.or_eq_false_iff] at hc
    have hl : sep.length ≤ (c :: (cs ++ e)).length := by
      simp only [List.length_cons, List.length_append]
      omega
    have hp := isPrefixOf_append_of_le sep (c :: (cs ++ e)) sep hl
    rw [hc.1] at hp
    have := ih hc.2
    simp only [List.cons_append] at hp ⊢
    rw [beforeChars, hp, this]
    rfl

end strings

namespace errors

/-- What `OriginalError` returns for a chain of wraps around a root that is not a chain. -/
theorem OriginalError_nest (ord : Order) (h : Heap) (r : GoError) (hr : r.isChain = false)
    (w : Wrap) (ws : List Wrap) :
    (OriginalError ord (.ptr (w.around (nest r ws))) h).map Prod.fst
      = some (strings.Before (originText r ++ " | CONTEXT ") " | CONTEXT ") := by
  simp only [OriginalError, Option.map_some']
  rw [Error_nest ord h r hr w ws]
  simp only [String.append_assoc]
  rw [strings.steps_eq]

end errors

/-- C19, as stated, fails for a root message that ends like the separator: the message
`x | CONTEXT` does not contain ` | CONTEXT ` (with the blank at the end), yet together with the
separator that `Chain.Error` writes after it the text ` | CONTEXT ` starts inside the message,
and `OriginalError` of `a.Wrap(errors.New("x | CONTEXT"), "c1")` returns `x`. -/
theorem C19_root_ending_like_separator :
    strings.Contains "x | CONTEXT" " | CONTEXT " = false
    ∧ (errors.Chain.Error id
        (errors.Wrap.around { fn := sample.fnA, ctx := "c1", external := "" }
          (errors.nest (.other "x | CONTEXT") [])) sample.heapAB).1
      = "ERROR x | CONTEXT | CONTEXT c1 | TAGS: k->1 | STACK: pkg.st.a"
    ∧ (errors.OriginalError id sample.endsLikeSeparator sample.heapAB).map Prod.fst = some "x"
    ∧ (errors.OriginalError id sample.endsLikeSeparator sample.heapAB).map Prod.fst
        ≠ some "x | CONTEXT" := by
  decide

/-- C19, amended: for every chain of wraps around a root that is not a chain, with `m` the
message of the root (`nil` for the nil root), every heap and every iteration order:
`OriginalError` returns `m` when `m` neither contains ` | CONTEXT ` nor ends with ` | CONTEXT`
(so `nil` for the nil root); it returns the part of `m` before the first occurrence of
` | CONTEXT ` when `m` contains it; and it returns `m` without its ending ` | CONTEXT` when
`m` does not contain ` | CONTEXT ` but ends with ` | CONTEXT`. -/
theorem C19_original_error (ord : errors.Order) (h : errors.Heap) (r : errors.GoError)
    (hr : r.isChain = false) (w : errors.Wrap) (ws : List errors.Wrap) :
    (strings.Contains (errors.originText r) " | CONTEXT " = false →
      strings.HasSuffix (errors.originText r) " | CONTEXT" = false →
      (errors.OriginalError ord (.ptr (w.around (errors.nest r ws))) h).map Prod.fst
        = some (errors.originText r))
    ∧ (r = .nil →
      (errors.OriginalError ord (.ptr (w.around (errors.nest r ws))) h).map Prod.fst
        = some "nil")
    ∧ (strings.Contains (errors.originText r) " | CONTEXT " = true →
      (errors.OriginalError ord (.ptr (w.around (errors.nest r ws))) h).map Prod.fst
        = some (strings.Before (errors.originText r) " | CONTEXT "))
    ∧ (strings.Contains (errors.originText r) " | CONTEXT " = false →
      strings.HasSuffix (errors.originText r) " | CONTEXT" = true →
      (errors.OriginalError ord (.ptr (w.around (errors.nest r ws))) h).map Prod.fst
        = some (strings.TrimSuffix (errors.originText r) " | CONTEXT")) := by
  rw [errors.OriginalError_nest ord h r hr w ws]
  refine ⟨?_, ?_, ?_, ?_⟩
  · intro hc hs
    have := strings.beforeChars_of_not_contains (errors.originText r).data hc hs
    simp only [strings.Before, String.data_append]
    rw [this]
  · intro hn
    subst hn
    decide
  · intro hc
    have := (strings.splitAfterFirst_append " | CONTEXT ".data (errors.originText r).data
      " | CONTEXT ".data hc).2
    simp only [strings.Before, String.data_append]
    rw [this]
  · intro hc hs
    have hsuf : " | CONTEXT".data <:+ (errors.originText r).data :=
      List.isSuffixOf_iff_suffix.1 hs
    obtain ⟨p, hp⟩ := hsuf
    have hc' : strings.containsChars " | CONTEXT ".data (p ++ " | CONTEXT".data) = false := by
      rw [hp]; exact hc
    have hb := strings.beforeChars_of_ending " | CONTEXT ".data " | CONTEXT".data (by decide)
      p hc'
    have h0 : strings.beforeChars " | CONTEXT ".data (" | CONTEXT".data ++ " | CONTEXT ".data)
        = [] := by decide
    rw [h0, List.append_nil, hp] at hb
    have ht : strings.TrimSuffix (errors.originText r) " | CONTEXT" = String.mk p := by
      have := strings.TrimSuffix_append p " | CONTEXT".data
      rw [hp] at this
      exact this
    simp only [strings.Before, String.data_append]
    rw [hb, ht]

theorem C19_original_error_witness :
    (errors.OriginalError id
        (.ptr (errors.Wrap.around { fn := sample.fnA, ctx := "c1", external := "" }
          (errors.nest (.other "boom") sample.innerBA))) sample.heapAB).map Prod.fst
      = some "boom" :=
  (C19_original_error id sample.heapAB (.other "boom") rfl
    { fn := sample.fnA, ctx := "c1", external := "" } sample.innerBA).1 (by decide) (by decide)

namespace errors

/-! ### A second call of `Chain.Error` -/

theorem TagMap.get_none_of_not_mem (m : TagMap) (k : String) (h : k ∉ m.keys) :
    m.get k = none := by
  cases hg : m.get k with
  | none => rfl
  | some v => exact absurd ((TagMap.mem_keys_iff m k).2 (by simp [hg])) h

/-- Two maps with the same keys in the same places and the same value under each key are the
same list of entries. -/
theorem TagMap.eq_of_keys_get :
    ∀ (l1 l2 : TagMap), l1.keys = l2.keys → l1.keys.Nodup → (∀ k, l1.get k = l2.get k) →
      l1 = l2 := by
  intro l1
  induction l1 with
  | nil =>
    intro l2 hk _ _
    cases l2 with
    | nil => rfl
    | cons y ys => simp [TagMap.keys] at hk
  | cons x xs ih =>
    intro l2 hk hn hg
    cases l2 with
    | nil => simp [TagMap.keys] at hk
    | cons y ys =>
      obtain ⟨t, v⟩ := x
      obtain ⟨t', v'⟩ := y
      simp only [TagMap.keys, List.map_cons, List.cons.injEq] at hk
      obtain ⟨ht, hks⟩ := hk
      subst ht
      simp only [TagMap.keys, List.map_cons, List.nodup_cons] at hn
      have hv : v = v' := by
        have := hg t
        simp [TagMap.get] at this
        exact this
      subst hv
      have hn' : t ∉ TagMap.keys ys := by
        simp only [TagMap.keys]
        rw [← hks]
        exact hn.1
      have htail : ∀ k, TagMap.get xs k = TagMap.get ys k := by
        intro k
        by_cases hkt : t = k
        · subst hkt
          rw [TagMap.get_none_of_not_mem xs t hn.1, TagMap.get_none_of_not_mem ys t hn']
        · have := hg k
          simp [TagMap.get, hkt] at this
          exact this
      rw [ih ys hks hn.2 htail]

/-- Writing under keys that are all present moves no key. -/
theorem TagMap.keys_overlay_of_mem (l : List (String × String)) :
    ∀ m : TagMap, (∀ tv ∈ l, tv.1 ∈ m.keys) → (m.overlay l).keys = m.keys := by
  induction l with
  | nil => intro m _; rfl
  | cons x xs ih =>
    intro m hm
    have hx : x.1 ∈ m.keys := hm x (List.mem_cons_self _ _)
    have hk : (m.set x.1 x.2).keys = m.keys := by
      rw [TagMap.keys_set]
      simp [hx]
    have := ih (m.set x.1 x.2) (fun tv htv => by
      rw [hk]
      exact hm tv (List.mem_cons_of_mem _ htv))
    simp only [TagMap.overlay, List.foldl_cons] at this ⊢
    rw [this, hk]

theorem mergeAll_next (ord : Order) (a : Nat) :
    ∀ (ws : List Wrap) (h : Heap), (mergeAll ord a ws h).next = h.next := by
  intro ws
  induction ws with
  | nil => intro h; rfl
  | cons u us ih =>
    intro h
    show (mergeAll ord a us (mergeTags ord a u.fn.tags h)).next = h.next
    rw [ih]
    simp only [mergeTags]
    generalize ord (h.maps u.fn.tags) = l
    induction l generalizing h with
    | nil => rfl
    | cons x xs ihl =>
      simp only [List.foldl_cons]
      rw [ihl]
      rfl

/-- When the map of the outermost wrap already holds every key of every wrap, the merge loop
moves no key of it. -/
theorem mergeAll_keys_fixed (ord : Order) (hord : ∀ m, (ord m).Perm m) (a : Nat) :
    ∀ (ws : List Wrap) (h : Heap),
      (∀ u ∈ ws, ∀ k ∈ (h.maps u.fn.tags).keys, k ∈ (h.maps a).keys) →
      ((mergeAll ord a ws h).maps a).keys = (h.maps a).keys := by
  intro ws
  induction ws with
  | nil => intro h _; rfl
  | cons u us ih =>
    intro h hk
    have h1 : ((mergeTags ord a u.fn.tags h).maps a).keys = (h.maps a).keys := by
      rw [mergeTags_maps]
      simp only [if_true]
      apply TagMap.keys_overlay_of_mem
      intro tv htv
      have hmem : tv ∈ h.maps u.fn.tags := (hord _).mem_iff.1 htv
      exact hk u (List.mem_cons_self _ _) tv.1 (List.mem_map.2 ⟨tv, hmem, rfl⟩)
    show ((mergeAll ord a us (mergeTags ord a u.fn.tags h)).maps a).keys = _
    rw [ih (mergeTags ord a u.fn.tags h), h1]
    intro v hv k hkv
    rw [h1]
    by_cases hva : v.fn.tags = a
    · rw [hva, h1] at hkv
      exact hkv
    · rw [mergeTags_maps] at hkv
      simp only [hva, if_false] at hkv
      exact hk v (List.mem_cons_of_mem _ hv) k hkv

/-- The value left under a key is either the value held at first, or does not depend on it. -/
theorem shownValue_fold (h : Heap) (a : Nat) (k : String) :
    ∀ ws : List Wrap,
      (∀ x : Option String,
        ws.foldl
          (fun acc u =>
            if u.fn.tags = a then acc
            else match (h.maps u.fn.tags).get k with
              | some v => some v
              | none => acc) x = x)
      ∨ ∃ c : Option String, ∀ x : Option String,
        ws.foldl
          (fun acc u =>
            if u.fn.tags = a then acc
            else match (h.maps u.fn.tags).get k with
              | some v => some v
              | none => acc) x = c := by
  intro ws
  induction ws with
  | nil => exact Or.inl (fun _ => rfl)
  | cons u us ih =>
    simp only [List.foldl_cons]
    by_cases hu : u.fn.tags = a
    · simp only [hu, if_true]
      exact ih
    · simp only [hu, if_false]
      cases hg : (h.maps u.fn.tags).get k with
      | none => exact ih
      | some v =>
        rcases ih with ih | ⟨c, hc⟩
        · exact Or.inr ⟨some v, fun _ => ih _⟩
        · exact Or.inr ⟨c, fun _ => hc _⟩

/-- The loop of `Chain.Error` run on the heap it left once leaves that heap. -/
theorem mergeAll_twice (ord1 ord2 : Order) (hord1 : ∀ m, (ord1 m).Perm m)
    (hord2 : ∀ m, (ord2 m).Perm m) (a : Nat) (ws : List Wrap) (h : Heap)
    (hwf : ∀ r, (h.maps r).keys.Nodup) :
    (∀ u ∈ ws, ∀ k ∈ (h.maps u.fn.tags).keys, k ∈ ((mergeAll ord1 a ws h).maps a).keys)
    ∧ (∀ k ∈ (h.maps a).keys, k ∈ ((mergeAll ord1 a ws h).maps a).keys)
    ∧ ∀ r, (mergeAll ord2 a ws (mergeAll ord1 a ws h)).maps r = (mergeAll ord1 a ws h).maps r := by
  obtain ⟨m1, m2, m3⟩ := mergeAll_spec ord1 hord1 a ws h hwf
  obtain ⟨n1, n2, n3⟩ := mergeAll_spec ord2 hord2 a ws (mergeAll ord1 a ws h) m2
  have hkeys : ∀ u ∈ ws, ∀ k ∈ (h.maps u.fn.tags).keys,
      k ∈ ((mergeAll ord1 a ws h).maps a).keys := by
    intro u hu k hk
    rw [TagMap.mem_keys_iff, m3 k]
    simp only [shownValue]
    rw [shownValue_isSome]
    by_cases hua : u.fn.tags = a
    · left
      rw [← hua]
      exact (TagMap.mem_keys_iff _ _).1 hk
    · exact Or.inr ⟨u, hu, hua, (TagMap.mem_keys_iff _ _).1 hk⟩
  have hown : ∀ k ∈ (h.maps a).keys, k ∈ ((mergeAll ord1 a ws h).maps a).keys := by
    intro k hk
    rw [TagMap.mem_keys_iff, m3 k]
    simp only [shownValue]
    rw [shownValue_isSome]
    exact Or.inl ((TagMap.mem_keys_iff _ _).1 hk)
  refine ⟨hkeys, hown, ?_⟩
  intro r
  by_cases hr : r = a
  · subst hr
    apply TagMap.eq_of_keys_get _ _ _ (n2 r)
    · intro k
      rw [n3 k]
      have e : shownValue (mergeAll ord1 r ws h) r ws k
          = ws.foldl
              (fun acc u =>
                if u.fn.tags = r then acc
                else match (h.maps u.fn.tags).get k with
                  | some v => some v
                  | none => acc) (((mergeAll ord1 r ws h).maps r).get k) := by
        simp only [shownValue]
        apply List.foldl_ext
        intro acc u _
        by_cases hu : u.fn.tags = r
        · simp [hu]
        · simp only [hu, if_false]
          rw [m1 _ hu]
      rw [e, m3 k]
      simp only [shownValue]
      rcases shownValue_fold h r k ws with hid | ⟨c, hc⟩
      · rw [hid, hid]
      · rw [hc, hc]
    · apply mergeAll_keys_fixed ord2 hord2 r ws
      intro u hu k hk
      by_cases hua : u.fn.tags = r
      · rw [hua] at hk
        exact hk
      · rw [m1 _ hua] at hk
        exact hkeys u hu k hk
  · rw [n1 r hr]

end errors

/-- C20, as stated, fails for an inner wrap made by a copy of the outermost wrap's Function: in
`a.Wrap(b.Wrap(a.Wrap(errors.New("x"), "c3"), "c2"), "c1")` with `a` tagged `k -> 1` and `b`
tagged `k -> 2`, the innermost wrap is made by `a`, its tag map holds `k -> 1` before the call
of `Error` and `k -> 2` after it; the map of `b` is unchanged. -/
theorem C20_inner_copy_map_changes :
    (sample.innerBA.map (fun u => u.fn.tags)) = [sample.fnB.tags, sample.fnA.tags]
    ∧ sample.heapAB.maps sample.fnA.tags = [("k", "1")]
    ∧ (errors.Chain.Error id
        (errors.Wrap.around { fn := sample.fnA, ctx := "c1", external := "" }
          (errors.nest (.other "x") sample.innerBA)) sample.heapAB).2.maps sample.fnA.tags
      = [("k", "2")]
    ∧ (errors.Chain.Error id
        (errors.Wrap.around { fn := sample.fnA, ctx := "c1", external := "" }
          (errors.nest (.other "x") sample.innerBA)) sample.heapAB).2.maps sample.fnB.tags
      = sample.heapAB.maps sample.fnB.tags := by
  decide

/-- C20, amended: for a chain of wraps `w :: ws` around a root that is not a chain, on a heap
whose tag maps hold each key once, and whatever the iteration orders of the two calls are:
after `w.Error()` the tag map of `w`'s own Function holds every tag key of every wrap of the
chain; every other tag map is unchanged, so the tag map of every inner wrap not made by a copy of
`w`'s Function is unchanged; a second call of `w.Error()` leaves every tag map as the first call
left it, and both calls render the same root, contexts and stack around the entries of the same
map, listed in the order of each call. -/
theorem C20_error_merges_into_own_map (ord1 ord2 : errors.Order)
    (hord1 : ∀ m, (ord1 m).Perm m) (hord2 : ∀ m, (ord2 m).Perm m) (h : errors.Heap)
    (hwf : ∀ r, (h.maps r).keys.Nodup) (r : errors.GoError) (hr : r.isChain = false)
    (w : errors.Wrap) (ws : List errors.Wrap) :
    (∀ u ∈ w :: ws, ∀ k ∈ (h.maps u.fn.tags).keys,
        k ∈ ((errors.Chain.Error ord1 (w.around (errors.nest r ws)) h).2.maps w.fn.tags).keys)
    ∧ (∀ ref, ref ≠ w.fn.tags →
        (errors.Chain.Error ord1 (w.around (errors.nest r ws)) h).2.maps ref = h.maps ref)
    ∧ (∀ u ∈ ws, u.fn.tags ≠ w.fn.tags →
        (errors.Chain.Error ord1 (w.around (errors.nest r ws)) h).2.maps u.fn.tags
          = h.maps u.fn.tags)
    ∧ (∀ ref,
        (errors.Chain.Error ord2 (w.around (errors.nest r ws))
          (errors.Chain.Error ord1 (w.around (errors.nest r ws)) h).2).2.maps ref
          = (errors.Chain.Error ord1 (w.around (errors.nest r ws)) h).2.maps ref)
    ∧ (errors.Chain.Error ord2 (w.around (errors.nest r ws))
          (errors.Chain.Error ord1 (w.around (errors.nest r ws)) h).2).2.next
        = (errors.Chain.Error ord1 (w.around (errors.nest r ws)) h).2.next
    ∧ (errors.Chain.Error ord1 (w.around (errors.nest r ws)) h).1
        = "ERROR " ++ errors.originText r
          ++ " | CONTEXT " ++ " <- ".intercalate ((w :: ws).map errors.Wrap.ctx)
          ++ " | TAGS: "
          ++ ", ".intercalate
              ((ord1 ((errors.Chain.Error ord1 (w.around (errors.nest r ws)) h).2.maps
                w.fn.tags)).map errors.fmtTag)
          ++ " | STACK: " ++ " <- ".intercalate ((w :: ws).map errors.Wrap.label)
    ∧ (errors.Chain.Error ord2 (w.around (errors.nest r ws))
          (errors.Chain.Error ord1 (w.around (errors.nest r ws)) h).2).1
        = "ERROR " ++ errors.originText r
          ++ " | CONTEXT " ++ " <- ".intercalate ((w :: ws).map errors.Wrap.ctx)
          ++ " | TAGS: "
          ++ ", ".intercalate
              ((ord2 ((errors.Chain.Error ord1 (w.around (errors.nest r ws)) h).2.maps
                w.fn.tags)).map errors.fmtTag)
          ++ " | STACK: " ++ " <- ".intercalate ((w :: ws).map errors.Wrap.label)
    ∧ (ord2 ((errors.Chain.Error ord1 (w.around (errors.nest r ws)) h).2.maps w.fn.tags)).Perm
        (ord1 ((errors.Chain.Error ord1 (w.around (errors.nest r ws)) h).2.maps w.fn.tags)) := by
  have e1 := errors.Error_nest ord1 h r hr w ws
  have e2 := errors.Error_nest ord2 (errors.mergeAll ord1 w.fn.tags ws h) r hr w ws
  rw [e1]
  dsimp only
  rw [e2]
  dsimp only
  obtain ⟨m1, -, -⟩ := errors.mergeAll_spec ord1 hord1 w.fn.tags ws h hwf
  obtain ⟨t1, t2, t3⟩ := errors.mergeAll_twice ord1 ord2 hord1 hord2 w.fn.tags ws h hwf
  refine ⟨?_, m1, fun u _ hu => m1 _ hu, t3, ?_, ?_, ?_, ?_⟩
  · intro u hu k hk
    rcases List.mem_cons.1 hu with rfl | hu'
    · exact t2 k hk
    · exact t1 u hu' k hk
  · rw [errors.mergeAll_next, errors.mergeAll_next]
  · rw [errors.formatTags_eq]
    rfl
  · rw [errors.formatTags_eq, t3]
    rfl
  · exact (hord2 _).trans (hord1 _).symm

theorem C20_error_merges_into_own_map_witness :
    (errors.Chain.Error id
        (errors.Wrap.around { fn := sample.fnA, ctx := "c1", external := "" }
          (errors.nest (.other "x") sample.innerBA))
        (errors.Chain.Error id
          (errors.Wrap.around { fn := sample.fnA, ctx := "c1", external := "" }
            (errors.nest (.other "x") sample.innerBA)) sample.heapAB).2).2.maps 0
      = (errors.Chain.Error id
          (errors.Wrap.around { fn := sample.fnA, ctx := "c1", external := "" }
            (errors.nest (.other "x") sample.innerBA)) sample.heapAB).2.maps 0 :=
  (C20_error_merges_into_own_map id id (fun m => List.Perm.refl m) (fun m => List.Perm.refl m)
      sample.heapAB
      (fun r => by
        simp only [sample.heapAB]
        split
        · decide
        · split <;> decide)
      (.other "x") rfl { fn := sample.fnA, ctx := "c1", external := "" }
      sample.innerBA).2.2.2.1 0

theorem C15_cursor_closed_witness :
    (sample.tableSongs.get "a" (sample.tableWorld sample.songsAB)).1
        = (songs.db.scanRows
            ((sample.tableWorld sample.songsAB).Fn sample.tableSongs.err "get").1
            ((sample.tableSongs.issued "a" (sample.tableWorld sample.songsAB)).1.1.rest.length + 1)
            (sample.tableSongs.issued "a" (sample.tableWorld sample.songsAB)).1.1 []).1
    ∧ (songs.db.scanRows
            ((sample.tableWorld sample.songsAB).Fn sample.tableSongs.err "get").1
            ((sample.tableSongs.issued "a" (sample.tableWorld sample.songsAB)).1.1.rest.length + 1)
            (sample.tableSongs.issued "a" (sample.tableWorld sample.songsAB)).1.1 []).2.closed
        = true :=
  (C15_cursor_closed songs.scanSong (persist.Rows.over []) sample.tableSongs sample.tableArtists
    "a" (sample.tableWorld sample.songsAB)).2.2.2.1 rfl

namespace songs

open errors persist gin

/-! ### The flag of the db adapter and the invalid flag of the service -/

theorem db_create_flag {σ : Type} (d : db σ) (i : api.Song) (w : World σ) :
    (d.create i w).1.1 = (d.create i w).1.2.isNil := by
  simp only [db.create]
  split_ifs with h
  · have h' : (d.Querier.Exec "INSERT INTO Songs (name, duration, artist_id) VALUES (?, ?, ?)"
        [.str i.Name, .str i.Duration, .int i.ArtistId] (w.Fn d.err "create").2.store).1.isNil
        = false := by simpa using h
    simp only [Wrap_of_not_nil _ _ _ h']
    rfl
  · rfl

theorem db_update_flag {σ : Type} (d : db σ) (i : api.Song) (w : World σ) :
    (d.update i w).1.1 = (d.update i w).1.2.isNil := by
  simp only [db.update]
  split_ifs with h
  · have h' : (d.Querier.Exec "UPDATE Songs SET duration = ?, artist_id = ? WHERE name = ?"
        [.str i.Duration, .int i.ArtistId, .str i.Name] (w.Fn d.err "update").2.store).1.isNil
        = false := by simpa using h
    simp only [Wrap_of_not_nil _ _ _ h']
    rfl
  · rfl

theorem db_delete_flag {σ : Type} (d : db σ) (name : String) (w : World σ) :
    (d.delete name w).1.1 = (d.delete name w).1.2.isNil := by
  simp only [db.delete]
  split_ifs with h
  · have h' : (d.Querier.Exec "DELETE FROM Songs WHERE name = ?" [.str name]
        (w.Fn d.err "delete").2.store).1.isNil = false := by simpa using h
    simp only [Wrap_of_not_nil _ _ _ h']
    rfl
  · rfl

/-- Over a persistor whose flag is true exactly when its error is nil, `saveSong` raises
`invalid` exactly when it returns an error. -/
theorem saveSong_invalid {σ : Type} (s : Service σ)
    (hc : ∀ i w, (s.db.create i w).1.1 = (s.db.create i w).1.2.isNil)
    (hu : ∀ i w, (s.db.update i w).1.1 = (s.db.update i w).1.2.isNil)
    (i : api.Song) (w : World σ) :
    (s.saveSong i w).1.1 = !(s.saveSong i w).1.2.isNil := by
  have hnil : GoError.nil.isNil = true := rfl
  rw [saveSong_fst]
  cases hg : (s.getSongByName i.Name (w.afterFn s.err "saveSong")).1.2.2.isNil
  · simp [hg, Wrap_of_not_nil _ _ _ hg, isNil_ptr]
  · cases hf : (s.getSongByName i.Name (w.afterFn s.err "saveSong")).1.2.1
    · have hk := hc i (s.getSongByName i.Name (w.afterFn s.err "saveSong")).2
      cases he : (s.db.create i (s.getSongByName i.Name (w.afterFn s.err "saveSong")).2).1.2.isNil
      · simp [hg, hf, he, Wrap_of_not_nil _ _ _ he, isNil_ptr]
      · rw [he] at hk
        simp [hg, hf, he, hk, hnil]
    · have hk := hu i (s.getSongByName i.Name (w.afterFn s.err "saveSong")).2
      cases he : (s.db.update i (s.getSongByName i.Name (w.afterFn s.err "saveSong")).2).1.2.isNil
      · simp [hg, hf, he, Wrap_of_not_nil _ _ _ he, isNil_ptr]
      · rw [he] at hk
        simp [hg, hf, he, hk, hnil]

/-- Over a persistor whose flag is true exactly when its error is nil, `deleteSong` raises
`invalid` exactly when it returns an error. -/
theorem deleteSong_invalid {σ : Type} (s : Service σ)
    (hd : ∀ n w, (s.db.delete n w).1.1 = (s.db.delete n w).1.2.isNil)
    (name : String) (w : World σ) :
    (s.deleteSong name w).1.1 = !(s.deleteSong name w).1.2.isNil := by
  have hnil : GoError.nil.isNil = true := rfl
  rw [deleteSong_fst]
  have hk := hd name (w.afterFn s.err "deleteSong")
  cases he : (s.db.delete name (w.afterFn s.err "deleteSong")).1.2.isNil
  · simp [he, Wrap_of_not_nil _ _ _ he, isNil_ptr]
  · rw [he] at hk
    simp [he, hk, hnil]

end songs

namespace artists

open errors persist gin

theorem db_create_flag_artists {σ : Type} (d : db σ) (i : api.Artist) (w : World σ) :
    (d.create i w).1.1 = (d.create i w).1.2.isNil := by
  simp only [db.create]
  split_ifs with h
  · have h' : (d.Querier.Exec "INSERT INTO Artists (name) VALUES (?)" [.str i.Name]
        (w.Fn d.err "create").2.store).1.isNil = false := by simpa using h
    simp only [Wrap_of_not_nil _ _ _ h']
    rfl
  · rfl

theorem db_delete_flag_artists {σ : Type} (d : db σ) (name : String) (w : World σ) :
    (d.delete name w).1.1 = (d.delete name w).1.2.isNil := by
  simp only [db.delete]
  split_ifs with h
  · have h' : (d.Querier.Exec "DELETE FROM Artists WHERE name = ?" [.str name]
        (w.Fn d.err "delete").2.store).1.isNil = false := by simpa using h
    simp only [Wrap_of_not_nil _ _ _ h']
    rfl
  · rfl

/-- Over a persistor whose flag is true exactly when its error is nil, `saveArtist` raises
`invalid` exactly when it returns an error. -/
theorem saveArtist_invalid {σ : Type} (s : Service σ)
    (hc : ∀ i w, (s.db.create i w).1.1 = (s.db.create i w).1.2.isNil)
    (i : api.Artist) (w : World σ) :
    (s.saveArtist i w).1.1 = !(s.saveArtist i w).1.2.isNil := by
  have hnil : GoError.nil.isNil = true := rfl
  rw [saveArtist_fst]
  have hk := hc i (w.afterFn s.err "saveArtist")
  cases he : (s.db.create i (w.afterFn s.err "saveArtist")).1.2.isNil
  · simp [he, Wrap_of_not_nil _ _ _ he, isNil_ptr]
  · rw [he] at hk
    simp [he, hk, hnil]

/-- Over a persistor whose flag is true exactly when its error is nil, `deleteArtist` raises
`invalid` exactly when it returns an error. -/
theorem deleteArtist_invalid {σ : Type} (s : Service σ)
    (hd : ∀ n w, (s.db.delete n w).1.1 = (s.db.delete n w).1.2.isNil)
    (name : String) (w : World σ) :
    (s.deleteArtist name w).1.1 = !(s.deleteArtist name w).1.2.isNil := by
  have hnil : GoError.nil.isNil = true := rfl
  rw [deleteArtist_fst]
  have hk := hd name (w.afterFn s.err "deleteArtist")
  cases he : (s.db.delete name (w.afterFn s.err "deleteArtist")).1.2.isNil
  · simp [he, Wrap_of_not_nil _ _ _ he, isNil_ptr]
  · rw [he] at hk
    simp [he, hk, hnil]

end artists

namespace gin

open errors

/-! ### No handler answers with `problem in database` -/

theorem externalIs_UK_database (f : Function) (e : GoError) :
    externalIs (f.UK e) "problem in database" = false := by
  cases e <;> rfl

theorem externalIs_NotFound_database (f : Function) :
    externalIs f.NotFound "problem in database" = false := rfl

theorem externalIs_JSON_database (f : Function) (e : GoError) (ctx : String) :
    externalIs (f.JSON e ctx) "problem in database" = false := rfl

end gin

namespace songs

open errors persist gin

theorem GetSongs_database {σ : Type} (a : API σ) (c : Context) (w : World σ) :
    externalIs (a.GetSongs c w).1.2.2 "problem in database" = false := by
  simp only [API.GetSongs]
  split_ifs
  · exact externalIs_UK_database _ _
  · rfl

theorem GetSongByName_database {σ : Type} (a : API σ) (c : Context) (w : World σ) :
    externalIs (a.GetSongByName c w).1.2.2 "problem in database" = false := by
  rw [GetSongByName_fst]
  split_ifs
  · exact externalIs_UK_database _ _
  · exact externalIs_NotFound_database _
  · rfl

/-- When the service raises `invalid` only with an error, `DeleteSong` answers 500 or 201. -/
theorem DeleteSong_code {σ : Type} (a : API σ)
    (hs : ∀ n w, (a.s.deleteSong n w).1.1 = !(a.s.deleteSong n w).1.2.isNil)
    (c : Context) (w : World σ) :
    (a.DeleteSong c w).1.1 ≠ 400
      ∧ externalIs (a.DeleteSong c w).1.2.2 "problem in database" = false := by
  rw [DeleteSong_fst]
  have hk := hs (c.Param "name") (w.afterFnTag a.err "DeleteSong" (c.Param "name"))
  cases he : (a.s.deleteSong (c.Param "name")
      (w.afterFnTag a.err "DeleteSong" (c.Param "name"))).1.2.isNil
  · simp [he, externalIs_UK_database]
  · rw [he] at hk
    simp [he, hk, externalIs_nil]

/-- When the service raises `invalid` only with an error, `CreateSong` answers 400 only for a
body that fails to bind. -/
theorem CreateSong_code {σ : Type} (a : API σ)
    (hs : ∀ i w, (a.s.saveSong i w).1.1 = !(a.s.saveSong i w).1.2.isNil)
    (c : Context) (w : World σ) :
    ((a.CreateSong c w).1.1 = 400 → c.req.BindJSONSong.1.isNil = false)
      ∧ externalIs (a.CreateSong c w).1.2.2 "problem in database" = false := by
  cases hb : c.req.BindJSONSong.1.isNil
  · simp [API.CreateSong, hb, externalIs_JSON_database]
  · rw [CreateSong_fst a c w ((isNil_iff _).1 hb)]
    have hk := hs c.req.BindJSONSong.2 (w.afterFn a.err "CreateSong")
    cases he : (a.s.saveSong c.req.BindJSONSong.2 (w.afterFn a.err "CreateSong")).1.2.isNil
    · simp [he, externalIs_UK_database]
    · rw [he] at hk
      simp [he, hk, externalIs_nil]

/-- When the service raises `invalid` only with an error, `UpdateSong` answers 400 only for a
body that fails to bind. -/
theorem UpdateSong_code {σ : Type} (a : API σ)
    (hs : ∀ i w, (a.s.saveSong i w).1.1 = !(a.s.saveSong i w).1.2.isNil)
    (c : Context) (w : World σ) :
    ((a.UpdateSong c w).1.1 = 400 → c.req.BindJSONSong.1.isNil = false)
      ∧ externalIs (a.UpdateSong c w).1.2.2 "problem in database" = false := by
  cases hb : c.req.BindJSONSong.1.isNil
  · simp [API.UpdateSong, hb, externalIs_JSON_database]
  · rw [UpdateSong_fst a c w ((isNil_iff _).1 hb)]
    have hk := hs c.req.BindJSONSong.2 (w.afterFn a.err "UpdateSong")
    cases he : (a.s.saveSong c.req.BindJSONSong.2 (w.afterFn a.err "UpdateSong")).1.2.isNil
    · simp [he, externalIs_UK_database]
    · rw [he] at hk
      simp [he, hk, externalIs_nil]

/-- The service made by `New` raises `invalid` exactly when it returns an error. -/
theorem New_saveSong_invalid {σ : Type} (q : Querier σ) (i : api.Song) (w : World σ) :
    ((New q).1.saveSong i w).1.1 = !((New q).1.saveSong i w).1.2.isNil :=
  saveSong_invalid (New q).1 (fun i w => db_create_flag _ i w) (fun i w => db_update_flag _ i w)
    i w

theorem New_deleteSong_invalid {σ : Type} (q : Querier σ) (name : String) (w : World σ) :
    ((New q).1.deleteSong name w).1.1 = !((New q).1.deleteSong name w).1.2.isNil :=
  deleteSong_invalid (New q).1 (fun n w => db_delete_flag _ n w) name w

end songs

namespace artists

open errors persist gin

theorem GetArtists_database {σ : Type} (a : API σ) (c : Context) (w : World σ) :
    externalIs (a.GetArtists c w).1.2.2 "problem in database" = false := by
  simp only [API.GetArtists]
  split_ifs
  · exact externalIs_UK_database _ _
  · rfl

theorem GetArtistByName_database {σ : Type} (a : API σ) (c : Context) (w : World σ) :
    externalIs (a.GetArtistByName c w).1.2.2 "problem in database" = false := by
  rw [GetArtistByName_fst]
  split_ifs
  · exact externalIs_UK_database _ _
  · exact externalIs_NotFound_database _
  · rfl

/-- When the service raises `invalid` only with an error, `DeleteArtist` answers 500 or 201. -/
theorem DeleteArtist_code {σ : Type} (a : API σ)
    (hs : ∀ n w, (a.s.deleteArtist n w).1.1 = !(a.s.deleteArtist n w).1.2.isNil)
    (c : Context) (w : World σ) :
    (a.DeleteArtist c w).1.1 ≠ 400
      ∧ externalIs (a.DeleteArtist c w).1.2.2 "problem in database" = false := by
  rw [DeleteArtist_fst]
  have hk := hs (c.Param "name") (w.afterFnTag a.err "DeleteArtist" (c.Param "name"))
  cases he : (a.s.deleteArtist (c.Param "name")
      (w.afterFnTag a.err "DeleteArtist" (c.Param "name"))).1.2.isNil
  · simp [he, externalIs_UK_database]
  · rw [he] at hk
    simp [he, hk, externalIs_nil]

/-- When the service raises `invalid` only with an error, `CreateArtist` answers 400 only for a
body that fails to bind. -/
theorem CreateArtist_code {σ : Type} (a : API σ)
    (hs : ∀ i w, (a.s.saveArtist i w).1.1 = !(a.s.saveArtist i w).1.2.isNil)
    (c : Context) (w : World σ) :
    ((a.CreateArtist c w).1.1 = 400 → c.req.BindJSONArtist.1.isNil = false)
      ∧ externalIs (a.CreateArtist c w).1.2.2 "problem in database" = false := by
  cases hb : c.req.BindJSONArtist.1.isNil
  · simp [API.CreateArtist, hb, externalIs_JSON_database]
  · rw [CreateArtist_fst a c w ((isNil_iff _).1 hb)]
    have hk := hs c.req.BindJSONArtist.2 (w.afterFn a.err "CreateArtist")
    cases he : (a.s.saveArtist c.req.BindJSONArtist.2 (w.afterFn a.err "CreateArtist")).1.2.isNil
    · simp [he, externalIs_UK_database]
    · rw [he] at hk
      simp [he, hk, externalIs_nil]

/-- The service made by `New` raises `invalid` exactly when it returns an error. -/
theorem New_saveArtist_invalid {σ : Type} (q : Querier σ) (i : api.Artist) (w : World σ) :
    ((New q).1.saveArtist i w).1.1 = !((New q).1.saveArtist i w).1.2.isNil :=
  saveArtist_invalid (New q).1 (fun i w => db_create_flag_artists _ i w) i w

theorem New_deleteArtist_invalid {σ : Type} (q : Querier σ) (name : String) (w : World σ) :
    ((New q).1.deleteArtist name w).1.1 = !((New q).1.deleteArtist name w).1.2.isNil :=
  deleteArtist_invalid (New q).1 (fun n w => db_delete_flag_artists _ n w) name w

end artists

/-- C21: with the db adapters of songs and artists over any store, the flag returned by
`create`, `update` and `delete` is false exactly when the returned error is not nil; so the
services made by `New` return `invalid = true` only together with an error that is not nil (and
exactly then); so `DeleteSong` and `DeleteArtist` never return status 400, `CreateSong`,
`UpdateSong` and `CreateArtist` return 400 only when the body fails to bind, and no handler
returns an error whose `External` is `problem in database`. -/
theorem C21_invalid_only_with_error {σ τ : Type} (q : persist.Querier σ) (p : persist.Querier τ)
    (ds : songs.db σ) (da : artists.db τ) (i : api.Song) (j : api.Artist) (name : String)
    (c : gin.Context) (w : World σ) (v : World τ) :
    (((ds.create i w).1.1 = false ↔ (ds.create i w).1.2 ≠ .nil)
      ∧ ((ds.update i w).1.1 = false ↔ (ds.update i w).1.2 ≠ .nil)
      ∧ ((ds.delete name w).1.1 = false ↔ (ds.delete name w).1.2 ≠ .nil)
      ∧ ((da.create j v).1.1 = false ↔ (da.create j v).1.2 ≠ .nil)
      ∧ ((da.delete name v).1.1 = false ↔ (da.delete name v).1.2 ≠ .nil))
    ∧ ((((songs.New q).1.saveSong i w).1.1 = true ↔ ((songs.New q).1.saveSong i w).1.2 ≠ .nil)
      ∧ (((songs.New q).1.deleteSong name w).1.1 = true
          ↔ ((songs.New q).1.deleteSong name w).1.2 ≠ .nil)
      ∧ (((artists.New p).1.saveArtist j v).1.1 = true
          ↔ ((artists.New p).1.saveArtist j v).1.2 ≠ .nil)
      ∧ (((artists.New p).1.deleteArtist name v).1.1 = true
          ↔ ((artists.New p).1.deleteArtist name v).1.2 ≠ .nil))
    ∧ (((songs.New q).2.DeleteSong c w).1.1 ≠ 400
      ∧ ((artists.New p).2.DeleteArtist c v).1.1 ≠ 400
      ∧ (((songs.New q).2.CreateSong c w).1.1 = 400 → c.req.BindJSONSong.1 ≠ .nil)
      ∧ (((songs.New q).2.UpdateSong c w).1.1 = 400 → c.req.BindJSONSong.1 ≠ .nil)
      ∧ (((artists.New p).2.CreateArtist c v).1.1 = 400 → c.req.BindJSONArtist.1 ≠ .nil))
    ∧ (gin.externalIs ((songs.New q).2.GetSongs c w).1.2.2 "problem in database" = false
      ∧ gin.externalIs ((songs.New q).2.GetSongByName c w).1.2.2 "problem in database" = false
      ∧ gin.externalIs ((songs.New q).2.CreateSong c w).1.2.2 "problem in database" = false
      ∧ gin.externalIs ((songs.New q).2.UpdateSong c w).1.2.2 "problem in database" = false
      ∧ gin.externalIs ((songs.New q).2.DeleteSong c w).1.2.2 "problem in database" = false
      ∧ gin.externalIs ((artists.New p).2.GetArtists c v).1.2.2 "problem in database" = false
      ∧ gin.externalIs ((artists.New p).2.GetArtistByName c v).1.2.2 "problem in database"
          = false
      ∧ gin.externalIs ((artists.New p).2.CreateArtist c v).1.2.2 "problem in database" = false
      ∧ gin.externalIs ((artists.New p).2.DeleteArtist c v).1.2.2 "problem in database"
          = false) := by
  have flag : ∀ (b : Bool) (e : errors.GoError), b = e.isNil → (b = false ↔ e ≠ .nil) := by
    intro b e h
    rw [h]
    exact errors.isNil_false_iff e
  have inv : ∀ (b : Bool) (e : errors.GoError), (b = !e.isNil) → (b = true ↔ e ≠ .nil) := by
    intro b e h
    rw [h, ← errors.isNil_false_iff]
    cases e.isNil <;> simp
  have hDS := songs.DeleteSong_code (songs.New q).2 (songs.New_deleteSong_invalid q) c w
  have hCS := songs.CreateSong_code (songs.New q).2 (songs.New_saveSong_invalid q) c w
  have hUS := songs.UpdateSong_code (songs.New q).2 (songs.New_saveSong_invalid q) c w
  have hDA := artists.DeleteArtist_code (artists.New p).2 (artists.New_deleteArtist_invalid p) c v
  have hCA := artists.CreateArtist_code (artists.New p).2 (artists.New_saveArtist_invalid p) c v
  refine ⟨⟨flag _ _ (songs.db_create_flag ds i w), flag _ _ (songs.db_update_flag ds i w),
      flag _ _ (songs.db_delete_flag ds name w), flag _ _ (artists.db_create_flag_artists da j v),
      flag _ _ (artists.db_delete_flag_artists da name v)⟩,
    ⟨inv _ _ (songs.New_saveSong_invalid q i w), inv _ _ (songs.New_deleteSong_invalid q name w),
      inv _ _ (artists.New_saveArtist_invalid p j v),
      inv _ _ (artists.New_deleteArtist_invalid p name v)⟩,
    ⟨hDS.1, hDA.1, fun h => (errors.isNil_false_iff _).1 (hCS.1 h),
      fun h => (errors.isNil_false_iff _).1 (hUS.1 h),
      fun h => (errors.isNil_false_iff _).1 (hCA.1 h)⟩,
    ⟨songs.GetSongs_database _ c w, songs.GetSongByName_database _ c w, hCS.2, hUS.2, hDS.2,
      artists.GetArtists_database _ c v, artists.GetArtistByName_database _ c v, hCA.2, hDA.2⟩⟩

theorem C21_invalid_only_with_error_witness :
    ((songs.New sample.failing).1.saveSong sample.imagine sample.world0).1.2 ≠ .nil
    ∧ (sample.context (sample.badRequest "x")).req.BindJSONSong.1 ≠ .nil :=
  ⟨(C21_invalid_only_with_error sample.failing sample.failing
      (songs.db.mk sample.failing ((errors.Pkg "songs").Struct "db"))
      (artists.db.mk sample.failing ((errors.Pkg "artists").Struct "db"))
      sample.imagine { Id := 0, Name := "Lennon" } "x"
      (sample.context (sample.badRequest "x")) sample.world0 sample.world0).2.1.1.1 (by decide),
   (C21_invalid_only_with_error sample.failing sample.failing
      (songs.db.mk sample.failing ((errors.Pkg "songs").Struct "db"))
      (artists.db.mk sample.failing ((errors.Pkg "artists").Struct "db"))
      sample.imagine { Id := 0, Name := "Lennon" } "x"
      (sample.context (sample.badRequest "x")) sample.world0 sample.world0).2.2.1.2.2.1
      (by decide)⟩

namespace strconv

theorem toNat_digit (d : Nat) (h : d < 10) : (Char.ofNat (48 + d)).toNat = 48 + d := by
  interval_cases d <;> rfl

theorem parseDigits_digit (n d : Nat) (h : d < 10) (cs : List Char) :
    parseDigits n (Char.ofNat (48 + d) :: cs) = parseDigits (n * 10 + d) cs := by
  simp only [parseDigits, toNat_digit d h]
  have h1 : 48 ≤ 48 + d ∧ 48 + d ≤ 57 := ⟨by omega, by omega⟩
  simp [h1]

/-- The digits written by `formatBits` are read back as the number written. -/
theorem parseDigits_formatBits :
    ∀ (fuel n : Nat) (acc : List Char), n < fuel →
      parseDigits 0 (formatBits fuel n acc) = parseDigits n acc := by
  intro fuel
  induction fuel with
  | zero => intro n acc h; omega
  | succ f ih =>
    intro n acc h
    rw [formatBits]
    by_cases h0 : n / 10 = 0
    · simp only [h0, if_true]
      rw [parseDigits_digit 0 (n % 10) (Nat.mod_lt _ (by decide))]
      have : n % 10 = n := by omega
      simp [this]
    · simp only [h0, if_false]
      rw [ih (n / 10) _ (by omega), parseDigits_digit (n / 10) (n % 10) (Nat.mod_lt _ (by decide))]
      have : n / 10 * 10 + n % 10 = n := by omega
      rw [this]

/-- What `formatBits` writes starts with a digit. -/
theorem formatBits_head :
    ∀ (fuel n : Nat) (acc : List Char),
      ∃ d cs, d < 10 ∧ formatBits (fuel + 1) n acc = Char.ofNat (48 + d) :: cs := by
  intro fuel
  induction fuel with
  | zero =>
    intro n acc
    refine ⟨n % 10, acc, Nat.mod_lt _ (by decide), ?_⟩
    rw [formatBits]
    split_ifs
    · rfl
    · rfl
  | succ f ih =>
    intro n acc
    rw [formatBits]
    by_cases h0 : n / 10 = 0
    · exact ⟨n % 10, acc, Nat.mod_lt _ (by decide), by simp [h0]⟩
    · simp only [h0, if_false]
      exact ih _ _

theorem digit_ne_sign (d : Nat) (h : d < 10) :
    Char.ofNat (48 + d) ≠ '+' ∧ Char.ofNat (48 + d) ≠ '-' := by
  interval_cases d <;> decide

/-- Every integer of 64 bits is read back from its decimal text. -/
theorem ParseInt_FormatInt (i : Int) (h1 : -2 ^ 63 ≤ i) (h2 : i < 2 ^ 63) :
    ParseInt (FormatInt i) = some i := by
  cases i with
  | ofNat n =>
    obtain ⟨d, cs, hd, he⟩ := formatBits_head n n []
    have hp := parseDigits_formatBits (n + 1) n [] (Nat.lt_succ_self n)
    rw [he] at hp
    have hn : n < 2 ^ 63 := by
      have : ((n : Nat) : Int) < 2 ^ 63 := h2
      exact_mod_cast this
    obtain ⟨s1, s2⟩ := digit_ne_sign d hd
    have hq : parseDigits n [] = some n := rfl
    simp only [ParseInt, FormatInt, he, s1, s2, or_self, if_false, hp, hq, decide_False]
    have hn' : n < 9223372036854775808 := hn
    simp [hn']
  | negSucc n =>
    obtain ⟨d, cs, hd, he⟩ := formatBits_head (n + 1) (n + 1) []
    have hp := parseDigits_formatBits (n + 2) (n + 1) [] (Nat.lt_succ_self _)
    rw [he] at hp
    have hn : n + 1 ≤ 2 ^ 63 := by
      have : -(2 : Int) ^ 63 ≤ Int.negSucc n := h1
      rw [Int.negSucc_eq] at this
      have h3 : ((n : Int) + 1) ≤ 2 ^ 63 := by omega
      exact_mod_cast h3
    have hq : parseDigits (n + 1) [] = some (n + 1) := rfl
    simp only [ParseInt, FormatInt, he, or_true, if_true, hp, hq, decide_True]
    have h4 : ¬ (n + 1 > 2 ^ 63) := by omega
    simp [h4, Int.negSucc_eq]
    omega

end strconv

namespace store

open errors persist

theorem convertInt_of_holds (v : Value) (i : Int) (h : holdsInt v i) :
    convertInt v = (.nil, i) := by
  cases v with
  | null => exact absurd h (by simp [holdsInt])
  | int j =>
    have : j = i := h
    rw [this]
    rfl
  | str t =>
    obtain ⟨ht, h1, h2⟩ : t = strconv.FormatInt i ∧ -2 ^ 63 ≤ i ∧ i < 2 ^ 63 := h
    simp only [convertInt, ht, strconv.ParseInt_FormatInt i h1 h2]

theorem convertString_of_holds (v : Value) (s : String) (h : holdsString v s) :
    convertString v = (.nil, s) := by
  cases v with
  | null => exact absurd h (by simp [holdsString])
  | int j =>
    have : s = strconv.FormatInt j := h
    rw [this]
    rfl
  | str t =>
    have : t = s := h
    rw [this]
    rfl

end store

namespace songs

open errors persist gin

/-- A row that holds a song is decoded into that song. -/
theorem scanSong_of_holds (r : List Value) (s : api.Song) (h : store.rowHoldsSong r s) :
    scanSong r = (.nil, s) := by
  match r, h with
  | [a, b, c, d], h =>
    obtain ⟨h0, h1, h2, h3⟩ :
      store.holdsInt a s.Id ∧ store.holdsString b s.Name ∧ store.holdsString c s.Duration
        ∧ store.holdsInt d s.ArtistId := h
    simp [scanSong, store.convertInt_of_holds _ _ h0, store.convertString_of_holds _ _ h1,
      store.convertString_of_holds _ _ h2, store.convertInt_of_holds _ _ h3, GoError.isNil]

theorem decoded_of_holds :
    ∀ (rows : List (List Value)) (l : api.Songs), List.Forall₂ store.rowHoldsSong rows l →
      (∀ r ∈ rows, (scanSong r).1 = .nil) ∧ rows.map (fun r => (scanSong r).2) = l := by
  intro rows l h
  induction h with
  | nil => exact ⟨fun _ hr => by simp at hr, rfl⟩
  | cons hx _ ih =>
    have e := scanSong_of_holds _ _ hx
    refine ⟨?_, ?_⟩
    · intro y hy
      rcases List.mem_cons.1 hy with rfl | hy'
      · rw [e]
      · exact ih.1 y hy'
    · simp only [List.map_cons, e, ih.2]

/-- The result of `db.get("")` when the cursor delivers rows that hold the songs `l`. -/
theorem db_get_holds {σ : Type} (d : db σ) (w : World σ) (rows : List (List Value))
    (l : api.Songs)
    (hq : (d.Querier.Query "SELECT id, name, duration, artist_id FROM Songs " [] w.store).1
      = (Rows.over rows, .nil))
    (hl : List.Forall₂ store.rowHoldsSong rows l) :
    (d.get "" w).1 = (l, .nil) := by
  obtain ⟨h1, h2⟩ := decoded_of_holds rows l hl
  rw [db_get_all d w rows hq h1, h2]

end songs

namespace artists

open errors persist gin

/-- A row that holds an artist is decoded into that artist. -/
theorem scanArtist_of_holds (r : List Value) (a : api.Artist) (h : store.rowHoldsArtist r a) :
    scanArtist r = (.nil, a) := by
  match r, h with
  | [x, y], h =>
    obtain ⟨h0, h1⟩ : store.holdsInt x a.Id ∧ store.holdsString y a.Name := h
    simp [scanArtist, store.convertInt_of_holds _ _ h0, store.convertString_of_holds _ _ h1,
      GoError.isNil]

theorem decoded_of_holds_artists :
    ∀ (rows : List (List Value)) (l : api.Artists), List.Forall₂ store.rowHoldsArtist rows l →
      (∀ r ∈ rows, (scanArtist r).1 = .nil) ∧ rows.map (fun r => (scanArtist r).2) = l := by
  intro rows l h
  induction h with
  | nil => exact ⟨fun _ hr => by simp at hr, rfl⟩
  | cons hx _ ih =>
    have e := scanArtist_of_holds _ _ hx
    refine ⟨?_, ?_⟩
    · intro y hy
      rcases List.mem_cons.1 hy with rfl | hy'
      · rw [e]
      · exact ih.1 y hy'
    · simp only [List.map_cons, e, ih.2]

/-- The result of `db.get("")` when the cursor delivers rows that hold the artists `l`. -/
theorem db_get_holds_artists {σ : Type} (d : db σ) (w : World σ) (rows : List (List Value))
    (l : api.Artists)
    (hq : (d.Querier.Query "SELECT id, name FROM Artists " [] w.store).1
      = (Rows.over rows, .nil))
    (hl : List.Forall₂ store.rowHoldsArtist rows l) :
    (d.get "" w).1 = (l, .nil) := by
  obtain ⟨h1, h2⟩ := decoded_of_holds_artists rows l hl
  rw [db_get_all_artists d w rows hq h1, h2]

end artists

/-- C17: `db.get` of songs and of artists sends, for the empty name, the bare SELECT with no
bound value and, for any other name, the same SELECT followed by `WHERE name = ? LIMIT 1` with
the one bound value `name`; for the empty name, when the cursor delivers rows that hold the
songs `ls` (the artists `la`), whether a column comes as an integer or as text, the result is
`ls` (`la`): one entry for every row, in cursor order, with the values of the row; and over the
table model `getSongByName("")` and `getArtistByName("")` return no error and report found
exactly when the table holds exactly one row. -/
theorem C17_get_list_all {σ : Type} (q : persist.Querier σ) (err : errors.Struct)
    (name : String) (w : World (σ × List persist.Stmt))
    (ds : songs.db σ) (da : artists.db σ) (v : World σ)
    (rows rows' : List (List persist.Value)) (ls : api.Songs) (la : api.Artists)
    (t : World store.Tables) :
    ((songs.db.mk (persist.traced q) err).get "" w).2.store.2
        = w.store.2 ++ [.query "SELECT id, name, duration, artist_id FROM Songs " []]
    ∧ (name ≠ "" → ((songs.db.mk (persist.traced q) err).get name w).2.store.2
        = w.store.2
          ++ [.query "SELECT id, name, duration, artist_id FROM Songs WHERE name = ? LIMIT 1"
                [.str name]])
    ∧ ((artists.db.mk (persist.traced q) err).get "" w).2.store.2
        = w.store.2 ++ [.query "SELECT id, name FROM Artists " []]
    ∧ (name ≠ "" → ((artists.db.mk (persist.traced q) err).get name w).2.store.2
        = w.store.2 ++ [.query "SELECT id, name FROM Artists WHERE name = ? LIMIT 1" [.str name]])
    ∧ ((ds.Querier.Query "SELECT id, name, duration, artist_id FROM Songs " [] v.store).1
          = (persist.Rows.over rows, .nil) →
        List.Forall₂ store.rowHoldsSong rows ls →
        (ds.get "" v).1 = (ls, .nil))
    ∧ ((da.Querier.Query "SELECT id, name FROM Artists " [] v.store).1
          = (persist.Rows.over rows', .nil) →
        List.Forall₂ store.rowHoldsArtist rows' la →
        (da.get "" v).1 = (la, .nil))
    ∧ ((ds.Querier.Query "SELECT id, name, duration, artist_id FROM Songs " [] v.store).1
          = (persist.Rows.over (ls.map store.songRow), .nil) →
        (ds.get "" v).1 = (ls, .nil))
    ∧ ((da.Querier.Query "SELECT id, name FROM Artists " [] v.store).1
          = (persist.Rows.over (la.map store.artistRow), .nil) →
        (da.get "" v).1 = (la, .nil))
    ∧ ((songs.New store.tables).1.getSongByName "" t).1.2.2 = .nil
    ∧ (((songs.New store.tables).1.getSongByName "" t).1.2.1 = true
        ↔ t.store.Songs.length = 1)
    ∧ ((artists.New store.tables).1.getArtistByName "" t).1.2.2 = .nil
    ∧ (((artists.New store.tables).1.getArtistByName "" t).1.2.1 = true
        ↔ t.store.Artists.length = 1) := by
  have typedSongs : ∀ l : api.Songs, List.Forall₂ store.rowHoldsSong (l.map store.songRow) l := by
    intro l
    induction l with
    | nil => exact List.Forall₂.nil
    | cons x xs ih => exact List.Forall₂.cons ⟨rfl, rfl, rfl, rfl⟩ ih
  have typedArtists :
      ∀ l : api.Artists, List.Forall₂ store.rowHoldsArtist (l.map store.artistRow) l := by
    intro l
    induction l with
    | nil => exact List.Forall₂.nil
    | cons x xs ih => exact List.Forall₂.cons ⟨rfl, rfl⟩ ih
  refine ⟨?_, ?_, ?_, ?_, fun hq hl => songs.db_get_holds ds v rows ls hq hl,
    fun hq hl => artists.db_get_holds_artists da v rows' la hq hl,
    fun hq => songs.db_get_holds ds v _ ls hq (typedSongs ls),
    fun hq => artists.db_get_holds_artists da v _ la hq (typedArtists la),
    (songs.tables_getSongByName "" t).1, ?_, (artists.tables_getArtistByName "" t).1, ?_⟩
  · rw [songs.db_get_log]; rfl
  · intro hn
    rw [songs.db_get_log]
    simp [songs.selectStmt, hn]
  · rw [artists.db_get_log_artists]; rfl
  · intro hn
    rw [artists.db_get_log_artists]
    simp [artists.selectStmt, hn]
  · rw [(songs.tables_getSongByName "" t).2.1]
    simp [store.lookupSongs]
  · rw [(artists.tables_getArtistByName "" t).2]
    simp [store.lookupArtists]

theorem C17_get_list_all_witness :
    ((songs.db.mk sample.textStore ((errors.Pkg "songs").Struct "db")).get ""
        (sample.tableWorld sample.library)).1 = (sample.library.Songs, .nil)
    ∧ ((artists.db.mk sample.textStore ((errors.Pkg "artists").Struct "db")).get ""
        (sample.tableWorld sample.library)).1 = (sample.library.Artists, .nil) :=
  ⟨(C17_get_list_all sample.textStore ((errors.Pkg "songs").Struct "db") "a"
      (sample.tracedWorld sample.library)
      (songs.db.mk sample.textStore ((errors.Pkg "songs").Struct "db"))
      (artists.db.mk sample.textStore ((errors.Pkg "artists").Struct "db"))
      (sample.tableWorld sample.library)
      (sample.library.Songs.map store.songText) (sample.library.Artists.map store.artistText)
      sample.library.Songs sample.library.Artists
      (sample.tableWorld sample.library)).2.2.2.2.1 rfl
      (List.Forall₂.cons ⟨⟨rfl, by decide, by decide⟩, rfl, rfl, ⟨rfl, by decide, by decide⟩⟩
        (List.Forall₂.cons ⟨⟨rfl, by decide, by decide⟩, rfl, rfl, ⟨rfl, by decide, by decide⟩⟩
          List.Forall₂.nil)),
   (C17_get_list_all sample.textStore ((errors.Pkg "songs").Struct "db") "a"
      (sample.tracedWorld sample.library)
      (songs.db.mk sample.textStore ((errors.Pkg "songs").Struct "db"))
      (artists.db.mk sample.textStore ((errors.Pkg "artists").Struct "db"))
      (sample.tableWorld sample.library)
      (sample.library.Songs.map store.songText) (sample.library.Artists.map store.artistText)
      sample.library.Songs sample.library.Artists
      (sample.tableWorld sample.library)).2.2.2.2.2.1 rfl
      (List.Forall₂.cons ⟨⟨rfl, by decide, by decide⟩, rfl⟩
        (List.Forall₂.cons ⟨⟨rfl, by decide, by decide⟩, rfl⟩ List.Forall₂.nil))⟩
